import Mathlib

/-!
# Collision actors and overlap abilities: a verification development

Shallow embedding of `BaseOverlapAbility.cpp` (the delayed / instant overlap queues and the
generation of overlap event snapshots) and of `BaseCollisionActor.cpp` (targeting, effect
application, the periodic tick and deactivation).

Conventions of the embedding

* `float` values are rationals (`ℚ`): comparisons and arithmetic are exact.
* `int32` values are integers (`Int`); no arithmetic in the modelled code comes near the
  32 bit range.
* A `TArray` is a `List`, index `0` is the head; `Last()` is the last element, `Add` appends
  at the end and `Pop()` removes the last element.
* A pointer that the code tests against `nullptr` is an `Option`.
* What the engine answers (world time, overlaps, traces, the timer manager) is passed in
  explicitly or kept as explicit state.
-/

/-- Embeds `FMath::TruncToInt`: rounds towards zero. -/
def TruncToInt (x : ℚ) : Int := Int.tdiv x.num x.den

/-- The whole number nearest to `x`, the even one of the two when `x` lies half way. -/
def RoundHalfToEven (x : ℚ) : Int :=
  if x - ⌊x⌋ < 1 / 2 then ⌊x⌋
  else if 1 / 2 < x - ⌊x⌋ then ⌊x⌋ + 1
  else if ⌊x⌋ % 2 = 0 then ⌊x⌋ else ⌊x⌋ + 1

/-- The number of binary digits of `n`, found by halving, at most `fuel` times. -/
def BinaryDigits : Nat → Nat → Nat
  | 0, _ => 0
  | fuel + 1, n => if n = 0 then 0 else BinaryDigits fuel (n / 2) + 1

/-- The binary exponent of a number that is not 0: the `e` with `2 ^ e <= |x| < 2 ^ (e + 1)`,
found from the numbers of digits of the numerator and the denominator. -/
def BinaryExponent (x : ℚ) : Int :=
  if (2 : ℚ) ^ ((BinaryDigits x.num.natAbs x.num.natAbs : Int)
      - (BinaryDigits x.den x.den : Int)) ≤ |x| then
    (BinaryDigits x.num.natAbs x.num.natAbs : Int) - (BinaryDigits x.den x.den : Int)
  else (BinaryDigits x.num.natAbs x.num.natAbs : Int) - (BinaryDigits x.den x.den : Int) - 1

/-- The rounding of the arithmetic on `float`: the number with 24 significant binary digits
that is nearest to `x`, the one with an even last digit when `x` lies half way. The range of
the exponent is not modelled (no overflow to infinity, no denormalised numbers). -/
def RoundToFloat (x : ℚ) : ℚ :=
  if x = 0 then 0
  else (RoundHalfToEven (x / 2 ^ (BinaryExponent x - 23)) : ℚ) * 2 ^ (BinaryExponent x - 23)

namespace UBaseOverlapAbility

/-- Embeds `FOverlapEventSnapshot`: one scheduled overlap check. -/
structure FOverlapEventSnapshot where
  EventID : Int
  OverlapID : Int
  Location : ℚ × ℚ × ℚ
  YawRotation : ℚ
  ActivationTime : ℚ
  InitialEventTime : ℚ
  DurationMultiplier : ℚ
  AreaMultiplier : ℚ
  InitialAvatarLocation : ℚ × ℚ × ℚ
deriving DecidableEq, Repr

/-- Embeds `FCollisionActorDuration` as the ability uses it (`Duration.LifeSpan`, `Duration.Period`,
`Duration.FirstPeriodDelay`, `Duration.ActivationDelay`). -/
structure FAbilityDuration where
  LifeSpan : ℚ
  Period : ℚ
  FirstPeriodDelay : ℚ
  ActivationDelay : ℚ
deriving DecidableEq, Repr

/-- Embeds `FEventSnapshottedPeriodicAttributes`: the duration values after attribute scaling. -/
structure FEventSnapshottedPeriodicAttributes where
  FirstPeriodDelay : ℚ
  Period : ℚ
  LifeSpan : ℚ
deriving DecidableEq, Repr

/-- The attributes that `ProcessEventPeriodicAttributes` and `ProcessEventAttributes` scale
with. -/
inductive FGameplayAttribute where
  | OutgoingTickDuration
  | OutgoingDuration
  | AreaOfEffect
  | SpawnDelay
deriving DecidableEq, Repr

/-- The scheduler part of the ability object. `QueueTimerHandle` is `some d` when the one-shot
timer bound to `OnQueueTimerFinished` is armed with duration `d`; `InstantTimerRequests` counts
the `SetTimerForNextTick` requests for `OnIsntantQueueTimerFinished`. -/
structure FScheduler where
  Queue : List FOverlapEventSnapshot
  InstantQueue : List FOverlapEventSnapshot
  QueueTimerHandle : Option ℚ
  InstantTimerRequests : Nat
deriving DecidableEq, Repr

/-- Embeds `Queue.Pop()` applied `n` times (stopping when the array is empty): the popped elements
in the order they are returned. -/
def PopSequence : Nat → List FOverlapEventSnapshot → List FOverlapEventSnapshot
  | 0, _ => []
  | n + 1, Queue =>
    match Queue.getLast? with
    | none => []
    | some e => e :: PopSequence n Queue.dropLast

/-- The `for` loop of `AddOverlapEventToQueue`: insert `EventData` at the first index `i` with
`EventData.ActivationTime >= Queue[i].ActivationTime`, then `break`; no insertion when the scan
finds no such index. -/
def InsertAtFirstNotLater (EventData : FOverlapEventSnapshot) :
    List FOverlapEventSnapshot → List FOverlapEventSnapshot
  | [] => []
  | x :: rest =>
    if EventData.ActivationTime ≥ x.ActivationTime then EventData :: x :: rest
    else x :: InsertAtFirstNotLater EventData rest

/-- Embeds `UBaseOverlapAbility::AddOverlapEventToQueue`: the new queue and the returned flag. -/
def AddOverlapEventToQueue (Queue : List FOverlapEventSnapshot)
    (EventData : FOverlapEventSnapshot) : List FOverlapEventSnapshot × Bool :=
  match Queue.getLast? with
  | none => (Queue ++ [EventData], true)
  | some last =>
    if EventData.ActivationTime < last.ActivationTime then (Queue ++ [EventData], true)
    else (InsertAtFirstNotLater EventData Queue, false)

/-- Embeds `UBaseOverlapAbility::UpdateInstantQueueTimer`; `World` is `GetWorld()` seen as the
current world time when there is a world. -/
def UpdateInstantQueueTimer (World : Option ℚ) (s : FScheduler) : FScheduler :=
  if World.isSome ∧ s.InstantQueue.length ≠ 0 then
    { s with InstantTimerRequests := s.InstantTimerRequests + 1 }
  else s

/-- Embeds `UBaseOverlapAbility::AddOverlapEventToInstantQueue`. -/
def AddOverlapEventToInstantQueue (World : Option ℚ) (EventData : FOverlapEventSnapshot)
    (s : FScheduler) : FScheduler :=
  let bSetTimer := s.InstantQueue.isEmpty
  let s1 := { s with InstantQueue := s.InstantQueue ++ [EventData] }
  if bSetTimer then UpdateInstantQueueTimer World s1 else s1

/-- Embeds `UBaseOverlapAbility::UpdateQueueTimer`. The recursive call is made on a queue that is
one element shorter. -/
def UpdateQueueTimer (World : Option ℚ) (s : FScheduler) : FScheduler :=
  match World with
  | none => s
  | some now =>
    if hne : s.Queue = [] then s
    else
      let TimerDuration := (s.Queue.getLast hne).ActivationTime - now
      if TimerDuration ≤ 0 then
        UpdateQueueTimer (some now)
          (AddOverlapEventToInstantQueue (some now) (s.Queue.getLast hne)
            { s with Queue := s.Queue.dropLast })
      else
        { s with QueueTimerHandle := some TimerDuration }
termination_by s.Queue.length
decreasing_by
  have hlen : 0 < s.Queue.length := List.length_pos.mpr hne
  simp only [AddOverlapEventToInstantQueue, UpdateInstantQueueTimer]
  split_ifs <;> simp <;> omega

/-- Embeds `UBaseOverlapAbility::GetInterpSteps`: `FMath::Max(5, Duration.LifeSpan/.15)` converted
to `int32`. -/
def GetInterpSteps (Duration : FAbilityDuration) : Int :=
  TruncToInt (max 5 (Duration.LifeSpan / (15 / 100)))

/-- Embeds `UBaseOverlapAbility::ExpandOverlapEvent`: the input snapshot as the loop leaves it and
the output array. -/
def ExpandOverlapEvent (Duration : FAbilityDuration) (Event : FOverlapEventSnapshot)
    (ExpandedEvent : List FOverlapEventSnapshot) :
    FOverlapEventSnapshot × List FOverlapEventSnapshot :=
  let InternalActivationTime := Event.ActivationTime
  let Steps := GetInterpSteps Duration
  let StepLength : ℚ := Duration.LifeSpan / (Steps : ℚ)
  (List.range (Steps + 1).toNat).foldl
    (fun (acc : FOverlapEventSnapshot × List FOverlapEventSnapshot) (i : Nat) =>
      let ev := { acc.1 with ActivationTime := InternalActivationTime + (i : ℚ) * StepLength }
      (ev, acc.2 ++ [ev]))
    (Event, ExpandedEvent)

/-- Embeds `UBaseOverlapAbility::ProcessEventPeriodicAttributes`; `Scale` is the ability's
`ScaleValueWithAttribute`. -/
def ProcessEventPeriodicAttributes (Scale : ℚ → FGameplayAttribute → ℚ)
    (Duration : FAbilityDuration) : FEventSnapshottedPeriodicAttributes :=
  { FirstPeriodDelay := Scale Duration.FirstPeriodDelay .OutgoingTickDuration
    Period := Scale Duration.Period .OutgoingTickDuration
    LifeSpan := Scale Duration.LifeSpan .OutgoingDuration }

/-- The `while (AddedTime < Attributes.LifeSpan - Attributes.FirstPeriodDelay)` loop of
`GeneratePeriodicOverlapEvents`; `none` when `fuel` iterations did not reach the exit. -/
def PeriodicLoop (Attributes : FEventSnapshottedPeriodicAttributes) :
    Nat → List FOverlapEventSnapshot → List FOverlapEventSnapshot → ℚ →
    Option (List FOverlapEventSnapshot)
  | 0, _, _, _ => none
  | fuel + 1, InitialEvents, GeneratedEvents, AddedTime =>
    if AddedTime < Attributes.LifeSpan - Attributes.FirstPeriodDelay then
      let Shifted := InitialEvents.map
        (fun it => { it with ActivationTime := it.ActivationTime + Attributes.Period })
      PeriodicLoop Attributes fuel Shifted (GeneratedEvents ++ Shifted)
        (AddedTime + Attributes.Period)
    else some GeneratedEvents

/-- The value `NumPeriods` that `GeneratePeriodicOverlapEvents` computes and reserves for. -/
def NumPeriods (Attributes : FEventSnapshottedPeriodicAttributes) : Int :=
  TruncToInt ((Attributes.LifeSpan - Attributes.FirstPeriodDelay) / Attributes.Period) + 1

/-- Embeds `UBaseOverlapAbility::GeneratePeriodicOverlapEvents`: the array `GeneratedEvents` after
the call; `none` when the loop did not finish within `fuel` iterations. -/
def GeneratePeriodicOverlapEvents (fuel : Nat) (Scale : ℚ → FGameplayAttribute → ℚ)
    (Duration : FAbilityDuration) (GeneratedEvents : List FOverlapEventSnapshot) :
    Option (List FOverlapEventSnapshot) :=
  if Duration.LifeSpan ≤ 0 ∨ Duration.Period ≤ 0
      ∨ Duration.FirstPeriodDelay > Duration.LifeSpan
  then some GeneratedEvents
  else
    let Attributes := ProcessEventPeriodicAttributes Scale Duration
    let InitialEvents := GeneratedEvents.map
      (fun it => { it with ActivationTime := it.ActivationTime + Attributes.FirstPeriodDelay })
    PeriodicLoop Attributes fuel InitialEvents InitialEvents Attributes.FirstPeriodDelay

/-- Example snapshot of event 1 with the given activation time. -/
def SnapshotAt (t : ℚ) : FOverlapEventSnapshot :=
  ⟨1, 0, (0, 0, 0), 0, t, t, 1, 1, (0, 0, 0)⟩

/-- Example scaling: no attribute modifies the value. -/
def UnscaledValue (Value : ℚ) (_Attribute : FGameplayAttribute) : ℚ := Value

end UBaseOverlapAbility

namespace ABaseCollisionActor

/-- An actor of the world, known by its identity; a null `AActor*` is `none`. -/
abbrev AActor := Nat

/-- An `FVector` location. -/
abbrev FVector := ℚ × ℚ × ℚ

/-- The gameplay tags the collision actor code tests for. -/
inductive FGameplayTag where
  | Ability_Targeting_IndividualTargeting
  | Ability_DisableExpiration
  | Ability_Device_Trap_Enviroment
  | Event_Hit
  | Event_MultiHit
  | Event_CollisionActorActivate
  | Event_CollisionActorDeactivate
  | Other (n : Nat)
deriving DecidableEq, Repr

/-- Embeds `ENetMode`. -/
inductive ENetMode where
  | NM_Standalone
  | NM_DedicatedServer
  | NM_ListenServer
  | NM_Client
deriving DecidableEq, Repr

/-- Embeds `EGameplayEffectDurationType`. -/
inductive EGameplayEffectDurationType where
  | Instant
  | Infinite
  | HasDuration
deriving DecidableEq, Repr

/-- Embeds `ECollisionActorAttachmentType`. -/
inductive ECollisionActorAttachmentType where
  | LocationAndRotation
  | Location
deriving DecidableEq, Repr

/-- Embeds `FCollisionActorDuration`. -/
structure FCollisionActorDuration where
  LifeSpan : ℚ
  Period : ℚ
  FirstPeriodDelay : ℚ
  ActivationDelay : ℚ
deriving DecidableEq, Repr

/-- Embeds `FCollisionActorTargetting`: the fields the targeting checks read. -/
structure FCollisionActorTargetting where
  bValidTargetRequiresCollisionActorLineOfSight : Bool
  MinimumDistanceRequired : ℚ
  bScaleMaximumDirectionDeviation : Bool
  MaximumDirectionDeviation : ℚ
deriving DecidableEq, Repr

/-- Embeds `FCollisionActorIndividualData`: the per entity spawn parameters the code reads. -/
structure FCollisionActorIndividualData where
  SharedDataID : Int
  ActivationKey : Int
  SpawnIndex : Nat
  TargetActor : Option AActor
  ServerActivationTime : ℚ
deriving DecidableEq, Repr

/-- Embeds `FCollisionActorSharedData`: the per cast parameters the code reads. -/
structure FCollisionActorSharedData where
  ID : Int
  AbilityLevel : Int
  DurationMultiplier : ℚ
  PeriodMultiplier : ℚ
  AreaMultiplier : ℚ
deriving DecidableEq, Repr

/-- The member functions of the collision actor that are bound to timers. -/
inductive ETimerCallback where
  | BeginActivate
  | FinishActivate
  | Expire
  | OnAreaOfEffectPeriod
  | OnRotationCompleted
  | OnRotationSynced
  | PoolCollisionActor
deriving DecidableEq, Repr

/-- The `FTimerHandle` variable a timer was set through: one of the member handles, a handle
that is a local variable of the calling function, or none (`SetTimerForNextTick`). -/
inductive ETimerHandle where
  | DurationTimerHandle
  | AreaPeriodTimerHandle
  | ActivationDelayTimerHandle
  | ClearTargetsTimerHandle
  | RotationSyncTimerHandle
  | LocalHandle
  | NextTick
deriving DecidableEq, Repr

/-- A timer of this object that is pending in the timer manager of the world. -/
structure FTimerData where
  Handle : ETimerHandle
  Callback : ETimerCallback
  Rate : ℚ
  bLoop : Bool
  FirstDelay : ℚ
deriving DecidableEq, Repr

/-- What the entity sends out: delegate broadcasts, gameplay events (`SendGameplayEvent`, with
the receiving component: the instigator when `ToTarget` is `none`), applications of the effect
container, gameplay cues, the damage interface of destructibles, and the two calls by which
`PoolCollisionActor` releases its data in the replicated arrays of the component. -/
inductive FNotification where
  | OnCollisionActorDeactivate
  | OnCollisionActorExpired
  | GameplayEvent (ToTarget : Option AActor) (EventTag : FGameplayTag) (EventMagnitude : Int)
      (Target : Option AActor) (InstigatorTags : List FGameplayTag)
  | EffectContainerApplied (Target : Option AActor)
  | HitTargetGameplayCues (Target : Option AActor)
  | BurstGameplayCue
  | ActorGameplayCueExecuted
  | ActorGameplayCueRemoved
  | DeactivationGameplayCue
  | PreviewGameplayCueRemoved
  | DamageToDestructible (Target : AActor)
  | OnCollisionActorActivate
  | PreactivationGameplayCueOnActive
  | PreactivationGameplayCueRemoved
  | ActorGameplayCueOnActive
  | ActorGameplayCueWhileActive
  | PreviewGameplayCueOnActive
  | IndividualDataRemoved (Data : FCollisionActorIndividualData)
  | SharedDataCounterDecreased (ID : Int)
deriving DecidableEq, Repr

/-- The fields of `ABaseCollisionActor` that the modelled functions read or write. `This` is
the identity of the object. The pointers `InstigatorASC` and `InstigatorBaseASC` are kept as
"is not null"; `bShapeCallbacksBound`, `bCollisionEnabled`, `bTickEnabled`, `bAttachedToComponent`,
`bTimelinesStopped`, `bDestroyed` record what the engine calls of the same name did last;
`bScaleCurve` is `ScaleInterpolation.ScaleCurve != nullptr`, `RotationRate` is
`RotationInterpolation.RotationRate`, the `...GameplayCueValid` flags are `IsValid()` of the
cue tags, `bPooledActorFinished` records `NotifyPooledActorFinished(this)` and `InitialLifeSpan`
the argument of `SetLifeSpan`. The transform, the scale and the visibility of the actor are not
part of the state. -/
structure FCollisionActor where
  This : AActor
  bReplicates : Bool
  bHasAuthority : Bool
  NetMode : ENetMode
  Duration : FCollisionActorDuration
  Targeting : FCollisionActorTargetting
  AttachmentType : ECollisionActorAttachmentType
  EffectContainerSpec : List EGameplayEffectDurationType
  bHitTargetGameplayCues : Bool
  bBurstGameplayCueValid : Bool
  bDeactivationGameplayCueValid : Bool
  OwningAbilityTags : List FGameplayTag
  IndividualData : FCollisionActorIndividualData
  SharedData : FCollisionActorSharedData
  InstigatorASC : Bool
  InstigatorBaseASC : Bool
  bActive : Bool
  bPreactivated : Bool
  bSynched : Bool
  bSkipGameplayCues : Bool
  bSkipVariableInitialization : Bool
  bInterpolatingScale : Bool
  bAttached : Bool
  bUpdateAttachmentOnTick : Bool
  bDiscreteCollisionChecks : Bool
  bAppliesPersistentEffects : Bool
  bAllowRetargetting : Bool
  bRegisteredTargetInstance : Bool
  bSoftRegisteredTargetInstance : Bool
  bActorGameplayCueInitialized : Bool
  bPreviewGameplayCueInitialized : Bool
  bExecuteDeactivationCue : Bool
  bSharedDataDelegateBound : Bool
  PreviousTargetedActors : List AActor
  PreviousInteractableActors : List AActor
  PreviousInterpZValues : List ℚ
  ExecutedPeriods : Int
  MaximumPeriodsToExecute : Int
  DurationTimerHandleValid : Bool
  AreaPeriodTimerHandleValid : Bool
  Timers : List FTimerData
  bShapeCallbacksBound : Bool
  bCollisionEnabled : Bool
  bTickEnabled : Bool
  bAttachedToComponent : Bool
  bTimelinesStopped : Bool
  bDestroyed : Bool
  CompensationActivationDelay : ℚ
  bAbilityFromListenServer : Bool
  bScaleCurve : Bool
  bInterpolatingRotation : Bool
  RotationRate : ℚ
  PredictionRotationRateMultiplier : ℚ
  bPreactivationGameplayCueInitialized : Bool
  bPreactivationGameplayCueValid : Bool
  bActorGameplayCueValid : Bool
  bPreviewGameplayCueValid : Bool
  bPooledActorFinished : Bool
  InitialLifeSpan : ℚ
deriving DecidableEq, Repr

/-- Modelled from the spec: one entry of the shared target registry kept by
`UBaseAbilitySystemComponent` (its code is not part of the sources), keyed by activation key:
`{ hardCount, softCount, affectedTargets }`. -/
structure FSharedTargetEntry where
  HardCount : Nat
  SoftCount : Nat
  AffectedTargets : List AActor
deriving DecidableEq, Repr

/-- Modelled from the spec: the shared target registry of `UBaseAbilitySystemComponent`. Every
call passes the activation key and the replicated flag of the calling entity; an absent entry
is `none`. -/
structure UBaseAbilitySystemComponent where
  SharedTargets : Int → Bool → Option FSharedTargetEntry

/-- The entity, the ability system component of its instigator, and what has been sent out so
far (oldest first). -/
structure FSystem where
  Self : FCollisionActor
  ASC : UBaseAbilitySystemComponent
  Log : List FNotification

/-- Another collision actor as `HasTargetPriority` sees it through `Cast<ABaseCollisionActor>`. -/
structure FOverlappingCollisionActor where
  Actor : AActor
  SpawnIndex : Nat
  ActivationKey : Int
deriving DecidableEq, Repr

/-- What the engine answers when the entity queries the world during one call. -/
structure FWorldView where
  bWorld : Bool
  GetOverlappingCollisionActors : AActor → List (Option FOverlappingCollisionActor)
  ShapeOverlappingActors : List AActor
  ActorLocation : AActor → FVector
  bBlockingHit : AActor → Bool
  Dist2D : FVector → ℚ
  LookAtYaw : FVector → ℚ
  ActorYaw : ℚ
  ActorScaleX : ℚ
  CapsuleRadius : AActor → Option ℚ
  DegAtan : ℚ → ℚ
  FilterPassesForActor : AActor → Bool
  ImplementsSplineManagerInterface : AActor → Bool
  bHasAbilitySystemComponent : AActor → Bool

/-- The early exits of `IsValidTargetActor`, each announced by its own `UE_LOG` line. -/
inductive ETargetRejection where
  | AlreadyTargeted
  | NoTargetPriority
  | NoLineOfSight
  | InnerRadius
  | AngleSpan
deriving DecidableEq, Repr

/-- The outcome of `IsValidTargetActor`: the returned `bValid`, and the check whose `UE_LOG`
line was written before an early `return false` (none when the function ran to its end). -/
structure FValidTarget where
  bValid : Bool
  Rejected : Option ETargetRejection
deriving DecidableEq, Repr

/-- Embeds `FGameplayTagContainer::HasTag`. -/
def HasTag (Tags : List FGameplayTag) (Tag : FGameplayTag) : Bool := Tags.contains Tag

/-- Embeds `TArray::AddUnique`. -/
def AddUnique (Array : List AActor) (Item : AActor) : List AActor :=
  if Item ∈ Array then Array else Array ++ [Item]

/-- Modelled from the spec: replace (or remove, with `none`) the registry entry of one key. -/
def UBaseAbilitySystemComponent.SetEntry (asc : UBaseAbilitySystemComponent) (Key : Int)
    (bReplicated : Bool) (Entry : Option FSharedTargetEntry) : UBaseAbilitySystemComponent :=
  { SharedTargets := fun k r =>
      if k = Key ∧ r = bReplicated then Entry else asc.SharedTargets k r }

/-- Modelled from the spec: `GetSharedTargets`, the affected targets of the entry of the key, a
null pointer when the key has no entry. -/
def UBaseAbilitySystemComponent.GetSharedTargets (asc : UBaseAbilitySystemComponent) (Key : Int)
    (bReplicated : Bool) : Option (List AActor) :=
  (asc.SharedTargets Key bReplicated).map (fun e => e.AffectedTargets)

/-- Modelled from the spec: `AddSharedTarget` records the target in the set of affected targets
of the entry of the key; without an entry there is no set to record it in. -/
def UBaseAbilitySystemComponent.AddSharedTarget (asc : UBaseAbilitySystemComponent) (Key : Int)
    (Target : AActor) (bReplicated : Bool) : UBaseAbilitySystemComponent :=
  match asc.SharedTargets Key bReplicated with
  | none => asc
  | some e =>
    asc.SetEntry Key bReplicated
      (some { e with AffectedTargets := AddUnique e.AffectedTargets Target })

/-- Modelled from the spec: `RemoveSharedTarget` takes the target out of the affected targets. -/
def UBaseAbilitySystemComponent.RemoveSharedTarget (asc : UBaseAbilitySystemComponent)
    (Key : Int) (Target : AActor) (bReplicated : Bool) : UBaseAbilitySystemComponent :=
  match asc.SharedTargets Key bReplicated with
  | none => asc
  | some e =>
    asc.SetEntry Key bReplicated
      (some { e with AffectedTargets := e.AffectedTargets.filter (fun a => a ≠ Target) })

/-- Modelled from the spec: `RegisterCollisionActorForSharedTargeting` adds a hard and a soft
registration, creating the entry of the key when there is none. -/
def UBaseAbilitySystemComponent.RegisterCollisionActorForSharedTargeting
    (asc : UBaseAbilitySystemComponent) (Key : Int) (Amount : Nat) (bReplicated : Bool) :
    UBaseAbilitySystemComponent :=
  match asc.SharedTargets Key bReplicated with
  | none => asc.SetEntry Key bReplicated (some ⟨Amount, Amount, []⟩)
  | some e =>
    asc.SetEntry Key bReplicated
      (some { e with HardCount := e.HardCount + Amount, SoftCount := e.SoftCount + Amount })

/-- Modelled from the spec: `UnregisterCollisionActorForSharedTargeting` removes hard
registrations; the entry stays alive. -/
def UBaseAbilitySystemComponent.UnregisterCollisionActorForSharedTargeting
    (asc : UBaseAbilitySystemComponent) (Key : Int) (Amount : Nat) (bReplicated : Bool) :
    UBaseAbilitySystemComponent :=
  match asc.SharedTargets Key bReplicated with
  | none => asc
  | some e => asc.SetEntry Key bReplicated (some { e with HardCount := e.HardCount - Amount })

/-- Modelled from the spec: `SoftUnregisterCollisionActorForSharedTargeting` removes soft
registrations; the entry is removed when the soft count reaches 0. -/
def UBaseAbilitySystemComponent.SoftUnregisterCollisionActorForSharedTargeting
    (asc : UBaseAbilitySystemComponent) (Key : Int) (Amount : Nat) (bReplicated : Bool) :
    UBaseAbilitySystemComponent :=
  match asc.SharedTargets Key bReplicated with
  | none => asc
  | some e =>
    if e.SoftCount - Amount = 0 then asc.SetEntry Key bReplicated none
    else asc.SetEntry Key bReplicated (some { e with SoftCount := e.SoftCount - Amount })

/-- Modelled from the spec: `GetRegisteredCollisionActorsAmount`, the hard count of the key. -/
def UBaseAbilitySystemComponent.GetRegisteredCollisionActorsAmount
    (asc : UBaseAbilitySystemComponent) (Key : Int) (bReplicated : Bool) : Int :=
  match asc.SharedTargets Key bReplicated with
  | none => 0
  | some e => e.HardCount

/-- Modelled from the spec: `GetSoftRegisteredCollisionActorsAmount`, the soft count of the
key. -/
def UBaseAbilitySystemComponent.GetSoftRegisteredCollisionActorsAmount
    (asc : UBaseAbilitySystemComponent) (Key : Int) (bReplicated : Bool) : Int :=
  match asc.SharedTargets Key bReplicated with
  | none => 0
  | some e => e.SoftCount

/-- Embeds `FTimerManager::IsTimerActive` for a handle of this object. -/
def IsTimerActive (e : FCollisionActor) (Handle : ETimerHandle) : Bool :=
  e.Timers.any (fun t => t.Handle = Handle)

/-- Embeds `FTimerManager::ClearTimer`: the pending timers without the one of the handle. -/
def ClearTimer (Timers : List FTimerData) (Handle : ETimerHandle) : List FTimerData :=
  Timers.filter (fun t => t.Handle ≠ Handle)

/-- Embeds `FTimerManager::SetTimer` through a member handle: a timer pending for the handle is
replaced. -/
def SetTimer (Timers : List FTimerData) (Timer : FTimerData) : List FTimerData :=
  ClearTimer Timers Timer.Handle ++ [Timer]

/-- Append to what has been sent out. -/
def FSystem.Send (s : FSystem) (n : FNotification) : FSystem :=
  { s with Log := s.Log ++ [n] }

/-- Embeds `ABaseCollisionActor::SendGameplayEvent`: nothing is sent to a null component. -/
def SendGameplayEvent (bInASC : Bool) (Event : FNotification) (s : FSystem) : FSystem :=
  if bInASC then s.Send Event else s

/-- Embeds `ABaseCollisionActor::CanExecuteGameplayCue`. -/
def CanExecuteGameplayCue (e : FCollisionActor) : Bool :=
  e.NetMode ≠ ENetMode.NM_DedicatedServer && !e.bSkipGameplayCues

/-- Embeds `ABaseCollisionActor::GetPreviousTargets`: the shared targets of the activation key when
the ability does not target individually and there is a component, the local list otherwise. -/
def GetPreviousTargets (s : FSystem) : Option (List AActor) × FSystem :=
  if !HasTag s.Self.OwningAbilityTags .Ability_Targeting_IndividualTargeting
      && s.Self.InstigatorBaseASC then
    (s.ASC.GetSharedTargets s.Self.IndividualData.ActivationKey s.Self.bReplicates, s)
  else (some s.Self.PreviousTargetedActors, s)

/-- Embeds `ABaseCollisionActor::IsAlreadyTargeted`. -/
def IsAlreadyTargeted (Target : Option AActor) (s : FSystem) : Bool × FSystem :=
  let r := GetPreviousTargets s
  match r.1, Target with
  | some Targets, some T => (Targets.contains T, r.2)
  | _, _ => (false, r.2)

/-- Embeds `ABaseCollisionActor::HasTargetPriority`. `LowestIndex` is initialised to `MAX_uint8` and
the loop never assigns it. -/
def HasTargetPriority (w : FWorldView) (e : FCollisionActor) (Target : AActor) : Bool :=
  if !e.bAppliesPersistentEffects then true
  else if HasTag e.OwningAbilityTags .Ability_Targeting_IndividualTargeting then true
  else
    let OverlappingActors := w.GetOverlappingCollisionActors Target
    let LowestIndex : Nat := 255
    let LowestIndexActor : Option AActor :=
      OverlappingActors.foldl
        (fun (Lowest : Option AActor) (it : Option FOverlappingCollisionActor) =>
          match it with
          | none => Lowest
          | some CA => if CA.SpawnIndex < LowestIndex then some CA.Actor else Lowest)
        none
    LowestIndexActor == some e.This

/-- Embeds `ABaseCollisionActor::HasLineOfSightToTarget`. -/
def HasLineOfSightToTarget (w : FWorldView) (Target : AActor) : Bool :=
  if !w.bWorld then false else !w.bBlockingHit Target

/-- Embeds `ABaseCollisionActor::GetMinimumDistanceRequired`. -/
def GetMinimumDistanceRequired (w : FWorldView) (e : FCollisionActor) : ℚ :=
  e.Targeting.MinimumDistanceRequired * w.ActorScaleX

/-- Embeds `ABaseCollisionActor::GetMaximumDirectionDeviation`. -/
def GetMaximumDirectionDeviation (w : FWorldView) (e : FCollisionActor) : ℚ :=
  max 0 (min
    (if e.Targeting.bScaleMaximumDirectionDeviation
      then e.Targeting.MaximumDirectionDeviation * w.ActorScaleX
      else e.Targeting.MaximumDirectionDeviation) 180)

/-- Embeds `ABaseCollisionActor::IsTargetInMinimalDistance`. -/
def IsTargetInMinimalDistance (w : FWorldView) (e : FCollisionActor) (Target : AActor) : Bool :=
  let MinimumDistance := GetMinimumDistanceRequired w e
  if MinimumDistance > 0 then
    let MinimumDistance :=
      match w.CapsuleRadius Target with
      | some Radius => MinimumDistance - Radius
      | none => MinimumDistance
    if MinimumDistance > 0 then
      if w.Dist2D (w.ActorLocation Target) < MinimumDistance then false else true
    else true
  else true

/-- Embeds `ABaseCollisionActor::IsLocationInMinimalDistance`. -/
def IsLocationInMinimalDistance (w : FWorldView) (e : FCollisionActor) (Location : FVector) :
    Bool :=
  let MinimumDistance := GetMinimumDistanceRequired w e
  if MinimumDistance > 0 then decide (w.Dist2D Location < MinimumDistance) else true

/-- Embeds `ABaseCollisionActor::IsTargetBetweenAngleDeviation`. -/
def IsTargetBetweenAngleDeviation (w : FWorldView) (e : FCollisionActor) (Target : AActor) :
    Bool :=
  let MaximumDeviation := GetMaximumDirectionDeviation w e
  if MaximumDeviation < 180 then
    let Compensation : ℚ :=
      match w.CapsuleRadius Target with
      | some CapsuleRadius =>
        let DistanceToTarget := w.Dist2D (w.ActorLocation Target)
        if DistanceToTarget ≠ 0 then w.DegAtan (CapsuleRadius / DistanceToTarget) else 0
      | none => 0
    if |w.LookAtYaw (w.ActorLocation Target) - w.ActorYaw| > MaximumDeviation + Compensation
    then false else true
  else true

/-- Embeds `ABaseCollisionActor::IsLocationBetweenAngleDeviation`. -/
def IsLocationBetweenAngleDeviation (w : FWorldView) (e : FCollisionActor)
    (Location : FVector) : Bool :=
  let MaximumDeviation := GetMaximumDirectionDeviation w e
  if MaximumDeviation < 180 then
    if |w.LookAtYaw Location - w.ActorYaw| > MaximumDeviation then false else true
  else true

/-- Embeds `ABaseCollisionActor::IsValidTargetActor`. -/
def IsValidTargetActor (w : FWorldView) (Actor : Option AActor) (s : FSystem) :
    FValidTarget × FSystem :=
  match Actor with
  | none => (⟨false, none⟩, s)
  | some A =>
    let r := if !s.Self.bAllowRetargetting then IsAlreadyTargeted (some A) s else (false, s)
    if !s.Self.bAllowRetargetting && r.1 then (⟨false, some .AlreadyTargeted⟩, r.2)
    else if !HasTargetPriority w r.2.Self A then (⟨false, some .NoTargetPriority⟩, r.2)
    else if r.2.Self.Targeting.bValidTargetRequiresCollisionActorLineOfSight
        && !HasLineOfSightToTarget w A then (⟨false, some .NoLineOfSight⟩, r.2)
    else if !IsTargetInMinimalDistance w r.2.Self A then (⟨false, some .InnerRadius⟩, r.2)
    else if !IsTargetBetweenAngleDeviation w r.2.Self A then (⟨false, some .AngleSpan⟩, r.2)
    else (⟨w.FilterPassesForActor A, none⟩, r.2)

/-- Embeds `ABaseCollisionActor::IsInteractableActorAlreadyTargeted`. -/
def IsInteractableActorAlreadyTargeted (e : FCollisionActor) (Actor : AActor) : Bool :=
  e.PreviousInteractableActors.contains Actor

/-- Embeds `ABaseCollisionActor::IsValidInteractableActor`. -/
def IsValidInteractableActor (w : FWorldView) (e : FCollisionActor) (Actor : Option AActor)
    (ImpactPoint : FVector) : Bool :=
  match Actor with
  | none => false
  | some A =>
    if !w.ImplementsSplineManagerInterface A then false
    else if !e.bAllowRetargetting && IsInteractableActorAlreadyTargeted e A then false
    else if !IsLocationInMinimalDistance w e ImpactPoint then false
    else if !IsLocationBetweenAngleDeviation w e ImpactPoint then false
    else true

/-- Embeds `ABaseCollisionActor::AddPreviousTarget`. -/
def AddPreviousTarget (TargetToAdd : Option AActor) (s : FSystem) : FSystem :=
  match TargetToAdd with
  | none => s
  | some T =>
    let s1 : FSystem :=
      if s.Self.InstigatorBaseASC then
        { s with ASC := (s.ASC.AddSharedTarget s.Self.IndividualData.ActivationKey T
            s.Self.bReplicates) }
      else s
    { s1 with Self :=
        { s1.Self with PreviousTargetedActors := AddUnique s1.Self.PreviousTargetedActors T } }

/-- The part of `ABaseCollisionActor::ApplyEffectToActor` that sends: the effect container on
the authority, the hit events of a replicated actor, the hit gameplay cues. -/
def ApplyEffectToActorSend (w : FWorldView) (A : Option AActor)
    (ContextTags : List FGameplayTag) (s : FSystem) : FSystem :=
  let s1 :=
    if s.Self.bHasAuthority && !s.Self.EffectContainerSpec.isEmpty && s.Self.InstigatorASC
    then s.Send (.EffectContainerApplied A) else s
  let s2 :=
    if s1.Self.bReplicates then
      let Payload := FNotification.GameplayEvent none .Event_Hit 1 A
        (s1.Self.OwningAbilityTags ++ ContextTags)
      let PayloadForTarget := FNotification.GameplayEvent A .Event_Hit 1 A
        (s1.Self.OwningAbilityTags ++ ContextTags)
      let bTargetASC := match A with
        | some T => w.bHasAbilitySystemComponent T
        | none => false
      SendGameplayEvent bTargetASC PayloadForTarget
        (SendGameplayEvent s1.Self.InstigatorASC Payload s1)
    else s1
  if CanExecuteGameplayCue s2.Self && s2.Self.bHitTargetGameplayCues
  then s2.Send (.HitTargetGameplayCues A) else s2

/-- Embeds `ABaseCollisionActor::ApplyEffectToActor`: without a world it returns false at once;
otherwise it sends, saves the actor as already targeted and returns true. -/
def ApplyEffectToActor (w : FWorldView) (A : Option AActor) (ContextTags : List FGameplayTag)
    (s : FSystem) : Bool × FSystem :=
  if !w.bWorld then (false, s)
  else (true, AddPreviousTarget A (ApplyEffectToActorSend w A ContextTags s))

/-- Embeds `ABaseCollisionActor::ApplyActorInteraction`. -/
def ApplyActorInteraction (A : Option AActor) (s : FSystem) : Bool × FSystem :=
  match A with
  | none => (false, s)
  | some T =>
    if s.Self.NetMode ≠ ENetMode.NM_DedicatedServer && s.Self.bActive then
      let s1 := s.Send (.DamageToDestructible T)
      (true, { s1 with Self :=
        { s1.Self with PreviousInteractableActors := s1.Self.PreviousInteractableActors ++ [T] } })
    else (false, s)

/-- The first `for` loop of `ApplyEffectToActorArray`: the running `Amount` and the state. -/
def ApplyEffectLoop (w : FWorldView) (ContextTags : List FGameplayTag) :
    List AActor → Int × FSystem → Int × FSystem
  | [], acc => acc
  | CurrentActor :: rest, acc =>
    let v := IsValidTargetActor w (some CurrentActor) acc.2
    if v.1.bValid then
      ApplyEffectLoop w ContextTags rest
        (acc.1 + 1, (ApplyEffectToActor w (some CurrentActor) ContextTags v.2).2)
    else ApplyEffectLoop w ContextTags rest (acc.1, v.2)

/-- The second `for` loop of `ApplyEffectToActorArray` (destructibles and physic objects). -/
def ApplyInteractionLoop (w : FWorldView) : List AActor → FSystem → FSystem
  | [], s => s
  | Actor :: rest, s =>
    if IsValidInteractableActor w s.Self (some Actor) (w.ActorLocation Actor) then
      ApplyInteractionLoop w rest (ApplyActorInteraction (some Actor) s).2
    else ApplyInteractionLoop w rest s

/-- The block of `ApplyEffectToActorArray` under `if (HasAuthority())`: the first loop and the
multi hit event to the instigator. -/
def ApplyEffectToActorArrayOnAuthority (w : FWorldView) (A : List AActor)
    (ContextTags : List FGameplayTag) (bSendMultiHitEvent : Bool) (s : FSystem) :
    Int × FSystem :=
  let r0 := ApplyEffectLoop w ContextTags A (0, s)
  if bSendMultiHitEvent && r0.2.Self.bReplicates && decide (r0.1 > 0) then
    (r0.1, SendGameplayEvent r0.2.Self.InstigatorASC
      (.GameplayEvent none .Event_MultiHit r0.1 none
        (r0.2.Self.OwningAbilityTags ++ ContextTags)) r0.2)
  else r0

/-- Embeds `ABaseCollisionActor::ApplyEffectToActorArray`: the returned `Amount` and the state. -/
def ApplyEffectToActorArray (w : FWorldView) (A : List AActor)
    (ContextTags : List FGameplayTag) (bSendMultiHitEvent : Bool) (s : FSystem) :
    Int × FSystem :=
  if A.length > 0 ∧ w.bWorld then
    let r : Int × FSystem :=
      if s.Self.bHasAuthority
      then ApplyEffectToActorArrayOnAuthority w A ContextTags bSendMultiHitEvent s
      else (0, s)
    if r.2.Self.NetMode ≠ ENetMode.NM_DedicatedServer then (r.1, ApplyInteractionLoop w A r.2)
    else r
  else (0, s)

/-- Embeds `ABaseCollisionActor::GetSharedTargetSoftRegisteredAmount`. -/
def GetSharedTargetSoftRegisteredAmount (s : FSystem) : Int :=
  if s.Self.bSoftRegisteredTargetInstance then
    if s.Self.InstigatorBaseASC then
      s.ASC.GetSoftRegisteredCollisionActorsAmount s.Self.IndividualData.ActivationKey
        s.Self.bReplicates
    else 0
  else 0

/-- Embeds `ABaseCollisionActor::ShouldSendMultihitEventOnDeactivation`. -/
def ShouldSendMultihitEventOnDeactivation (s : FSystem) : Bool :=
  (decide (s.Self.Duration.Period ≤ 0) || s.Self.bDiscreteCollisionChecks)
    && s.Self.bReplicates && decide (GetSharedTargetSoftRegisteredAmount s ≤ 1)

/-- Embeds `ABaseCollisionActor::RegisterSharedTargetInstance`. -/
def RegisterSharedTargetInstance (s : FSystem) : FSystem :=
  if !s.Self.bRegisteredTargetInstance && !s.Self.bSoftRegisteredTargetInstance then
    if s.Self.InstigatorBaseASC then
      { s with
        ASC := (s.ASC.RegisterCollisionActorForSharedTargeting
          s.Self.IndividualData.ActivationKey 1 s.Self.bReplicates)
        Self := { s.Self with
          bRegisteredTargetInstance := true, bSoftRegisteredTargetInstance := true } }
    else s
  else s

/-- Embeds `ABaseCollisionActor::UnregisterSharedTargetInstance`. -/
def UnregisterSharedTargetInstance (s : FSystem) : FSystem :=
  if s.Self.bRegisteredTargetInstance then
    if s.Self.InstigatorBaseASC then
      { s with
        ASC := (s.ASC.UnregisterCollisionActorForSharedTargeting
          s.Self.IndividualData.ActivationKey 1 s.Self.bReplicates)
        Self := { s.Self with bRegisteredTargetInstance := false } }
    else s
  else s

/-- Embeds `ABaseCollisionActor::SoftUnregisterSharedTargetInstance`. -/
def SoftUnregisterSharedTargetInstance (s : FSystem) : FSystem :=
  if s.Self.bSoftRegisteredTargetInstance then
    if s.Self.InstigatorBaseASC then
      { s with
        ASC := (s.ASC.SoftUnregisterCollisionActorForSharedTargeting
          s.Self.IndividualData.ActivationKey 1 s.Self.bReplicates)
        Self := { s.Self with bSoftRegisteredTargetInstance := false } }
    else s
  else s

/-- Embeds `ABaseCollisionActor::UninitializeAttachToActor`. -/
def UninitializeAttachToActor (e : FCollisionActor) : FCollisionActor :=
  if e.bAttached then
    let e1 :=
      if e.AttachmentType = ECollisionActorAttachmentType.LocationAndRotation
      then { e with bAttachedToComponent := false } else e
    { e1 with bAttached := false, bUpdateAttachmentOnTick := false }
  else e

/-- Embeds `ABaseCollisionActor::InitializeAttachToActor`, with `GetAttachTarget` returning
`IndividualData.TargetActor`. -/
def InitializeAttachToActor (e : FCollisionActor) : FCollisionActor :=
  let e1 := { e with
    bAttached := e.IndividualData.TargetActor.isSome, bUpdateAttachmentOnTick := false }
  if e1.bAttached then
    if e1.AttachmentType = ECollisionActorAttachmentType.LocationAndRotation
    then { e1 with bAttachedToComponent := true }
    else { e1 with bUpdateAttachmentOnTick := true }
  else e1

/-- Embeds `ABaseCollisionActor::RemovePreviewGameplayCue`. -/
def RemovePreviewGameplayCue (s : FSystem) : FSystem :=
  if s.Self.bPreviewGameplayCueInitialized then
    let s1 := s.Send .PreviewGameplayCueRemoved
    { s1 with Self := { s1.Self with bPreviewGameplayCueInitialized := false } }
  else s

/-- Embeds `ABaseCollisionActor::RemoveGameplayCues`. -/
def RemoveGameplayCues (s : FSystem) : FSystem :=
  let s1 :=
    if s.Self.bExecuteDeactivationCue && CanExecuteGameplayCue s.Self then
      if s.Self.bDeactivationGameplayCueValid then s.Send .DeactivationGameplayCue else s
    else s
  let s2 :=
    if s1.Self.bActorGameplayCueInitialized then
      let s1a := s1.Send .ActorGameplayCueRemoved
      { s1a with Self := { s1a.Self with bActorGameplayCueInitialized := false } }
    else s1
  let s3 := RemovePreviewGameplayCue s2
  { s3 with Self := { s3.Self with bExecuteDeactivationCue := true } }

/-- Embeds `ABaseCollisionActor::ExecuteGameplayCues`. -/
def ExecuteGameplayCues (s : FSystem) : FSystem :=
  if CanExecuteGameplayCue s.Self then
    let s1 := if s.Self.bBurstGameplayCueValid then s.Send .BurstGameplayCue else s
    if s1.Self.bActorGameplayCueInitialized then s1.Send .ActorGameplayCueExecuted else s1
  else s

/-- Embeds `ABaseCollisionActor::Deactivate`, first part: the broadcast of
`OnCollisionActorDeactivate`, the multi hit summary and the deactivation event. -/
def DeactivateSendEvents (s : FSystem) : FSystem :=
  let s1 := s.Send .OnCollisionActorDeactivate
  let s2 :=
    if ShouldSendMultihitEventOnDeactivation s1 && s1.Self.InstigatorBaseASC then
      match s1.ASC.GetSharedTargets s1.Self.IndividualData.ActivationKey s1.Self.bReplicates with
      | some TotalTargets =>
        if TotalTargets.length > 0 then
          SendGameplayEvent s1.Self.InstigatorASC
            (.GameplayEvent none .Event_MultiHit TotalTargets.length none
              s1.Self.OwningAbilityTags) s1
        else s1
      | none => s1
    else s1
  if s2.Self.bReplicates then
    SendGameplayEvent s2.Self.InstigatorASC
      (.GameplayEvent none .Event_CollisionActorDeactivate 1 none s2.Self.OwningAbilityTags) s2
  else s2

/-- Embeds `ABaseCollisionActor::Deactivate`: `SetActorEnableCollision(false)`,
`UnbindShapeCallbacks()`, `UninitializeTarget()`, `UninitializeAttachToActor()` and
`SetActorTickEnabled(false)`. -/
def DeactivateCollisionAndTarget (s : FSystem) : FSystem :=
  let e := UninitializeAttachToActor
    { s.Self with
      bCollisionEnabled := false
      bShapeCallbacksBound := false
      IndividualData := { s.Self.IndividualData with TargetActor := none } }
  { s with Self := { e with bTickEnabled := false } }

/-- Embeds `ABaseCollisionActor::Deactivate`: the local target references and the height
interpolation values are emptied, the flags are reset, the shared data delegate is unbound
when there is a component, the timeline components are stopped. -/
def DeactivateClearLocalState (s : FSystem) : FSystem :=
  let e7 : FCollisionActor :=
    { s.Self with
      PreviousTargetedActors := []
      PreviousInteractableActors := []
      PreviousInterpZValues := []
      bInterpolatingScale := false
      bSkipVariableInitialization := false
      bPreactivated := false
      bSynched := false
      bSkipGameplayCues := false }
  let e8 : FCollisionActor :=
    if e7.InstigatorBaseASC then { e7 with bSharedDataDelegateBound := false } else e7
  { s with Self := { e8 with bTimelinesStopped := true } }

/-- Embeds `ABaseCollisionActor::Deactivate`, second part: from
`SoftUnregisterSharedTargetInstance` to the end of the timeline components. -/
def DeactivateRelease (s : FSystem) : FSystem :=
  DeactivateClearLocalState
    (RemoveGameplayCues (DeactivateCollisionAndTarget (SoftUnregisterSharedTargetInstance s)))

/-- Embeds `ABaseCollisionActor::Deactivate`, third part ("Clear latent actions"): with a world all
timers of the object are cleared and `PoolCollisionActor` is scheduled, for the next tick when
`PoolingDelay == 0.f` and after `PoolingDelay` otherwise; without a world the actor is
destroyed. -/
def DeactivateClearAndPool (w : FWorldView) (PoolingDelay : ℚ) (s : FSystem) : FSystem :=
  if w.bWorld then
    if PoolingDelay = 0 then
      { s with Self := { s.Self with
          Timers := [⟨.NextTick, .PoolCollisionActor, 0, false, 0⟩] } }
    else
      { s with Self := { s.Self with
          Timers := [⟨.LocalHandle, .PoolCollisionActor, PoolingDelay, false, PoolingDelay⟩] } }
  else { s with Self := { s.Self with bDestroyed := true } }

/-- The statements of `ABaseCollisionActor::Deactivate` inside `if (bActive)`. -/
def DeactivateBody (w : FWorldView) (PoolingDelay : ℚ) (s : FSystem) : FSystem :=
  let s10 := DeactivateClearAndPool w PoolingDelay (DeactivateRelease (DeactivateSendEvents s))
  { s10 with Self := { s10.Self with bActive := false } }

/-- Embeds `ABaseCollisionActor::Deactivate`. -/
def Deactivate (w : FWorldView) (PoolingDelay : ℚ) (s : FSystem) : FSystem :=
  if s.Self.bActive then DeactivateBody w PoolingDelay s else s

/-- Embeds `ABaseCollisionActor::Expire`. -/
def Expire (w : FWorldView) (s : FSystem) : FSystem :=
  let s1 := s.Send .OnCollisionActorExpired
  if !s1.Self.AreaPeriodTimerHandleValid
      || (s1.Self.AreaPeriodTimerHandleValid && w.bWorld
          && !IsTimerActive s1.Self .AreaPeriodTimerHandle) then
    Deactivate w (25 / 100) s1
  else s1

/-- Embeds `ABaseCollisionActor::InitializePersistentElements`, first part: the attachment, and the
period that is forced on an entity that interpolates its scale without a period of its own. -/
def InitializeForcedPeriod (e : FCollisionActor) : FCollisionActor :=
  let e1 := { InitializeAttachToActor e with bDiscreteCollisionChecks := false }
  if e1.bInterpolatingScale && decide (e1.Duration.Period ≤ 0) then
    { e1 with
      Duration := { e1.Duration with Period := min (e1.Duration.LifeSpan / 5) (15 / 100) }
      bDiscreteCollisionChecks := true }
  else e1

/-- Embeds `ABaseCollisionActor::InitializePersistentElements`, the assignments under
`if (Duration.Period > 0.f)`. The difference and the quotient are those of the arithmetic on
`float`: each is rounded before `FMath::TruncToInt` rounds the quotient towards zero. -/
def InitializePeriodCount (e : FCollisionActor) : FCollisionActor :=
  { e with
    bAllowRetargetting := !e.bDiscreteCollisionChecks
    ExecutedPeriods := 0
    bCollisionEnabled := true
    MaximumPeriodsToExecute :=
      TruncToInt (RoundToFloat
        (RoundToFloat (e.Duration.LifeSpan - e.Duration.FirstPeriodDelay)
          / e.Duration.Period)) + 1 }

/-- Embeds `ABaseCollisionActor::InitializePersistentElements`. -/
def InitializePersistentElements (w : FWorldView) (s : FSystem) : FSystem :=
  let e2 := InitializeForcedPeriod s.Self
  if e2.Duration.Period > 0 then
    let e3 := InitializePeriodCount e2
    if w.bWorld then
      { s with Self := { e3 with
          AreaPeriodTimerHandleValid := true
          Timers := SetTimer e3.Timers
            ⟨.AreaPeriodTimerHandle, .OnAreaOfEffectPeriod, e3.Duration.Period, true,
              e3.Duration.FirstPeriodDelay⟩ } }
    else Deactivate w 0 { s with Self := e3 }
  else
    { s with Self := { e2 with bShapeCallbacksBound := true, bCollisionEnabled := true } }

/-- Embeds `ABaseCollisionActor::OnAreaOfEffectPeriod` up to `ExecutedPeriods++`: the effect on the
overlapping actors and the gameplay cues. -/
def OnAreaOfEffectPeriodApply (w : FWorldView) (s : FSystem) : FSystem :=
  let OverlappingActors := w.ShapeOverlappingActors
  let s1 := (ApplyEffectToActorArray w OverlappingActors []
    (!s.Self.bDiscreteCollisionChecks) s).2
  if !s1.Self.bDiscreteCollisionChecks
      && !(decide (s1.Self.Duration.FirstPeriodDelay = 0) && decide (s1.Self.ExecutedPeriods = 0))
  then ExecuteGameplayCues s1 else s1

/-- Embeds `ABaseCollisionActor::OnAreaOfEffectPeriod`. -/
def OnAreaOfEffectPeriod (w : FWorldView) (s : FSystem) : FSystem :=
  let s2 := OnAreaOfEffectPeriodApply w s
  let s3 : FSystem := { s2 with Self :=
    { s2.Self with ExecutedPeriods := s2.Self.ExecutedPeriods + 1 } }
  if w.bWorld && decide (s3.Self.ExecutedPeriods ≥ s3.Self.MaximumPeriodsToExecute) then
    let s4 : FSystem := { s3 with Self := { s3.Self with
      Timers := ClearTimer s3.Self.Timers .AreaPeriodTimerHandle
      AreaPeriodTimerHandleValid := false } }
    if !s4.Self.DurationTimerHandleValid
        || (s4.Self.DurationTimerHandleValid && !IsTimerActive s4.Self .DurationTimerHandle) then
      Deactivate w (25 / 100) s4
    else s4
  else s3

/-- The timers of the periodic phase. -/
inductive ETimerEvent where
  | PeriodTimer
  | ExpirationTimer
deriving DecidableEq, Repr

/-- The timer of a handle leaves the pending timers of the entity. -/
def FSystem.WithoutTimer (s : FSystem) (Handle : ETimerHandle) : FSystem :=
  { s with Self := { s.Self with Timers := ClearTimer s.Self.Timers Handle } }

/-- The timer manager reaches a timer of the entity: the looping period timer calls
`OnAreaOfEffectPeriod` while it is pending, the one-shot expiration timer is taken out of the
pending timers and calls `Expire`; a timer that is not pending does not fire. -/
def FireTimer (w : FWorldView) (Event : ETimerEvent) (s : FSystem) : FSystem :=
  match Event with
  | .PeriodTimer =>
    if IsTimerActive s.Self .AreaPeriodTimerHandle then OnAreaOfEffectPeriod w s else s
  | .ExpirationTimer =>
    if IsTimerActive s.Self .DurationTimerHandle then
      Expire w (s.WithoutTimer .DurationTimerHandle)
    else s

/-- A sequence of timer events, each with what the world answers at that moment. -/
def RunTimers : List (FWorldView × ETimerEvent) → FSystem → FSystem
  | [], s => s
  | (w, Event) :: rest, s => RunTimers rest (FireTimer w Event s)

/-- The six checks of a candidate target in the order the specification lists them, each with
the rejection that is logged when it is the first to fail (the filter has none). -/
def TargetChecks (w : FWorldView) (s : FSystem) (A : AActor) :
    List (Option ETargetRejection × Bool) :=
  [ (some .AlreadyTargeted, s.Self.bAllowRetargetting || !(IsAlreadyTargeted (some A) s).1),
    (some .NoTargetPriority, HasTargetPriority w s.Self A),
    (some .NoLineOfSight,
      !s.Self.Targeting.bValidTargetRequiresCollisionActorLineOfSight
        || HasLineOfSightToTarget w A),
    (some .InnerRadius, IsTargetInMinimalDistance w s.Self A),
    (some .AngleSpan, IsTargetBetweenAngleDeviation w s.Self A),
    (none, w.FilterPassesForActor A) ]

/-- The rejection attached to the first check of the list that fails. -/
def FirstRejection (Checks : List (Option ETargetRejection × Bool)) : Option ETargetRejection :=
  (Checks.find? (fun c => !c.2)).bind (fun c => c.1)

/-- Specification of target priority: this entity has the lowest `SpawnIndex` among the
entities that currently overlap the target and share its activation key. -/
def HasLowestSpawnIndexAmongSharing (w : FWorldView) (e : FCollisionActor) (Target : AActor) :
    Bool :=
  let Sharing := ((w.GetOverlappingCollisionActors Target).filterMap id).filter
    (fun CA => CA.ActivationKey = e.IndividualData.ActivationKey)
  Sharing.any (fun CA => CA.Actor = e.This)
    && Sharing.all (fun CA => e.IndividualData.SpawnIndex ≤ CA.SpawnIndex)

/-- The effect applications an entity makes in the course of one activation. -/
inductive FActivationStep where
  | Apply (w : FWorldView) (A : Option AActor) (ContextTags : List FGameplayTag)
  | ApplyArray (w : FWorldView) (A : List AActor) (ContextTags : List FGameplayTag)
      (bSendMultiHitEvent : Bool)

/-- One step of an activation. -/
def FActivationStep.Run : FActivationStep → FSystem → FSystem
  | .Apply w A ContextTags, s => (ApplyEffectToActor w A ContextTags s).2
  | .ApplyArray w A ContextTags bSend, s => (ApplyEffectToActorArray w A ContextTags bSend s).2

/-- A sequence of steps of an activation. -/
def RunActivation : List FActivationStep → FSystem → FSystem
  | [], s => s
  | Step :: rest, s => RunActivation rest (Step.Run s)

/-- The fields of a collision actor as its constructor leaves them (replicated, no ability
data yet); the remaining fields are zero, empty or null. -/
def Constructed (This : AActor) : FCollisionActor :=
  { This := This
    bReplicates := true
    bHasAuthority := true
    NetMode := .NM_Standalone
    Duration := ⟨0, 0, 0, 0⟩
    Targeting := ⟨false, 0, false, 180⟩
    AttachmentType := .LocationAndRotation
    EffectContainerSpec := []
    bHitTargetGameplayCues := true
    bBurstGameplayCueValid := false
    bDeactivationGameplayCueValid := false
    OwningAbilityTags := []
    IndividualData := ⟨0, 0, 0, none, 0⟩
    SharedData := ⟨0, 0, 1, 1, 1⟩
    InstigatorASC := false
    InstigatorBaseASC := false
    bActive := false
    bPreactivated := false
    bSynched := false
    bSkipGameplayCues := false
    bSkipVariableInitialization := false
    bInterpolatingScale := false
    bAttached := false
    bUpdateAttachmentOnTick := false
    bDiscreteCollisionChecks := false
    bAppliesPersistentEffects := false
    bAllowRetargetting := false
    bRegisteredTargetInstance := false
    bSoftRegisteredTargetInstance := false
    bActorGameplayCueInitialized := false
    bPreviewGameplayCueInitialized := false
    bExecuteDeactivationCue := true
    bSharedDataDelegateBound := false
    PreviousTargetedActors := []
    PreviousInteractableActors := []
    PreviousInterpZValues := []
    ExecutedPeriods := 0
    MaximumPeriodsToExecute := 0
    DurationTimerHandleValid := false
    AreaPeriodTimerHandleValid := false
    Timers := []
    bShapeCallbacksBound := false
    bCollisionEnabled := false
    bTickEnabled := false
    bAttachedToComponent := false
    bTimelinesStopped := false
    bDestroyed := false
    CompensationActivationDelay := 0
    bAbilityFromListenServer := false
    bScaleCurve := false
    bInterpolatingRotation := false
    RotationRate := 0
    PredictionRotationRateMultiplier := 125 / 100
    bPreactivationGameplayCueInitialized := false
    bPreactivationGameplayCueValid := false
    bActorGameplayCueValid := false
    bPreviewGameplayCueValid := false
    bPooledActorFinished := false
    InitialLifeSpan := 0 }

/-- A world that is present, in which nothing overlaps, no trace is blocked, every actor stands
at the origin and passes the filter. -/
def OpenWorld : FWorldView :=
  { bWorld := true
    GetOverlappingCollisionActors := fun _ => []
    ShapeOverlappingActors := []
    ActorLocation := fun _ => (0, 0, 0)
    bBlockingHit := fun _ => false
    Dist2D := fun _ => 0
    LookAtYaw := fun _ => 0
    ActorYaw := 0
    ActorScaleX := 1
    CapsuleRadius := fun _ => none
    DegAtan := fun _ => 0
    FilterPassesForActor := fun _ => true
    ImplementsSplineManagerInterface := fun _ => false
    bHasAbilitySystemComponent := fun _ => true }

/-- A component whose shared target registry has no entry. -/
def EmptyRegistry : UBaseAbilitySystemComponent := ⟨fun _ _ => none⟩

/-- The state grows: retargeting flag kept, and the previous targets only gain members. -/
def Grows (s s' : FSystem) : Prop :=
  s'.Self.bAllowRetargetting = s.Self.bAllowRetargetting ∧
  ∀ l, (GetPreviousTargets s).1 = some l →
    ∃ l', (GetPreviousTargets s').1 = some l' ∧ ∀ a ∈ l, a ∈ l'

/-- Only the log differs. -/
def OnlyLog (s s' : FSystem) : Prop := s'.Self = s.Self ∧ s'.ASC = s.ASC

/-- The target is among the previous targets. -/
def Targeted (T : AActor) (s : FSystem) : Prop :=
  ∃ l, (GetPreviousTargets s).1 = some l ∧ T ∈ l

/-- How many times the effect container has been applied to the target. -/
def AppliedCount (T : AActor) (s : FSystem) : Nat :=
  s.Log.count (.EffectContainerApplied (some T))

/-- The period timer is pending and `k` periods have been executed. -/
def Counting (M k : Int) (s : FSystem) : Prop :=
  IsTimerActive s.Self .AreaPeriodTimerHandle = true ∧
  s.Self.AreaPeriodTimerHandleValid = true ∧
  s.Self.ExecutedPeriods = k ∧ s.Self.MaximumPeriodsToExecute = M

/-- The period timer is no longer pending and `max 1 M` periods have been executed. -/
def Finished (M : Int) (s : FSystem) : Prop :=
  IsTimerActive s.Self .AreaPeriodTimerHandle = false ∧
  s.Self.ExecutedPeriods = max 1 M ∧ s.Self.MaximumPeriodsToExecute = M

/-- Example state: an active entity without end of life (`LifeSpan = -1`) and a period of one
second. -/
def EndlessPeriodic : FSystem :=
  ⟨{ Constructed 1 with Duration := ⟨-1, 1, 0, 0⟩, bActive := true }, EmptyRegistry, []⟩

/-- Example state: first period after the end of life. -/
def LatePeriodic : FSystem :=
  ⟨{ Constructed 1 with Duration := ⟨1, 1, 3 / 2, 0⟩, bActive := true }, EmptyRegistry, []⟩

/-- Example state: a periodic entity with the given life span and period, without a delay of
the first period. -/
def PeriodicWith (LifeSpan Period : ℚ) : FSystem :=
  ⟨{ Constructed 1 with Duration := ⟨LifeSpan, Period, 0, 0⟩, bActive := true },
    EmptyRegistry, []⟩

/-- Example state: life span 1 s and the `float` nearest to 0.2 s as period. -/
def FloatFivePerSecond : FSystem := PeriodicWith 1 (RoundToFloat (2 / 10))

/-- The entity is the same but for its lists of previous targets. -/
def SameButTargets (s s' : FSystem) : Prop :=
  s'.Self = { s.Self with
    PreviousTargetedActors := s'.Self.PreviousTargetedActors
    PreviousInteractableActors := s'.Self.PreviousInteractableActors }

/-- The fields the periodic phase depends on. -/
def TimerCore (e : FCollisionActor) : Int × Int × Bool × Bool × List FTimerData × Bool :=
  (e.ExecutedPeriods, e.MaximumPeriodsToExecute, e.AreaPeriodTimerHandleValid,
    e.DurationTimerHandleValid, e.Timers, e.bActive)

/-- Example world: the target 10 is overlapped by the collision actors 1 (spawn index 0) and
2 (spawn index 1) of one activation (key 7), returned in this order. -/
def PriorityWorld : FWorldView :=
  { OpenWorld with
    GetOverlappingCollisionActors := fun T =>
      if T = 10 then [some ⟨1, 0, 7⟩, some ⟨2, 1, 7⟩] else [] }

/-- Example entity: collision actor 1 of activation 7, spawn index 0, with persistent effects
and shared targeting. -/
def FirstSpawned : FCollisionActor :=
  { Constructed 1 with bAppliesPersistentEffects := true, IndividualData := ⟨0, 7, 0, none, 0⟩ }

/-- Example entity: collision actor 2 of activation 7, spawn index 1, with persistent effects
and shared targeting. -/
def SecondSpawned : FCollisionActor :=
  { Constructed 2 with bAppliesPersistentEffects := true, IndividualData := ⟨0, 7, 1, none, 0⟩ }

/-- Example state: an entity with a component, registered for shared targeting. -/
def RegisteredEntity : FSystem :=
  RegisterSharedTargetInstance
    ⟨{ Constructed 1 with
        InstigatorASC := true
        InstigatorBaseASC := true
        EffectContainerSpec := [EGameplayEffectDurationType.Instant]
        bActive := true }, EmptyRegistry, []⟩

/-- Example state: an active entity with a life span of one second and a period of 0.2 s. -/
def FivePerSecond : FSystem :=
  ⟨{ Constructed 1 with Duration := ⟨1, 2 / 10, 0, 0⟩, bActive := true }, EmptyRegistry, []⟩

/-! ### Activation and return to the pool -/

/-- What the engine answers about the instigator (or the owner, when there is no instigator)
in `SetIndividualData`: whether it has an ability system component, whether that component is
a `UBaseAbilitySystemComponent`, and `IsLocallyControlled() && IsNetAuthority()` of its actor
info. -/
structure FInstigatorView where
  bAbilitySystemComponent : Bool
  bBaseAbilitySystemComponent : Bool
  bLocallyControlledNetAuthority : Bool
deriving DecidableEq, Repr

/-- What the engine answers during the activation: the server world time (of the game state,
or the time of the world when there is no game state), `ExactPing * 0.001f` of the player state
of the instigator (0 without a player controller), `IsCollisionActorPredictionEnabled()` of the
component, and whether the owner is owned by the first local player controller. -/
structure FActivationView where
  ServerWorldTime : ℚ
  PredictionDeltaTime : ℚ
  bCollisionActorPredictionEnabled : Bool
  bOwnedByLocalPlayerController : Bool
deriving DecidableEq, Repr

/-- Embeds `FMath::IsNearlyZero(Value, ErrorTolerance)`. -/
def IsNearlyZero (Value ErrorTolerance : ℚ) : Bool := decide (|Value| ≤ ErrorTolerance)

/-- Embeds `ABaseCollisionActor::GetServerWorldTime`: 0 without a world. -/
def GetServerWorldTime (w : FWorldView) (av : FActivationView) : ℚ :=
  if w.bWorld then av.ServerWorldTime else 0

/-- Embeds `ABaseCollisionActor::GetPredictionDeltaTime`. -/
def GetPredictionDeltaTime (av : FActivationView) : ℚ := av.PredictionDeltaTime

/-- Embeds `ABaseCollisionActor::ShouldPredict` (the component is dereferenced without a
test). -/
def ShouldPredict (av : FActivationView) (e : FCollisionActor) : Bool :=
  av.bCollisionActorPredictionEnabled && !e.bAbilityFromListenServer && e.bReplicates
    && !e.bSynched

/-- Embeds `ABaseCollisionActor::RequiresTick`. -/
def RequiresTick (e : FCollisionActor) : Bool :=
  e.bInterpolatingScale || e.bUpdateAttachmentOnTick || e.bInterpolatingRotation

/-- Embeds `ABaseCollisionActor::SetSourceAbilitySystemComponent`. -/
def SetSourceAbilitySystemComponent (iv : FInstigatorView) (e : FCollisionActor) :
    FCollisionActor :=
  { e with
    InstigatorASC := iv.bAbilitySystemComponent
    InstigatorBaseASC := iv.bAbilitySystemComponent && iv.bBaseAbilitySystemComponent }

/-- Embeds `ABaseCollisionActor::SetIndividualData` (the filter context and the effect context
are not part of the state). -/
def SetIndividualData (iv : FInstigatorView) (InIndividualData : FCollisionActorIndividualData)
    (s : FSystem) : FSystem :=
  let e1 := SetSourceAbilitySystemComponent iv { s.Self with IndividualData := InIndividualData }
  let e2 :=
    if e1.bHasAuthority && e1.bReplicates
    then { e1 with bAbilityFromListenServer := iv.bLocallyControlledNetAuthority } else e1
  RegisterSharedTargetInstance { s with Self := { e2 with bRegisteredTargetInstance := false } }

/-- Embeds `ABaseCollisionActor::SetCollisionActorScale`: the actor gameplay cue is updated when
it is initialized. -/
def SetCollisionActorScale (s : FSystem) : FSystem :=
  if s.Self.bActorGameplayCueInitialized then s.Send .ActorGameplayCueWhileActive else s

/-- Embeds `ABaseCollisionActor::InitializeScale`. -/
def InitializeScale (s : FSystem) : FSystem :=
  SetCollisionActorScale
    { s with Self := { s.Self with bInterpolatingScale := s.Self.bScaleCurve } }

/-- Embeds `ABaseCollisionActor::InitializePreactivationGameplayCue`. -/
def InitializePreactivationGameplayCue (s : FSystem) : FSystem :=
  if CanExecuteGameplayCue s.Self && !s.Self.bPreactivationGameplayCueInitialized
      && s.Self.bPreactivationGameplayCueValid then
    let s1 := s.Send .PreactivationGameplayCueOnActive
    { s1 with Self := { s1.Self with bPreactivationGameplayCueInitialized := true } }
  else s

/-- Embeds `ABaseCollisionActor::RemovePreactivationGameplayCue`. -/
def RemovePreactivationGameplayCue (s : FSystem) : FSystem :=
  if s.Self.bPreactivationGameplayCueInitialized then
    let s1 := s.Send .PreactivationGameplayCueRemoved
    { s1 with Self := { s1.Self with bPreactivationGameplayCueInitialized := false } }
  else s

/-- Embeds `ABaseCollisionActor::InitializeActorGameplayCue`. -/
def InitializeActorGameplayCue (s : FSystem) : FSystem :=
  if CanExecuteGameplayCue s.Self && !s.Self.bActorGameplayCueInitialized
      && s.Self.bActorGameplayCueValid && decide (s.Self.Duration.LifeSpan ≠ 0) then
    let s1 := s.Send .ActorGameplayCueOnActive
    { s1 with Self := { s1.Self with
        bActorGameplayCueInitialized := true, bExecuteDeactivationCue := true } }
  else s

/-- Embeds `ABaseCollisionActor::InitializePreviewGameplayCue`. -/
def InitializePreviewGameplayCue (s : FSystem) : FSystem :=
  if CanExecuteGameplayCue s.Self && !s.Self.bPreviewGameplayCueInitialized
      && s.Self.bPreviewGameplayCueValid && decide (s.Self.Duration.LifeSpan ≠ 0) then
    let s1 := s.Send .PreviewGameplayCueOnActive
    { s1 with Self := { s1.Self with bPreviewGameplayCueInitialized := true } }
  else s

/-- Embeds `ABaseCollisionActor::ClearExpirationTimer`. -/
def ClearExpirationTimer (w : FWorldView) (e : FCollisionActor) : FCollisionActor :=
  if w.bWorld then
    { e with
      Timers := ClearTimer e.Timers .DurationTimerHandle, DurationTimerHandleValid := false }
  else e

/-- Embeds `ABaseCollisionActor::InitExpirationTimer`. -/
def InitExpirationTimer (w : FWorldView) (s : FSystem) : FSystem :=
  if HasTag s.Self.OwningAbilityTags .Ability_DisableExpiration then s
  else
    let e1 := ClearExpirationTimer w s.Self
    if w.bWorld then
      { s with Self := { e1 with
          DurationTimerHandleValid := true
          Timers := SetTimer e1.Timers
            ⟨.DurationTimerHandle, .Expire, e1.Duration.LifeSpan, false,
              e1.Duration.LifeSpan⟩ } }
    else { s with Self := e1 }

/-- The value `RotationTime` of `InitializeRotationInterpolation`. -/
def RotationTime (e : FCollisionActor) : ℚ :=
  360 / (if e.RotationRate ≥ 0 then e.RotationRate else e.RotationRate * -1)

/-- Embeds `ABaseCollisionActor::InitializeRotationInterpolation`. -/
def InitializeRotationInterpolation (w : FWorldView) (av : FActivationView) (s : FSystem) :
    FSystem :=
  if w.bWorld then
    let e := s.Self
    let RotationTime : ℚ := RotationTime e
    let e1 := { e with Timers := (SetTimer e.Timers
      ⟨.ClearTargetsTimerHandle, .OnRotationCompleted, RotationTime, true, RotationTime⟩) }
    let DeltaT := GetPredictionDeltaTime av
    if ShouldPredict av e1 && !IsNearlyZero DeltaT (5 / 100)
        && decide (e1.Duration.LifeSpan ≥ 3 * DeltaT) then
      let DegreeDiff := DeltaT * e1.RotationRate
      let SyncTime := DegreeDiff / ((e1.PredictionRotationRateMultiplier - 1) * e1.RotationRate)
      { s with Self := { e1 with
          RotationRate := e1.RotationRate * e1.PredictionRotationRateMultiplier
          Timers := SetTimer e1.Timers
            ⟨.RotationSyncTimerHandle, .OnRotationSynced, SyncTime, false, SyncTime⟩ } }
    else { s with Self := e1 }
  else s

/-- Embeds `ABaseCollisionActor::FinishActivate`, first part: `bActive = true`, the rotation,
the gameplay cues, the broadcast of `OnCollisionActorActivate` and the activation event of a
replicated actor. -/
def FinishActivateInitialize (w : FWorldView) (av : FActivationView) (s : FSystem) : FSystem :=
  let s1 : FSystem := { s with Self := { s.Self with bActive := true } }
  let s5 := ExecuteGameplayCues (InitializeActorGameplayCue
    (RemovePreactivationGameplayCue (InitializeRotationInterpolation w av s1)))
  let s6 := s5.Send .OnCollisionActorActivate
  if s6.Self.bReplicates then
    SendGameplayEvent s6.Self.InstigatorASC
      (.GameplayEvent none .Event_CollisionActorActivate 1 none s6.Self.OwningAbilityTags) s6
  else s6

/-- Embeds `ABaseCollisionActor::FinishActivate`, the branch `Duration.LifeSpan == 0.f`: the
effect on the overlapping actors, then `Deactivate(0.5f)`. -/
def FinishActivateInstant (w : FWorldView) (s : FSystem) : FSystem :=
  let s1 : FSystem := { s with Self := { s.Self with bCollisionEnabled := true } }
  Deactivate w (1 / 2) (ApplyEffectToActorArray w w.ShapeOverlappingActors [] false s1).2

/-- Embeds `ABaseCollisionActor::FinishActivate`, the branch of a life span other than 0:
the persistent elements, the preview cue, the expiration timer of a positive life span and
the tick. -/
def FinishActivatePersistent (w : FWorldView) (av : FActivationView) (s : FSystem) : FSystem :=
  let s1 := InitializePreviewGameplayCue (InitializePersistentElements w s)
  let s2 :=
    if s1.Self.Duration.LifeSpan > 0 then
      let e :=
        if ShouldPredict av s1.Self then
          { s1.Self with Duration := { s1.Self.Duration with
              LifeSpan := s1.Self.Duration.LifeSpan - GetPredictionDeltaTime av } }
        else s1.Self
      InitExpirationTimer w { s1 with Self := e }
    else s1
  if RequiresTick s2.Self then { s2 with Self := { s2.Self with bTickEnabled := true } } else s2

/-- Embeds `ABaseCollisionActor::FinishActivate`. -/
def FinishActivate (w : FWorldView) (av : FActivationView) (s : FSystem) : FSystem :=
  let s1 := FinishActivateInitialize w av s
  let s2 :=
    if s1.Self.Duration.LifeSpan = 0 then FinishActivateInstant w s1
    else FinishActivatePersistent w av s1
  if !w.bWorld then Deactivate w 0 s2 else s2

/-- Embeds `ABaseCollisionActor::BeginActivate` up to `bSynched = false`. -/
def BeginActivateInitialize (av : FActivationView) (s : FSystem) : FSystem :=
  let e1 : FCollisionActor := { s.Self with
    bSkipGameplayCues := s.Self.bReplicates && av.bOwnedByLocalPlayerController
      && decide (s.Self.NetMode ≠ ENetMode.NM_ListenServer)
      && decide (s.Self.NetMode ≠ ENetMode.NM_Standalone)
    bAppliesPersistentEffects :=
      s.Self.EffectContainerSpec.any (fun it => it = EGameplayEffectDurationType.Infinite) }
  let s2 := InitializeScale { s with Self := e1 }
  { s2 with Self := { s2.Self with bSynched := false } }

/-- Embeds `ABaseCollisionActor::BeginActivate`, the branch `Duration.ActivationDelay > 0.f`. -/
def BeginActivateDelayed (w : FWorldView) (av : FActivationView) (s : FSystem) : FSystem :=
  let s1 := InitializePreactivationGameplayCue s
  let e2 : FCollisionActor :=
    if ShouldPredict av s1.Self && !IsNearlyZero (GetPredictionDeltaTime av) (5 / 100) then
      { s1.Self with
        Duration := { s1.Self.Duration with
          ActivationDelay := s1.Self.Duration.ActivationDelay - GetPredictionDeltaTime av
            + s1.Self.CompensationActivationDelay }
        bSynched := true }
    else s1.Self
  if w.bWorld then
    { s1 with Self := { e2 with Timers := (SetTimer e2.Timers
        ⟨.ActivationDelayTimerHandle, .FinishActivate, e2.Duration.ActivationDelay, false,
          e2.Duration.ActivationDelay⟩) } }
  else Deactivate w 0 { s1 with Self := e2 }

/-- Embeds `ABaseCollisionActor::BeginActivate`. -/
def BeginActivate (w : FWorldView) (av : FActivationView) (s : FSystem) : FSystem :=
  let s1 := BeginActivateInitialize av s
  if s1.Self.Duration.ActivationDelay > 0 then BeginActivateDelayed w av s1
  else if s1.Self.Duration.ActivationDelay = 0 then FinishActivate w av s1
  else s1

/-- The value `DeltaServerTime` of `CallBeginActivate`. -/
def DeltaServerTime (w : FWorldView) (av : FActivationView) (e : FCollisionActor) : ℚ :=
  e.IndividualData.ServerActivationTime - GetServerWorldTime w av

/-- Embeds `ABaseCollisionActor::CallBeginActivate`. The timer is set through a handle that is
a local variable, so no pending timer is replaced. -/
def CallBeginActivate (w : FWorldView) (av : FActivationView) (s : FSystem) : FSystem :=
  let DeltaServerTime := DeltaServerTime w av s.Self
  if DeltaServerTime ≤ 0 then
    BeginActivate w av
      { s with Self := { s.Self with CompensationActivationDelay := DeltaServerTime } }
  else if w.bWorld then
    { s with Self := { s.Self with
        CompensationActivationDelay := 0
        Timers := s.Self.Timers ++
          [⟨.LocalHandle, .BeginActivate, DeltaServerTime, false, DeltaServerTime⟩] } }
  else Deactivate w 0 s

/-- Embeds `ABaseCollisionActor::PoolCollisionActor`, up to the reset of the data: the hard
unregistration, the release of the data in the replicated arrays of the component, and the
reset of the pointers and of the data. `DefaultIndividualData` and `DefaultSharedData` are the
values of `FCollisionActorIndividualData()` and `FCollisionActorSharedData()`, whose
declarations are not part of the sources. -/
def PoolCollisionActorRelease (DefaultIndividualData : FCollisionActorIndividualData)
    (DefaultSharedData : FCollisionActorSharedData) (s : FSystem) : FSystem :=
  let s1 := UnregisterSharedTargetInstance s
  let s2 :=
    if s1.Self.bHasAuthority && s1.Self.InstigatorBaseASC then
      (s1.Send (.IndividualDataRemoved s1.Self.IndividualData)).Send
        (.SharedDataCounterDecreased s1.Self.SharedData.ID)
    else s1
  { s2 with Self := { s2.Self with
      InstigatorASC := false
      InstigatorBaseASC := false
      IndividualData := DefaultIndividualData
      SharedData := DefaultSharedData } }

/-- Embeds `ABaseCollisionActor::PoolCollisionActor`. `bAbilitySystemGlobals` tells whether the
cast of the ability system globals to `UMyAbilitySystemGlobals` succeeds. With a world the
actor is handed to the pool manager when it is replicated, has authority and is not a client;
otherwise `SetLifeSpan(5.f)`; without a world it is destroyed. -/
def PoolCollisionActor (w : FWorldView) (bAbilitySystemGlobals : Bool)
    (DefaultIndividualData : FCollisionActorIndividualData)
    (DefaultSharedData : FCollisionActorSharedData) (s : FSystem) : FSystem :=
  let s3 := PoolCollisionActorRelease DefaultIndividualData DefaultSharedData s
  if w.bWorld then
    if s3.Self.bReplicates && s3.Self.bHasAuthority
        && decide (s3.Self.NetMode ≠ ENetMode.NM_Client) && bAbilitySystemGlobals then
      { s3 with Self := { s3.Self with bPooledActorFinished := true } }
    else { s3 with Self := { s3.Self with InitialLifeSpan := 5 } }
  else { s3 with Self := { s3.Self with bDestroyed := true } }

/-- The fields that the steps of the activation keep, except for `FinishActivate` setting
`bActive` and for `Deactivate`. -/
def LifeCore (e : FCollisionActor) : Bool × Bool × Bool × Bool × Bool × Bool × ℚ :=
  (e.bActive, e.bPreactivated, e.bDestroyed, e.bSoftRegisteredTargetInstance,
    e.InstigatorBaseASC, e.bRegisteredTargetInstance, e.CompensationActivationDelay)

/-- What `Deactivate` makes of the fields of `LifeCore` when the entity is active. -/
def DeactivatedCore (w : FWorldView) (c : Bool × Bool × Bool × Bool × Bool × Bool × ℚ) :
    Bool × Bool × Bool × Bool × Bool × Bool × ℚ :=
  (false, false, c.2.2.1 || !w.bWorld, c.2.2.2.1 && !c.2.2.2.2.1, c.2.2.2.2.1,
    c.2.2.2.2.2.1, c.2.2.2.2.2.2)

/-- A step of the activation, seen on the registration: the hard flag, the component and the
compensation delay are kept, and the soft flag is not set. -/
def ActivationFrame (s s' : FSystem) : Prop :=
  s'.Self.CompensationActivationDelay = s.Self.CompensationActivationDelay ∧
  s'.Self.bRegisteredTargetInstance = s.Self.bRegisteredTargetInstance ∧
  s'.Self.InstigatorBaseASC = s.Self.InstigatorBaseASC ∧
  (s'.Self.bSoftRegisteredTargetInstance = true → s.Self.bSoftRegisteredTargetInstance = true)

/-- The operations on one entity in the course of its life. -/
inductive FEntityOperation where
  | SetIndividualData (iv : FInstigatorView) (InIndividualData : FCollisionActorIndividualData)
  | CallBeginActivate (w : FWorldView) (av : FActivationView)
  | BeginActivate (w : FWorldView) (av : FActivationView)
  | FinishActivate (w : FWorldView) (av : FActivationView)
  | Deactivate (w : FWorldView) (PoolingDelay : ℚ)
  | PoolCollisionActor (w : FWorldView) (bAbilitySystemGlobals : Bool)
      (DefaultIndividualData : FCollisionActorIndividualData)
      (DefaultSharedData : FCollisionActorSharedData)

/-- One operation on an entity. -/
def FEntityOperation.Run : FEntityOperation → FSystem → FSystem
  | .SetIndividualData iv InIndividualData, s =>
    ABaseCollisionActor.SetIndividualData iv InIndividualData s
  | .CallBeginActivate w av, s => ABaseCollisionActor.CallBeginActivate w av s
  | .BeginActivate w av, s => ABaseCollisionActor.BeginActivate w av s
  | .FinishActivate w av, s => ABaseCollisionActor.FinishActivate w av s
  | .Deactivate w PoolingDelay, s => ABaseCollisionActor.Deactivate w PoolingDelay s
  | .PoolCollisionActor w bAbilitySystemGlobals DefaultIndividualData DefaultSharedData, s =>
    ABaseCollisionActor.PoolCollisionActor w bAbilitySystemGlobals DefaultIndividualData
      DefaultSharedData s

/-- The order of the life cycle: `SetIndividualData` is applied to an entity that is not soft
registered (a new one, or one that has been deactivated), and `PoolCollisionActor`, which is
called through the timer of `Deactivate`, to an entity that is not soft registered any more
or has no component. -/
def FEntityOperation.Admissible : FEntityOperation → FCollisionActor → Bool
  | .SetIndividualData _ _, e => !e.bSoftRegisteredTargetInstance
  | .PoolCollisionActor _ _ _ _, e => !e.bSoftRegisteredTargetInstance || !e.InstigatorBaseASC
  | _, _ => true

/-- The collision actors of one instigator: they share its component and what is sent out. -/
structure FEntities where
  Actors : List FCollisionActor
  ASC : UBaseAbilitySystemComponent
  Log : List FNotification

/-- One operation on the entity at index `i`. -/
def FEntities.Apply (W : FEntities) (i : Nat) (Operation : FEntityOperation) : FEntities :=
  match W.Actors[i]? with
  | none => W
  | some e =>
    let s := Operation.Run ⟨e, W.ASC, W.Log⟩
    ⟨W.Actors.set i s.Self, s.ASC, s.Log⟩

/-- A sequence of operations, each on the entity of the given index. -/
def RunOperations : List (Nat × FEntityOperation) → FEntities → FEntities
  | [], W => W
  | (i, Operation) :: rest, W => RunOperations rest (W.Apply i Operation)

/-- Every operation of the sequence respects the order of the life cycle. -/
def AdmissibleOperations : List (Nat × FEntityOperation) → FEntities → Bool
  | [], _ => true
  | (i, Operation) :: rest, W =>
    (match W.Actors[i]? with
      | none => true
      | some e => Operation.Admissible e)
    && AdmissibleOperations rest (W.Apply i Operation)

/-- The number of hard registrations of an activation key: the entities of the key with
`bRegisteredTargetInstance`. -/
def HardRegistrations (W : FEntities) (Key : Int) : Nat :=
  W.Actors.countP (fun e => e.bRegisteredTargetInstance
    && decide (e.IndividualData.ActivationKey = Key))

/-- The number of soft registrations of an activation key: the entities of the key with
`bSoftRegisteredTargetInstance`. -/
def SoftRegistrations (W : FEntities) (Key : Int) : Nat :=
  W.Actors.countP (fun e => e.bSoftRegisteredTargetInstance
    && decide (e.IndividualData.ActivationKey = Key))

/-- A world without `GetWorld()`. -/
def NoWorld : FWorldView := { OpenWorld with bWorld := false }

/-- Engine answers of an activation at server time 0, without prediction. -/
def StillView : FActivationView := ⟨0, 0, false, false⟩

/-- Example state: a collision actor as `PreActivateCollisionActor` leaves it before
`CallBeginActivate`: preactivated, with the individual data of activation 7 and registered for
shared targeting; life span 1 s. -/
def PreactivatedEntity (ServerActivationTime ActivationDelay : ℚ) : FSystem :=
  SetIndividualData ⟨true, true, false⟩ ⟨0, 7, 0, none, ServerActivationTime⟩
    ⟨{ Constructed 1 with bPreactivated := true, Duration := ⟨1, 0, 0, ActivationDelay⟩ },
      EmptyRegistry, []⟩

/-- Example: one new collision actor with an instant effect (life span 0). -/
def OneEntity : FEntities := ⟨[Constructed 1], EmptyRegistry, []⟩

/-- Example: the individual data of activation 7 are set and the entity is activated at once;
as its life span is 0 it applies its effect and deactivates. -/
def InstantLife : List (Nat × FEntityOperation) :=
  [(0, .SetIndividualData ⟨true, true, false⟩ ⟨0, 7, 0, none, 0⟩),
    (0, .CallBeginActivate OpenWorld StillView)]

/-- Example state: an entity that interpolates its scale, with a life span of 1 s and no
period of its own, and its own list of previous targets. -/
def ScaleInterpolated : FSystem :=
  ⟨{ Constructed 1 with
      bInterpolatingScale := true
      Duration := ⟨1, 0, 0, 0⟩
      bActive := true }, EmptyRegistry, []⟩

/-- Specification of the first loop of `ApplyEffectToActorArray`: the actors of `A` that pass
`IsValidTargetActor` at their turn, that is, in the state that the applications to the
earlier actors of the list have left. -/
def ValidAtTheirTurn (w : FWorldView) (ContextTags : List FGameplayTag) :
    List AActor → FSystem → List AActor
  | [], _ => []
  | CurrentActor :: rest, s =>
    if (IsValidTargetActor w (some CurrentActor) s).1.bValid then
      CurrentActor :: ValidAtTheirTurn w ContextTags rest
        (ApplyEffectToActor w (some CurrentActor) ContextTags s).2
    else ValidAtTheirTurn w ContextTags rest s

/-- The condition under which `ApplyEffectToActor` applies the effect container. -/
def AppliesEffectContainer (e : FCollisionActor) : Bool :=
  e.bHasAuthority && !e.EffectContainerSpec.isEmpty && e.InstigatorASC

/-- The magnitude of a multi hit event sent to the instigator. -/
def FNotification.MultiHitMagnitude : FNotification → Option Int
  | .GameplayEvent none .Event_MultiHit EventMagnitude _ _ => some EventMagnitude
  | _ => none

/-- The magnitudes of the multi hit events sent so far. -/
def MultiHitMagnitudes (s : FSystem) : List Int :=
  s.Log.filterMap FNotification.MultiHitMagnitude

/-- Example state: a replicated entity on the authority, with a component and an instant
effect, that allows retargeting. -/
def RetargetingEntity : FSystem :=
  ⟨{ Constructed 1 with
      InstigatorASC := true
      EffectContainerSpec := [EGameplayEffectDurationType.Instant]
      bAllowRetargetting := true
      bActive := true }, EmptyRegistry, []⟩

/-- Example state: the entity that allows retargeting, with an instigator that has no ability
system component. -/
def UnownedEntity : FSystem :=
  { RetargetingEntity with Self := { RetargetingEntity.Self with InstigatorASC := false } }

/-! ### The end of an overlap -/

/-- An active gameplay effect on a target, as the ability system component of the target
keeps it: the effect causer of its context and the duration policy of its definition. -/
structure FActiveGameplayEffect where
  Target : AActor
  EffectCauser : AActor
  DurationPolicy : EGameplayEffectDurationType
deriving DecidableEq, Repr

/-- A collision actor (`Sys.Self`) with the component and the log it shares with the other
collision actors of its class, these other actors, and the active effects on the targets. -/
structure FScene where
  Sys : FSystem
  Siblings : List FCollisionActor
  ActiveEffects : List FActiveGameplayEffect

/-- Embeds `ABaseCollisionActor::RemoveAppliedPersistentEffects`: the active effects of the
actor with infinite duration whose effect causer is this collision actor are removed; the
returned `Amount` and the scene. -/
def RemoveAppliedPersistentEffects (w : FWorldView) (Actor : AActor) (S : FScene) :
    Int × FScene :=
  if S.Sys.Self.bAppliesPersistentEffects then
    if w.bHasAbilitySystemComponent Actor then
      let Removed := S.ActiveEffects.filter (fun it =>
        decide (it.Target = Actor)
          && decide (it.DurationPolicy = EGameplayEffectDurationType.Infinite)
          && decide (it.EffectCauser = S.Sys.Self.This))
      (Removed.length, { S with ActiveEffects := S.ActiveEffects.filter (fun it =>
        !(decide (it.Target = Actor)
          && decide (it.DurationPolicy = EGameplayEffectDurationType.Infinite)
          && decide (it.EffectCauser = S.Sys.Self.This))) })
    else (0, S)
  else (0, S)

/-- What the loop of `ApplyEffectToActor` over `TargetGameplayEffectSpecs` leaves on the
target (`ApplyGameplayEffectSpecToTarget`): an effect that is not instant becomes an active
effect of the component of the target; its effect causer is the collision actor, which
`SetIndividualData` has put into the effect context. -/
def ApplyGameplayEffectSpecsToTarget (w : FWorldView) (e : FCollisionActor) (Target : AActor)
    (ActiveEffects : List FActiveGameplayEffect) : List FActiveGameplayEffect :=
  if AppliesEffectContainer e && w.bHasAbilitySystemComponent Target then
    ActiveEffects ++
      (e.EffectContainerSpec.filter (fun it => it ≠ EGameplayEffectDurationType.Instant)).map
        (fun it => ⟨Target, e.This, it⟩)
  else ActiveEffects

/-- The call `CA->ApplyEffectToActor(Target, FHitResult())` of `TransferPersistentEffects` on
another collision actor of the scene. -/
def ApplyEffectToActorOfSibling (w : FWorldView) (Actor : AActor) (Target : AActor)
    (S : FScene) : FScene :=
  match S.Siblings.find? (fun CA => CA.This = Actor) with
  | none => S
  | some CA =>
    let r := ApplyEffectToActor w (some Target) [] ⟨CA, S.Sys.ASC, S.Sys.Log⟩
    { Sys := { S.Sys with ASC := r.2.ASC, Log := r.2.Log }
      Siblings := S.Siblings.map (fun c => if c.This = Actor then r.2.Self else c)
      ActiveEffects :=
        if r.1 then ApplyGameplayEffectSpecsToTarget w CA Target S.ActiveEffects
        else S.ActiveEffects }

/-- The test of the loop of `TransferPersistentEffects`: another collision actor with the
activation key of this one. -/
def IsTransferSibling (e : FCollisionActor) (it : Option FOverlappingCollisionActor) : Bool :=
  match it with
  | some CA =>
    decide (CA.Actor ≠ e.This) && decide (CA.ActivationKey = e.IndividualData.ActivationKey)
  | none => false

/-- Embeds `ABaseCollisionActor::TransferPersistentEffects`. -/
def TransferPersistentEffects (w : FWorldView) (Target : AActor) (S : FScene) : Bool × FScene :=
  if S.Sys.Self.bAppliesPersistentEffects
      && !HasTag S.Sys.Self.OwningAbilityTags .Ability_Targeting_IndividualTargeting then
    match (w.GetOverlappingCollisionActors Target).find? (IsTransferSibling S.Sys.Self) with
    | some (some CA) => (true, ApplyEffectToActorOfSibling w CA.Actor Target S)
    | _ => (false, S)
  else (false, S)

/-- The statements of `ABaseCollisionActor::RemovePreviousTarget` when the component that it
dereferences is not null. -/
def RemovePreviousTargetOnComponent (w : FWorldView) (TargetToRemove : AActor) (S : FScene) :
    FScene :=
  let S1 : FScene := { S with Sys := { S.Sys with
    ASC := (S.Sys.ASC.RemoveSharedTarget S.Sys.Self.IndividualData.ActivationKey TargetToRemove
      S.Sys.Self.bReplicates) } }
  let r := TransferPersistentEffects w TargetToRemove S1
  { r.2 with Sys := { r.2.Sys with Self := { r.2.Sys.Self with
      PreviousTargetedActors :=
        (r.2.Sys.Self.PreviousTargetedActors.filter (fun a => a ≠ TargetToRemove)) } } }

/-- Embeds `ABaseCollisionActor::RemovePreviousTarget`. Its first statement dereferences
`GetInstigatorBaseAbilitySystemComponent()` without a test: `none` when the component is
null. -/
def RemovePreviousTarget (w : FWorldView) (TargetToRemove : AActor) (S : FScene) :
    Option FScene :=
  if S.Sys.Self.InstigatorBaseASC then some (RemovePreviousTargetOnComponent w TargetToRemove S)
  else none

/-- Embeds `ABaseCollisionActor::OnEndOverlap`; `none` when a null pointer is dereferenced. -/
def OnEndOverlap (w : FWorldView) (OtherActor : AActor) (S : FScene) : Option FScene :=
  if S.Sys.Self.bAppliesPersistentEffects then
    match (GetPreviousTargets S.Sys).1 with
    | some Targets =>
      if Targets.contains OtherActor then
        RemovePreviousTarget w OtherActor (RemoveAppliedPersistentEffects w OtherActor S).2
      else some S
    | none => some S
  else some S

/-- Example: the persistent effect of the collision actors of activation 7. -/
def AuraEntity (This : AActor) (SpawnIndex : Nat) : FCollisionActor :=
  { Constructed This with
    InstigatorASC := true
    InstigatorBaseASC := true
    EffectContainerSpec := [EGameplayEffectDurationType.Infinite]
    bAppliesPersistentEffects := true
    IndividualData := ⟨0, 7, SpawnIndex, none, 0⟩
    bActive := true }

/-- Example scene: the collision actors 1 and 2 of activation 7, registered for shared
targeting; actor 1 has applied its infinite effect to the target 10, which actor 2 overlaps
too (second argument), or which no other collision actor overlaps. -/
def AuraScene (bSiblingOverlaps : Bool) : FWorldView × FScene :=
  ({ OpenWorld with
      GetOverlappingCollisionActors := fun T =>
        if T = 10 ∧ bSiblingOverlaps = true then [some ⟨1, 0, 7⟩, some ⟨2, 1, 7⟩]
        else if T = 10 then [some ⟨1, 0, 7⟩] else [] },
    { Sys := (ApplyEffectToActor OpenWorld (some 10) []
        (RegisterSharedTargetInstance ⟨AuraEntity 1 0, EmptyRegistry, []⟩)).2
      Siblings := [AuraEntity 2 1]
      ActiveEffects := [⟨10, 1, .Infinite⟩] })

/-- Example scene: the collision actor 1 of an instigator whose ability system component is
not a `UBaseAbilitySystemComponent` (`InstigatorASC` is valid, `InstigatorBaseASC` is null)
has applied its infinite effect to the target 10. -/
def PlainComponentScene : FScene :=
  { Sys := (ApplyEffectToActor OpenWorld (some 10) []
      ⟨{ AuraEntity 1 0 with InstigatorBaseASC := false }, EmptyRegistry, []⟩).2
    Siblings := []
    ActiveEffects := [⟨10, 1, .Infinite⟩] }

/-! ### Attribute scaling and the checks on a location -/

/-- A `FGameplayAttribute`, by its identifier. -/
abbrev FGameplayAttribute := Nat

/-- An ability system component as `ScaleValueWithAttribute` uses it: what
`UAbilitySystemBlueprintLibrary::EvaluateAttributeValueWithTagsAndBase` answers for an
attribute, the source tags, the target tags and a base value: the returned value and
`bSuccess`. -/
structure FAttributeEvaluation where
  EvaluateAttributeValueWithTagsAndBase :
    FGameplayAttribute → List FGameplayTag → List FGameplayTag → ℚ → ℚ × Bool

/-- Embeds `ABaseCollisionActor::ScaleValueWithAttribute`; a null `InASC` is `none`. -/
def ScaleValueWithAttribute (InASC : Option FAttributeEvaluation)
    (InAbilityTags : List FGameplayTag) (Value : ℚ) (Attribute : FGameplayAttribute) : ℚ :=
  if Value ≠ -1 then
    match InASC with
    | some ASC =>
      let Out := ASC.EvaluateAttributeValueWithTagsAndBase Attribute InAbilityTags
        InAbilityTags Value
      if Out.2 then Out.1 else Value
    | none => Value
  else Value

/-- Example component: every attribute doubles the base value; the attribute 0 cannot be
evaluated. -/
def DoublingComponent : FAttributeEvaluation :=
  ⟨fun Attribute _ _ Value => (2 * Value, decide (Attribute ≠ 0))⟩

/-- Follows the claim on the angle check: the smallest angular difference, in [0, 180]
degrees, between two yaws of [-180, 180]. -/
def SmallestAngularDifference (Yaw OtherYaw : ℚ) : ℚ :=
  if |Yaw - OtherYaw| > 180 then 360 - |Yaw - OtherYaw| else |Yaw - OtherYaw|

/-- Example world: the entity stands at the origin; the distance to a location is its first
coordinate and an actor `n` stands at `(n, 0, 0)` (locations on the positive x axis). -/
def AxisWorld : FWorldView :=
  { OpenWorld with
    Dist2D := fun Location => Location.1
    ActorLocation := fun Actor => ((Actor : ℚ), 0, 0) }

/-- Example entity: an inner radius of 100. -/
def RingEntity : FCollisionActor :=
  { Constructed 1 with Targeting := ⟨false, 100, false, 180⟩ }

/-- Example world: the entity faces the yaw 170 and the direction to every location has the
yaw -170, on the other side of the wrap between +180 and -180, 20 degrees away. -/
def WrapWorld : FWorldView :=
  { OpenWorld with
    ActorYaw := 170
    LookAtYaw := fun _ => -170 }

/-- Example entity: a cone of 30 degrees to each side. -/
def ConeEntity : FCollisionActor :=
  { Constructed 1 with Targeting := ⟨false, 0, false, 30⟩ }

/-- Example state: the entity that interpolates its scale, with a life span of 1 s, no period
of its own and the given delay of the first period. -/
def ScaleInterpolatedAfter (FirstPeriodDelay : ℚ) : FSystem :=
  { ScaleInterpolated with
    Self := { ScaleInterpolated.Self with Duration := ⟨1, 0, FirstPeriodDelay, 0⟩ } }

end ABaseCollisionActor

namespace UBaseOverlapAbility

/-! ### The handlers of the queues and the bookkeeping of the events -/

/-- An `AActor*` that is not null. -/
abbrev AActor := ABaseCollisionActor.AActor

/-- The gameplay tags that the scheduler code of the ability tests for or sends. -/
inductive FGameplayTag where
  | Ability_Targeting_IndividualTargeting
  | Ability_Targeting_Start_Actor_Avatar
  | Ability_SpawnBatch
  | Event_Hit
  | Event_MultiHit
  | Other (n : Nat)
deriving DecidableEq, Repr

/-- Embeds `FGameplayTagContainer::HasTag` on the tags of the ability. -/
def HasTag (Tags : List FGameplayTag) (Tag : FGameplayTag) : Bool := Tags.contains Tag

/-- Embeds `FOverlapEventID`. -/
structure FOverlapEventID where
  EventID : Int
  OverlapID : Int
deriving DecidableEq, Repr

/-- Embeds `FGameplayEventData` as the handlers read it: `Target` (`none` when null) and the
actors of `TargetData.Get(0)` (`none` when there is no target data; an actor whose weak pointer
is not valid is `none`). -/
structure FGameplayEventData where
  Target : Option AActor
  TargetData : Option (List (Option AActor))
deriving DecidableEq, Repr

/-- A built `FGameplayEffectContainerSpec`. The handlers only store it and pass it on, so it is
represented by an identifier. -/
abbrev FGameplayEffectContainerSpec := Nat

/-- The calls out of the ability that the handlers make, in the order they are made. -/
inductive FAbilityNotification where
  | InitAbilityModifiedTags (EventID : Int)
  | OnOverlapEvent (OverlapEventData : FOverlapEventSnapshot)
  | ApplyEffectContainerSpecTarget (Spec : FGameplayEffectContainerSpec)
      (TargetActorArray : List AActor)
  | HandleGameplayEvent (Target : AActor) (EventTag : FGameplayTag)
  | SendGameplayEvent (EventTag : FGameplayTag) (Target : Option AActor) (EventMagnitude : Int)
  | ExecuteGameplayCue (ID : FOverlapEventID)
  | RemoveConsumableEffect
  | OnQueueEmptied
  | EndAbility
deriving DecidableEq, Repr

/-- The ability object as the handlers of the queues use it: the configuration (`Duration`,
`AbilityTags`, `bExecuteGameplayCueOnEveryPeriod`, `GameplayCueTag.IsValid()`,
`bIgnoreInitialTarget`, `bIgnorePayloadActors`), the two queues with their timers, the
bookkeeping of the events (`TargetsMap`, `EventDataMap`, `EventEffectsMap`,
`ExecutedGameplayCues`; a `TMap` is the list of its pairs), and the calls made so far. -/
structure FOverlapAbility where
  Duration : FAbilityDuration
  AbilityTags : List FGameplayTag
  bExecuteGameplayCueOnEveryPeriod : Bool
  bGameplayCueTagValid : Bool
  bIgnoreInitialTarget : Bool
  bIgnorePayloadActors : Bool
  Scheduler : FScheduler
  TargetsMap : List (FOverlapEventID × List AActor)
  EventDataMap : List (Int × FGameplayEventData)
  EventEffectsMap : List (Int × FGameplayEffectContainerSpec)
  ExecutedGameplayCues : List FOverlapEventID
  Log : List FAbilityNotification
deriving DecidableEq, Repr

/-- What the engine answers during one call of a handler: `GetWorld()` seen as the current world
time, the location of the avatar actor, the actors that the shape query of
`OnOverlapEvent_Implementation` returns for a snapshot and a list of ignored actors after the
removals by the filter, the line of sight, the minimal distance and the angle deviation, whether
an actor has an ability system component, and `HasActiveTask(NAME_None)`. -/
structure FAbilityView where
  World : Option ℚ
  AvatarLocation : ℚ × ℚ × ℚ
  FilteredActors : FOverlapEventSnapshot → List (Option AActor) → List AActor
  bHasAbilitySystemComponent : AActor → Bool
  bHasActiveTask : Bool

/-- Embeds `TMap::Find`. -/
def TMapFind {K V : Type} [DecidableEq K] (Map : List (K × V)) (Key : K) : Option V :=
  (Map.find? (fun it => decide (it.1 = Key))).map (fun it => it.2)

/-- Embeds `TMap::Remove`. -/
def TMapRemove {K V : Type} [DecidableEq K] (Map : List (K × V)) (Key : K) : List (K × V) :=
  Map.filter (fun it => !decide (it.1 = Key))

/-- Embeds `TMap::Add`: the value of an existing key is replaced. -/
def TMapAdd {K V : Type} [DecidableEq K] (Map : List (K × V)) (Key : K) (Value : V) :
    List (K × V) :=
  if (TMapFind Map Key).isSome then
    Map.map (fun it => if it.1 = Key then (Key, Value) else it)
  else Map ++ [(Key, Value)]

/-- Embeds `UBaseOverlapAbility::AppendOverlapEventsToInstantQueue`. -/
def AppendOverlapEventsToInstantQueue (World : Option ℚ) (EventsData : List FOverlapEventSnapshot)
    (s : FScheduler) : FScheduler :=
  if EventsData.isEmpty then s
  else
    let bSetTimer := s.InstantQueue.isEmpty
    let s1 := { s with InstantQueue := s.InstantQueue ++ EventsData }
    if bSetTimer then UpdateInstantQueueTimer World s1 else s1

/-- Embeds `UBaseOverlapAbility::IsOverlapQueueEmpty`. -/
def IsOverlapQueueEmpty (a : FOverlapAbility) : Bool :=
  a.Scheduler.InstantQueue.isEmpty && a.Scheduler.Queue.isEmpty

/-- Embeds `UBaseOverlapAbility::AddTarget` on `TargetsMap`. -/
def AddTarget (EventID OverlapID : Int) (TargetToAdd : AActor)
    (TargetsMap : List (FOverlapEventID × List AActor)) : List (FOverlapEventID × List AActor) :=
  let ID : FOverlapEventID := ⟨EventID, OverlapID⟩
  match TMapFind TargetsMap ID with
  | some Targets => TMapAdd TargetsMap ID (ABaseCollisionActor.AddUnique Targets TargetToAdd)
  | none => TMapAdd TargetsMap ID [TargetToAdd]

/-- Embeds `UBaseOverlapAbility::AddTargets` on `TargetsMap`. -/
def AddTargets (EventID OverlapID : Int) (TargetsToAdd : List AActor)
    (TargetsMap : List (FOverlapEventID × List AActor)) : List (FOverlapEventID × List AActor) :=
  TargetsToAdd.foldl (fun Map it => AddTarget EventID OverlapID it Map) TargetsMap

/-- The test of the first loop of `RemoveTargets`. -/
def MustRemove (EventID OverlapID : Int) (Key : FOverlapEventID) : Bool :=
  decide (Key.EventID = EventID) && (decide (OverlapID = -1) || decide (Key.OverlapID = OverlapID))

/-- Embeds `UBaseOverlapAbility::RemoveTargets` on `TargetsMap`: the returned `Count` and the
map. -/
def RemoveTargets (EventID OverlapID : Int) (TargetsMap : List (FOverlapEventID × List AActor)) :
    Int × List (FOverlapEventID × List AActor) :=
  let MustRemoveIDs :=
    (TargetsMap.filter (fun it => MustRemove EventID OverlapID it.1)).map (fun it => it.1)
  MustRemoveIDs.foldl
    (fun (acc : Int × List (FOverlapEventID × List AActor)) (it : FOverlapEventID) =>
      (acc.1 + (((TMapFind acc.2 it).getD []).length : Int), TMapRemove acc.2 it))
    (0, TargetsMap)

/-- Embeds `UBaseOverlapAbility::GetIgnoredActors_Implementation`; `none` when the event data
has no target data to take the payload actors from. -/
def GetIgnoredActors_Implementation (EventID OverlapID : Int) (a : FOverlapAbility) :
    Option (List (Option AActor)) :=
  let FromTargets : List AActor :=
    if OverlapID ≤ 0 then
      a.TargetsMap.foldl
        (fun (IgnoredActors : List AActor) (Pair : FOverlapEventID × List AActor) =>
          if Pair.1.EventID = EventID then IgnoredActors ++ Pair.2 else IgnoredActors) []
    else (TMapFind a.TargetsMap ⟨EventID, OverlapID⟩).getD []
  let IgnoredActors : List (Option AActor) := FromTargets.map some
  match TMapFind a.EventDataMap EventID with
  | none => some IgnoredActors
  | some EventData =>
    let WithTarget :=
      if a.bIgnoreInitialTarget then IgnoredActors ++ [EventData.Target] else IgnoredActors
    if a.bIgnorePayloadActors then
      match EventData.TargetData with
      | none => none
      | some Actors => some (WithTarget ++ Actors.filter (fun it => it.isSome))
    else some WithTarget

/-- Records a call of `SendGameplayEvent` of the ability. -/
def SendGameplayEvent (EventTag : FGameplayTag) (Target : Option AActor) (EventMagnitude : Int)
    (a : FOverlapAbility) : FOverlapAbility :=
  { a with Log := a.Log ++ [FAbilityNotification.SendGameplayEvent EventTag Target EventMagnitude] }

/-- Embeds `UBaseOverlapAbility::ShouldSendMultihitEventOnCleanUp`. -/
def ShouldSendMultihitEventOnCleanUp (a : FOverlapAbility) : Bool :=
  decide (a.Duration.Period ≤ 0)

/-- Embeds `UBaseOverlapAbility::SendMultihitEvent`. -/
def SendMultihitEvent (_EventID : Int) (Amount : Int) (a : FOverlapAbility) : FOverlapAbility :=
  if Amount > 0 then SendGameplayEvent .Event_MultiHit none Amount a else a

/-- Embeds `UBaseOverlapAbility::CompensateOverlapLocation`: the snapshot after the call. -/
def CompensateOverlapLocation (w : FAbilityView) (a : FOverlapAbility)
    (OverlapEvent : FOverlapEventSnapshot) : FOverlapEventSnapshot :=
  if HasTag a.AbilityTags .Ability_Targeting_Start_Actor_Avatar then
    { OverlapEvent with
      Location := OverlapEvent.Location + (w.AvatarLocation - OverlapEvent.InitialAvatarLocation) }
  else OverlapEvent

/-- The `if (bPeriodic)` block at the start of `OnOverlapEvent_Implementation`. -/
def OnOverlapEventClearTargets (OverlapEventData : FOverlapEventSnapshot) (a : FOverlapAbility) :
    FOverlapAbility :=
  let ID : FOverlapEventID := ⟨OverlapEventData.EventID, OverlapEventData.OverlapID⟩
  if a.Duration.Period > 0 then
    let a1 := { a with TargetsMap := (RemoveTargets OverlapEventData.EventID (-1) a.TargetsMap).2 }
    if a.bExecuteGameplayCueOnEveryPeriod then
      { a1 with
        ExecutedGameplayCues := a1.ExecutedGameplayCues.filter (fun it => !decide (it = ID)) }
    else a1
  else a

/-- The `for (auto& Target : FilteredActors)` loop of `OnOverlapEvent_Implementation`: the hit
event is handled by the component of the target, if it has one, and sent by the ability. -/
def OnOverlapEventHit (w : FAbilityView) (FilteredActors : List AActor) (a : FOverlapAbility) :
    FOverlapAbility :=
  FilteredActors.foldl
    (fun (acc : FOverlapAbility) (Target : AActor) =>
      let acc1 :=
        if w.bHasAbilitySystemComponent Target then
          { acc with
            Log := acc.Log ++ [FAbilityNotification.HandleGameplayEvent Target .Event_Hit] }
        else acc
      SendGameplayEvent .Event_Hit (some Target) 1 acc1)
    a

/-- The `if (!FilteredActors.IsEmpty())` block of `OnOverlapEvent_Implementation`; `none` when
`GetContainerSpecCacheForEvent` dereferences a null `EventEffectsMap.Find(EventID)`. -/
def OnOverlapEventApply (w : FAbilityView) (OverlapEventData : FOverlapEventSnapshot)
    (FilteredActors : List AActor) (a : FOverlapAbility) : Option FOverlapAbility :=
  if FilteredActors.isEmpty then some a
  else
    match TMapFind a.EventEffectsMap OverlapEventData.EventID with
    | none => none
    | some Spec =>
      let a1 :=
        { a with
          Log :=
            a.Log ++ [FAbilityNotification.ApplyEffectContainerSpecTarget Spec FilteredActors] }
      let a2 :=
        { a1 with
          TargetsMap :=
            AddTargets OverlapEventData.EventID OverlapEventData.OverlapID FilteredActors
              a1.TargetsMap }
      some (OnOverlapEventHit w FilteredActors a2)

/-- The gameplay cue block of `OnOverlapEvent_Implementation`; `none` when `GetEventData` or
`GetWorld()` is dereferenced while null. -/
def OnOverlapEventGameplayCue (w : FAbilityView) (OverlapEventData : FOverlapEventSnapshot)
    (a : FOverlapAbility) : Option FOverlapAbility :=
  let ID : FOverlapEventID := ⟨OverlapEventData.EventID, OverlapEventData.OverlapID⟩
  if a.bGameplayCueTagValid && !a.ExecutedGameplayCues.contains ID then
    match TMapFind a.EventDataMap ID.EventID, w.World with
    | some _, some _ =>
      some { a with
        Log := a.Log ++ [FAbilityNotification.ExecuteGameplayCue ID]
        ExecutedGameplayCues := a.ExecutedGameplayCues ++ [ID] }
    | _, _ => none
  else some a

/-- Embeds `UBaseOverlapAbility::OnOverlapEvent_Implementation`; `none` when a null pointer is
dereferenced. -/
def OnOverlapEvent_Implementation (w : FAbilityView) (OverlapEventData : FOverlapEventSnapshot)
    (a : FOverlapAbility) : Option FOverlapAbility :=
  let a1 := OnOverlapEventClearTargets OverlapEventData a
  match GetIgnoredActors_Implementation OverlapEventData.EventID
      (if HasTag a.AbilityTags .Ability_Targeting_IndividualTargeting
        then OverlapEventData.OverlapID else -1) a1 with
  | none => none
  | some IgnoreActors =>
    let FilteredActors := w.FilteredActors OverlapEventData IgnoreActors
    match OnOverlapEventApply w OverlapEventData FilteredActors a1 with
    | none => none
    | some a2 =>
      let a3 :=
        if a.Duration.Period > 0 then
          SendMultihitEvent OverlapEventData.EventID (FilteredActors.length : Int) a2
        else a2
      OnOverlapEventGameplayCue w OverlapEventData a3

/-- The native event `OnOverlapEvent`: the call is recorded and dispatched to
`OnOverlapEvent_Implementation`. -/
def OnOverlapEvent (w : FAbilityView) (OverlapEventData : FOverlapEventSnapshot)
    (a : FOverlapAbility) : Option FOverlapAbility :=
  OnOverlapEvent_Implementation w OverlapEventData
    { a with Log := a.Log ++ [FAbilityNotification.OnOverlapEvent OverlapEventData] }

/-- The call `InitAbilityModifiedTags(&GetEventData(EventID))` of the handlers; `none` when
`GetEventData` dereferences a null `EventDataMap.Find(EventID)`. -/
def InitAbilityModifiedTags (EventID : Int) (a : FOverlapAbility) : Option FOverlapAbility :=
  match TMapFind a.EventDataMap EventID with
  | none => none
  | some _ => some { a with Log := a.Log ++ [FAbilityNotification.InitAbilityModifiedTags EventID] }

/-- Embeds `UBaseOverlapAbility::ShouldCleanUpEvent`. -/
def ShouldCleanUpEvent (EventID : Int) (a : FOverlapAbility) : Bool :=
  if a.Scheduler.InstantQueue.any (fun it => decide (it.EventID = EventID)) then false
  else if a.Scheduler.Queue.any (fun it => decide (it.EventID = EventID)) then false
  else true

/-- Embeds `UBaseOverlapAbility::ShouldEndAbilityWhenQueueIsEmpty_Implementation`. -/
def ShouldEndAbilityWhenQueueIsEmpty_Implementation (w : FAbilityView) : Bool :=
  !w.bHasActiveTask

/-- The last block of `CleanUpEvent`: `OnQueueEmptied` and `EndAbility`. -/
def CleanUpEventQueueEmptied (w : FAbilityView) (a : FOverlapAbility) : FOverlapAbility :=
  if a.Scheduler.Queue.isEmpty && a.Scheduler.InstantQueue.isEmpty then
    let a1 := { a with Log := a.Log ++ [FAbilityNotification.OnQueueEmptied] }
    if ShouldEndAbilityWhenQueueIsEmpty_Implementation w then
      { a1 with Log := a1.Log ++ [FAbilityNotification.EndAbility] }
    else a1
  else a

/-- Embeds `UBaseOverlapAbility::CleanUpEvent`. `DefaultOverlapID` is the default argument of
`RemoveTargets`, declared in the header of the class. -/
def CleanUpEvent (w : FAbilityView) (DefaultOverlapID : Int) (EventID : Int)
    (a : FOverlapAbility) : FOverlapAbility :=
  let a1 := { a with Log := a.Log ++ [FAbilityNotification.RemoveConsumableEffect] }
  let Removed := RemoveTargets EventID DefaultOverlapID a1.TargetsMap
  let TargetCount := Removed.1
  let a2 := { a1 with TargetsMap := Removed.2 }
  let a3 := if ShouldSendMultihitEventOnCleanUp a2 then SendMultihitEvent EventID TargetCount a2
    else a2
  let a4 :=
    { a3 with
      EventDataMap := TMapRemove a3.EventDataMap EventID
      EventEffectsMap := TMapRemove a3.EventEffectsMap EventID
      ExecutedGameplayCues :=
        a3.ExecutedGameplayCues.filter (fun ID => !decide (ID.EventID = EventID)) }
  CleanUpEventQueueEmptied w a4

/-- Embeds `UBaseOverlapAbility::OnQueueTimerFinished`; `none` when a null pointer is
dereferenced. -/
def OnQueueTimerFinished (w : FAbilityView) (DefaultOverlapID : Int) (a : FOverlapAbility) :
    Option FOverlapAbility :=
  if hne : a.Scheduler.Queue = [] then some a
  else
    let Popped := a.Scheduler.Queue.getLast hne
    let a1 := { a with Scheduler := { a.Scheduler with Queue := a.Scheduler.Queue.dropLast } }
    match InitAbilityModifiedTags Popped.EventID a1 with
    | none => none
    | some a2 =>
      let Snapshot := CompensateOverlapLocation w a2 Popped
      match OnOverlapEvent w Snapshot a2 with
      | none => none
      | some a3 =>
        let a4 := { a3 with Scheduler := UpdateQueueTimer w.World a3.Scheduler }
        if ShouldCleanUpEvent Snapshot.EventID a4 then
          some (CleanUpEvent w DefaultOverlapID Snapshot.EventID a4)
        else some a4

/-- Embeds `UBaseOverlapAbility::OnIsntantQueueTimerFinished`; `none` when a null pointer is
dereferenced. -/
def OnIsntantQueueTimerFinished (w : FAbilityView) (DefaultOverlapID : Int)
    (a : FOverlapAbility) : Option FOverlapAbility :=
  if hne : a.Scheduler.InstantQueue = [] then some a
  else
    let Popped := a.Scheduler.InstantQueue.getLast hne
    let a1 :=
      { a with
        Scheduler := { a.Scheduler with InstantQueue := a.Scheduler.InstantQueue.dropLast } }
    match InitAbilityModifiedTags Popped.EventID a1 with
    | none => none
    | some a2 =>
      let Snapshot := CompensateOverlapLocation w a2 Popped
      match OnOverlapEvent w Snapshot a2 with
      | none => none
      | some a3 =>
        let a4 := { a3 with Scheduler := UpdateInstantQueueTimer w.World a3.Scheduler }
        if ShouldCleanUpEvent Snapshot.EventID a4 then
          some (CleanUpEvent w DefaultOverlapID Snapshot.EventID a4)
        else some a4

/-- The pointers that a handler dereferences for the event are valid: the event has an entry in
`EventDataMap` and in `EventEffectsMap` (`ProcessOverlapEvent` adds both before it queues the
snapshots), there is a world, and the event data has target data when the payload actors are
ignored. -/
def EventIsProcessable (w : FAbilityView) (EventID : Int) (a : FOverlapAbility) : Bool :=
  match TMapFind a.EventDataMap EventID with
  | none => false
  | some EventData =>
    (TMapFind a.EventEffectsMap EventID).isSome && w.World.isSome
      && (!a.bIgnorePayloadActors || EventData.TargetData.isSome)

/-- The snapshots that `OnOverlapEvent` was called with, in the order of the calls. -/
def ProcessedSnapshots (Log : List FAbilityNotification) : List FOverlapEventSnapshot :=
  Log.filterMap (fun it =>
    match it with
    | FAbilityNotification.OnOverlapEvent OverlapEventData => some OverlapEventData
    | _ => none)

/-- No bookkeeping of the event is left: no `TargetsMap` entry, no `EventDataMap` entry, no
`EventEffectsMap` entry and no executed gameplay cue with this `EventID`. -/
def BookkeepingRemoved (EventID : Int) (a : FOverlapAbility) : Prop :=
  (∀ it ∈ a.TargetsMap, it.1.EventID ≠ EventID) ∧
  TMapFind a.EventDataMap EventID = none ∧
  TMapFind a.EventEffectsMap EventID = none ∧
  (∀ ID ∈ a.ExecutedGameplayCues, ID.EventID ≠ EventID)

/-- The bookkeeping of the events other than `EventID` is the same in both states. -/
def SameOtherBookkeeping (EventID : Int) (a b : FOverlapAbility) : Prop :=
  a.TargetsMap.filter (fun it => !decide (it.1.EventID = EventID))
    = b.TargetsMap.filter (fun it => !decide (it.1.EventID = EventID)) ∧
  a.EventDataMap.filter (fun it => !decide (it.1 = EventID))
    = b.EventDataMap.filter (fun it => !decide (it.1 = EventID)) ∧
  a.EventEffectsMap.filter (fun it => !decide (it.1 = EventID))
    = b.EventEffectsMap.filter (fun it => !decide (it.1 = EventID)) ∧
  a.ExecutedGameplayCues.filter (fun ID => !decide (ID.EventID = EventID))
    = b.ExecutedGameplayCues.filter (fun ID => !decide (ID.EventID = EventID))

/-- Example snapshot of the given event at location zero and time zero. -/
def SnapshotOf (EventID OverlapID : Int) : FOverlapEventSnapshot :=
  ⟨EventID, OverlapID, (0, 0, 0), 0, 0, 0, 1, 1, (0, 0, 0)⟩

/-- Example view: a world at time zero in which the overlap query finds the actors 5 and 6,
except the ignored ones; no task of the ability is active. -/
def QuietView : FAbilityView :=
  { World := some 0
    AvatarLocation := (0, 0, 0)
    FilteredActors := fun _ IgnoreActors =>
      [5, 6].filter (fun it => !IgnoreActors.contains (some it))
    bHasAbilitySystemComponent := fun _ => true
    bHasActiveTask := false }

/-- Example state: an instant ability with the events 1 and 2 registered, the actor 9 already
targeted by the event 2, and the given instant queue. -/
def InstantAbility (InstantQueue : List FOverlapEventSnapshot) : FOverlapAbility :=
  { Duration := ⟨0, 0, 0, 0⟩
    AbilityTags := []
    bExecuteGameplayCueOnEveryPeriod := false
    bGameplayCueTagValid := true
    bIgnoreInitialTarget := false
    bIgnorePayloadActors := false
    Scheduler := ⟨[], InstantQueue, none, 0⟩
    TargetsMap := [(⟨2, 0⟩, [9])]
    EventDataMap := [(1, ⟨none, some []⟩), (2, ⟨none, some []⟩)]
    EventEffectsMap := [(1, 11), (2, 12)]
    ExecutedGameplayCues := [⟨2, 0⟩]
    Log := [] }

/-- What one step of a handler leaves as it is, for the event `EventID` that is processed: the
queues, the event data and the cached effect containers, the targets and the executed gameplay
cues of the other events, the snapshots processed so far, and the number of `OnQueueEmptied`
and `EndAbility` calls. -/
structure EventFrame (EventID : Int) (a b : FOverlapAbility) : Prop where
  hScheduler : b.Scheduler = a.Scheduler
  hEventDataMap : b.EventDataMap = a.EventDataMap
  hEventEffectsMap : b.EventEffectsMap = a.EventEffectsMap
  hTargetsMap : b.TargetsMap.filter (fun it => !decide (it.1.EventID = EventID))
    = a.TargetsMap.filter (fun it => !decide (it.1.EventID = EventID))
  hExecutedGameplayCues :
    b.ExecutedGameplayCues.filter (fun ID => !decide (ID.EventID = EventID))
      = a.ExecutedGameplayCues.filter (fun ID => !decide (ID.EventID = EventID))
  hProcessed : ProcessedSnapshots b.Log = ProcessedSnapshots a.Log
  hOnQueueEmptied :
    b.Log.count FAbilityNotification.OnQueueEmptied
      = a.Log.count FAbilityNotification.OnQueueEmptied
  hEndAbility :
    b.Log.count FAbilityNotification.EndAbility = a.Log.count FAbilityNotification.EndAbility

/-- Example state: the instant ability after the snapshot of the event 1 and then the snapshot
of the event 2 have been added to its empty instant queue. -/
def TwoEnqueued : FOverlapAbility :=
  { InstantAbility [] with
    Scheduler :=
      AddOverlapEventToInstantQueue (some 0) (SnapshotOf 2 0)
        (AddOverlapEventToInstantQueue (some 0) (SnapshotOf 1 0) ⟨[], [], none, 0⟩) }

/-- Follows the claim on the repetitions: the first `n` repetitions of the snapshots, the
`k`-th one with the activation times `t + FirstPeriodDelay + k * Period` and every other
field unchanged. -/
def RepeatedEvents (FirstPeriodDelay Period : ℚ) (Events : List FOverlapEventSnapshot) :
    Nat → List FOverlapEventSnapshot
  | 0 => []
  | n + 1 =>
    RepeatedEvents FirstPeriodDelay Period Events n ++
      Events.map (fun it =>
        { it with ActivationTime := it.ActivationTime + FirstPeriodDelay + (n : ℚ) * Period })

/-- Example scaling: the attribute for the tick duration scales every value to 0, the
other attributes leave the value. -/
def StoppedTickScale (Value : ℚ) (Attribute : FGameplayAttribute) : ℚ :=
  match Attribute with
  | .OutgoingTickDuration => 0
  | _ => Value

/-- Example state: an ability with individual targeting in which `AddTarget` has recorded the
actor 5 for the overlap instance 0 and the actor 6 for the overlap instance 1 of the event
1. -/
def IndividualAbility : FOverlapAbility :=
  { InstantAbility [] with
    AbilityTags := [.Ability_Targeting_IndividualTargeting]
    TargetsMap := AddTarget 1 1 6 (AddTarget 1 0 5 []) }

/-! ### The processing of an overlap event -/

/-- Embeds `FEventSnapshottedAttributes`. -/
structure FEventSnapshottedAttributes where
  DurationMultiplier : ℚ
  AreaMultiplier : ℚ
  InitialRadius : ℚ
  SpawnDelay : ℚ
  InitialAvatarLocation : ℚ × ℚ × ℚ
deriving DecidableEq, Repr

/-- What the engine and the overridable parts of the ability answer during one call of
`ProcessOverlapEvent`: `GetWorld()` seen as the current world time, the container spec that
`BuildContainerSpec` builds, the target data that `ProcessTargetDataForEvent` returns (for
each entry its origin, location and yaw, when `HasOrigin()`), `ScaleInterpolation.IsValid()`,
the attribute scaling `ScaleValueWithAttribute` of the ability, `GetBaseSpawnDelay`, the
first component of `GetAreaBoundsByLifeTime(0)`, the location of the avatar actor, and the
location and yaw of a snapshot that is constructed without values. -/
structure FProcessView where
  World : Option ℚ
  Spec : FGameplayEffectContainerSpec
  OutHandle : List (Option ((ℚ × ℚ × ℚ) × ℚ))
  bScaleInterpolationValid : Bool
  Scale : ℚ → FGameplayAttribute → ℚ
  BaseSpawnDelay : ℚ
  InitialRadius : ℚ
  AvatarLocation : ℚ × ℚ × ℚ
  DefaultLocation : ℚ × ℚ × ℚ
  DefaultYawRotation : ℚ

/-- Embeds `UBaseOverlapAbility::HasScaleInterp`. -/
def HasScaleInterp (pv : FProcessView) (a : FOverlapAbility) : Bool :=
  pv.bScaleInterpolationValid && decide (a.Duration.LifeSpan > 0)

/-- Embeds `UBaseOverlapAbility::GetSpawnDelay`. -/
def GetSpawnDelay (pv : FProcessView) : ℚ := pv.Scale pv.BaseSpawnDelay .SpawnDelay

/-- Embeds `UBaseOverlapAbility::ProcessEventAttributes`. -/
def ProcessEventAttributes (pv : FProcessView) : FEventSnapshottedAttributes :=
  { DurationMultiplier := pv.Scale 1 .OutgoingDuration
    AreaMultiplier := pv.Scale 1 .AreaOfEffect
    InitialRadius := pv.InitialRadius
    SpawnDelay := GetSpawnDelay pv
    InitialAvatarLocation := pv.AvatarLocation }

/-- The snapshot that the loop of `ProcessOverlapEvent` fills for the target data of index
`i`. -/
def MakeSnapshotEvent (pv : FProcessView) (SnapshotAttributes : FEventSnapshottedAttributes)
    (CurrentTime SpawnDelayInternal : ℚ) (EventID : Int) (i : Nat)
    (TargetData : Option ((ℚ × ℚ × ℚ) × ℚ)) : FOverlapEventSnapshot :=
  { EventID := EventID
    OverlapID := (i : Int)
    Location := match TargetData with
      | some Origin => Origin.1
      | none => pv.DefaultLocation
    YawRotation := match TargetData with
      | some Origin => Origin.2
      | none => pv.DefaultYawRotation
    ActivationTime := CurrentTime + (i : ℚ) * SpawnDelayInternal
    InitialEventTime := CurrentTime + (i : ℚ) * SpawnDelayInternal
    DurationMultiplier := SnapshotAttributes.DurationMultiplier
    AreaMultiplier := SnapshotAttributes.AreaMultiplier
    InitialAvatarLocation := SnapshotAttributes.InitialAvatarLocation }

/-- The copy that the loop of `ProcessOverlapEvent` adds for an ability with the tag
`Ability_SpawnBatch`. -/
def SpawnBatchCopy (SnapshotAttributes : FEventSnapshottedAttributes)
    (Event : FOverlapEventSnapshot) : FOverlapEventSnapshot :=
  { Event with
    ActivationTime := Event.ActivationTime + SnapshotAttributes.SpawnDelay
    OverlapID := Event.OverlapID + 10000 }

/-- The body of the loop of `ProcessOverlapEvent` after the snapshot is filled: the snapshots
that it adds to `EventSnapshots`. -/
def AddSnapshotEvent (pv : FProcessView) (a : FOverlapAbility)
    (SnapshotAttributes : FEventSnapshottedAttributes) (SnapshotEvent : FOverlapEventSnapshot)
    (EventSnapshots : List FOverlapEventSnapshot) : List FOverlapEventSnapshot :=
  if HasScaleInterp pv a && decide (a.Duration.Period ≤ 0) then
    let ExpandedEvents := (ExpandOverlapEvent a.Duration SnapshotEvent []).2
    if HasTag a.AbilityTags .Ability_SpawnBatch then
      EventSnapshots ++ ExpandedEvents ++ ExpandedEvents.map (SpawnBatchCopy SnapshotAttributes)
    else EventSnapshots ++ ExpandedEvents
  else
    if HasTag a.AbilityTags .Ability_SpawnBatch then
      EventSnapshots ++ [SnapshotEvent] ++ [SpawnBatchCopy SnapshotAttributes SnapshotEvent]
    else EventSnapshots ++ [SnapshotEvent]

/-- The loop `for (int32 i = 0; i < OutHandle.Num(); i++)` of `ProcessOverlapEvent`, from the
index `i` on. -/
def SnapshotLoop (pv : FProcessView) (a : FOverlapAbility)
    (SnapshotAttributes : FEventSnapshottedAttributes) (CurrentTime SpawnDelayInternal : ℚ)
    (EventID : Int) :
    Nat → List (Option ((ℚ × ℚ × ℚ) × ℚ)) → List FOverlapEventSnapshot →
      List FOverlapEventSnapshot
  | _, [], EventSnapshots => EventSnapshots
  | i, TargetData :: rest, EventSnapshots =>
    SnapshotLoop pv a SnapshotAttributes CurrentTime SpawnDelayInternal EventID (i + 1) rest
      (AddSnapshotEvent pv a SnapshotAttributes
        (MakeSnapshotEvent pv SnapshotAttributes CurrentTime SpawnDelayInternal EventID i
          TargetData)
        EventSnapshots)

/-- The block `if (Duration.ActivationDelay)` of `ProcessOverlapEvent`: the delayed snapshots,
and the ability after the gameplay cues. -/
def ApplyActivationDelay (pv : FProcessView) (a : FOverlapAbility)
    (EventSnapshots : List FOverlapEventSnapshot) :
    List FOverlapEventSnapshot × FOverlapAbility :=
  if a.Duration.ActivationDelay ≠ 0 then
    let ActivationDelay := pv.Scale a.Duration.ActivationDelay .OutgoingDuration
    let Delayed := EventSnapshots.map (fun it =>
      { it with
        InitialEventTime := it.InitialEventTime + ActivationDelay
        ActivationTime := it.ActivationTime + ActivationDelay })
    (Delayed,
      { a with
        Log := a.Log ++ Delayed.map (fun it =>
          FAbilityNotification.ExecuteGameplayCue ⟨it.EventID, it.OverlapID⟩)
        ExecutedGameplayCues := a.ExecutedGameplayCues ++ Delayed.map (fun it =>
          (⟨it.EventID, it.OverlapID⟩ : FOverlapEventID)) })
  else (EventSnapshots, a)

/-- The loop over `AddOverlapEventToQueue` at the end of `ProcessOverlapEvent`, and the call
of `UpdateQueueTimer` when one of the calls has returned true. -/
def QueueEventSnapshots (World : Option ℚ) (EventSnapshots : List FOverlapEventSnapshot)
    (s : FScheduler) : FScheduler :=
  let r := EventSnapshots.foldl
    (fun (acc : List FOverlapEventSnapshot × Bool) (Event : FOverlapEventSnapshot) =>
      ((AddOverlapEventToQueue acc.1 Event).1, (AddOverlapEventToQueue acc.1 Event).2 || acc.2))
    (s.Queue, false)
  if r.2 then UpdateQueueTimer World { s with Queue := r.1 } else { s with Queue := r.1 }

/-- Embeds `UBaseOverlapAbility::ProcessOverlapEvent`; `none` when `GetWorld()` is
dereferenced while null or when `GeneratePeriodicOverlapEvents` has not returned within
`fuel` iterations. -/
def ProcessOverlapEvent (pv : FProcessView) (fuel : Nat) (Payload : FGameplayEventData)
    (EventID : Int) (a : FOverlapAbility) : Option FOverlapAbility :=
  let a1 := { a with EventEffectsMap := TMapAdd a.EventEffectsMap EventID pv.Spec }
  let a2 := { a1 with EventDataMap := TMapAdd a1.EventDataMap EventID Payload }
  let SnapshotAttributes := ProcessEventAttributes pv
  match pv.World with
  | none => none
  | some CurrentTime =>
    let SpawnDelayInternal :=
      if HasTag a.AbilityTags .Ability_SpawnBatch then 0 else SnapshotAttributes.SpawnDelay
    let EventSnapshots :=
      SnapshotLoop pv a SnapshotAttributes CurrentTime SpawnDelayInternal EventID 0
        pv.OutHandle []
    let Delayed := ApplyActivationDelay pv a2 EventSnapshots
    match GeneratePeriodicOverlapEvents fuel pv.Scale a.Duration Delayed.1 with
    | none => none
    | some Generated =>
      if HasScaleInterp pv a || decide (SnapshotAttributes.SpawnDelay ≠ 0)
          || decide (a.Duration.Period ≠ 0) || decide (a.Duration.ActivationDelay ≠ 0) then
        some { Delayed.2 with
          Scheduler := QueueEventSnapshots pv.World Generated Delayed.2.Scheduler }
      else
        some { Delayed.2 with
          Scheduler :=
            AppendOverlapEventsToInstantQueue pv.World Generated Delayed.2.Scheduler }

/-- The invariant of the scheduler: every snapshot in the delayed queue or in the instant
queue has its `EventID` in `EventDataMap` and in `EventEffectsMap`. -/
def QueuedEventsHaveData (a : FOverlapAbility) : Bool :=
  (a.Scheduler.Queue ++ a.Scheduler.InstantQueue).all (fun it =>
    (TMapFind a.EventDataMap it.EventID).isSome
      && (TMapFind a.EventEffectsMap it.EventID).isSome)

/-- Example view: a world at time zero, two target data with an origin, no scaling and no
scale interpolation. -/
def PlainProcessView : FProcessView :=
  { World := some 0
    Spec := 21
    OutHandle := [some ((1, 0, 0), 0), some ((2, 0, 0), 90)]
    bScaleInterpolationValid := false
    Scale := UnscaledValue
    BaseSpawnDelay := 0
    InitialRadius := 100
    AvatarLocation := (0, 0, 0)
    DefaultLocation := (0, 0, 0)
    DefaultYawRotation := 0 }

/-- Example state: an ability that has not processed any event. -/
def FreshAbility : FOverlapAbility :=
  { InstantAbility [] with
    TargetsMap := []
    EventDataMap := []
    EventEffectsMap := []
    ExecutedGameplayCues := [] }

end UBaseOverlapAbility

namespace USpawnManager

/-! ### The spawn manager: the elements of a wave -/

/-- Embeds `UGameplayDataAICharacter` as `SpawnWave` reads it: the data asset, by its
identifier, and its `Score`. -/
structure UGameplayDataAICharacter where
  Asset : Nat
  Score : ℚ
deriving DecidableEq, Repr

/-- The rarity tag of a spawn queue element. -/
inductive ERarity where
  | Unit_Rarity_Magic
  | Unit_Rarity_Rare
deriving DecidableEq, Repr

/-- Embeds `FSpawnQueueElement` as the spawn manager uses it. `Amount` is a whole number of
units (an `int32`, which `CreateRares` counts down and compares with 1), `Rarity` is `none`
for the tag that is not valid, and `SpecificEffects` lists the random effects of the
element, by their identifiers. A new element has no rarity, no effects and
`RandomEffectsAmount = 0`. -/
structure FSpawnQueueElement where
  Character : UGameplayDataAICharacter
  Location : ℚ × ℚ × ℚ
  Level : Int
  Amount : Int
  Rarity : Option ERarity
  RandomEffectsAmount : Int
  SpecificEffects : List Nat
deriving DecidableEq, Repr

/-- The spawn manager as `SpawnWave` uses it. -/
structure FSpawnManager where
  EnemyPool : List UGameplayDataAICharacter
  Wave : Int
  LastRareWave : Int
  SpawnQueue : List FSpawnQueueElement
  bSpawnTimerActive : Bool
  EnsureFailures : Nat
deriving DecidableEq, Repr

/-- What the engine and the data answer during one call of `SpawnWave`: the draws of the
random stream, in the order they are made, the order that `Algo::Sort` leaves, the curves of
`SpawnData` evaluated at the wave, and the effect that `GetRandomEffect` returns for the
magic rarity. -/
structure FSpawnView where
  Random : Nat → Nat
  AlgoSort : List UGameplayDataAICharacter → List UGameplayDataAICharacter
  RareWaveSpacing : ℚ
  RareAmount : ℚ
  RareEffectsAmount : ℚ
  RandomEffect : Option Nat

/-- The engine function `UKismetMathLibrary::RandomIntegerInRange` on the draw `Raw` of the
random stream: a value between `Min` and `Max`, and `Min` when the range is empty. -/
def RandomIntegerInRange (Raw : Nat) (Min Max : Int) : Int :=
  if Max - Min + 1 > 0 then Min + (Raw : Int) % (Max - Min + 1) else Min

/-- Embeds `TArray::RemoveAtSwap`: the last element takes the place of the removed one. -/
def RemoveAtSwap {α : Type} (Array : List α) (Index : Nat) : List α :=
  match Array.getLast? with
  | none => Array
  | some Last => (Array.set Index Last).dropLast

/-- Embeds `TArray::operator[]` with an `int32` index; `none` when the index is out of the
bounds of the array. -/
def ArrayAt {α : Type} (Array : List α) (Index : Int) : Option α :=
  if 0 ≤ Index then Array[Index.toNat]? else none

/-- The number of iterations `i = 0, 1, ...` with `i < Bound` of a `for` loop over an `int32`
counter with a `float` bound. -/
def IterationsBelow (Bound : ℚ) : Nat := if Bound ≤ 0 then 0 else (⌈Bound⌉).toNat

/-- The loop of `SpawnWave` that draws the enemies from the pool, with `n` iterations left
from the counter `i` on; `none` when `Pool[Index]` is out of bounds. -/
def PickEnemies (Random : Nat → Nat) :
    Nat → Nat → List UGameplayDataAICharacter → List UGameplayDataAICharacter →
      Option (List UGameplayDataAICharacter)
  | 0, _, _, Enemies => some Enemies
  | n + 1, i, Pool, Enemies =>
    let Index := RandomIntegerInRange (Random i) 0 ((Pool.length : Int) - 1)
    match ArrayAt Pool Index with
    | none => none
    | some Enemy =>
      if (RemoveAtSwap Pool Index.toNat).isEmpty then some (Enemies ++ [Enemy])
      else PickEnemies Random n (i + 1) (RemoveAtSwap Pool Index.toNat) (Enemies ++ [Enemy])

/-- The variables of the loop of `SpawnWave` that calculates the amounts. -/
structure FAmountLoop where
  RemainingScore : ℚ
  Variety : ℚ
  EnemiesToSpawn : List FSpawnQueueElement
  EnsureFailures : Nat
deriving DecidableEq, Repr

/-- The body of the loop of `SpawnWave` that calculates the amounts, in the arithmetic on
`float`: every quotient, product and difference is rounded to a `float`, and so is the
`int32` `Amount` before it is multiplied with the score; the conversion of the quotient to
the `int32` `Amount` rounds towards zero. -/
def AddElement (Wave : Int) (Location : ℚ × ℚ × ℚ) (st : FAmountLoop)
    (Enemy : UGameplayDataAICharacter) : FAmountLoop :=
  let EnemyScore := RoundToFloat (st.RemainingScore / st.Variety)
  let Amount : Int := TruncToInt (RoundToFloat (EnemyScore / Enemy.Score))
  let UsedScore : ℚ := RoundToFloat (RoundToFloat (Amount : ℚ) * Enemy.Score)
  { RemainingScore := RoundToFloat (st.RemainingScore - UsedScore)
    Variety := RoundToFloat (st.Variety - 1)
    EnemiesToSpawn := st.EnemiesToSpawn ++
      [{ Character := Enemy
         Location := Location
         Level := Wave
         Amount := Amount
         Rarity := none
         RandomEffectsAmount := 0
         SpecificEffects := [] }]
    EnsureFailures := if Amount ≥ 1 then st.EnsureFailures else st.EnsureFailures + 1 }

/-- The leftover-carry rule of the specification, in exact arithmetic: the element gets the
floor of (remaining score / remaining variety) / character score, and the score that it does
not use is carried to the next element. -/
def AddElementExact (Wave : Int) (Location : ℚ × ℚ × ℚ) (st : FAmountLoop)
    (Enemy : UGameplayDataAICharacter) : FAmountLoop :=
  let EnemyScore := st.RemainingScore / st.Variety
  let Amount : Int := TruncToInt (EnemyScore / Enemy.Score)
  let UsedScore : ℚ := (Amount : ℚ) * Enemy.Score
  { RemainingScore := st.RemainingScore - UsedScore
    Variety := st.Variety - 1
    EnemiesToSpawn := st.EnemiesToSpawn ++
      [{ Character := Enemy
         Location := Location
         Level := Wave
         Amount := Amount
         Rarity := none
         RandomEffectsAmount := 0
         SpecificEffects := [] }]
    EnsureFailures := if Amount ≥ 1 then st.EnsureFailures else st.EnsureFailures + 1 }

/-- The enemies that `SpawnWave` draws and sorts: the pool without the enemies whose score
is above `ScorePerEnemy`, the quotient `Score / Variety` of the arithmetic on `float`, the
draws, and the sort when more than one enemy was drawn. -/
def SortedEnemies (v : FSpawnView) (m : FSpawnManager) (Score Variety : ℚ) :
    Option (List UGameplayDataAICharacter) :=
  let ScorePerEnemy := RoundToFloat (Score / Variety)
  let Pool := m.EnemyPool.filter (fun PooledEnemy => !decide (PooledEnemy.Score > ScorePerEnemy))
  match PickEnemies v.Random (IterationsBelow Variety) 0 Pool [] with
  | none => none
  | some Enemies => if Enemies.length > 1 then some (v.AlgoSort Enemies) else some Enemies

/-- The part of `SpawnWave` before `ShouldCreateRares`: the variables of the amount loop
after the loop; `none` when `Pool[Index]` is out of bounds. -/
def CalculateAmounts (v : FSpawnView) (m : FSpawnManager) (Score Variety : ℚ)
    (Location : ℚ × ℚ × ℚ) : Option FAmountLoop :=
  match SortedEnemies v m Score Variety with
  | none => none
  | some Enemies =>
    some (Enemies.foldl (AddElement m.Wave Location) ⟨Score, Variety, [], m.EnsureFailures⟩)

/-- Embeds `USpawnManager::ShouldCreateRares`. -/
def ShouldCreateRares (v : FSpawnView) (m : FSpawnManager) : Bool :=
  decide ((m.Wave : ℚ) ≥ RoundToFloat ((m.LastRareWave : ℚ) + v.RareWaveSpacing))

/-- The variables of the loop of `CreateRares`. -/
structure FRareLoop where
  Enemies : List FSpawnQueueElement
  RareElements : List FSpawnQueueElement
deriving DecidableEq, Repr

/-- The loop of `CreateRares`, with `n` iterations left; `Draw` is the number of draws of the
random stream made so far; `none` when `Enemies[Index]` is out of bounds. -/
def CreateRaresLoop (v : FSpawnView) :
    Nat → Nat → FRareLoop → Option FRareLoop
  | 0, _, st => some st
  | n + 1, Draw, st =>
    let Index := RandomIntegerInRange (v.Random Draw) 0 ((st.Enemies.length : Int) - 1)
    match ArrayAt st.Enemies Index with
    | none => none
    | some Element =>
      let RareElement : FSpawnQueueElement :=
        { Element with
          Amount := 1
          Rarity := some .Unit_Rarity_Rare
          RandomEffectsAmount := TruncToInt v.RareEffectsAmount }
      let Enemies :=
        if Element.Amount = 1 then st.Enemies.eraseIdx Index.toNat
        else st.Enemies.set Index.toNat { Element with Amount := Element.Amount - 1 }
      if Enemies.isEmpty then
        some ⟨Enemies, st.RareElements ++ [RareElement]⟩
      else CreateRaresLoop v n (Draw + 1) ⟨Enemies, st.RareElements ++ [RareElement]⟩

/-- Embeds `USpawnManager::CreateRares`: the array `Enemies` after the call; `Draw` is the
number of draws of the random stream made before. -/
def CreateRares (v : FSpawnView) (Draw : Nat) (Enemies : List FSpawnQueueElement) :
    Option (List FSpawnQueueElement) :=
  match CreateRaresLoop v (IterationsBelow v.RareAmount) Draw ⟨Enemies, []⟩ with
  | none => none
  | some st =>
    let Magic :=
      match v.RandomEffect with
      | some Effect =>
        st.Enemies.map (fun It =>
          { It with
            Rarity := some .Unit_Rarity_Magic
            SpecificEffects := It.SpecificEffects ++ [Effect] })
      | none => st.Enemies
    some (Magic ++ st.RareElements)

/-- Embeds `USpawnManager::AddEnemiesToQueue`. -/
def AddEnemiesToQueue (Enemies : List FSpawnQueueElement) (m : FSpawnManager) :
    FSpawnManager :=
  if Enemies.isEmpty then m
  else { m with SpawnQueue := m.SpawnQueue ++ Enemies, bSpawnTimerActive := true }

/-- The array `EnemiesToSpawn` that `SpawnWave` hands to `AddEnemiesToQueue`, and the manager
at that point; `none` when an array is read out of its bounds. -/
def SpawnWaveElements (v : FSpawnView) (m : FSpawnManager) (Score Variety : ℚ)
    (Location : ℚ × ℚ × ℚ) : Option (List FSpawnQueueElement × FSpawnManager) :=
  match CalculateAmounts v m Score Variety Location with
  | none => none
  | some st =>
    let m1 := { m with EnsureFailures := st.EnsureFailures }
    if ShouldCreateRares v m1 then
      match CreateRares v st.EnemiesToSpawn.length st.EnemiesToSpawn with
      | none => none
      | some Enemies => some (Enemies, { m1 with LastRareWave := m1.Wave })
    else some (st.EnemiesToSpawn, m1)

/-- Embeds `USpawnManager::SpawnWave`; `none` when an array is read out of its bounds. -/
def SpawnWave (v : FSpawnView) (m : FSpawnManager) (Score Variety : ℚ)
    (Location : ℚ × ℚ × ℚ) : Option FSpawnManager :=
  match SpawnWaveElements v m Score Variety Location with
  | none => none
  | some r => some (AddEnemiesToQueue r.1 r.2)

/-- The sum over the elements of `Amount` times the score of the character. -/
def UsedScore (Elements : List FSpawnQueueElement) : ℚ :=
  (Elements.map (fun Element => (Element.Amount : ℚ) * Element.Character.Score)).sum

/-- The pooled enemies that the wave can afford, as the claim has it: those with
`Score <= Score / Variety`, the exact quotient. -/
def Affordable (m : FSpawnManager) (Score Variety : ℚ) : List UGameplayDataAICharacter :=
  m.EnemyPool.filter (fun PooledEnemy => decide (PooledEnemy.Score ≤ Score / Variety))

/-- Example view: every draw is 0, the sort is the insertion sort by descending score, and
the wave is not a rare wave. -/
def PlainSpawnView : FSpawnView :=
  { Random := fun _ => 0
    AlgoSort := List.insertionSort (fun A B => A.Score ≥ B.Score)
    RareWaveSpacing := 100
    RareAmount := 0
    RareEffectsAmount := 0
    RandomEffect := none }

/-- Example view: as the plain view, but every wave is a rare wave with one rare. -/
def RareSpawnView : FSpawnView :=
  { PlainSpawnView with RareWaveSpacing := 0, RareAmount := 1, RareEffectsAmount := 2 }

/-- Example manager at wave 3 with a pool of four enemies of the scores 10, 25, 30 and 7. -/
def FourEnemies : FSpawnManager :=
  { EnemyPool := [⟨1, 10⟩, ⟨2, 25⟩, ⟨3, 30⟩, ⟨4, 7⟩]
    Wave := 3
    LastRareWave := 0
    SpawnQueue := []
    bSpawnTimerActive := false
    EnsureFailures := 0 }

/-- Example manager at wave 3 with a pool of three enemies whose score is the `float` nearest
to 0.7. -/
def TenthsPool : FSpawnManager :=
  { FourEnemies with
    EnemyPool :=
      [⟨1, RoundToFloat (7 / 10)⟩, ⟨2, RoundToFloat (7 / 10)⟩, ⟨3, RoundToFloat (7 / 10)⟩] }

/-- Example view: as the plain view, but every draw is 1. -/
def SecondDrawView : FSpawnView :=
  { PlainSpawnView with Random := fun _ => 1 }

/-- Example manager: the pool of three enemies whose score is the `float` nearest to 0.7,
preceded by an enemy of score 0.5. -/
def HalfAndTenthsPool : FSpawnManager :=
  { TenthsPool with EnemyPool := ⟨4, 1 / 2⟩ :: TenthsPool.EnemyPool }

/-- Example manager whose pool lists the same enemy twice. -/
def TwinPool : FSpawnManager :=
  { FourEnemies with EnemyPool := [⟨1, 10⟩, ⟨1, 10⟩] }

end USpawnManager

/-! ## Rounding towards zero -/

theorem TruncToInt_of_nonneg (x : ℚ) (hx : 0 ≤ x) : TruncToInt x = ⌊x⌋ := by
  unfold TruncToInt
  rw [Rat.floor_def]
  have hnum : 0 ≤ x.num := Rat.num_nonneg.mpr hx
  exact Int.tdiv_eq_ediv hnum (by positivity)

theorem TruncToInt_neg (x : ℚ) : TruncToInt (-x) = -TruncToInt x := by
  unfold TruncToInt
  simp [Int.neg_tdiv]

theorem TruncToInt_of_nonpos (x : ℚ) (hx : x ≤ 0) : TruncToInt x = ⌈x⌉ := by
  have h := TruncToInt_of_nonneg (-x) (by linarith)
  rw [TruncToInt_neg, Int.floor_neg] at h
  omega

/-! ## The rounding of the arithmetic on `float` -/

theorem RoundHalfToEven_sub_le (x : ℚ) : |(RoundHalfToEven x : ℚ) - x| ≤ 1 / 2 := by
  have h1 := Int.floor_le x
  have h2 := Int.lt_floor_add_one x
  unfold RoundHalfToEven
  rw [abs_le]
  split_ifs with a b c
  · constructor <;> linarith
  · push_cast
    constructor <;> linarith
  · constructor <;> linarith
  · push_cast
    constructor <;> linarith

theorem RoundHalfToEven_intCast (m : Int) : RoundHalfToEven (m : ℚ) = m := by
  unfold RoundHalfToEven
  rw [Int.floor_intCast, sub_self, if_pos (by norm_num)]

theorem BinaryDigits_spec (fuel : Nat) :
    ∀ n : Nat, n ≤ fuel → n ≠ 0 →
      2 ^ (BinaryDigits fuel n - 1) ≤ n ∧ n < 2 ^ BinaryDigits fuel n := by
  induction fuel with
  | zero =>
    intro n h1 h2
    omega
  | succ fuel ih =>
    intro n h1 h2
    unfold BinaryDigits
    rw [if_neg h2]
    by_cases h0 : n / 2 = 0
    · have hn : n = 1 := by omega
      have hz : BinaryDigits fuel (n / 2) = 0 := by
        rw [h0]
        cases fuel <;> simp [BinaryDigits]
      rw [hz, hn]
      simp
    · obtain ⟨i1, i2⟩ := ih (n / 2) (by omega) h0
      have hd : 1 ≤ BinaryDigits fuel (n / 2) := by
        rcases Nat.eq_zero_or_pos (BinaryDigits fuel (n / 2)) with h | h
        · rw [h] at i2
          omega
        · exact h
      have e1 : BinaryDigits fuel (n / 2) + 1 - 1 = (BinaryDigits fuel (n / 2) - 1) + 1 := by
        omega
      rw [e1, pow_succ, pow_succ]
      constructor <;> omega

theorem BinaryExponent_le (x : ℚ) (hx : x ≠ 0) : (2 : ℚ) ^ BinaryExponent x ≤ |x| := by
  unfold BinaryExponent
  split_ifs with h
  · exact h
  · have hn : x.num.natAbs ≠ 0 := by
      rw [Ne, Int.natAbs_eq_zero, Rat.num_eq_zero]
      exact hx
    obtain ⟨n1, -⟩ := BinaryDigits_spec x.num.natAbs x.num.natAbs (le_refl _) hn
    obtain ⟨-, d2⟩ := BinaryDigits_spec x.den x.den (le_refl _) x.den_nz
    have hn1 : 1 ≤ BinaryDigits x.num.natAbs x.num.natAbs := by
      obtain ⟨-, n2⟩ := BinaryDigits_spec x.num.natAbs x.num.natAbs (le_refl _) hn
      rcases Nat.eq_zero_or_pos (BinaryDigits x.num.natAbs x.num.natAbs) with h0 | h0
      · rw [h0] at n2
        omega
      · exact h0
    have h1 : (2 : ℚ) ^ (BinaryDigits x.num.natAbs x.num.natAbs - 1) ≤ (x.num.natAbs : ℚ) := by
      exact_mod_cast n1
    have h2 : (x.den : ℚ) < (2 : ℚ) ^ (BinaryDigits x.den x.den) := by
      exact_mod_cast d2
    have hd : (0 : ℚ) < x.den := by exact_mod_cast x.den_pos
    have habs : |x| = (x.num.natAbs : ℚ) / x.den := by
      conv_lhs => rw [← Rat.num_div_den x]
      rw [abs_div, abs_of_pos hd, Nat.cast_natAbs, Int.cast_abs]
    rw [habs, le_div_iff₀ hd]
    have h3 : (2 : ℚ) ^ ((BinaryDigits x.num.natAbs x.num.natAbs : Int)
          - (BinaryDigits x.den x.den : Int) - 1)
        * (2 : ℚ) ^ (BinaryDigits x.den x.den)
        = (2 : ℚ) ^ (BinaryDigits x.num.natAbs x.num.natAbs - 1) := by
      rw [← zpow_natCast (2 : ℚ) (BinaryDigits x.den x.den),
        ← zpow_add₀ (by norm_num : (2 : ℚ) ≠ 0),
        ← zpow_natCast (2 : ℚ) (BinaryDigits x.num.natAbs x.num.natAbs - 1)]
      congr 1
      omega
    have hp : (0 : ℚ) < (2 : ℚ) ^ ((BinaryDigits x.num.natAbs x.num.natAbs : Int)
        - (BinaryDigits x.den x.den : Int) - 1) :=
      zpow_pos (by norm_num) _
    calc (2 : ℚ) ^ ((BinaryDigits x.num.natAbs x.num.natAbs : Int)
            - (BinaryDigits x.den x.den : Int) - 1) * x.den
        ≤ (2 : ℚ) ^ ((BinaryDigits x.num.natAbs x.num.natAbs : Int)
            - (BinaryDigits x.den x.den : Int) - 1) * (2 : ℚ) ^ (BinaryDigits x.den x.den) :=
          mul_le_mul_of_nonneg_left (le_of_lt h2) (le_of_lt hp)
      _ = (2 : ℚ) ^ (BinaryDigits x.num.natAbs x.num.natAbs - 1) := h3
      _ ≤ (x.num.natAbs : ℚ) := h1

/-- The relative error of the rounding to `float` is at most `2 ^ -24`. -/
theorem abs_RoundToFloat_sub_le (x : ℚ) : |RoundToFloat x - x| ≤ |x| / 2 ^ 24 := by
  unfold RoundToFloat
  split_ifs with h0
  · rw [h0]
    simp
  · have hu : (0 : ℚ) < 2 ^ (BinaryExponent x - 23) := zpow_pos (by norm_num) _
    have hr := RoundHalfToEven_sub_le (x / 2 ^ (BinaryExponent x - 23))
    have hE := BinaryExponent_le x h0
    have hsplit : (2 : ℚ) ^ (BinaryExponent x - 23) = 2 ^ BinaryExponent x / 2 ^ 23 := by
      rw [zpow_sub₀ (by norm_num : (2 : ℚ) ≠ 0)]
      norm_num
    have h1 : (RoundHalfToEven (x / 2 ^ (BinaryExponent x - 23)) : ℚ)
          * 2 ^ (BinaryExponent x - 23) - x
        = ((RoundHalfToEven (x / 2 ^ (BinaryExponent x - 23)) : ℚ)
            - x / 2 ^ (BinaryExponent x - 23)) * 2 ^ (BinaryExponent x - 23) := by
      rw [sub_mul, div_mul_cancel₀ _ (ne_of_gt hu)]
    rw [h1, abs_mul, abs_of_pos hu]
    have h2 : |(RoundHalfToEven (x / 2 ^ (BinaryExponent x - 23)) : ℚ)
        - x / 2 ^ (BinaryExponent x - 23)| * 2 ^ (BinaryExponent x - 23)
        ≤ 1 / 2 * 2 ^ (BinaryExponent x - 23) :=
      mul_le_mul_of_nonneg_right hr (le_of_lt hu)
    have h3 : (1 : ℚ) / 2 * 2 ^ (BinaryExponent x - 23) ≤ |x| / 2 ^ 24 := by
      rw [hsplit]
      have : (1 : ℚ) / 2 * (2 ^ BinaryExponent x / 2 ^ 23) = 2 ^ BinaryExponent x / 2 ^ 24 := by
        norm_num
        ring
      rw [this]
      exact div_le_div_of_nonneg_right hE (by norm_num)
    exact h2.trans h3

theorem RoundToFloat_nonneg (x : ℚ) (hx : 0 ≤ x) : 0 ≤ RoundToFloat x := by
  have h := abs_RoundToFloat_sub_le x
  rw [abs_of_nonneg hx, abs_le] at h
  have : x / 2 ^ 24 ≤ x := div_le_self hx (by norm_num)
  linarith [h.1]

theorem RoundToFloat_nonpos (x : ℚ) (hx : x ≤ 0) : RoundToFloat x ≤ 0 := by
  have h := abs_RoundToFloat_sub_le x
  rw [abs_of_nonpos hx, abs_le] at h
  have : -x / 2 ^ 24 ≤ -x := div_le_self (by linarith) (by norm_num)
  linarith [h.2]

theorem abs_RoundToFloat_le (x : ℚ) : |RoundToFloat x| ≤ |x| + |x| / 2 ^ 24 := by
  have h := abs_RoundToFloat_sub_le x
  have h2 : |RoundToFloat x| ≤ |RoundToFloat x - x| + |x| := by
    have := abs_add (RoundToFloat x - x) x
    simpa using this
  linarith

/-- The quotient of a rounded difference by a positive number, rounded: the relative error is
at most `3 / 2 ^ 24`. -/
theorem RoundToFloat_div_RoundToFloat_sub_le (d P : ℚ) (hP : 0 < P) :
    |RoundToFloat (RoundToFloat d / P) - d / P| ≤ 3 * |d / P| / 2 ^ 24 := by
  have h1 := abs_RoundToFloat_sub_le d
  have h2 := abs_RoundToFloat_sub_le (RoundToFloat d / P)
  have h3 := abs_RoundToFloat_le d
  have e1 : |RoundToFloat d / P - d / P| = |RoundToFloat d - d| / P := by
    rw [← sub_div, abs_div, abs_of_pos hP]
  have e2 : |RoundToFloat d / P| = |RoundToFloat d| / P := by
    rw [abs_div, abs_of_pos hP]
  have e3 : |d / P| = |d| / P := by
    rw [abs_div, abs_of_pos hP]
  have t : |RoundToFloat (RoundToFloat d / P) - d / P|
      ≤ |RoundToFloat (RoundToFloat d / P) - RoundToFloat d / P|
        + |RoundToFloat d / P - d / P| := by
    have := abs_add (RoundToFloat (RoundToFloat d / P) - RoundToFloat d / P)
      (RoundToFloat d / P - d / P)
    simpa using this
  have a1 : |RoundToFloat d - d| / P ≤ |d| / 2 ^ 24 / P :=
    div_le_div_of_nonneg_right h1 (le_of_lt hP)
  have a2 : |RoundToFloat d| / P ≤ (|d| + |d| / 2 ^ 24) / P :=
    div_le_div_of_nonneg_right h3 (le_of_lt hP)
  rw [e2] at h2
  rw [e1] at t
  rw [e3]
  have hx : 0 ≤ |d| / P := div_nonneg (abs_nonneg d) (le_of_lt hP)
  have a3 : |RoundToFloat d| / P / 2 ^ 24 ≤ (|d| + |d| / 2 ^ 24) / P / 2 ^ 24 :=
    div_le_div_of_nonneg_right a2 (by norm_num)
  have key : |d| / 2 ^ 24 / P + (|d| + |d| / 2 ^ 24) / P / 2 ^ 24 ≤ 3 * (|d| / P) / 2 ^ 24 := by
    have : |d| / 2 ^ 24 / P + (|d| + |d| / 2 ^ 24) / P / 2 ^ 24
        = (|d| / P) * (2 / 2 ^ 24 + 1 / 2 ^ 48) := by
      field_simp
      ring
    rw [this]
    have : 3 * (|d| / P) / 2 ^ 24 = (|d| / P) * (3 / 2 ^ 24) := by ring
    rw [this]
    exact mul_le_mul_of_nonneg_left (by norm_num) hx
  linarith

/-- A whole number below `2 ^ 24` in absolute value is a `float`. -/
theorem RoundToFloat_intCast (n : Int) (hn : |n| < 2 ^ 24) : RoundToFloat (n : ℚ) = n := by
  unfold RoundToFloat
  split_ifs with h0
  · exact h0.symm
  · have hE := BinaryExponent_le (n : ℚ) h0
    have hlt : |(n : ℚ)| < (2 : ℚ) ^ (24 : Int) := by
      have : ((|n| : Int) : ℚ) < ((2 ^ 24 : Int) : ℚ) := by exact_mod_cast hn
      rw [Int.cast_abs] at this
      norm_num at this ⊢
      exact this
    have he : BinaryExponent (n : ℚ) < 24 := by
      by_contra hc
      have h24 : (2 : ℚ) ^ (24 : Int) ≤ 2 ^ BinaryExponent (n : ℚ) :=
        zpow_le_zpow_right₀ (by norm_num) (not_lt.mp hc)
      linarith
    obtain ⟨k, hk⟩ : ∃ k : Nat, BinaryExponent (n : ℚ) - 23 = -(k : Int) :=
      ⟨(23 - BinaryExponent (n : ℚ)).toNat, by omega⟩
    rw [hk, zpow_neg, zpow_natCast]
    have hpos : (0 : ℚ) < 2 ^ k := pow_pos (by norm_num) k
    have hq : (n : ℚ) / (2 ^ k)⁻¹ = ((n * 2 ^ k : Int) : ℚ) := by
      rw [div_inv_eq_mul]
      push_cast
      ring
    rw [hq, RoundHalfToEven_intCast]
    push_cast
    rw [mul_assoc, mul_inv_cancel₀ (ne_of_gt hpos), mul_one]

theorem RoundToFloat_natCast (n : Nat) (hn : n < 2 ^ 24) : RoundToFloat (n : ℚ) = n := by
  have h := RoundToFloat_intCast (n : Int) (by
    rw [abs_of_nonneg (Int.natCast_nonneg n)]
    exact_mod_cast hn)
  simpa using h

theorem TruncToInt_natCast (n : Nat) : TruncToInt (n : ℚ) = n := by
  rw [TruncToInt_of_nonneg _ (Nat.cast_nonneg n)]
  exact Int.floor_natCast n

/-- The amount that the arithmetic on `float` gives for whole numbers: for a remaining score
`r` of at most `2 ^ 22`, a variety `v` and a score `k`, the quotient rounded twice and then
towards zero is the whole quotient `r / (v * k)`. -/
theorem TruncToInt_RoundToFloat_quotient (r v k : Nat) (hv : 1 ≤ v) (hk : 1 ≤ k)
    (hr : r ≤ 2 ^ 22) :
    TruncToInt (RoundToFloat (RoundToFloat ((r : ℚ) / v) / k)) = ((r / (v * k) : Nat) : Int) ∧
    TruncToInt ((r : ℚ) / v / k) = ((r / (v * k) : Nat) : Int) := by
  have hD : 0 < v * k := Nat.mul_pos hv hk
  have hvq : (0 : ℚ) < v := by exact_mod_cast hv
  have hkq : (0 : ℚ) < k := by exact_mod_cast hk
  have hDq : (0 : ℚ) < (v : ℚ) * k := mul_pos hvq hkq
  have hdm := Nat.div_add_mod r (v * k)
  have hmlt := Nat.mod_lt r hD
  set n := r / (v * k) with hn
  set m := r % (v * k) with hm
  have hrq : (r : ℚ) = (v : ℚ) * k * n + m := by
    have : ((v * k * n + m : Nat) : ℚ) = (r : ℚ) := by rw [hdm]
    push_cast at this
    linarith
  have ht : (r : ℚ) / v / k = n + (m : ℚ) / ((v : ℚ) * k) := by
    rw [hrq]
    field_simp
    ring
  have hm0 : (0 : ℚ) ≤ (m : ℚ) / ((v : ℚ) * k) := div_nonneg (Nat.cast_nonneg m) (le_of_lt hDq)
  have hm1 : (m : ℚ) / ((v : ℚ) * k) < 1 := by
    rw [div_lt_one hDq]
    exact_mod_cast hmlt
  have hexact : TruncToInt ((r : ℚ) / v / k) = (n : Int) := by
    rw [TruncToInt_of_nonneg _ (by rw [ht]; positivity), ht]
    rw [Int.floor_eq_iff]
    push_cast
    constructor <;> linarith
  refine ⟨?_, hexact⟩
  by_cases h0 : m = 0
  · -- the quotient is a whole number
    have e1 : (r : ℚ) / v = ((n * k : Nat) : ℚ) := by
      rw [hrq, h0]
      push_cast
      field_simp
      ring
    have hnk : n * k < 2 ^ 24 := by
      have : n * k ≤ r := by
        have h1 : v * k * n ≤ r := by omega
        calc n * k = 1 * (k * n) := by ring
          _ ≤ v * (k * n) := Nat.mul_le_mul_right _ hv
          _ = v * k * n := by ring
          _ ≤ r := h1
      have : r < 2 ^ 24 := lt_of_le_of_lt hr (by norm_num)
      omega
    have hn24 : n < 2 ^ 24 := by
      have : n ≤ n * k := Nat.le_mul_of_pos_right n hk
      omega
    rw [e1, RoundToFloat_natCast _ hnk]
    have e2 : ((n * k : Nat) : ℚ) / k = (n : ℚ) := by
      push_cast
      field_simp
    rw [e2, RoundToFloat_natCast _ hn24, TruncToInt_natCast]
  · -- the quotient lies between two whole numbers, at a distance of 1 / (v * k) at least
    have hm1' : (1 : ℚ) ≤ m := by
      have : 1 ≤ m := Nat.one_le_iff_ne_zero.mpr h0
      exact_mod_cast this
    have hmD : (m : ℚ) + 1 ≤ (v : ℚ) * k := by
      have : m + 1 ≤ v * k := hmlt
      exact_mod_cast this
    have herr := RoundToFloat_div_RoundToFloat_sub_le ((r : ℚ) / v) k hkq
    have htpos : (0 : ℚ) ≤ (r : ℚ) / v / k := by positivity
    rw [abs_of_nonneg htpos, abs_le] at herr
    have hr24 : (3 : ℚ) * r < 2 ^ 24 := by
      have : 3 * r < 2 ^ 24 := by
        have : r ≤ 2 ^ 22 := hr
        omega
      exact_mod_cast this
    -- 3 t / 2^24 < 1 / (v k)
    have hsmall : 3 * ((r : ℚ) / v / k) / 2 ^ 24 < 1 / ((v : ℚ) * k) := by
      have e : 3 * ((r : ℚ) / v / k) / 2 ^ 24 = (3 * r / 2 ^ 24) / ((v : ℚ) * k) := by
        ring
      rw [e]
      apply div_lt_div_of_pos_right _ hDq
      rw [div_lt_one (by norm_num)]
      exact hr24
    have hlow : (1 : ℚ) / ((v : ℚ) * k) ≤ (m : ℚ) / ((v : ℚ) * k) :=
      div_le_div_of_nonneg_right hm1' (le_of_lt hDq)
    have hhigh : (m : ℚ) / ((v : ℚ) * k) ≤ 1 - 1 / ((v : ℚ) * k) := by
      rw [le_sub_iff_add_le, ← add_div, div_le_one hDq]
      exact hmD
    have hq0 : 0 ≤ RoundToFloat (RoundToFloat ((r : ℚ) / v) / k) :=
      RoundToFloat_nonneg _ (div_nonneg (RoundToFloat_nonneg _ (by positivity)) (le_of_lt hkq))
    rw [TruncToInt_of_nonneg _ hq0, Int.floor_eq_iff]
    push_cast
    rw [ht] at herr hsmall
    constructor <;> linarith [herr.1, herr.2]

/-- The comparison of the filter of `SpawnWave` for whole numbers: a whole score is above the
quotient of the arithmetic on `float` exactly when it is above the exact quotient. -/
theorem whole_gt_RoundToFloat_div (N v k : Nat) (hv : 1 ≤ v) (hN : N < 2 ^ 24) :
    ((k : ℚ) > RoundToFloat ((N : ℚ) / v)) ↔ ((k : ℚ) > (N : ℚ) / v) := by
  have hvq : (0 : ℚ) < v := by exact_mod_cast hv
  have herr := abs_RoundToFloat_sub_le ((N : ℚ) / v)
  have hpos : (0 : ℚ) ≤ (N : ℚ) / v := by positivity
  rw [abs_of_nonneg hpos, abs_le] at herr
  have hN24 : (N : ℚ) < 2 ^ 24 := by exact_mod_cast hN
  have hsmall : (N : ℚ) / v / 2 ^ 24 < 1 / v := by
    have e : (N : ℚ) / v / 2 ^ 24 = (N / 2 ^ 24) / v := by
      ring
    rw [e]
    apply div_lt_div_of_pos_right _ hvq
    rw [div_lt_one (by norm_num)]
    exact hN24
  rcases Nat.lt_trichotomy (k * v) N with h | h | h
  · -- k v + 1 <= N
    have h1 : (k : ℚ) + 1 / v ≤ (N : ℚ) / v := by
      rw [le_div_iff₀ hvq, add_mul, one_div, inv_mul_cancel₀ (ne_of_gt hvq)]
      have : k * v + 1 ≤ N := h
      exact_mod_cast this
    constructor
    · intro hgt
      linarith [herr.1]
    · intro hgt
      linarith
  · have e : (N : ℚ) / v = ((k : Nat) : ℚ) := by
      rw [← h]
      push_cast
      field_simp
    have hk24 : k < 2 ^ 24 := by
      have : k ≤ k * v := Nat.le_mul_of_pos_right k hv
      omega
    rw [e, RoundToFloat_natCast _ hk24]
  · have h1 : (N : ℚ) / v ≤ (k : ℚ) - 1 / v := by
      rw [div_le_iff₀ hvq, sub_mul, one_div, inv_mul_cancel₀ (ne_of_gt hvq)]
      have : N + 1 ≤ k * v := h
      have : ((N + 1 : Nat) : ℚ) ≤ ((k * v : Nat) : ℚ) := by exact_mod_cast this
      push_cast at this
      linarith
    constructor
    · intro _
      linarith
    · intro _
      linarith [herr.2]

namespace UBaseOverlapAbility

/-! ## The delayed queue -/

theorem InsertAtFirstNotLater_split (e : FOverlapEventSnapshot) :
    ∀ (q : List FOverlapEventSnapshot), (∃ x ∈ q, x.ActivationTime ≤ e.ActivationTime) →
      ∃ l₁ l₂, q = l₁ ++ l₂ ∧ InsertAtFirstNotLater e q = l₁ ++ e :: l₂ ∧
        (∀ x ∈ l₁, e.ActivationTime < x.ActivationTime) ∧
        (∀ x, l₂.head? = some x → x.ActivationTime ≤ e.ActivationTime)
  | [], h => by simp at h
  | x :: rest, h => by
    by_cases hx : e.ActivationTime ≥ x.ActivationTime
    · refine ⟨[], x :: rest, rfl, ?_, ?_, ?_⟩
      · simp [InsertAtFirstNotLater, hx]
      · simp
      · intro y hy
        simp at hy
        subst hy
        exact hx
    · have h' : ∃ y ∈ rest, y.ActivationTime ≤ e.ActivationTime := by
        obtain ⟨y, hy, hle⟩ := h
        rcases List.mem_cons.mp hy with rfl | hy
        · exact absurd hle hx
        · exact ⟨y, hy, hle⟩
      obtain ⟨l₁, l₂, hq, hins, hlt, hhd⟩ := InsertAtFirstNotLater_split e rest h'
      refine ⟨x :: l₁, l₂, by simp [hq], ?_, ?_, hhd⟩
      · simp [InsertAtFirstNotLater, hx, hins]
      · intro y hy
        rcases List.mem_cons.mp hy with rfl | hy
        · exact lt_of_not_ge hx
        · exact hlt y hy

theorem PopSequence_eq_take_reverse :
    ∀ (n : Nat) (q : List FOverlapEventSnapshot), PopSequence n q = q.reverse.take n
  | 0, q => by simp [PopSequence]
  | n + 1, q => by
    rcases List.eq_nil_or_concat q with rfl | ⟨l, a, rfl⟩
    · simp [PopSequence]
    · simp [PopSequence, PopSequence_eq_take_reverse n]

theorem AddOverlapEventToQueue_split (Queue : List FOverlapEventSnapshot)
    (EventData : FOverlapEventSnapshot)
    (hord : Queue.Pairwise (fun a b => b.ActivationTime ≤ a.ActivationTime)) :
    ∃ l₁ l₂, Queue = l₁ ++ l₂ ∧
      (AddOverlapEventToQueue Queue EventData).1 = l₁ ++ EventData :: l₂ ∧
      (∀ x ∈ l₁, EventData.ActivationTime < x.ActivationTime) ∧
      (∀ x ∈ l₂, x.ActivationTime ≤ EventData.ActivationTime) := by
  rcases List.eq_nil_or_concat Queue with rfl | ⟨l, a, hQ⟩
  · exact ⟨[], [], by simp [AddOverlapEventToQueue]⟩
  rw [List.concat_eq_append] at hQ
  subst hQ
  · by_cases hlt : EventData.ActivationTime < a.ActivationTime
    · refine ⟨l ++ [a], [], by simp, by simp [AddOverlapEventToQueue, hlt], ?_, by simp⟩
      intro x hx
      rcases List.mem_append.mp hx with hx | hx
      · have := (List.pairwise_append.mp hord).2.2 x hx a (by simp)
        exact lt_of_lt_of_le hlt this
      · simp at hx
        subst hx
        exact hlt
    · have hex : ∃ x ∈ l ++ [a], x.ActivationTime ≤ EventData.ActivationTime :=
        ⟨a, by simp, le_of_not_lt hlt⟩
      obtain ⟨l₁, l₂, hq, hins, hl1, hhd⟩ := InsertAtFirstNotLater_split EventData _ hex
      refine ⟨l₁, l₂, hq, by simp [AddOverlapEventToQueue, hlt, hins], hl1, ?_⟩
      intro x hx
      rw [hq] at hord
      have h2 := (List.pairwise_append.mp hord).2.1
      cases l₂ with
      | nil => simp at hx
      | cons y ys =>
        have hy := hhd y rfl
        rcases List.mem_cons.mp hx with rfl | hx
        · exact hy
        · exact le_trans ((List.pairwise_cons.mp h2).1 x hx) hy

/-- C4. On a delayed queue ordered by `ActivationTime` with the earliest entry at the end,
`AddOverlapEventToQueue` keeps the order, makes exactly one insertion (the other entries keep
their places relative to each other, nothing is lost or duplicated), and successive pops of
the new queue return the events in ascending `ActivationTime`. -/
theorem AddOverlapEventToQueue_keeps_order (Queue : List FOverlapEventSnapshot)
    (EventData : FOverlapEventSnapshot)
    (hord : Queue.Pairwise (fun a b => b.ActivationTime ≤ a.ActivationTime)) :
    ((AddOverlapEventToQueue Queue EventData).1).Pairwise
        (fun a b => b.ActivationTime ≤ a.ActivationTime) ∧
      (∃ l₁ l₂, Queue = l₁ ++ l₂ ∧
        (AddOverlapEventToQueue Queue EventData).1 = l₁ ++ EventData :: l₂) ∧
      ((AddOverlapEventToQueue Queue EventData).1).Perm (EventData :: Queue) ∧
      ((AddOverlapEventToQueue Queue EventData).1).length = Queue.length + 1 ∧
      ∀ n, (PopSequence n (AddOverlapEventToQueue Queue EventData).1).Pairwise
        (fun a b => a.ActivationTime ≤ b.ActivationTime) := by
  obtain ⟨l₁, l₂, hq, hins, h1, h2⟩ := AddOverlapEventToQueue_split Queue EventData hord
  have hsorted : ((AddOverlapEventToQueue Queue EventData).1).Pairwise
      (fun a b => b.ActivationTime ≤ a.ActivationTime) := by
    rw [hins]
    rw [hq] at hord
    obtain ⟨hp1, hp2, hp12⟩ := List.pairwise_append.mp hord
    refine List.pairwise_append.mpr ⟨hp1, List.pairwise_cons.mpr ⟨h2, hp2⟩, ?_⟩
    intro x hx y hy
    rcases List.mem_cons.mp hy with rfl | hy
    · exact le_of_lt (h1 x hx)
    · exact hp12 x hx y hy
  refine ⟨hsorted, ⟨l₁, l₂, hq, hins⟩, ?_, ?_, ?_⟩
  · rw [hins, hq]
    exact List.perm_middle
  · rw [hins, hq]
    simp
    omega
  · intro n
    rw [PopSequence_eq_take_reverse]
    have hrev := List.pairwise_reverse.mpr hsorted
    exact hrev.sublist (List.take_sublist _ _)

/-- Witness of C4: an event due at 2 enters the queue of the events due at 3 and at 1. -/
theorem AddOverlapEventToQueue_keeps_order_witness :
    [SnapshotAt 3, SnapshotAt 1].Pairwise (fun a b => b.ActivationTime ≤ a.ActivationTime) ∧
    ((AddOverlapEventToQueue [SnapshotAt 3, SnapshotAt 1] (SnapshotAt 2)).1).Perm
      (SnapshotAt 2 :: [SnapshotAt 3, SnapshotAt 1]) :=
  ⟨by decide!,
    (AddOverlapEventToQueue_keeps_order [SnapshotAt 3, SnapshotAt 1] (SnapshotAt 2)
      (by decide!)).2.2.1⟩

theorem UpdateQueueTimer_nil (now : ℚ) (iq : List FOverlapEventSnapshot) (th : Option ℚ)
    (n : Nat) :
    UpdateQueueTimer (some now) ⟨[], iq, th, n⟩ = ⟨[], iq, th, n⟩ := by
  rw [UpdateQueueTimer]
  simp

theorem UpdateQueueTimer_concat_due (now : ℚ) (l iq : List FOverlapEventSnapshot)
    (a : FOverlapEventSnapshot) (th : Option ℚ) (n : Nat) (ha : a.ActivationTime ≤ now) :
    UpdateQueueTimer (some now) ⟨l ++ [a], iq, th, n⟩ =
      UpdateQueueTimer (some now) ⟨l, iq ++ [a], th, if iq = [] then n + 1 else n⟩ := by
  rw [UpdateQueueTimer]
  have h0 : a.ActivationTime - now ≤ 0 := by linarith
  by_cases hiq : iq = []
  · simp [h0, AddOverlapEventToInstantQueue, UpdateInstantQueueTimer, hiq]
  · simp [h0, AddOverlapEventToInstantQueue, UpdateInstantQueueTimer, hiq]

theorem UpdateQueueTimer_concat_future (now : ℚ) (l iq : List FOverlapEventSnapshot)
    (a : FOverlapEventSnapshot) (th : Option ℚ) (n : Nat) (ha : now < a.ActivationTime) :
    UpdateQueueTimer (some now) ⟨l ++ [a], iq, th, n⟩ =
      ⟨l ++ [a], iq, some (a.ActivationTime - now), n⟩ := by
  rw [UpdateQueueTimer]
  have h0 : ¬ a.ActivationTime - now ≤ 0 := by linarith
  simp [h0]

theorem UpdateQueueTimer_run (now : ℚ) (q : List FOverlapEventSnapshot) :
    ∀ (iq : List FOverlapEventSnapshot) (th : Option ℚ) (n : Nat),
      q.Pairwise (fun a b => b.ActivationTime ≤ a.ActivationTime) →
      (UpdateQueueTimer (some now) ⟨q, iq, th, n⟩).Queue
          = q.filter (fun e => now < e.ActivationTime) ∧
      (UpdateQueueTimer (some now) ⟨q, iq, th, n⟩).InstantQueue
          = iq ++ (q.filter (fun e => e.ActivationTime ≤ now)).reverse ∧
      (UpdateQueueTimer (some now) ⟨q, iq, th, n⟩).QueueTimerHandle
          = match (q.filter (fun e => now < e.ActivationTime)).getLast? with
            | some e => some (e.ActivationTime - now)
            | none => th := by
  induction q using List.reverseRecOn with
  | nil =>
    intro iq th n _
    rw [UpdateQueueTimer_nil]
    simp
  | append_singleton l a ih =>
    intro iq th n hord
    obtain ⟨hl, -, hla⟩ := List.pairwise_append.mp hord
    by_cases ha : a.ActivationTime ≤ now
    · rw [UpdateQueueTimer_concat_due now l iq a th n ha]
      obtain ⟨h1, h2, h3⟩ := ih (iq ++ [a]) th (if iq = [] then n + 1 else n) hl
      have hna : ¬ now < a.ActivationTime := not_lt.mpr ha
      refine ⟨?_, ?_, ?_⟩
      · rw [h1]; simp [List.filter_append, hna]
      · rw [h2]; simp [List.filter_append, ha]
      · rw [h3]; simp [List.filter_append, hna]
    · have ha' : now < a.ActivationTime := lt_of_not_ge ha
      rw [UpdateQueueTimer_concat_future now l iq a th n ha']
      have hall : ∀ x ∈ l, now < x.ActivationTime := fun x hx =>
        lt_of_lt_of_le ha' (hla x hx a (by simp))
      have hall' : ∀ x ∈ l, ¬ x.ActivationTime ≤ now := fun x hx => not_le.mpr (hall x hx)
      have hf1 : l.filter (fun e => decide (now < e.ActivationTime)) = l :=
        List.filter_eq_self.mpr (by simpa using hall)
      have hf2 : l.filter (fun e => decide (e.ActivationTime ≤ now)) = [] :=
        List.filter_eq_nil_iff.mpr (by simpa using hall')
      refine ⟨?_, ?_, ?_⟩
      · simp [List.filter_append, ha', hf1]
      · simp [List.filter_append, ha, hf2]
      · simp [List.filter_append, ha', hf1]

/-- What a call of `UpdateQueueTimer` does. With a world present at time `now` and the delayed
queue ordered earliest at the end, `UpdateQueueTimer` (a total function: every recursive call
pops one entry) leaves in the delayed queue exactly the entries with `ActivationTime > now`,
moves every entry with `ActivationTime <= now` to the instant queue in the order they are
popped (none dropped, none duplicated), and sets the timer to (earliest remaining
`ActivationTime` - `now`) when the delayed queue is not empty afterwards; when it is empty
the timer handle is left as it was. -/
theorem UpdateQueueTimer_spec (now : ℚ) (s : FScheduler)
    (hord : s.Queue.Pairwise (fun a b => b.ActivationTime ≤ a.ActivationTime)) :
    (∀ e ∈ (UpdateQueueTimer (some now) s).Queue, now < e.ActivationTime) ∧
    (UpdateQueueTimer (some now) s).Queue = s.Queue.filter (fun e => now < e.ActivationTime) ∧
    (UpdateQueueTimer (some now) s).InstantQueue
      = s.InstantQueue ++ (s.Queue.filter (fun e => e.ActivationTime ≤ now)).reverse ∧
    ((UpdateQueueTimer (some now) s).Queue ++ (UpdateQueueTimer (some now) s).InstantQueue).Perm
      (s.Queue ++ s.InstantQueue) ∧
    ((∃ e, (UpdateQueueTimer (some now) s).Queue.getLast? = some e ∧
        (UpdateQueueTimer (some now) s).QueueTimerHandle = some (e.ActivationTime - now))
      ↔ (UpdateQueueTimer (some now) s).Queue ≠ []) ∧
    ((UpdateQueueTimer (some now) s).Queue = [] →
      (UpdateQueueTimer (some now) s).QueueTimerHandle = s.QueueTimerHandle) := by
  obtain ⟨q, iq, th, n⟩ := s
  obtain ⟨h1, h2, h3⟩ := UpdateQueueTimer_run now q iq th n hord
  simp only at hord ⊢
  refine ⟨?_, h1, h2, ?_, ?_, ?_⟩
  · intro e he
    rw [h1] at he
    simpa using (List.mem_filter.mp he).2
  · rw [h1, h2]
    have hneg : (fun e : FOverlapEventSnapshot => !decide (now < e.ActivationTime))
        = (fun e => decide (e.ActivationTime ≤ now)) := by
      funext e
      by_cases h : now < e.ActivationTime
      · simp [h, not_le.mpr h]
      · simp [h, not_lt.mp h]
    have hsplit : (q.filter (fun e => decide (now < e.ActivationTime)) ++
        q.filter (fun e => decide (e.ActivationTime ≤ now))).Perm q := by
      have := List.filter_append_perm
        (fun e : FOverlapEventSnapshot => decide (now < e.ActivationTime)) q
      rw [hneg] at this
      exact this
    have hstep : (iq ++ (q.filter (fun e => decide (e.ActivationTime ≤ now))).reverse).Perm
        (q.filter (fun e => decide (e.ActivationTime ≤ now)) ++ iq) :=
      List.perm_append_comm.trans (List.Perm.append_right _ (List.reverse_perm _))
    refine (List.Perm.append_left _ hstep).trans ?_
    rw [← List.append_assoc]
    exact List.Perm.append_right _ hsplit
  · rw [h3, h1]
    cases hlast : (q.filter (fun e => decide (now < e.ActivationTime))).getLast? with
    | none =>
      have : q.filter (fun e => decide (now < e.ActivationTime)) = [] :=
        List.getLast?_eq_none_iff.mp hlast
      simp [this]
    | some e =>
      have : q.filter (fun e => decide (now < e.ActivationTime)) ≠ [] := by
        intro hnil
        rw [hnil] at hlast
        simp at hlast
      simp [this]
  · intro hnil
    rw [h3]
    rw [h1] at hnil
    simp [hnil]

/-- C8 (code defect). Evaluation of `GeneratePeriodicOverlapEvents` on one snapshot, without
attribute scaling. With `LifeSpan = 1`, `Period = 0.75`, `FirstPeriodDelay = 0` the code
computes `NumPeriods = 2` but the loop leaves 3 snapshots (at 0, 0.75 and 1.5); with
`LifeSpan = 1`, `Period = 0.25`, `FirstPeriodDelay = 0.5` it computes `NumPeriods = 3` but
leaves 1 snapshot (at 0.5). A configuration that is not periodic leaves the list unchanged. -/
theorem GeneratePeriodicOverlapEvents_repetitions :
    NumPeriods (ProcessEventPeriodicAttributes UnscaledValue ⟨1, 3 / 4, 0, 0⟩) = 2 ∧
    (GeneratePeriodicOverlapEvents 10 UnscaledValue ⟨1, 3 / 4, 0, 0⟩ [SnapshotAt 0])
      = some [SnapshotAt 0, { SnapshotAt 0 with ActivationTime := 3 / 4 },
          { SnapshotAt 0 with ActivationTime := 3 / 2 }] ∧
    NumPeriods (ProcessEventPeriodicAttributes UnscaledValue ⟨1, 1 / 4, 1 / 2, 0⟩) = 3 ∧
    (GeneratePeriodicOverlapEvents 10 UnscaledValue ⟨1, 1 / 4, 1 / 2, 0⟩ [SnapshotAt 0])
      = some [{ SnapshotAt 0 with ActivationTime := 1 / 2 }] ∧
    (GeneratePeriodicOverlapEvents 10 UnscaledValue ⟨1, 0, 0, 0⟩ [SnapshotAt 0])
      = some [SnapshotAt 0] := by
  decide!

theorem GetInterpSteps_eq_floor (D : FAbilityDuration) :
    GetInterpSteps D = ⌊max (5 : ℚ) (D.LifeSpan / (15 / 100))⌋ := by
  unfold GetInterpSteps
  exact TruncToInt_of_nonneg _ (le_trans (by norm_num) (le_max_left _ _))

theorem GetInterpSteps_ge_five (D : FAbilityDuration) : 5 ≤ GetInterpSteps D := by
  rw [GetInterpSteps_eq_floor]
  exact Int.le_floor.mpr (by simp)

theorem ExpandOverlapEvent_loop (Event : FOverlapEventSnapshot) (t step : ℚ) :
    ∀ (n : Nat) (acc : FOverlapEventSnapshot × List FOverlapEventSnapshot),
      (∀ u, { acc.1 with ActivationTime := u } = { Event with ActivationTime := u }) →
      ((List.range n).foldl
        (fun (acc : FOverlapEventSnapshot × List FOverlapEventSnapshot) (i : Nat) =>
          let ev := { acc.1 with ActivationTime := t + (i : ℚ) * step }
          (ev, acc.2 ++ [ev])) acc).2
        = acc.2 ++ (List.range n).map
            (fun (i : Nat) => { Event with ActivationTime := t + (i : ℚ) * step }) ∧
      (∀ u, { ((List.range n).foldl
        (fun (acc : FOverlapEventSnapshot × List FOverlapEventSnapshot) (i : Nat) =>
          let ev := { acc.1 with ActivationTime := t + (i : ℚ) * step }
          (ev, acc.2 ++ [ev])) acc).1 with ActivationTime := u }
          = { Event with ActivationTime := u })
  | 0, acc, h => by simpa using h
  | n + 1, acc, h => by
    obtain ⟨ih1, ih2⟩ := ExpandOverlapEvent_loop Event t step n acc h
    rw [List.range_succ, List.foldl_append, List.map_append]
    simp only [List.foldl_cons, List.foldl_nil, List.map_cons, List.map_nil]
    refine ⟨?_, ?_⟩
    · rw [ih1, ih2, List.append_assoc]
    · intro u
      rw [ih2]

theorem ExpandOverlapEvent_eq (D : FAbilityDuration) (Event : FOverlapEventSnapshot)
    (out : List FOverlapEventSnapshot) :
    (ExpandOverlapEvent D Event out).2 = out ++
      (List.range ((GetInterpSteps D).toNat + 1)).map (fun (i : Nat) =>
        { Event with ActivationTime :=
            Event.ActivationTime + (i : ℚ) * (D.LifeSpan / (GetInterpSteps D : ℚ)) }) := by
  unfold ExpandOverlapEvent
  have h5 := GetInterpSteps_ge_five D
  have hn : (GetInterpSteps D + 1).toNat = (GetInterpSteps D).toNat + 1 := by omega
  simp only [hn]
  exact (ExpandOverlapEvent_loop Event Event.ActivationTime _ _ (Event, out) (fun _ => rfl)).1

theorem GetInterpSteps_eq_five_iff (D : FAbilityDuration) :
    GetInterpSteps D = 5 ↔ D.LifeSpan < 9 / 10 := by
  rw [GetInterpSteps_eq_floor, Int.floor_eq_iff]
  constructor
  · rintro ⟨-, h⟩
    push_cast at h
    have h2 : D.LifeSpan / (15 / 100) < 6 := by
      linarith [le_max_right (5 : ℚ) (D.LifeSpan / (15 / 100))]
    rw [div_lt_iff₀ (by norm_num)] at h2
    linarith
  · intro h
    refine ⟨by simp, ?_⟩
    have h2 : D.LifeSpan / (15 / 100) < 6 := by
      rw [div_lt_iff₀ (by norm_num)]
      linarith
    have h3 : max (5 : ℚ) (D.LifeSpan / (15 / 100)) < 6 := max_lt (by norm_num) h2
    push_cast
    linarith

/-- C9 (amended). For every snapshot with `ActivationTime` t and every `LifeSpan > 0`, with
`Steps = GetInterpSteps()` (at least 5), `ExpandOverlapEvent` appends exactly `Steps + 1`
snapshots; the i-th has `ActivationTime` t + i * LifeSpan / Steps and is otherwise the input
snapshot, so the times are strictly ascending, start at t and end at t + LifeSpan. `Steps` is
5 exactly when `LifeSpan < 0.9`; with `LifeSpan = 1` it is 6, which gives 7 snapshots at a
spacing of 1/6. -/
theorem ExpandOverlapEvent_spec (D : FAbilityDuration) (Event : FOverlapEventSnapshot)
    (out : List FOverlapEventSnapshot) (hL : 0 < D.LifeSpan) :
    5 ≤ GetInterpSteps D ∧
    (ExpandOverlapEvent D Event out).2 = out ++
      (List.range ((GetInterpSteps D).toNat + 1)).map (fun (i : Nat) =>
        { Event with ActivationTime :=
            Event.ActivationTime + (i : ℚ) * D.LifeSpan / (GetInterpSteps D : ℚ) }) ∧
    ((ExpandOverlapEvent D Event out).2.length : Int) = out.length + (GetInterpSteps D + 1) ∧
    (((ExpandOverlapEvent D Event []).2).map (fun e => e.ActivationTime)).Pairwise (· < ·) ∧
    ((ExpandOverlapEvent D Event []).2).head? = some Event ∧
    ((ExpandOverlapEvent D Event []).2).getLast? =
      some { Event with ActivationTime := Event.ActivationTime + D.LifeSpan } ∧
    (GetInterpSteps D = 5 ↔ D.LifeSpan < 9 / 10) ∧
    (D.LifeSpan = 1 → GetInterpSteps D = 6 ∧ (ExpandOverlapEvent D Event []).2.length = 7 ∧
      (ExpandOverlapEvent D Event []).2 = (List.range 7).map (fun (i : Nat) =>
        { Event with ActivationTime := Event.ActivationTime + (i : ℚ) * (1 / 6) })) := by
  have h5 := GetInterpSteps_ge_five D
  have hpos : (0 : ℚ) < (GetInterpSteps D : ℚ) := by
    have : (0 : Int) < GetInterpSteps D := by omega
    exact_mod_cast this
  have heq : ∀ o, (ExpandOverlapEvent D Event o).2 = o ++
      (List.range ((GetInterpSteps D).toNat + 1)).map (fun (i : Nat) =>
        { Event with ActivationTime :=
            Event.ActivationTime + (i : ℚ) * D.LifeSpan / (GetInterpSteps D : ℚ) }) := by
    intro o
    rw [ExpandOverlapEvent_eq]
    congr 2
    funext i
    rw [mul_div_assoc]
  have hcast : (((GetInterpSteps D).toNat : Nat) : ℚ) = (GetInterpSteps D : ℚ) := by
    have : (((GetInterpSteps D).toNat : Nat) : Int) = GetInterpSteps D :=
      Int.toNat_of_nonneg (by omega)
    exact_mod_cast this
  refine ⟨h5, heq out, ?_, ?_, ?_, ?_, GetInterpSteps_eq_five_iff D, ?_⟩
  · rw [heq]
    simp
    omega
  · rw [heq, List.nil_append, List.map_map, List.pairwise_map]
    refine (List.pairwise_lt_range _).imp ?_
    intro a b hab
    have hab' : (a : ℚ) < (b : ℚ) := by exact_mod_cast hab
    have hc : 0 < D.LifeSpan / (GetInterpSteps D : ℚ) := div_pos hL hpos
    simp only [Function.comp]
    rw [mul_div_assoc, mul_div_assoc]
    have := mul_lt_mul_of_pos_right hab' hc
    linarith
  · rw [heq, List.nil_append, List.range_succ_eq_map]
    simp
  · rw [heq, List.nil_append, List.range_succ, List.map_append]
    simp only [List.map_cons, List.map_nil, List.getLast?_concat]
    rw [hcast, mul_comm, mul_div_assoc, div_self (ne_of_gt hpos), mul_one]
  · intro h1
    have h6 : GetInterpSteps D = 6 := by
      rw [GetInterpSteps_eq_floor, h1]
      rw [Int.floor_eq_iff]
      constructor <;> norm_num
    refine ⟨h6, ?_, ?_⟩
    · rw [heq, h6]
      simp
    · rw [heq, h6, h1]
      have hstep : ∀ i : ℕ, (i : ℚ) * 1 / (((6 : Int) : ℚ)) = (i : ℚ) * (1 / 6) := by
        intro i
        push_cast
        ring
      simp only [List.nil_append, hstep]
      rfl

/-- Witness of C9 (amended): a life span of three quarters of a second. -/
theorem ExpandOverlapEvent_spec_witness :
    (0 : ℚ) < (⟨3 / 4, 0, 0, 0⟩ : FAbilityDuration).LifeSpan ∧
    5 ≤ GetInterpSteps ⟨3 / 4, 0, 0, 0⟩ :=
  ⟨by decide!, (ExpandOverlapEvent_spec ⟨3 / 4, 0, 0, 0⟩ (SnapshotAt 0) [] (by decide!)).1⟩

/-- Counterexample to C9 as stated: with `LifeSpan = 1` the code takes 6 steps, not 5, and
appends 7 snapshots, not 6. -/
theorem ExpandOverlapEvent_one_second :
    GetInterpSteps ⟨1, 0, 0, 0⟩ = 6 ∧
    (ExpandOverlapEvent ⟨1, 0, 0, 0⟩ (SnapshotAt 0) []).2.length = 7 ∧
    ¬ (GetInterpSteps ⟨1, 0, 0, 0⟩ = 5 ∧
      (ExpandOverlapEvent ⟨1, 0, 0, 0⟩ (SnapshotAt 0) []).2.length = 6) := by
  decide!

end UBaseOverlapAbility

namespace ABaseCollisionActor

/-! ## Targeting, effect application, the periodic tick and deactivation -/

theorem GetPreviousTargets_state (s : FSystem) : (GetPreviousTargets s).2 = s := by
  unfold GetPreviousTargets
  split_ifs <;> rfl

theorem IsAlreadyTargeted_state (T : Option AActor) (s : FSystem) :
    (IsAlreadyTargeted T s).2 = s := by
  unfold IsAlreadyTargeted
  have h := GetPreviousTargets_state s
  cases h1 : (GetPreviousTargets s).1 <;> cases T <;> simp [h1, h]

theorem IsValidTargetActor_state (w : FWorldView) (Actor : Option AActor) (s : FSystem) :
    (IsValidTargetActor w Actor s).2 = s := by
  cases Actor with
  | none => rfl
  | some A =>
    have h := IsAlreadyTargeted_state (some A) s
    unfold IsValidTargetActor
    simp only
    split_ifs <;> simp_all

theorem Grows.growsRefl (s : FSystem) : Grows s s := ⟨rfl, fun l h => ⟨l, h, fun _ h => h⟩⟩

theorem Grows.growsTrans {a b c : FSystem} (h1 : Grows a b) (h2 : Grows b c) : Grows a c := by
  refine ⟨h2.1.trans h1.1, ?_⟩
  intro l hl
  obtain ⟨l', hl', hsub⟩ := h1.2 l hl
  obtain ⟨l'', hl'', hsub'⟩ := h2.2 l' hl'
  exact ⟨l'', hl'', fun x hx => hsub' x (hsub x hx)⟩

theorem Grows_of_eq (s s' : FSystem) (h1 : s'.Self.bAllowRetargetting = s.Self.bAllowRetargetting)
    (h2 : (GetPreviousTargets s').1 = (GetPreviousTargets s).1) : Grows s s' :=
  ⟨h1, fun l hl => ⟨l, by rw [h2, hl], fun _ h => h⟩⟩

theorem GetPreviousTargets_fst (s : FSystem) :
    (GetPreviousTargets s).1 =
      if (!HasTag s.Self.OwningAbilityTags .Ability_Targeting_IndividualTargeting
          && s.Self.InstigatorBaseASC) = true
      then s.ASC.GetSharedTargets s.Self.IndividualData.ActivationKey s.Self.bReplicates
      else some s.Self.PreviousTargetedActors := by
  unfold GetPreviousTargets
  split_ifs <;> rfl

theorem GetPreviousTargets_Send (s : FSystem) (n : FNotification) :
    (GetPreviousTargets (s.Send n)).1 = (GetPreviousTargets s).1 := by
  simp only [GetPreviousTargets_fst, FSystem.Send]

theorem GetPreviousTargets_SendGameplayEvent (b : Bool) (n : FNotification) (s : FSystem) :
    (GetPreviousTargets (SendGameplayEvent b n s)).1 = (GetPreviousTargets s).1 := by
  unfold SendGameplayEvent
  split_ifs
  · exact GetPreviousTargets_Send s n
  · rfl

theorem mem_AddUnique (l : List AActor) (a b : AActor) :
    b ∈ AddUnique l a ↔ b ∈ l ∨ b = a := by
  unfold AddUnique
  split_ifs with h
  · constructor
    · exact Or.inl
    · rintro (h' | rfl)
      · exact h'
      · exact h
  · simp

theorem GetPreviousTargets_AddPreviousTarget (T : AActor) (s : FSystem) :
    (GetPreviousTargets (AddPreviousTarget (some T) s)).1
      = ((GetPreviousTargets s).1).map (fun l => AddUnique l T) := by
  simp only [GetPreviousTargets_fst, AddPreviousTarget]
  by_cases hA : s.Self.InstigatorBaseASC = true
  · simp only [hA, if_true, Bool.and_true]
    by_cases hI : HasTag s.Self.OwningAbilityTags .Ability_Targeting_IndividualTargeting = true
    · simp [hI]
    · simp only [hI, Bool.not_eq_true]
      simp only [UBaseAbilitySystemComponent.GetSharedTargets,
        UBaseAbilitySystemComponent.AddSharedTarget]
      cases hE : s.ASC.SharedTargets s.Self.IndividualData.ActivationKey s.Self.bReplicates with
      | none => simp [hE]
      | some e => simp [UBaseAbilitySystemComponent.SetEntry]
  · simp [hA]

theorem AddPreviousTarget_flag (A : Option AActor) (s : FSystem) :
    (AddPreviousTarget A s).Self.bAllowRetargetting = s.Self.bAllowRetargetting := by
  cases A with
  | none => rfl
  | some T =>
    unfold AddPreviousTarget
    simp only
    split_ifs <;> rfl

theorem AddPreviousTarget_Log (A : Option AActor) (s : FSystem) :
    (AddPreviousTarget A s).Log = s.Log := by
  cases A with
  | none => rfl
  | some T =>
    unfold AddPreviousTarget
    simp only
    split_ifs <;> rfl

theorem Grows_AddPreviousTarget (A : Option AActor) (s : FSystem) :
    Grows s (AddPreviousTarget A s) := by
  cases A with
  | none => exact Grows.growsRefl s
  | some T =>
    refine ⟨AddPreviousTarget_flag _ s, ?_⟩
    intro l hl
    rw [GetPreviousTargets_AddPreviousTarget, hl]
    exact ⟨AddUnique l T, rfl, fun a ha => (mem_AddUnique l T a).mpr (Or.inl ha)⟩

theorem Grows_Send (s : FSystem) (n : FNotification) : Grows s (s.Send n) :=
  Grows_of_eq _ _ rfl (GetPreviousTargets_Send s n)

theorem Grows_SendGameplayEvent (b : Bool) (n : FNotification) (s : FSystem) :
    Grows s (SendGameplayEvent b n s) := by
  unfold SendGameplayEvent
  split_ifs
  · exact Grows_Send s n
  · exact Grows.growsRefl s

theorem OnlyLog.logRefl (s : FSystem) : OnlyLog s s := ⟨rfl, rfl⟩

theorem OnlyLog.logTrans {a b c : FSystem} (h1 : OnlyLog a b) (h2 : OnlyLog b c) : OnlyLog a c :=
  ⟨h2.1.trans h1.1, h2.2.trans h1.2⟩

theorem OnlyLog_Send (s : FSystem) (n : FNotification) : OnlyLog s (s.Send n) := ⟨rfl, rfl⟩

theorem OnlyLog_SendGameplayEvent (b : Bool) (n : FNotification) (s : FSystem) :
    OnlyLog s (SendGameplayEvent b n s) := by
  unfold SendGameplayEvent
  split_ifs
  · exact OnlyLog_Send s n
  · exact OnlyLog.logRefl s

theorem OnlyLog_ApplyEffectToActorSend (w : FWorldView) (A : Option AActor)
    (tags : List FGameplayTag) (s : FSystem) : OnlyLog s (ApplyEffectToActorSend w A tags s) := by
  unfold ApplyEffectToActorSend
  have h1 : OnlyLog s (if (s.Self.bHasAuthority && !s.Self.EffectContainerSpec.isEmpty
      && s.Self.InstigatorASC) = true then s.Send (.EffectContainerApplied A) else s) := by
    split_ifs
    · exact OnlyLog_Send _ _
    · exact OnlyLog.logRefl _
  generalize (if (s.Self.bHasAuthority && !s.Self.EffectContainerSpec.isEmpty
      && s.Self.InstigatorASC) = true then s.Send (.EffectContainerApplied A) else s) = s1 at h1 ⊢
  simp only
  have h2 : ∀ x y : FNotification, ∀ b : Bool, OnlyLog s1 (if s1.Self.bReplicates = true then
      SendGameplayEvent b x (SendGameplayEvent s1.Self.InstigatorASC y s1) else s1) := by
    intro x y b
    split_ifs
    · exact (OnlyLog_SendGameplayEvent _ _ _).logTrans (OnlyLog_SendGameplayEvent _ _ _)
    · exact OnlyLog.logRefl _
  generalize hs2 : (if s1.Self.bReplicates = true then
      SendGameplayEvent _ _ (SendGameplayEvent s1.Self.InstigatorASC _ s1) else s1) = s2
  have h2' : OnlyLog s1 s2 := hs2 ▸ h2 _ _ _
  split_ifs
  · exact h1.logTrans (h2'.logTrans (OnlyLog_Send _ _))
  · exact h1.logTrans h2'

theorem GetPreviousTargets_of_OnlyLog {s s' : FSystem} (h : OnlyLog s s') :
    (GetPreviousTargets s').1 = (GetPreviousTargets s).1 := by
  simp only [GetPreviousTargets_fst, h.1, h.2]

theorem Grows_of_OnlyLog {s s' : FSystem} (h : OnlyLog s s') : Grows s s' :=
  Grows_of_eq _ _ (by rw [h.1]) (GetPreviousTargets_of_OnlyLog h)

theorem Grows_ApplyEffectToActor (w : FWorldView) (A : Option AActor)
    (tags : List FGameplayTag) (s : FSystem) : Grows s (ApplyEffectToActor w A tags s).2 := by
  unfold ApplyEffectToActor
  split_ifs with hw
  · exact Grows.growsRefl s
  · exact (Grows_of_OnlyLog (OnlyLog_ApplyEffectToActorSend w A tags s)).growsTrans
      (Grows_AddPreviousTarget _ _)

theorem Targeted_of_Grows {T : AActor} {s s' : FSystem} (h : Grows s s') (ht : Targeted T s) :
    Targeted T s' := by
  obtain ⟨l, hl, hT⟩ := ht
  obtain ⟨l', hl', hsub⟩ := h.2 l hl
  exact ⟨l', hl', hsub T hT⟩

theorem IsAlreadyTargeted_of_Targeted {T : AActor} {s : FSystem} (h : Targeted T s) :
    (IsAlreadyTargeted (some T) s).1 = true := by
  obtain ⟨l, hl, hT⟩ := h
  unfold IsAlreadyTargeted
  simp [hl, hT]

theorem IsValidTargetActor_of_Targeted (w : FWorldView) {T : AActor} {s : FSystem}
    (hflag : s.Self.bAllowRetargetting = false) (h : Targeted T s) :
    (IsValidTargetActor w (some T) s).1.bValid = false := by
  have h1 := IsAlreadyTargeted_of_Targeted h
  unfold IsValidTargetActor
  simp [hflag, h1]

theorem Targeted_ApplyEffectToActor (w : FWorldView) (T : AActor) (tags : List FGameplayTag)
    (s : FSystem) (hw : w.bWorld = true) (hl : (GetPreviousTargets s).1 ≠ none) :
    Targeted T (ApplyEffectToActor w (some T) tags s).2 := by
  unfold ApplyEffectToActor
  simp only [hw, Bool.not_true, Bool.false_eq_true, if_false]
  unfold Targeted
  rw [GetPreviousTargets_AddPreviousTarget,
    GetPreviousTargets_of_OnlyLog (OnlyLog_ApplyEffectToActorSend w (some T) tags s)]
  obtain ⟨l, hl'⟩ := Option.ne_none_iff_exists'.mp hl
  exact ⟨AddUnique l T, by rw [hl']; rfl, (mem_AddUnique l T T).mpr (Or.inr rfl)⟩

theorem ledger_of_Grows {s s' : FSystem} (h : Grows s s')
    (hl : (GetPreviousTargets s).1 ≠ none) : (GetPreviousTargets s').1 ≠ none := by
  obtain ⟨l, hl'⟩ := Option.ne_none_iff_exists'.mp hl
  obtain ⟨l', hl'', -⟩ := h.2 l hl'
  rw [hl'']
  simp

theorem OnlyLog_ApplyActorInteraction_Grows (A : Option AActor) (s : FSystem) :
    Grows s (ApplyActorInteraction A s).2 := by
  unfold ApplyActorInteraction
  cases A with
  | none => exact Grows.growsRefl s
  | some T =>
    simp only
    split_ifs
    · exact Grows_of_eq _ _ rfl (by simp only [GetPreviousTargets_fst, FSystem.Send])
    · exact Grows.growsRefl s

theorem Grows_ApplyEffectLoop (w : FWorldView) (tags : List FGameplayTag) :
    ∀ (A : List AActor) (acc : Int × FSystem), Grows acc.2 (ApplyEffectLoop w tags A acc).2
  | [], acc => Grows.growsRefl _
  | a :: rest, acc => by
    unfold ApplyEffectLoop
    simp only [IsValidTargetActor_state]
    split_ifs
    · exact (Grows_ApplyEffectToActor w (some a) tags acc.2).growsTrans
        (Grows_ApplyEffectLoop w tags rest _)
    · exact Grows_ApplyEffectLoop w tags rest _

theorem Grows_ApplyInteractionLoop (w : FWorldView) :
    ∀ (A : List AActor) (s : FSystem), Grows s (ApplyInteractionLoop w A s)
  | [], s => Grows.growsRefl _
  | a :: rest, s => by
    unfold ApplyInteractionLoop
    split_ifs
    · exact (OnlyLog_ApplyActorInteraction_Grows (some a) s).growsTrans
        (Grows_ApplyInteractionLoop w rest _)
    · exact Grows_ApplyInteractionLoop w rest _

theorem Grows_ApplyEffectToActorArrayOnAuthority (w : FWorldView) (A : List AActor)
    (tags : List FGameplayTag) (b : Bool) (s : FSystem) :
    Grows s (ApplyEffectToActorArrayOnAuthority w A tags b s).2 := by
  unfold ApplyEffectToActorArrayOnAuthority
  simp only
  split_ifs
  · exact (Grows_ApplyEffectLoop w tags A (0, s)).growsTrans (Grows_SendGameplayEvent _ _ _)
  · exact Grows_ApplyEffectLoop w tags A (0, s)

theorem ApplyEffectToActorArray_cases (w : FWorldView) (A : List AActor)
    (tags : List FGameplayTag) (b : Bool) (s : FSystem) :
    (ApplyEffectToActorArray w A tags b s).2 = s ∨
    (∃ r : Int × FSystem,
      (r = ApplyEffectToActorArrayOnAuthority w A tags b s ∨ r = (0, s)) ∧ w.bWorld = true ∧
      ((ApplyEffectToActorArray w A tags b s).2 = ApplyInteractionLoop w A r.2 ∨
        (ApplyEffectToActorArray w A tags b s).2 = r.2)) := by
  unfold ApplyEffectToActorArray
  by_cases h0 : A.length > 0 ∧ w.bWorld = true
  · rw [if_pos h0]
    right
    refine ⟨if s.Self.bHasAuthority = true
        then ApplyEffectToActorArrayOnAuthority w A tags b s else (0, s), ?_, h0.2, ?_⟩
    · split_ifs
      · exact Or.inl rfl
      · exact Or.inr rfl
    · generalize (if s.Self.bHasAuthority = true
        then ApplyEffectToActorArrayOnAuthority w A tags b s else (0, s)) = r
      simp only
      split_ifs
      · exact Or.inl rfl
      · exact Or.inr rfl
  · rw [if_neg h0]
    exact Or.inl rfl

theorem Grows_ApplyEffectToActorArray (w : FWorldView) (A : List AActor)
    (tags : List FGameplayTag) (b : Bool) (s : FSystem) :
    Grows s (ApplyEffectToActorArray w A tags b s).2 := by
  rcases ApplyEffectToActorArray_cases w A tags b s with h | ⟨r, hr, -, h⟩
  · rw [h]
    exact Grows.growsRefl s
  · have hg : Grows s r.2 := by
      rcases hr with rfl | rfl
      · exact Grows_ApplyEffectToActorArrayOnAuthority w A tags b s
      · exact Grows.growsRefl s
    rcases h with h | h
    · rw [h]
      exact hg.growsTrans (Grows_ApplyInteractionLoop w A _)
    · rw [h]
      exact hg

theorem Grows_RunActivation :
    ∀ (steps : List FActivationStep) (s : FSystem), Grows s (RunActivation steps s)
  | [], s => Grows.growsRefl s
  | step :: rest, s => by
    unfold RunActivation
    refine Grows.growsTrans ?_ (Grows_RunActivation rest _)
    cases step with
    | Apply w A tags => exact Grows_ApplyEffectToActor w A tags s
    | ApplyArray w A tags b => exact Grows_ApplyEffectToActorArray w A tags b s

theorem AppliedCount_Send (T : AActor) (s : FSystem) (n : FNotification) :
    AppliedCount T (s.Send n) ≤ AppliedCount T s + 1 ∧
    (n ≠ .EffectContainerApplied (some T) → AppliedCount T (s.Send n) = AppliedCount T s) := by
  unfold AppliedCount FSystem.Send
  simp only [List.count_append, List.count_cons, List.count_nil]
  constructor
  · split_ifs <;> omega
  · intro hn
    have : (n == FNotification.EffectContainerApplied (some T)) = false := by
      simpa using hn
    simp [this]

theorem AppliedCount_SendGameplayEvent (T : AActor) (b : Bool) (s : FSystem)
    (R : Option AActor) (tag : FGameplayTag) (m : Int) (tg : Option AActor)
    (tags : List FGameplayTag) :
    AppliedCount T (SendGameplayEvent b (.GameplayEvent R tag m tg tags) s) = AppliedCount T s := by
  unfold SendGameplayEvent
  split_ifs
  · exact (AppliedCount_Send T s _).2 (by simp)
  · rfl

theorem AppliedCount_ApplyEffectToActorSend (T : AActor) (w : FWorldView) (A : Option AActor)
    (tags : List FGameplayTag) (s : FSystem) :
    AppliedCount T (ApplyEffectToActorSend w A tags s) ≤ AppliedCount T s + 1 ∧
    (A ≠ some T → AppliedCount T (ApplyEffectToActorSend w A tags s) = AppliedCount T s) := by
  unfold ApplyEffectToActorSend
  have h1 : AppliedCount T (if (s.Self.bHasAuthority && !s.Self.EffectContainerSpec.isEmpty
      && s.Self.InstigatorASC) = true then s.Send (.EffectContainerApplied A) else s)
        ≤ AppliedCount T s + 1 ∧
      (A ≠ some T → AppliedCount T
        (if (s.Self.bHasAuthority && !s.Self.EffectContainerSpec.isEmpty
          && s.Self.InstigatorASC) = true then s.Send (.EffectContainerApplied A) else s)
        = AppliedCount T s) := by
    split_ifs
    · refine ⟨(AppliedCount_Send T s _).1, fun hA => (AppliedCount_Send T s _).2 ?_⟩
      simpa using hA
    · exact ⟨by omega, fun _ => rfl⟩
  generalize (if (s.Self.bHasAuthority && !s.Self.EffectContainerSpec.isEmpty
      && s.Self.InstigatorASC) = true then s.Send (.EffectContainerApplied A) else s) = s1 at h1 ⊢
  simp only
  have h2 : ∀ b : Bool, AppliedCount T (if s1.Self.bReplicates = true then
      SendGameplayEvent b (.GameplayEvent A .Event_Hit 1 A (s1.Self.OwningAbilityTags ++ tags))
        (SendGameplayEvent s1.Self.InstigatorASC
          (.GameplayEvent none .Event_Hit 1 A (s1.Self.OwningAbilityTags ++ tags)) s1) else s1)
      = AppliedCount T s1 := by
    intro b
    split_ifs
    · rw [AppliedCount_SendGameplayEvent, AppliedCount_SendGameplayEvent]
    · rfl
  generalize hs2 : (if s1.Self.bReplicates = true then
      SendGameplayEvent _ (.GameplayEvent A .Event_Hit 1 A (s1.Self.OwningAbilityTags ++ tags))
        (SendGameplayEvent s1.Self.InstigatorASC
          (.GameplayEvent none .Event_Hit 1 A (s1.Self.OwningAbilityTags ++ tags)) s1) else s1)
      = s2
  have h2' : AppliedCount T s2 = AppliedCount T s1 := hs2 ▸ h2 _
  have h3 : AppliedCount T (if (CanExecuteGameplayCue s2.Self && s2.Self.bHitTargetGameplayCues)
      = true then s2.Send (.HitTargetGameplayCues A) else s2) = AppliedCount T s2 := by
    split_ifs
    · exact (AppliedCount_Send T s2 _).2 (by simp)
    · rfl
  rw [h3, h2']
  exact h1

theorem AppliedCount_ApplyEffectToActor (T : AActor) (w : FWorldView) (A : Option AActor)
    (tags : List FGameplayTag) (s : FSystem) :
    AppliedCount T (ApplyEffectToActor w A tags s).2 ≤ AppliedCount T s + 1 ∧
    (A ≠ some T → AppliedCount T (ApplyEffectToActor w A tags s).2 = AppliedCount T s) := by
  unfold ApplyEffectToActor
  split_ifs
  · exact ⟨by simp, fun _ => rfl⟩
  · have h := AppliedCount_ApplyEffectToActorSend T w A tags s
    have hlog : AppliedCount T (AddPreviousTarget A (ApplyEffectToActorSend w A tags s))
        = AppliedCount T (ApplyEffectToActorSend w A tags s) := by
      unfold AppliedCount
      rw [AddPreviousTarget_Log]
    simp only [hlog]
    exact h

theorem AppliedCount_ApplyActorInteraction (T : AActor) (A : Option AActor) (s : FSystem) :
    AppliedCount T (ApplyActorInteraction A s).2 = AppliedCount T s := by
  unfold ApplyActorInteraction
  cases A with
  | none => rfl
  | some a =>
    simp only
    split_ifs
    · exact (AppliedCount_Send T s _).2 (by simp)
    · rfl

theorem AppliedCount_ApplyInteractionLoop (T : AActor) (w : FWorldView) :
    ∀ (A : List AActor) (s : FSystem),
      AppliedCount T (ApplyInteractionLoop w A s) = AppliedCount T s
  | [], s => rfl
  | a :: rest, s => by
    unfold ApplyInteractionLoop
    split_ifs
    · rw [AppliedCount_ApplyInteractionLoop T w rest, AppliedCount_ApplyActorInteraction]
    · exact AppliedCount_ApplyInteractionLoop T w rest s

theorem AppliedCount_ApplyEffectLoop (T : AActor) (w : FWorldView) (tags : List FGameplayTag) :
    ∀ (A : List AActor) (acc : Int × FSystem),
      acc.2.Self.bAllowRetargetting = false → (GetPreviousTargets acc.2).1 ≠ none →
      (Targeted T acc.2 →
        AppliedCount T (ApplyEffectLoop w tags A acc).2 = AppliedCount T acc.2) ∧
      AppliedCount T (ApplyEffectLoop w tags A acc).2 ≤ AppliedCount T acc.2 + 1
  | [], acc, _, _ => ⟨fun _ => rfl, by simp [ApplyEffectLoop]⟩
  | a :: rest, acc, hflag, hled => by
    unfold ApplyEffectLoop
    simp only [IsValidTargetActor_state]
    by_cases hv : (IsValidTargetActor w (some a) acc.2).1.bValid = true
    · rw [if_pos hv]
      have hg := Grows_ApplyEffectToActor w (some a) tags acc.2
      have hflag' : (ApplyEffectToActor w (some a) tags acc.2).2.Self.bAllowRetargetting = false :=
        hg.1.trans hflag
      have hled' := ledger_of_Grows hg hled
      obtain ⟨ih1, ih2⟩ := AppliedCount_ApplyEffectLoop T w tags rest
        (acc.1 + 1, (ApplyEffectToActor w (some a) tags acc.2).2) hflag' hled'
      have hc := AppliedCount_ApplyEffectToActor T w (some a) tags acc.2
      by_cases haT : a = T
      · subst haT
        have hnT : ¬ Targeted a acc.2 := by
          intro ht
          rw [IsValidTargetActor_of_Targeted w hflag ht] at hv
          exact Bool.false_ne_true hv
        refine ⟨fun ht => absurd ht hnT, ?_⟩
        by_cases hw : w.bWorld = true
        · have ht' := Targeted_ApplyEffectToActor w a tags acc.2 hw hled
          have := ih1 ht'
          simp only at this ⊢
          omega
        · have hsame : (ApplyEffectToActor w (some a) tags acc.2).2 = acc.2 := by
            unfold ApplyEffectToActor
            simp [hw]
          simp only [hsame] at ih2 ⊢
          exact ih2
      · have hne : (some a : Option AActor) ≠ some T := by simpa using haT
        have hceq := hc.2 hne
        refine ⟨fun ht => ?_, ?_⟩
        · have := ih1 (Targeted_of_Grows hg ht)
          simp only at this ⊢
          omega
        · simp only at ih2 ⊢
          omega
    · rw [if_neg hv]
      exact AppliedCount_ApplyEffectLoop T w tags rest (acc.1, acc.2) hflag hled

theorem AppliedCount_ApplyEffectToActorArray (T : AActor) (w : FWorldView) (A : List AActor)
    (tags : List FGameplayTag) (b : Bool) (s : FSystem)
    (hflag : s.Self.bAllowRetargetting = false) (hled : (GetPreviousTargets s).1 ≠ none) :
    (Targeted T s →
      AppliedCount T (ApplyEffectToActorArray w A tags b s).2 = AppliedCount T s) ∧
    AppliedCount T (ApplyEffectToActorArray w A tags b s).2 ≤ AppliedCount T s + 1 := by
  have hauth : (Targeted T s →
      AppliedCount T (ApplyEffectToActorArrayOnAuthority w A tags b s).2 = AppliedCount T s) ∧
      AppliedCount T (ApplyEffectToActorArrayOnAuthority w A tags b s).2
        ≤ AppliedCount T s + 1 := by
    have h := AppliedCount_ApplyEffectLoop T w tags A (0, s) hflag hled
    unfold ApplyEffectToActorArrayOnAuthority
    simp only
    split_ifs
    · simp only [AppliedCount_SendGameplayEvent]
      exact h
    · exact h
  rcases ApplyEffectToActorArray_cases w A tags b s with h | ⟨r, hr, -, h⟩
  · rw [h]
    exact ⟨fun _ => rfl, by omega⟩
  · have hg : (Targeted T s → AppliedCount T r.2 = AppliedCount T s) ∧
        AppliedCount T r.2 ≤ AppliedCount T s + 1 := by
      rcases hr with rfl | rfl
      · exact hauth
      · exact ⟨fun _ => rfl, by simp⟩
    rcases h with h | h
    · rw [h, AppliedCount_ApplyInteractionLoop]
      exact hg
    · rw [h]
      exact hg

theorem SameButTargets.sameRefl (s : FSystem) : SameButTargets s s := rfl

theorem SameButTargets.sameTrans {a b c : FSystem} (h1 : SameButTargets a b)
    (h2 : SameButTargets b c) : SameButTargets a c := by
  unfold SameButTargets at *
  rw [h2, h1]

theorem SameButTargets_of_Self {s s' : FSystem} (h : s'.Self = s.Self) : SameButTargets s s' := by
  unfold SameButTargets
  rw [h]

theorem SameButTargets_Send (s : FSystem) (n : FNotification) : SameButTargets s (s.Send n) :=
  rfl

theorem SameButTargets_SendGameplayEvent (b : Bool) (n : FNotification) (s : FSystem) :
    SameButTargets s (SendGameplayEvent b n s) := by
  unfold SendGameplayEvent
  split_ifs
  · rfl
  · rfl

theorem SameButTargets_AddPreviousTarget (A : Option AActor) (s : FSystem) :
    SameButTargets s (AddPreviousTarget A s) := by
  cases A with
  | none => rfl
  | some T =>
    unfold AddPreviousTarget
    simp only
    split_ifs <;> rfl

theorem SameButTargets_ApplyActorInteraction (A : Option AActor) (s : FSystem) :
    SameButTargets s (ApplyActorInteraction A s).2 := by
  cases A with
  | none => rfl
  | some T =>
    unfold ApplyActorInteraction
    simp only
    split_ifs <;> rfl

theorem SameButTargets_of_OnlyLog {s s' : FSystem} (h : OnlyLog s s') : SameButTargets s s' :=
  SameButTargets_of_Self h.1

theorem SameButTargets_ApplyEffectToActor (w : FWorldView) (A : Option AActor)
    (tags : List FGameplayTag) (s : FSystem) :
    SameButTargets s (ApplyEffectToActor w A tags s).2 := by
  unfold ApplyEffectToActor
  split_ifs
  · rfl
  · exact (SameButTargets_of_OnlyLog (OnlyLog_ApplyEffectToActorSend w A tags s)).sameTrans
      (SameButTargets_AddPreviousTarget _ _)

theorem SameButTargets_ApplyEffectLoop (w : FWorldView) (tags : List FGameplayTag) :
    ∀ (A : List AActor) (acc : Int × FSystem),
      SameButTargets acc.2 (ApplyEffectLoop w tags A acc).2
  | [], acc => SameButTargets.sameRefl _
  | a :: rest, acc => by
    unfold ApplyEffectLoop
    simp only [IsValidTargetActor_state]
    split_ifs
    · exact (SameButTargets_ApplyEffectToActor w (some a) tags acc.2).sameTrans
        (SameButTargets_ApplyEffectLoop w tags rest _)
    · exact SameButTargets_ApplyEffectLoop w tags rest _

theorem SameButTargets_ApplyInteractionLoop (w : FWorldView) :
    ∀ (A : List AActor) (s : FSystem), SameButTargets s (ApplyInteractionLoop w A s)
  | [], s => SameButTargets.sameRefl _
  | a :: rest, s => by
    unfold ApplyInteractionLoop
    split_ifs
    · exact (SameButTargets_ApplyActorInteraction (some a) s).sameTrans
        (SameButTargets_ApplyInteractionLoop w rest _)
    · exact SameButTargets_ApplyInteractionLoop w rest _

theorem SameButTargets_ApplyEffectToActorArray (w : FWorldView) (A : List AActor)
    (tags : List FGameplayTag) (b : Bool) (s : FSystem) :
    SameButTargets s (ApplyEffectToActorArray w A tags b s).2 := by
  have hauth : SameButTargets s (ApplyEffectToActorArrayOnAuthority w A tags b s).2 := by
    unfold ApplyEffectToActorArrayOnAuthority
    simp only
    split_ifs
    · exact (SameButTargets_ApplyEffectLoop w tags A (0, s)).sameTrans
        (SameButTargets_SendGameplayEvent _ _ _)
    · exact SameButTargets_ApplyEffectLoop w tags A (0, s)
  rcases ApplyEffectToActorArray_cases w A tags b s with h | ⟨r, hr, -, h⟩
  · rw [h]
    exact SameButTargets.sameRefl s
  · have hg : SameButTargets s r.2 := by
      rcases hr with rfl | rfl
      · exact hauth
      · exact SameButTargets.sameRefl s
    rcases h with h | h
    · rw [h]
      exact hg.sameTrans (SameButTargets_ApplyInteractionLoop w A _)
    · rw [h]
      exact hg

theorem SameButTargets_ExecuteGameplayCues (s : FSystem) :
    SameButTargets s (ExecuteGameplayCues s) := by
  unfold ExecuteGameplayCues
  apply SameButTargets_of_Self
  simp only [FSystem.Send]
  split_ifs <;> rfl

theorem SameButTargets_OnAreaOfEffectPeriodApply (w : FWorldView) (s : FSystem) :
    SameButTargets s (OnAreaOfEffectPeriodApply w s) := by
  unfold OnAreaOfEffectPeriodApply
  simp only
  split_ifs
  · exact (SameButTargets_ApplyEffectToActorArray _ _ _ _ _).sameTrans
      (SameButTargets_ExecuteGameplayCues _)
  · exact SameButTargets_ApplyEffectToActorArray _ _ _ _ _

theorem TimerCore_SendGameplayEvent (b : Bool) (n : FNotification) (s : FSystem) :
    (SendGameplayEvent b n s).Self = s.Self := by
  unfold SendGameplayEvent
  split_ifs <;> rfl

theorem TimerCore_SoftUnregister (s : FSystem) :
    TimerCore (SoftUnregisterSharedTargetInstance s).Self = TimerCore s.Self := by
  unfold SoftUnregisterSharedTargetInstance
  split_ifs <;> rfl

theorem TimerCore_UninitializeAttachToActor (e : FCollisionActor) :
    TimerCore (UninitializeAttachToActor e) = TimerCore e := by
  unfold UninitializeAttachToActor
  split_ifs <;> rfl

theorem TimerCore_RemovePreviewGameplayCue (s : FSystem) :
    TimerCore (RemovePreviewGameplayCue s).Self = TimerCore s.Self := by
  unfold RemovePreviewGameplayCue
  split_ifs <;> rfl

theorem TimerCore_RemoveGameplayCues (s : FSystem) :
    TimerCore (RemoveGameplayCues s).Self = TimerCore s.Self := by
  unfold RemoveGameplayCues
  simp only
  have h1 : ∀ x : FSystem, TimerCore
      ({ (RemovePreviewGameplayCue x) with Self :=
          { (RemovePreviewGameplayCue x).Self with
              bExecuteDeactivationCue := true } } : FSystem).Self
        = TimerCore x.Self := fun x => TimerCore_RemovePreviewGameplayCue x
  rw [h1]
  split_ifs <;> rfl

theorem Self_DeactivateSendEvents (s : FSystem) : (DeactivateSendEvents s).Self = s.Self := by
  unfold DeactivateSendEvents
  simp only
  split_ifs <;> try rfl
  all_goals (try split) <;> try split_ifs
  all_goals simp [TimerCore_SendGameplayEvent, FSystem.Send]

theorem TimerCore_DeactivateCollisionAndTarget (s : FSystem) :
    TimerCore (DeactivateCollisionAndTarget s).Self = TimerCore s.Self := by
  unfold DeactivateCollisionAndTarget UninitializeAttachToActor
  simp only
  split_ifs <;> rfl

theorem TimerCore_DeactivateClearLocalState (s : FSystem) :
    TimerCore (DeactivateClearLocalState s).Self = TimerCore s.Self := by
  unfold DeactivateClearLocalState
  simp only
  split_ifs <;> rfl

theorem TimerCore_DeactivateRelease (s : FSystem) :
    TimerCore (DeactivateRelease s).Self = TimerCore s.Self := by
  unfold DeactivateRelease
  rw [TimerCore_DeactivateClearLocalState, TimerCore_RemoveGameplayCues,
    TimerCore_DeactivateCollisionAndTarget, TimerCore_SoftUnregister]

theorem bActive_DeactivateBody (w : FWorldView) (d : ℚ) (s : FSystem) :
    (DeactivateBody w d s).Self.bActive = false := rfl

theorem TimerCore_of_SameButTargets {s s' : FSystem} (h : SameButTargets s s') :
    TimerCore s'.Self = TimerCore s.Self := by
  unfold SameButTargets at h
  rw [h]
  rfl

theorem TimerCore_DeactivateBody (w : FWorldView) (d : ℚ) (s : FSystem) :
    TimerCore (DeactivateBody w d s).Self =
      (s.Self.ExecutedPeriods, s.Self.MaximumPeriodsToExecute, s.Self.AreaPeriodTimerHandleValid,
        s.Self.DurationTimerHandleValid,
        (if w.bWorld = true then
          (if d = 0 then [⟨.NextTick, .PoolCollisionActor, 0, false, 0⟩]
            else [⟨.LocalHandle, .PoolCollisionActor, d, false, d⟩])
          else s.Self.Timers), false) := by
  have h := TimerCore_DeactivateRelease (DeactivateSendEvents s)
  rw [Self_DeactivateSendEvents] at h
  unfold TimerCore at h ⊢
  simp only [Prod.mk.injEq] at h
  obtain ⟨h1, h2, h3, h4, h5, -⟩ := h
  unfold DeactivateBody DeactivateClearAndPool
  simp only
  split_ifs <;> simp [h1, h2, h3, h4, h5]

theorem TimerCore_Deactivate (w : FWorldView) (d : ℚ) (s : FSystem) :
    TimerCore (Deactivate w d s).Self =
      (s.Self.ExecutedPeriods, s.Self.MaximumPeriodsToExecute, s.Self.AreaPeriodTimerHandleValid,
        s.Self.DurationTimerHandleValid,
        (if s.Self.bActive = true ∧ w.bWorld = true then
          (if d = 0 then [⟨.NextTick, .PoolCollisionActor, 0, false, 0⟩]
            else [⟨.LocalHandle, .PoolCollisionActor, d, false, d⟩])
          else s.Self.Timers), false) := by
  unfold Deactivate
  by_cases h : s.Self.bActive = true
  · rw [if_pos h, TimerCore_DeactivateBody]
    simp [h]
  · rw [if_neg h]
    have h' : s.Self.bActive = false := by simpa using h
    simp [TimerCore, h']

theorem IsTimerActive_ClearTimer_same (Timers : List FTimerData) (h : ETimerHandle)
    (e : FCollisionActor) :
    IsTimerActive { e with Timers := ClearTimer Timers h } h = false := by
  unfold IsTimerActive ClearTimer
  simp

theorem any_ClearTimer_ne (Timers : List FTimerData) (h h' : ETimerHandle) (hne : h' ≠ h) :
    (ClearTimer Timers h).any (fun t => decide (t.Handle = h'))
      = Timers.any (fun t => decide (t.Handle = h')) := by
  rw [Bool.eq_iff_iff]
  simp only [List.any_eq_true, ClearTimer, List.mem_filter, decide_eq_true_eq]
  constructor
  · rintro ⟨t, ⟨hm, -⟩, ht⟩
    exact ⟨t, hm, ht⟩
  · rintro ⟨t, hm, ht⟩
    exact ⟨t, ⟨hm, fun h2 => hne (ht.symm.trans h2)⟩, ht⟩

/-- The periodic tick, seen on the fields of the periodic phase. -/
theorem TimerCore_OnAreaOfEffectPeriod (w : FWorldView) (s : FSystem) :
    TimerCore (OnAreaOfEffectPeriod w s).Self =
      if w.bWorld = true ∧ s.Self.ExecutedPeriods + 1 ≥ s.Self.MaximumPeriodsToExecute then
        if s.Self.DurationTimerHandleValid = true
            ∧ IsTimerActive s.Self .DurationTimerHandle = true then
          (s.Self.ExecutedPeriods + 1, s.Self.MaximumPeriodsToExecute, false, true,
            ClearTimer s.Self.Timers .AreaPeriodTimerHandle, s.Self.bActive)
        else
          (s.Self.ExecutedPeriods + 1, s.Self.MaximumPeriodsToExecute, false,
            s.Self.DurationTimerHandleValid,
            (if s.Self.bActive = true then
              [⟨.LocalHandle, .PoolCollisionActor, 25 / 100, false, 25 / 100⟩]
              else ClearTimer s.Self.Timers .AreaPeriodTimerHandle), false)
      else
        (s.Self.ExecutedPeriods + 1, s.Self.MaximumPeriodsToExecute,
          s.Self.AreaPeriodTimerHandleValid, s.Self.DurationTimerHandleValid, s.Self.Timers,
          s.Self.bActive) := by
  have hc := TimerCore_of_SameButTargets (SameButTargets_OnAreaOfEffectPeriodApply w s)
  unfold TimerCore at hc
  simp only [Prod.mk.injEq] at hc
  obtain ⟨h1, h2, h3, h4, h5, h6⟩ := hc
  unfold OnAreaOfEffectPeriod
  simp only
  generalize OnAreaOfEffectPeriodApply w s = s2 at h1 h2 h3 h4 h5 h6 ⊢
  by_cases hlast : w.bWorld = true ∧ s.Self.ExecutedPeriods + 1 ≥ s.Self.MaximumPeriodsToExecute
  · have hcond : (w.bWorld
        && decide (s2.Self.ExecutedPeriods + 1 ≥ s2.Self.MaximumPeriodsToExecute))
        = true := by
      rw [h1, h2]
      simp [hlast.1, hlast.2]
    rw [if_pos hcond, if_pos hlast]
    have hdur : IsTimerActive { s2.Self with
        ExecutedPeriods := s2.Self.ExecutedPeriods + 1
        Timers := ClearTimer s2.Self.Timers .AreaPeriodTimerHandle
        AreaPeriodTimerHandleValid := false } .DurationTimerHandle
          = IsTimerActive s.Self .DurationTimerHandle := by
      unfold IsTimerActive
      simp only
      rw [any_ClearTimer_ne _ _ _ (by decide), h5]
    by_cases hd : s.Self.DurationTimerHandleValid = true
        ∧ IsTimerActive s.Self .DurationTimerHandle = true
    · rw [if_pos hd]
      have : ¬ ((!s2.Self.DurationTimerHandleValid
          || (s2.Self.DurationTimerHandleValid && !IsTimerActive { s2.Self with
        ExecutedPeriods := s2.Self.ExecutedPeriods + 1
        Timers := ClearTimer s2.Self.Timers .AreaPeriodTimerHandle
        AreaPeriodTimerHandleValid := false } .DurationTimerHandle)) = true) := by
        rw [hdur, h4]
        simp [hd.1, hd.2]
      rw [if_neg this]
      simp [TimerCore, h1, h2, h5, h6, hd.1, h4]
    · rw [if_neg hd]
      have : ((!s2.Self.DurationTimerHandleValid
          || (s2.Self.DurationTimerHandleValid && !IsTimerActive { s2.Self with
        ExecutedPeriods := s2.Self.ExecutedPeriods + 1
        Timers := ClearTimer s2.Self.Timers .AreaPeriodTimerHandle
        AreaPeriodTimerHandleValid := false } .DurationTimerHandle)) = true) := by
        rw [hdur, h4]
        by_cases hv : s.Self.DurationTimerHandleValid = true
        · have : IsTimerActive s.Self .DurationTimerHandle = false := by
            by_contra hcon
            exact hd ⟨hv, by simpa using hcon⟩
          simp [hv, this]
        · simp [hv]
      rw [if_pos this, TimerCore_Deactivate]
      simp only [h1, h2, h4, h5, h6, hlast.1, and_true]
      have hq : ¬ ((25 : ℚ) / 100 = 0) := by norm_num
      simp only [hq, if_false]
  · have hcond : ¬ ((w.bWorld
        && decide (s2.Self.ExecutedPeriods + 1 ≥ s2.Self.MaximumPeriodsToExecute))
        = true) := by
      rw [h1, h2]
      simpa using hlast
    rw [if_neg hcond, if_neg hlast]
    simp [TimerCore, h1, h2, h3, h4, h5, h6]

theorem TimerCore_Expire (w : FWorldView) (s : FSystem) :
    TimerCore (Expire w s).Self =
      if s.Self.AreaPeriodTimerHandleValid = false
          ∨ (w.bWorld = true ∧ IsTimerActive s.Self .AreaPeriodTimerHandle = false) then
        (s.Self.ExecutedPeriods, s.Self.MaximumPeriodsToExecute,
          s.Self.AreaPeriodTimerHandleValid, s.Self.DurationTimerHandleValid,
          (if s.Self.bActive = true ∧ w.bWorld = true then
            [⟨.LocalHandle, .PoolCollisionActor, 25 / 100, false, 25 / 100⟩]
            else s.Self.Timers), false)
      else TimerCore s.Self := by
  unfold Expire
  simp only
  have hS : (s.Send .OnCollisionActorExpired).Self = s.Self := rfl
  have hI : IsTimerActive (s.Send .OnCollisionActorExpired).Self .AreaPeriodTimerHandle
      = IsTimerActive s.Self .AreaPeriodTimerHandle := rfl
  rw [hI, hS]
  by_cases hc : s.Self.AreaPeriodTimerHandleValid = false
      ∨ (w.bWorld = true ∧ IsTimerActive s.Self .AreaPeriodTimerHandle = false)
  · have hc' : (!s.Self.AreaPeriodTimerHandleValid
        || (s.Self.AreaPeriodTimerHandleValid && w.bWorld
            && !IsTimerActive s.Self .AreaPeriodTimerHandle)) = true := by
      rcases hc with h | ⟨h1, h2⟩
      · simp [h]
      · cases hv : s.Self.AreaPeriodTimerHandleValid <;> simp [h1, h2]
    rw [if_pos hc', if_pos hc, TimerCore_Deactivate, hS]
    have hq : ¬ ((25 : ℚ) / 100 = 0) := by norm_num
    simp only [hq, if_false]
  · have hc' : ¬ ((!s.Self.AreaPeriodTimerHandleValid
        || (s.Self.AreaPeriodTimerHandleValid && w.bWorld
            && !IsTimerActive s.Self .AreaPeriodTimerHandle)) = true) := by
      intro h
      apply hc
      cases hv : s.Self.AreaPeriodTimerHandleValid
      · exact Or.inl rfl
      · right
        simpa [hv] using h
    rw [if_neg hc', if_neg hc, hS]

theorem TimerCore_fields {a b : FCollisionActor} (h : TimerCore a = TimerCore b) :
    a.ExecutedPeriods = b.ExecutedPeriods ∧
    a.MaximumPeriodsToExecute = b.MaximumPeriodsToExecute ∧
    a.AreaPeriodTimerHandleValid = b.AreaPeriodTimerHandleValid ∧
    a.DurationTimerHandleValid = b.DurationTimerHandleValid ∧ a.Timers = b.Timers ∧
    a.bActive = b.bActive := by
  unfold TimerCore at h
  simpa only [Prod.mk.injEq] using h

theorem TimerCore_values {a : FCollisionActor} {x1 x2 : Int} {x3 x4 : Bool}
    {x5 : List FTimerData} {x6 : Bool} (h : TimerCore a = (x1, x2, x3, x4, x5, x6)) :
    a.ExecutedPeriods = x1 ∧ a.MaximumPeriodsToExecute = x2 ∧
    a.AreaPeriodTimerHandleValid = x3 ∧ a.DurationTimerHandleValid = x4 ∧ a.Timers = x5 ∧
    a.bActive = x6 := by
  unfold TimerCore at h
  simpa only [Prod.mk.injEq] using h

theorem WithoutTimer_facts (s : FSystem) (h h' : ETimerHandle) (hne : h' ≠ h) :
    IsTimerActive (s.WithoutTimer h).Self h' = IsTimerActive s.Self h' ∧
    (s.WithoutTimer h).Self.AreaPeriodTimerHandleValid = s.Self.AreaPeriodTimerHandleValid ∧
    (s.WithoutTimer h).Self.ExecutedPeriods = s.Self.ExecutedPeriods ∧
    (s.WithoutTimer h).Self.MaximumPeriodsToExecute = s.Self.MaximumPeriodsToExecute := by
  refine ⟨?_, rfl, rfl, rfl⟩
  unfold IsTimerActive FSystem.WithoutTimer
  exact any_ClearTimer_ne _ _ _ hne

theorem Expire_facts (w : FWorldView) (s : FSystem) :
    (Expire w s).Self.ExecutedPeriods = s.Self.ExecutedPeriods ∧
    (Expire w s).Self.MaximumPeriodsToExecute = s.Self.MaximumPeriodsToExecute ∧
    (Expire w s).Self.AreaPeriodTimerHandleValid = s.Self.AreaPeriodTimerHandleValid ∧
    (IsTimerActive s.Self .AreaPeriodTimerHandle = false →
      IsTimerActive (Expire w s).Self .AreaPeriodTimerHandle = false) ∧
    (s.Self.AreaPeriodTimerHandleValid = true →
      IsTimerActive s.Self .AreaPeriodTimerHandle = true →
      IsTimerActive (Expire w s).Self .AreaPeriodTimerHandle = true) ∧
    (s.Self.AreaPeriodTimerHandleValid = false → (Expire w s).Self.bActive = false) := by
  have hE := TimerCore_Expire w s
  by_cases hc : s.Self.AreaPeriodTimerHandleValid = false
      ∨ (w.bWorld = true ∧ IsTimerActive s.Self .AreaPeriodTimerHandle = false)
  · rw [if_pos hc] at hE
    obtain ⟨e1, e2, e3, -, e5, e6⟩ := TimerCore_values hE
    refine ⟨e1, e2, e3, ?_, ?_, fun _ => e6⟩
    · intro hA
      unfold IsTimerActive at hA ⊢
      rw [e5]
      split_ifs
      · rfl
      · exact hA
    · intro hv hA
      rcases hc with hc | hc
      · rw [hv] at hc
        exact absurd hc (by decide)
      · rw [hA] at hc
        exact absurd hc.2 (by decide)
  · rw [if_neg hc] at hE
    obtain ⟨e1, e2, e3, -, e5, e6⟩ := TimerCore_fields hE
    have hI : IsTimerActive (Expire w s).Self .AreaPeriodTimerHandle
        = IsTimerActive s.Self .AreaPeriodTimerHandle := by
      unfold IsTimerActive
      rw [e5]
    refine ⟨e1, e2, e3, fun hA => hI.trans hA, fun _ hA => hI.trans hA, ?_⟩
    intro hv
    exact absurd (Or.inl hv) hc

theorem FireTimer_Finished (M : Int) (w : FWorldView) (ev : ETimerEvent) (s : FSystem)
    (h : Finished M s) : Finished M (FireTimer w ev s) := by
  obtain ⟨h1, h2, h3⟩ := h
  cases ev with
  | PeriodTimer =>
    unfold FireTimer
    simp only [h1, Bool.false_eq_true, if_false]
    exact ⟨h1, h2, h3⟩
  | ExpirationTimer =>
    unfold FireTimer
    simp only
    split_ifs with hd
    · obtain ⟨f1, -, f3, f4⟩ := WithoutTimer_facts s .DurationTimerHandle
        .AreaPeriodTimerHandle (by decide)
      obtain ⟨e1, e2, -, e4, -, -⟩ := Expire_facts w (s.WithoutTimer .DurationTimerHandle)
      exact ⟨e4 (f1.trans h1), e1.trans (f3.trans h2), e2.trans (f4.trans h3)⟩
    · exact ⟨h1, h2, h3⟩

theorem RunTimers_Finished (M : Int) :
    ∀ (sched : List (FWorldView × ETimerEvent)) (s : FSystem), Finished M s →
      Finished M (RunTimers sched s)
  | [], _, h => h
  | (w, ev) :: rest, s, h => by
    unfold RunTimers
    exact RunTimers_Finished M rest _ (FireTimer_Finished M w ev s h)

theorem FireTimer_Counting (M k : Int) (w : FWorldView) (ev : ETimerEvent) (s : FSystem)
    (hw : w.bWorld = true) (h : Counting M k s) (hk0 : 0 ≤ k) (hkmax : k < max 1 M) :
    (ev = .ExpirationTimer ∧ Counting M k (FireTimer w ev s)) ∨
    (ev = .PeriodTimer ∧ k + 1 < M ∧ Counting M (k + 1) (FireTimer w ev s)) ∨
    (ev = .PeriodTimer ∧ k + 1 = max 1 M ∧ Finished M (FireTimer w ev s)) := by
  obtain ⟨h1, h2, h3, h4⟩ := h
  cases ev with
  | ExpirationTimer =>
    left
    refine ⟨rfl, ?_⟩
    unfold FireTimer
    simp only
    split_ifs with hd
    · obtain ⟨f1, f2, f3, f4⟩ := WithoutTimer_facts s .DurationTimerHandle
        .AreaPeriodTimerHandle (by decide)
      obtain ⟨e1, e2, e3, -, e5, -⟩ := Expire_facts w (s.WithoutTimer .DurationTimerHandle)
      exact ⟨e5 (f2.trans h2) (f1.trans h1), e3.trans (f2.trans h2), e1.trans (f3.trans h3),
        e2.trans (f4.trans h4)⟩
    · exact ⟨h1, h2, h3, h4⟩
  | PeriodTimer =>
    right
    unfold FireTimer
    simp only [h1, if_true]
    have hP := TimerCore_OnAreaOfEffectPeriod w s
    by_cases hlast : s.Self.ExecutedPeriods + 1 ≥ s.Self.MaximumPeriodsToExecute
    · right
      have hkM : k + 1 = max 1 M := by
        rw [h3, h4] at hlast
        have hk1 : k < max 1 M := hkmax
        rcases le_total 1 M with hM | hM
        · rw [max_eq_right hM]
          omega
        · rw [max_eq_left hM]
          omega
      refine ⟨trivial, hkM, ?_⟩
      have hP1 : (OnAreaOfEffectPeriod w s).Self.ExecutedPeriods = k + 1 ∧
          (OnAreaOfEffectPeriod w s).Self.MaximumPeriodsToExecute = M ∧
          IsTimerActive (OnAreaOfEffectPeriod w s).Self .AreaPeriodTimerHandle = false := by
        rw [if_pos ⟨hw, hlast⟩] at hP
        split_ifs at hP
        · obtain ⟨e1, e2, -, -, e5, -⟩ := TimerCore_values hP
          refine ⟨by rw [e1, h3], e2.trans h4, ?_⟩
          unfold IsTimerActive
          rw [e5]
          unfold ClearTimer
          simp
        · obtain ⟨e1, e2, -, -, e5, -⟩ := TimerCore_values hP
          refine ⟨by rw [e1, h3], e2.trans h4, ?_⟩
          unfold IsTimerActive
          rw [e5]
          rfl
        · obtain ⟨e1, e2, -, -, e5, -⟩ := TimerCore_values hP
          refine ⟨by rw [e1, h3], e2.trans h4, ?_⟩
          unfold IsTimerActive
          rw [e5]
          unfold ClearTimer
          simp
      exact ⟨hP1.2.2, hP1.1.trans hkM, hP1.2.1⟩
    · left
      rw [if_neg (by intro hc; exact hlast hc.2)] at hP
      obtain ⟨e1, e2, e3, -, e5, -⟩ := TimerCore_values hP
      refine ⟨trivial, by rw [h3, h4] at hlast; omega, ?_, e3.trans h2, by rw [e1, h3],
        e2.trans h4⟩
      unfold IsTimerActive at h1 ⊢
      rw [e5]
      exact h1

theorem RunTimers_Counting (M : Int) :
    ∀ (sched : List (FWorldView × ETimerEvent)) (k : Int) (s : FSystem),
      (∀ p ∈ sched, p.1.bWorld = true) → Counting M k s → 0 ≤ k → k < max 1 M →
      (RunTimers sched s).Self.ExecutedPeriods
        = min (k + (sched.countP (fun p => p.2 = .PeriodTimer) : Nat)) (max 1 M)
  | [], k, s, _, h, _, hk => by
    simp only [RunTimers, List.countP_nil, Nat.cast_zero, add_zero]
    rw [h.2.2.1, min_eq_left (le_of_lt hk)]
  | (w, ev) :: rest, k, s, hall, h, hk0, hk => by
    have hw : w.bWorld = true := hall (w, ev) (List.mem_cons_self _ _)
    have hall' : ∀ p ∈ rest, p.1.bWorld = true := fun p hp => hall p (List.mem_cons_of_mem _ hp)
    unfold RunTimers
    rcases FireTimer_Counting M k w ev s hw h hk0 hk with
      ⟨hev, hc⟩ | ⟨hev, hlt, hc⟩ | ⟨hev, heq, hf⟩
    · rw [RunTimers_Counting M rest k _ hall' hc hk0 hk]
      simp [List.countP_cons, hev]
    · have hk' : k + 1 < max 1 M := lt_of_lt_of_le hlt (le_max_right _ _)
      rw [RunTimers_Counting M rest (k + 1) _ hall' hc (by omega) hk']
      simp only [List.countP_cons, hev, decide_True, if_true, Nat.cast_add, Nat.cast_one]
      congr 1
      ring
    · rw [(RunTimers_Finished M rest _ hf).2.1]
      simp only [List.countP_cons, hev, decide_True, if_true, Nat.cast_add, Nat.cast_one]
      have hn : (0 : Int) ≤
          ((List.countP (fun p => decide (p.2 = ETimerEvent.PeriodTimer)) rest : Nat) : Int) :=
        Int.natCast_nonneg _
      rw [min_eq_right (by omega)]

theorem InitializeForcedPeriod_of_pos (e : FCollisionActor) (h : 0 < e.Duration.Period) :
    (InitializeForcedPeriod e).Duration = e.Duration := by
  have hn : ¬ e.Duration.Period ≤ 0 := not_le.mpr h
  have hD : (InitializeAttachToActor e).Duration = e.Duration := by
    unfold InitializeAttachToActor
    simp only
    split_ifs <;> rfl
  unfold InitializeForcedPeriod
  simp only [hD, hn, decide_False, Bool.and_false, Bool.false_eq_true, if_false]

theorem InitializePersistentElements_Max (w : FWorldView) (s : FSystem)
    (h : 0 < (InitializeForcedPeriod s.Self).Duration.Period) :
    (InitializePersistentElements w s).Self.MaximumPeriodsToExecute =
      TruncToInt (RoundToFloat (RoundToFloat ((InitializeForcedPeriod s.Self).Duration.LifeSpan
        - (InitializeForcedPeriod s.Self).Duration.FirstPeriodDelay)
          / (InitializeForcedPeriod s.Self).Duration.Period)) + 1 := by
  unfold InitializePersistentElements
  simp only [gt_iff_lt, h, if_true]
  split_ifs
  · rfl
  · exact (TimerCore_values (TimerCore_Deactivate w 0 _)).2.1

theorem InitializePersistentElements_Counting (w : FWorldView) (s : FSystem)
    (hw : w.bWorld = true) (h : 0 < (InitializeForcedPeriod s.Self).Duration.Period) :
    Counting (InitializePersistentElements w s).Self.MaximumPeriodsToExecute 0
      (InitializePersistentElements w s) := by
  unfold InitializePersistentElements
  simp only [gt_iff_lt, h, if_true, hw]
  refine ⟨?_, rfl, rfl, rfl⟩
  unfold IsTimerActive SetTimer
  simp

/-- C1. `IsValidTargetActor` leaves the state as it is; it is false for a null actor and
otherwise equals the conjunction of the six checks (retargeting allowed or not already
targeted, target priority, line of sight when required, minimal distance, angle deviation,
filter), and the rejection it logs is the one of the first check, in this order, that fails. -/
theorem IsValidTargetActor_spec (w : FWorldView) (s : FSystem) (Actor : Option AActor) :
    (IsValidTargetActor w Actor s).2 = s ∧
    (IsValidTargetActor w none s).1.bValid = false ∧
    ∀ A : AActor,
      (IsValidTargetActor w (some A) s).1.bValid =
        ((s.Self.bAllowRetargetting || !(IsAlreadyTargeted (some A) s).1)
          && HasTargetPriority w s.Self A
          && (!s.Self.Targeting.bValidTargetRequiresCollisionActorLineOfSight
              || HasLineOfSightToTarget w A)
          && IsTargetInMinimalDistance w s.Self A
          && IsTargetBetweenAngleDeviation w s.Self A
          && w.FilterPassesForActor A) ∧
      (IsValidTargetActor w (some A) s).1.bValid = (TargetChecks w s A).all (fun c => c.2) ∧
      (IsValidTargetActor w (some A) s).1.Rejected = FirstRejection (TargetChecks w s A) := by
  refine ⟨IsValidTargetActor_state w Actor s, rfl, ?_⟩
  intro A
  have h := IsAlreadyTargeted_state (some A) s
  unfold IsValidTargetActor TargetChecks FirstRejection
  simp only [List.all_cons, List.all_nil, List.find?_cons, List.find?_nil]
  cases h1 : s.Self.bAllowRetargetting <;>
  cases h2 : (IsAlreadyTargeted (some A) s).1 <;>
  cases h3 : HasTargetPriority w s.Self A <;>
  cases h4 : s.Self.Targeting.bValidTargetRequiresCollisionActorLineOfSight <;>
  cases h5 : HasLineOfSightToTarget w A <;>
  cases h6 : IsTargetInMinimalDistance w s.Self A <;>
  cases h7 : IsTargetBetweenAngleDeviation w s.Self A <;>
  cases h8 : w.FilterPassesForActor A <;>
  simp_all

/-- C2 (code defect). Evaluation of `HasTargetPriority` where the collision actors 1 (spawn
index 0) and 2 (spawn index 1) of one activation overlap the target: the code denies the
priority to actor 1, which has the lowest spawn index, and gives it to actor 2, the last one
of the overlap list. -/
theorem HasTargetPriority_last_overlap_wins :
    HasTargetPriority PriorityWorld FirstSpawned 10 = false ∧
    HasLowestSpawnIndexAmongSharing PriorityWorld FirstSpawned 10 = true ∧
    HasTargetPriority PriorityWorld SecondSpawned 10 = true ∧
    HasLowestSpawnIndexAmongSharing PriorityWorld SecondSpawned 10 = false := by
  decide

/-- C3. For an entity with `bAllowRetargetting = false` whose `GetPreviousTargets()` is not
null (its local list, or the shared targets of an activation key that is registered): with a
world, `ApplyEffectToActor` on T succeeds, and from then on `IsValidTargetActor(T)` is false
after every sequence of further effect applications, whatever the world answers; a later
`ApplyEffectToActorArray` on any list never applies the effect container to T again, and on
any state `ApplyEffectToActorArray` applies it to T at most once, however often the list
contains T. -/
theorem no_retargeting_within_activation (w : FWorldView) (T : AActor)
    (tags : List FGameplayTag) (s : FSystem)
    (hflag : s.Self.bAllowRetargetting = false) (hw : w.bWorld = true)
    (hled : (GetPreviousTargets s).1 ≠ none) :
    (ApplyEffectToActor w (some T) tags s).1 = true ∧
    (∀ (steps : List FActivationStep) (w' : FWorldView),
      (IsValidTargetActor w' (some T)
        (RunActivation steps (ApplyEffectToActor w (some T) tags s).2)).1.bValid = false) ∧
    (∀ (steps : List FActivationStep) (w' : FWorldView) (A : List AActor)
        (tags' : List FGameplayTag) (b : Bool),
      AppliedCount T (ApplyEffectToActorArray w' A tags' b
          (RunActivation steps (ApplyEffectToActor w (some T) tags s).2)).2
        = AppliedCount T (RunActivation steps (ApplyEffectToActor w (some T) tags s).2)) ∧
    (∀ (w' : FWorldView) (A : List AActor) (tags' : List FGameplayTag) (b : Bool),
      AppliedCount T (ApplyEffectToActorArray w' A tags' b s).2 ≤ AppliedCount T s + 1) := by
  have hg1 := Grows_ApplyEffectToActor w (some T) tags s
  have ht1 := Targeted_ApplyEffectToActor w T tags s hw hled
  have hrun : ∀ steps : List FActivationStep,
      Grows s (RunActivation steps (ApplyEffectToActor w (some T) tags s).2) :=
    fun steps => hg1.growsTrans (Grows_RunActivation steps _)
  refine ⟨?_, ?_, ?_, ?_⟩
  · unfold ApplyEffectToActor
    simp [hw]
  · intro steps w'
    exact IsValidTargetActor_of_Targeted w' ((hrun steps).1.trans hflag)
      (Targeted_of_Grows (Grows_RunActivation steps _) ht1)
  · intro steps w' A tags' b
    exact (AppliedCount_ApplyEffectToActorArray T w' A tags' b _ ((hrun steps).1.trans hflag)
      (ledger_of_Grows (hrun steps) hled)).1
      (Targeted_of_Grows (Grows_RunActivation steps _) ht1)
  · intro w' A tags' b
    exact (AppliedCount_ApplyEffectToActorArray T w' A tags' b s hflag hled).2

/-- Witness of C3: an entity registered for shared targeting, target 5, and a list that
contains the target three times. -/
theorem no_retargeting_within_activation_witness :
    RegisteredEntity.Self.bAllowRetargetting = false ∧ OpenWorld.bWorld = true ∧
    (GetPreviousTargets RegisteredEntity).1 ≠ none ∧
    AppliedCount 5 (ApplyEffectToActorArray OpenWorld [5, 5, 5] [] true RegisteredEntity).2
      ≤ AppliedCount 5 RegisteredEntity + 1 :=
  ⟨by decide, by decide, by decide,
    (no_retargeting_within_activation OpenWorld 5 [] RegisteredEntity (by decide) (by decide)
      (by decide)).2.2.2 OpenWorld [5, 5, 5] [] true⟩

/-- The count of the periods. With a world present, a periodic entity applies its periodic
effect exactly `max 1 MaximumPeriodsToExecute` times: every call of `OnAreaOfEffectPeriod`
increases `ExecutedPeriods` by one; at the call where `ExecutedPeriods` reaches
`MaximumPeriodsToExecute` the period timer is cleared and the entity is deactivated at that
call unless the expiration timer is still active, in which case `Expire` deactivates it;
earlier calls leave the timers and `bActive` alone; over every sequence of timer events the
number of executed periods is the number of period events capped at
`max 1 MaximumPeriodsToExecute`; for `LifeSpan = 1`, `FirstPeriodDelay = 0` and the `float`
nearest to 0.2 as `Period` the maximum is 6. -/
theorem periodic_entity_period_count (w0 : FWorldView) (s : FSystem) (hw0 : w0.bWorld = true)
    (hper : 0 < (InitializeForcedPeriod s.Self).Duration.Period) :
    (∀ (w : FWorldView) (x : FSystem),
      (OnAreaOfEffectPeriod w x).Self.ExecutedPeriods = x.Self.ExecutedPeriods + 1) ∧
    (∀ (w : FWorldView) (x : FSystem), w.bWorld = true →
      x.Self.MaximumPeriodsToExecute ≤ x.Self.ExecutedPeriods + 1 →
        IsTimerActive (OnAreaOfEffectPeriod w x).Self .AreaPeriodTimerHandle = false ∧
        (OnAreaOfEffectPeriod w x).Self.AreaPeriodTimerHandleValid = false ∧
        (¬(x.Self.DurationTimerHandleValid = true
            ∧ IsTimerActive x.Self .DurationTimerHandle = true) →
          (OnAreaOfEffectPeriod w x).Self.bActive = false) ∧
        (x.Self.DurationTimerHandleValid = true
            ∧ IsTimerActive x.Self .DurationTimerHandle = true →
          (OnAreaOfEffectPeriod w x).Self.bActive = x.Self.bActive ∧
          IsTimerActive (OnAreaOfEffectPeriod w x).Self .DurationTimerHandle = true ∧
          ∀ w' : FWorldView,
            (FireTimer w' .ExpirationTimer (OnAreaOfEffectPeriod w x)).Self.bActive = false)) ∧
    (∀ (w : FWorldView) (x : FSystem),
      x.Self.ExecutedPeriods + 1 < x.Self.MaximumPeriodsToExecute →
        (OnAreaOfEffectPeriod w x).Self.Timers = x.Self.Timers ∧
        (OnAreaOfEffectPeriod w x).Self.bActive = x.Self.bActive) ∧
    (∀ sched : List (FWorldView × ETimerEvent), (∀ p ∈ sched, p.1.bWorld = true) →
      (RunTimers sched (InitializePersistentElements w0 s)).Self.ExecutedPeriods =
        min ((sched.countP (fun p => p.2 = .PeriodTimer) : Nat) : Int)
          (max 1 (InitializePersistentElements w0 s).Self.MaximumPeriodsToExecute)) ∧
    (s.Self.Duration.LifeSpan = 1 → s.Self.Duration.FirstPeriodDelay = 0 →
      s.Self.Duration.Period = RoundToFloat (2 / 10) →
        (InitializePersistentElements w0 s).Self.MaximumPeriodsToExecute = 6) := by
  refine ⟨?_, ?_, ?_, ?_, ?_⟩
  · intro w x
    have hP := TimerCore_OnAreaOfEffectPeriod w x
    split_ifs at hP
    all_goals exact (TimerCore_values hP).1
  · intro w x hw hlast
    have hP := TimerCore_OnAreaOfEffectPeriod w x
    rw [if_pos ⟨hw, hlast⟩] at hP
    by_cases hd : x.Self.DurationTimerHandleValid = true
        ∧ IsTimerActive x.Self .DurationTimerHandle = true
    · rw [if_pos hd] at hP
      obtain ⟨-, -, e3, e4, e5, e6⟩ := TimerCore_values hP
      have hdur : IsTimerActive (OnAreaOfEffectPeriod w x).Self .DurationTimerHandle = true := by
        unfold IsTimerActive
        rw [e5, any_ClearTimer_ne _ _ _ (by decide)]
        exact hd.2
      refine ⟨?_, e3, fun hn => absurd hd hn, fun _ => ⟨e6, hdur, ?_⟩⟩
      · unfold IsTimerActive
        rw [e5]
        unfold ClearTimer
        simp
      · intro w'
        unfold FireTimer
        simp only [hdur, if_true]
        exact (Expire_facts w' _).2.2.2.2.2
          ((WithoutTimer_facts _ .DurationTimerHandle .AreaPeriodTimerHandle
            (by decide)).2.1.trans e3)
    · rw [if_neg hd] at hP
      obtain ⟨-, -, e3, -, e5, e6⟩ := TimerCore_values hP
      refine ⟨?_, e3, fun _ => e6, fun h => absurd h hd⟩
      unfold IsTimerActive
      rw [e5]
      split_ifs
      · rfl
      · unfold ClearTimer
        simp
  · intro w x hlt
    have hP := TimerCore_OnAreaOfEffectPeriod w x
    rw [if_neg (by intro hc; exact absurd hc.2 (not_le.mpr hlt))] at hP
    obtain ⟨-, -, -, -, e5, e6⟩ := TimerCore_values hP
    exact ⟨e5, e6⟩
  · intro sched hall
    have hc := InitializePersistentElements_Counting w0 s hw0 hper
    have := RunTimers_Counting _ sched 0 _ hall hc (le_refl 0)
      (lt_of_lt_of_le (by norm_num) (le_max_left _ _))
    rw [this, zero_add]
  · intro h1 h2 h3
    have hpos : 0 < s.Self.Duration.Period := by rw [h3]; decide!
    have hD := InitializeForcedPeriod_of_pos s.Self hpos
    rw [InitializePersistentElements_Max w0 s hper, hD, h1, h2, h3]
    decide!

/-- C6 (code defect). An entity without end of life (`LifeSpan = -1`, for which
`FinishActivate` arms no expiration) and a period of one second: `InitializePersistentElements`
computes `MaximumPeriodsToExecute = trunc(-1 / 1) + 1 = 0` from the life span, and
`OnAreaOfEffectPeriod` tests the limit after the period has run. The first period event is
executed, clears the period timer and deactivates the entity; further period events execute
nothing: one period is executed, not `MaximumPeriodsToExecute = 0`, and the entity without
end of life ends with it. With a positive maximum the count is the maximum: for
`LifeSpan = 1`, `FirstPeriodDelay = 0` and the `float` nearest to 0.2 as `Period` the maximum
is 6, the entity is still active after 5 period events, the 6th deactivates it, and further
period events execute nothing. -/
theorem periodic_entity_executes_once_when_maximum_is_zero :
    EndlessPeriodic.Self.Duration = ⟨-1, 1, 0, 0⟩ ∧
    (InitializePersistentElements OpenWorld EndlessPeriodic).Self.MaximumPeriodsToExecute = 0 ∧
    (InitializePersistentElements OpenWorld EndlessPeriodic).Self.bActive = true ∧
    IsTimerActive (InitializePersistentElements OpenWorld EndlessPeriodic).Self
      .DurationTimerHandle = false ∧
    (RunTimers [(OpenWorld, .PeriodTimer)]
      (InitializePersistentElements OpenWorld EndlessPeriodic)).Self.ExecutedPeriods = 1 ∧
    (RunTimers [(OpenWorld, .PeriodTimer)]
      (InitializePersistentElements OpenWorld EndlessPeriodic)).Self.bActive = false ∧
    IsTimerActive (RunTimers [(OpenWorld, .PeriodTimer)]
      (InitializePersistentElements OpenWorld EndlessPeriodic)).Self
        .AreaPeriodTimerHandle = false ∧
    (RunTimers [(OpenWorld, .PeriodTimer), (OpenWorld, .PeriodTimer), (OpenWorld, .PeriodTimer)]
      (InitializePersistentElements OpenWorld EndlessPeriodic)).Self.ExecutedPeriods = 1 ∧
    (InitializePersistentElements OpenWorld FloatFivePerSecond).Self.MaximumPeriodsToExecute
      = 6 ∧
    (RunTimers (List.replicate 5 (OpenWorld, .PeriodTimer))
      (InitializePersistentElements OpenWorld FloatFivePerSecond)).Self.ExecutedPeriods = 5 ∧
    (RunTimers (List.replicate 5 (OpenWorld, .PeriodTimer))
      (InitializePersistentElements OpenWorld FloatFivePerSecond)).Self.bActive = true ∧
    (RunTimers (List.replicate 6 (OpenWorld, .PeriodTimer))
      (InitializePersistentElements OpenWorld FloatFivePerSecond)).Self.ExecutedPeriods = 6 ∧
    (RunTimers (List.replicate 6 (OpenWorld, .PeriodTimer))
      (InitializePersistentElements OpenWorld FloatFivePerSecond)).Self.bActive = false ∧
    (RunTimers (List.replicate 9 (OpenWorld, .PeriodTimer))
      (InitializePersistentElements OpenWorld FloatFivePerSecond)).Self.ExecutedPeriods = 6 := by
  refine ⟨?_, ?_, ?_, ?_, ?_, ?_, ?_, ?_, ?_, ?_, ?_, ?_, ?_, ?_⟩
  all_goals decide!

/-- C7 (amended). For every persistent entity with `Period > 0`, `InitializePersistentElements`
sets `MaximumPeriodsToExecute` to the quotient that the arithmetic on `float` gives, rounded
towards zero, plus 1: the difference `LifeSpan - FirstPeriodDelay` is rounded to a `float`,
divided by `Period` and rounded to a `float`. This is the floor of that quotient plus 1 when
`FirstPeriodDelay <= LifeSpan` and its ceiling plus 1 when `LifeSpan <= FirstPeriodDelay`.
The quotient is the exact one up to a relative error of `3 / 2^24`. -/
theorem InitializePersistentElements_truncates (w : FWorldView) (s : FSystem)
    (hP : 0 < s.Self.Duration.Period) :
    (InitializePersistentElements w s).Self.MaximumPeriodsToExecute =
        TruncToInt (RoundToFloat
          (RoundToFloat (s.Self.Duration.LifeSpan - s.Self.Duration.FirstPeriodDelay)
            / s.Self.Duration.Period)) + 1 ∧
    (s.Self.Duration.FirstPeriodDelay ≤ s.Self.Duration.LifeSpan →
      (InitializePersistentElements w s).Self.MaximumPeriodsToExecute =
        ⌊RoundToFloat
          (RoundToFloat (s.Self.Duration.LifeSpan - s.Self.Duration.FirstPeriodDelay)
            / s.Self.Duration.Period)⌋ + 1) ∧
    (s.Self.Duration.LifeSpan ≤ s.Self.Duration.FirstPeriodDelay →
      (InitializePersistentElements w s).Self.MaximumPeriodsToExecute =
        ⌈RoundToFloat
          (RoundToFloat (s.Self.Duration.LifeSpan - s.Self.Duration.FirstPeriodDelay)
            / s.Self.Duration.Period)⌉ + 1) ∧
    |RoundToFloat
        (RoundToFloat (s.Self.Duration.LifeSpan - s.Self.Duration.FirstPeriodDelay)
          / s.Self.Duration.Period)
      - (s.Self.Duration.LifeSpan - s.Self.Duration.FirstPeriodDelay) / s.Self.Duration.Period|
      ≤ 3 * |(s.Self.Duration.LifeSpan - s.Self.Duration.FirstPeriodDelay)
          / s.Self.Duration.Period| / 2 ^ 24 := by
  have hD := InitializeForcedPeriod_of_pos s.Self hP
  have hM := InitializePersistentElements_Max w s (by rw [hD]; exact hP)
  rw [hD] at hM
  refine ⟨hM, fun hle => ?_, fun hle => ?_, ?_⟩
  · rw [hM, TruncToInt_of_nonneg _ (RoundToFloat_nonneg _
      (div_nonneg (RoundToFloat_nonneg _ (by linarith)) (le_of_lt hP)))]
  · rw [hM, TruncToInt_of_nonpos _ (RoundToFloat_nonpos _
      (div_nonpos_of_nonpos_of_nonneg (RoundToFloat_nonpos _ (by linarith)) (le_of_lt hP)))]
  · exact RoundToFloat_div_RoundToFloat_sub_le _ _ hP

/-- Witness of C7 (amended): life span 1 s and the `float` nearest to 0.2 s as period. -/
theorem InitializePersistentElements_truncates_witness :
    0 < FloatFivePerSecond.Self.Duration.Period ∧
    FloatFivePerSecond.Self.Duration = ⟨1, 13421773 / 67108864, 0, 0⟩ ∧
    (InitializePersistentElements OpenWorld FloatFivePerSecond).Self.MaximumPeriodsToExecute =
      TruncToInt (RoundToFloat
        (RoundToFloat (FloatFivePerSecond.Self.Duration.LifeSpan
          - FloatFivePerSecond.Self.Duration.FirstPeriodDelay)
            / FloatFivePerSecond.Self.Duration.Period)) + 1 :=
  ⟨by decide!, by decide!,
    (InitializePersistentElements_truncates OpenWorld FloatFivePerSecond (by decide!)).1⟩

/-- Counterexample to C7 as stated. With `LifeSpan = 1`, `FirstPeriodDelay = 1.5`,
`Period = 1` the code sets `MaximumPeriodsToExecute = 1`, while `floor(...) + 1 = 0`. With
`LifeSpan = 1`, `FirstPeriodDelay = 0` and the `float` nearest to 0.2 as `Period` the code
sets 6, while the floor of the quotient of these values plus 1 is 5; with the `float` values
nearest to 0.9 and 0.3 the code sets 3, while the floor of 0.9 / 0.3 plus 1 is 4. -/
theorem InitializePersistentElements_not_floor :
    (InitializePersistentElements OpenWorld LatePeriodic).Self.MaximumPeriodsToExecute = 1 ∧
    ⌊(LatePeriodic.Self.Duration.LifeSpan - LatePeriodic.Self.Duration.FirstPeriodDelay)
      / LatePeriodic.Self.Duration.Period⌋ + 1 = 0 ∧
    (InitializePersistentElements OpenWorld FloatFivePerSecond).Self.MaximumPeriodsToExecute
      = 6 ∧
    ⌊(FloatFivePerSecond.Self.Duration.LifeSpan
      - FloatFivePerSecond.Self.Duration.FirstPeriodDelay)
        / FloatFivePerSecond.Self.Duration.Period⌋ + 1 = 5 ∧
    (InitializePersistentElements OpenWorld (PeriodicWith (RoundToFloat (9 / 10))
      (RoundToFloat (3 / 10)))).Self.MaximumPeriodsToExecute = 3 ∧
    ⌊((9 : ℚ) / 10 - 0) / (3 / 10)⌋ + 1 = 4 := by
  decide!

/-- C10. `Deactivate` is idempotent: a second call, with any pooling delay and whatever the
world answers, changes nothing of the state (entity, registry) and sends nothing; on an
entity with `bActive = false` it changes nothing and sends nothing. -/
theorem Deactivate_idempotent (w w' : FWorldView) (d1 d2 : ℚ) (s : FSystem) :
    Deactivate w' d2 (Deactivate w d1 s) = Deactivate w d1 s ∧
    (s.Self.bActive = false → Deactivate w d1 s = s) := by
  constructor
  · unfold Deactivate
    by_cases h : s.Self.bActive = true
    · simp only [h, if_true, bActive_DeactivateBody, Bool.false_eq_true, if_false]
    · simp [h]
  · intro h
    unfold Deactivate
    simp [h]

/-- Witness of C10: an entity that is not active. -/
theorem Deactivate_idempotent_witness :
    (⟨Constructed 1, EmptyRegistry, []⟩ : FSystem).Self.bActive = false ∧
    Deactivate OpenWorld 0 ⟨Constructed 1, EmptyRegistry, []⟩
      = ⟨Constructed 1, EmptyRegistry, []⟩ :=
  ⟨by decide,
    (Deactivate_idempotent OpenWorld OpenWorld 0 0 ⟨Constructed 1, EmptyRegistry, []⟩).2
      (by decide)⟩

/-! ## Activation, deactivation and the return to the pool -/

theorem Self_SoftUnregisterSharedTargetInstance (s : FSystem) :
    (SoftUnregisterSharedTargetInstance s).Self = { s.Self with
      bSoftRegisteredTargetInstance :=
        s.Self.bSoftRegisteredTargetInstance && !s.Self.InstigatorBaseASC } := by
  unfold SoftUnregisterSharedTargetInstance
  cases h1 : s.Self.bSoftRegisteredTargetInstance <;> cases h2 : s.Self.InstigatorBaseASC <;>
    simp <;> (try rw [← h1])

theorem Self_DeactivateCollisionAndTarget (s : FSystem) :
    (DeactivateCollisionAndTarget s).Self = { s.Self with
      bCollisionEnabled := false
      bShapeCallbacksBound := false
      IndividualData := { s.Self.IndividualData with TargetActor := none }
      bAttachedToComponent :=
        if s.Self.bAttached ∧ s.Self.AttachmentType = .LocationAndRotation then false
        else s.Self.bAttachedToComponent
      bAttached := false
      bUpdateAttachmentOnTick := s.Self.bUpdateAttachmentOnTick && !s.Self.bAttached
      bTickEnabled := false } := by
  unfold DeactivateCollisionAndTarget UninitializeAttachToActor
  cases h1 : s.Self.bAttached <;> simp [h1]
  split_ifs <;> simp_all

theorem Self_RemoveGameplayCues (s : FSystem) :
    (RemoveGameplayCues s).Self = { s.Self with
      bActorGameplayCueInitialized := false
      bPreviewGameplayCueInitialized := false
      bExecuteDeactivationCue := true } := by
  unfold RemoveGameplayCues RemovePreviewGameplayCue
  simp only
  split_ifs <;> simp_all [FSystem.Send]

theorem Self_DeactivateClearLocalState (s : FSystem) :
    (DeactivateClearLocalState s).Self = { s.Self with
      PreviousTargetedActors := []
      PreviousInteractableActors := []
      PreviousInterpZValues := []
      bInterpolatingScale := false
      bSkipVariableInitialization := false
      bPreactivated := false
      bSynched := false
      bSkipGameplayCues := false
      bSharedDataDelegateBound := s.Self.bSharedDataDelegateBound && !s.Self.InstigatorBaseASC
      bTimelinesStopped := true } := by
  unfold DeactivateClearLocalState
  cases h1 : s.Self.InstigatorBaseASC <;> simp [h1]

theorem Self_DeactivateBody (w : FWorldView) (d : ℚ) (s : FSystem) :
    (DeactivateBody w d s).Self = { s.Self with
      bSoftRegisteredTargetInstance :=
        s.Self.bSoftRegisteredTargetInstance && !s.Self.InstigatorBaseASC
      bCollisionEnabled := false
      bShapeCallbacksBound := false
      IndividualData := { s.Self.IndividualData with TargetActor := none }
      bAttachedToComponent :=
        if s.Self.bAttached ∧ s.Self.AttachmentType = .LocationAndRotation then false
        else s.Self.bAttachedToComponent
      bAttached := false
      bUpdateAttachmentOnTick := s.Self.bUpdateAttachmentOnTick && !s.Self.bAttached
      bTickEnabled := false
      bActorGameplayCueInitialized := false
      bPreviewGameplayCueInitialized := false
      bExecuteDeactivationCue := true
      PreviousTargetedActors := []
      PreviousInteractableActors := []
      PreviousInterpZValues := []
      bInterpolatingScale := false
      bSkipVariableInitialization := false
      bPreactivated := false
      bSynched := false
      bSkipGameplayCues := false
      bSharedDataDelegateBound := s.Self.bSharedDataDelegateBound && !s.Self.InstigatorBaseASC
      bTimelinesStopped := true
      Timers :=
        if w.bWorld then
          (if d = 0 then [⟨.NextTick, .PoolCollisionActor, 0, false, 0⟩]
            else [⟨.LocalHandle, .PoolCollisionActor, d, false, d⟩])
        else s.Self.Timers
      bDestroyed := s.Self.bDestroyed || !w.bWorld
      bActive := false } := by
  unfold DeactivateBody DeactivateClearAndPool DeactivateRelease
  simp only
  by_cases hw : w.bWorld = true
  · by_cases hd : d = 0 <;>
      simp [hw, hd, Self_DeactivateClearLocalState, Self_RemoveGameplayCues,
        Self_DeactivateCollisionAndTarget, Self_SoftUnregisterSharedTargetInstance,
        Self_DeactivateSendEvents]
  · simp [hw, Self_DeactivateClearLocalState, Self_RemoveGameplayCues,
      Self_DeactivateCollisionAndTarget, Self_SoftUnregisterSharedTargetInstance,
      Self_DeactivateSendEvents]

theorem Self_Deactivate (w : FWorldView) (d : ℚ) (s : FSystem) :
    (Deactivate w d s).Self =
      if s.Self.bActive then (DeactivateBody w d s).Self else s.Self := by
  unfold Deactivate
  split_ifs <;> rfl

theorem LifeCore_Deactivate (w : FWorldView) (d : ℚ) (s : FSystem) :
    LifeCore (Deactivate w d s).Self =
      if s.Self.bActive = true then DeactivatedCore w (LifeCore s.Self) else LifeCore s.Self := by
  rw [Self_Deactivate]
  by_cases h : s.Self.bActive = true
  · rw [if_pos h, if_pos h, Self_DeactivateBody]
    rfl
  · rw [if_neg h, if_neg h]

theorem LifeCore_of_SameButTargets {s s' : FSystem} (h : SameButTargets s s') :
    LifeCore s'.Self = LifeCore s.Self := by
  unfold SameButTargets at h
  rw [h]
  rfl

theorem LifeCore_SendGameplayEvent (b : Bool) (n : FNotification) (s : FSystem) :
    LifeCore (SendGameplayEvent b n s).Self = LifeCore s.Self := by
  rw [TimerCore_SendGameplayEvent]

theorem LifeCore_InitializeRotationInterpolation (w : FWorldView) (av : FActivationView)
    (s : FSystem) :
    LifeCore (InitializeRotationInterpolation w av s).Self = LifeCore s.Self := by
  unfold InitializeRotationInterpolation
  simp only
  split_ifs <;> rfl

theorem LifeCore_RemovePreactivationGameplayCue (s : FSystem) :
    LifeCore (RemovePreactivationGameplayCue s).Self = LifeCore s.Self := by
  unfold RemovePreactivationGameplayCue
  split_ifs <;> rfl

theorem LifeCore_InitializeActorGameplayCue (s : FSystem) :
    LifeCore (InitializeActorGameplayCue s).Self = LifeCore s.Self := by
  unfold InitializeActorGameplayCue
  split_ifs <;> rfl

theorem LifeCore_InitializePreviewGameplayCue (s : FSystem) :
    LifeCore (InitializePreviewGameplayCue s).Self = LifeCore s.Self := by
  unfold InitializePreviewGameplayCue
  split_ifs <;> rfl

theorem LifeCore_InitializePreactivationGameplayCue (s : FSystem) :
    LifeCore (InitializePreactivationGameplayCue s).Self = LifeCore s.Self := by
  unfold InitializePreactivationGameplayCue
  split_ifs <;> rfl

theorem LifeCore_InitExpirationTimer (w : FWorldView) (s : FSystem) :
    LifeCore (InitExpirationTimer w s).Self = LifeCore s.Self := by
  unfold InitExpirationTimer ClearExpirationTimer
  simp only
  split_ifs <;> rfl

theorem LifeCore_BeginActivateInitialize (av : FActivationView) (s : FSystem) :
    LifeCore (BeginActivateInitialize av s).Self = LifeCore s.Self := by
  unfold BeginActivateInitialize InitializeScale SetCollisionActorScale
  simp only
  split_ifs <;> rfl

theorem LifeCore_InitializeForcedPeriod (e : FCollisionActor) :
    LifeCore (InitializeForcedPeriod e) = LifeCore e := by
  unfold InitializeForcedPeriod InitializeAttachToActor
  simp only
  split_ifs <;> rfl

theorem LifeCore_InitializePersistentElements (w : FWorldView) (s : FSystem) :
    LifeCore (InitializePersistentElements w s).Self =
      if 0 < (InitializeForcedPeriod s.Self).Duration.Period ∧ w.bWorld = false
          ∧ s.Self.bActive = true
      then DeactivatedCore w (LifeCore s.Self) else LifeCore s.Self := by
  have h2 := LifeCore_InitializeForcedPeriod s.Self
  unfold InitializePersistentElements
  simp only
  by_cases hp : 0 < (InitializeForcedPeriod s.Self).Duration.Period
  · rw [if_pos (by simpa using hp)]
    by_cases hw : w.bWorld = true
    · rw [if_pos hw, if_neg (by simp [hw])]
      exact h2
    · rw [if_neg hw, LifeCore_Deactivate]
      have hw' : w.bWorld = false := by simpa using hw
      have h3 : LifeCore (InitializePeriodCount (InitializeForcedPeriod s.Self))
          = LifeCore s.Self := h2
      have hb : (InitializePeriodCount (InitializeForcedPeriod s.Self)).bActive
          = s.Self.bActive := congrArg (fun c => c.1) h3
      simp only [hb, h3, hp, hw', true_and]
  · rw [if_neg (by simpa using hp), if_neg (by simp [hp])]
    exact h2

theorem LifeCore_ApplyEffectToActorArray (w : FWorldView) (A : List AActor)
    (tags : List FGameplayTag) (b : Bool) (s : FSystem) :
    LifeCore (ApplyEffectToActorArray w A tags b s).2.Self = LifeCore s.Self :=
  LifeCore_of_SameButTargets (SameButTargets_ApplyEffectToActorArray w A tags b s)

theorem LifeCore_FinishActivateInitialize (w : FWorldView) (av : FActivationView)
    (s : FSystem) :
    LifeCore (FinishActivateInitialize w av s).Self =
      (true, (LifeCore s.Self).2) := by
  unfold FinishActivateInitialize
  simp only
  have h : ∀ x : FSystem, LifeCore (x.Send .OnCollisionActorActivate).Self = LifeCore x.Self :=
    fun _ => rfl
  split_ifs
  · rw [LifeCore_SendGameplayEvent, h,
      LifeCore_of_SameButTargets (SameButTargets_ExecuteGameplayCues _),
      LifeCore_InitializeActorGameplayCue, LifeCore_RemovePreactivationGameplayCue,
      LifeCore_InitializeRotationInterpolation]
    rfl
  · rw [h,
      LifeCore_of_SameButTargets (SameButTargets_ExecuteGameplayCues _),
      LifeCore_InitializeActorGameplayCue, LifeCore_RemovePreactivationGameplayCue,
      LifeCore_InitializeRotationInterpolation]
    rfl

theorem ActivationFrame.frameRefl (s : FSystem) : ActivationFrame s s :=
  ⟨rfl, rfl, rfl, fun h => h⟩

theorem ActivationFrame.frameTrans {a b c : FSystem} (h1 : ActivationFrame a b)
    (h2 : ActivationFrame b c) : ActivationFrame a c :=
  ⟨h2.1.trans h1.1, h2.2.1.trans h1.2.1, h2.2.2.1.trans h1.2.2.1,
    fun h => h1.2.2.2 (h2.2.2.2 h)⟩

theorem ActivationFrame_of_LifeCore {s s' : FSystem}
    (h : (LifeCore s'.Self).2.2 = (LifeCore s.Self).2.2) : ActivationFrame s s' := by
  unfold LifeCore at h
  simp only [Prod.mk.injEq] at h
  obtain ⟨-, h4, h5, h6, h7⟩ := h
  exact ⟨h7, h6, h5, fun hs => by rw [← h4]; exact hs⟩

theorem ActivationFrame_Deactivate (w : FWorldView) (d : ℚ) (s : FSystem) :
    ActivationFrame s (Deactivate w d s) := by
  have h := LifeCore_Deactivate w d s
  by_cases hb : s.Self.bActive = true
  · rw [if_pos hb] at h
    unfold LifeCore DeactivatedCore at h
    simp only [Prod.mk.injEq] at h
    obtain ⟨-, -, -, h4, h5, h6, h7⟩ := h
    refine ⟨h7, h6, h5, fun hs => ?_⟩
    rw [h4] at hs
    simp only [Bool.and_eq_true] at hs
    exact hs.1
  · rw [if_neg hb] at h
    exact ActivationFrame_of_LifeCore (by rw [h])

theorem ActivationFrame_FinishActivateInitialize (w : FWorldView) (av : FActivationView)
    (s : FSystem) : ActivationFrame s (FinishActivateInitialize w av s) :=
  ActivationFrame_of_LifeCore (by rw [LifeCore_FinishActivateInitialize])

theorem ActivationFrame_InitializePersistentElements (w : FWorldView) (s : FSystem) :
    ActivationFrame s (InitializePersistentElements w s) := by
  have h := LifeCore_InitializePersistentElements w s
  split_ifs at h with hc
  · unfold LifeCore DeactivatedCore at h
    simp only [Prod.mk.injEq] at h
    obtain ⟨-, -, -, h4, h5, h6, h7⟩ := h
    refine ⟨h7, h6, h5, fun hs => ?_⟩
    rw [h4] at hs
    simp only [Bool.and_eq_true] at hs
    exact hs.1
  · exact ActivationFrame_of_LifeCore (by rw [h])

theorem LifeCore_FinishActivatePersistent (w : FWorldView) (av : FActivationView)
    (s : FSystem) :
    LifeCore (FinishActivatePersistent w av s).Self
      = LifeCore (InitializePersistentElements w s).Self := by
  unfold FinishActivatePersistent
  simp only
  have h1 := LifeCore_InitializePreviewGameplayCue (InitializePersistentElements w s)
  generalize InitializePreviewGameplayCue (InitializePersistentElements w s) = s1 at h1 ⊢
  rw [← h1]
  have hT : ∀ x : FSystem, LifeCore (if RequiresTick x.Self = true then
      ({ x with Self := { x.Self with bTickEnabled := true } } : FSystem) else x).Self
        = LifeCore x.Self := by
    intro x
    split_ifs <;> rfl
  rw [hT]
  by_cases hL : s1.Self.Duration.LifeSpan > 0
  · rw [if_pos hL, LifeCore_InitExpirationTimer]
    split_ifs <;> rfl
  · rw [if_neg hL]

theorem ActivationFrame_FinishActivatePersistent (w : FWorldView) (av : FActivationView)
    (s : FSystem) : ActivationFrame s (FinishActivatePersistent w av s) :=
  (ActivationFrame_InitializePersistentElements w s).frameTrans
    (ActivationFrame_of_LifeCore (by rw [LifeCore_FinishActivatePersistent]))

theorem LifeCore_FinishActivateInstant (w : FWorldView) (s : FSystem) :
    LifeCore (FinishActivateInstant w s).Self =
      if s.Self.bActive = true then DeactivatedCore w (LifeCore s.Self)
      else LifeCore s.Self := by
  unfold FinishActivateInstant
  simp only
  rw [LifeCore_Deactivate, LifeCore_ApplyEffectToActorArray]
  have hb : (ApplyEffectToActorArray w w.ShapeOverlappingActors [] false
      { s with Self := { s.Self with bCollisionEnabled := true } }).2.Self.bActive
        = s.Self.bActive :=
    congrArg (fun c => c.1) (LifeCore_ApplyEffectToActorArray w w.ShapeOverlappingActors []
      false { s with Self := { s.Self with bCollisionEnabled := true } })
  rw [hb]
  rfl

theorem ActivationFrame_FinishActivateInstant (w : FWorldView) (s : FSystem) :
    ActivationFrame s (FinishActivateInstant w s) := by
  unfold FinishActivateInstant
  simp only
  refine ActivationFrame.frameTrans ?_ (ActivationFrame_Deactivate _ _ _)
  exact ActivationFrame_of_LifeCore (by rw [LifeCore_ApplyEffectToActorArray]; rfl)

theorem ActivationFrame_FinishActivate (w : FWorldView) (av : FActivationView) (s : FSystem) :
    ActivationFrame s (FinishActivate w av s) := by
  unfold FinishActivate
  simp only
  have h1 := ActivationFrame_FinishActivateInitialize w av s
  generalize FinishActivateInitialize w av s = s1 at h1 ⊢
  have h2 : ActivationFrame s1 (if s1.Self.Duration.LifeSpan = 0 then FinishActivateInstant w s1
      else FinishActivatePersistent w av s1) := by
    split_ifs
    · exact ActivationFrame_FinishActivateInstant w s1
    · exact ActivationFrame_FinishActivatePersistent w av s1
  generalize (if s1.Self.Duration.LifeSpan = 0 then FinishActivateInstant w s1
      else FinishActivatePersistent w av s1) = s2 at h2 ⊢
  split_ifs
  · exact (h1.frameTrans h2).frameTrans (ActivationFrame_Deactivate _ _ _)
  · exact h1.frameTrans h2

/-- Without a world `FinishActivate` ends with the entity deactivated. -/
theorem LifeCore_FinishActivate_without_world (w : FWorldView) (av : FActivationView)
    (s : FSystem) (hw : w.bWorld = false) :
    LifeCore (FinishActivate w av s).Self =
      (false, false, true, s.Self.bSoftRegisteredTargetInstance && !s.Self.InstigatorBaseASC,
        s.Self.InstigatorBaseASC, s.Self.bRegisteredTargetInstance,
        s.Self.CompensationActivationDelay) := by
  unfold FinishActivate
  simp only
  have h1 := LifeCore_FinishActivateInitialize w av s
  generalize FinishActivateInitialize w av s = s1 at h1 ⊢
  have hb1 : s1.Self.bActive = true := congrArg (fun c => c.1) h1
  rw [if_pos (by simp [hw]), LifeCore_Deactivate]
  by_cases hL : s1.Self.Duration.LifeSpan = 0
  · rw [if_pos hL]
    have h2 := LifeCore_FinishActivateInstant w s1
    rw [if_pos hb1, h1] at h2
    have hb2 : (FinishActivateInstant w s1).Self.bActive = false := congrArg (fun c => c.1) h2
    rw [if_neg (by simp [hb2]), h2]
    simp [DeactivatedCore, LifeCore, hw]
  · rw [if_neg hL]
    have h2 := LifeCore_FinishActivatePersistent w av s1
    rw [LifeCore_InitializePersistentElements] at h2
    by_cases hp : 0 < (InitializeForcedPeriod s1.Self).Duration.Period
    · rw [if_pos ⟨hp, hw, hb1⟩, h1] at h2
      have hb2 : (FinishActivatePersistent w av s1).Self.bActive = false :=
        congrArg (fun c => c.1) h2
      rw [if_neg (by simp [hb2]), h2]
      simp [DeactivatedCore, LifeCore, hw]
    · rw [if_neg (fun hc => hp hc.1), h1] at h2
      have hb2 : (FinishActivatePersistent w av s1).Self.bActive = true :=
        congrArg (fun c => c.1) h2
      rw [if_pos hb2, h2]
      simp [DeactivatedCore, LifeCore, hw]

theorem ActivationFrame_BeginActivate (w : FWorldView) (av : FActivationView) (s : FSystem) :
    ActivationFrame s (BeginActivate w av s) := by
  unfold BeginActivate
  simp only
  have h1 : ActivationFrame s (BeginActivateInitialize av s) :=
    ActivationFrame_of_LifeCore (by rw [LifeCore_BeginActivateInitialize])
  generalize BeginActivateInitialize av s = s1 at h1 ⊢
  refine h1.frameTrans ?_
  split_ifs
  · unfold BeginActivateDelayed
    simp only
    have h2 : ActivationFrame s1 (InitializePreactivationGameplayCue s1) :=
      ActivationFrame_of_LifeCore (by rw [LifeCore_InitializePreactivationGameplayCue])
    generalize InitializePreactivationGameplayCue s1 = s2 at h2 ⊢
    refine h2.frameTrans ?_
    by_cases hw : w.bWorld = true
    · rw [if_pos hw]
      split_ifs <;> exact ⟨rfl, rfl, rfl, fun h => h⟩
    · rw [if_neg hw]
      refine ActivationFrame.frameTrans ?_ (ActivationFrame_Deactivate _ _ _)
      split_ifs <;> exact ⟨rfl, rfl, rfl, fun h => h⟩
  · exact ActivationFrame_FinishActivate w av s1
  · exact ActivationFrame.frameRefl s1

theorem ActivationFrame_CallBeginActivate (w : FWorldView) (av : FActivationView) (s : FSystem)
    (h : 0 < DeltaServerTime w av s.Self) (hw : w.bWorld = false) :
    ActivationFrame s (CallBeginActivate w av s) := by
  unfold CallBeginActivate
  simp only
  rw [if_neg (not_le.mpr h), if_neg (by simp [hw])]
  exact ActivationFrame_Deactivate _ _ _

theorem Self_PoolCollisionActorRelease (DI : FCollisionActorIndividualData)
    (DS : FCollisionActorSharedData) (s : FSystem) :
    (PoolCollisionActorRelease DI DS s).Self = { s.Self with
      bRegisteredTargetInstance := s.Self.bRegisteredTargetInstance && !s.Self.InstigatorBaseASC
      InstigatorASC := false
      InstigatorBaseASC := false
      IndividualData := DI
      SharedData := DS } := by
  unfold PoolCollisionActorRelease UnregisterSharedTargetInstance
  cases h1 : s.Self.bRegisteredTargetInstance <;> cases h2 : s.Self.InstigatorBaseASC <;>
    cases h3 : s.Self.bHasAuthority <;> simp [h1, h2, h3, FSystem.Send]

theorem Self_PoolCollisionActor (w : FWorldView) (bG : Bool)
    (DI : FCollisionActorIndividualData) (DS : FCollisionActorSharedData) (s : FSystem) :
    (PoolCollisionActor w bG DI DS s).Self = { s.Self with
      bRegisteredTargetInstance := s.Self.bRegisteredTargetInstance && !s.Self.InstigatorBaseASC
      InstigatorASC := false
      InstigatorBaseASC := false
      IndividualData := DI
      SharedData := DS
      bPooledActorFinished := s.Self.bPooledActorFinished ||
        (w.bWorld && s.Self.bReplicates && s.Self.bHasAuthority
          && decide (s.Self.NetMode ≠ ENetMode.NM_Client) && bG)
      InitialLifeSpan :=
        if w.bWorld = true ∧ ¬ (s.Self.bReplicates = true ∧ s.Self.bHasAuthority = true
          ∧ s.Self.NetMode ≠ ENetMode.NM_Client ∧ bG = true) then 5
        else s.Self.InitialLifeSpan
      bDestroyed := s.Self.bDestroyed || !w.bWorld } := by
  unfold PoolCollisionActor
  simp only [Self_PoolCollisionActorRelease]
  by_cases hw : w.bWorld = true
  · rw [if_pos hw]
    by_cases hp : (s.Self.bReplicates = true ∧ s.Self.bHasAuthority = true
          ∧ s.Self.NetMode ≠ ENetMode.NM_Client ∧ bG = true)
    · obtain ⟨p1, p2, p3, p4⟩ := hp
      simp [hw, p1, p2, p3, p4]
    · have hp' : ¬ ((s.Self.bReplicates && s.Self.bHasAuthority
          && decide (s.Self.NetMode ≠ ENetMode.NM_Client) && bG) = true) := by
        simpa [Bool.and_eq_true, and_assoc] using hp
      rw [if_neg hp']
      have hp'' : (s.Self.bReplicates && s.Self.bHasAuthority
          && decide (s.Self.NetMode ≠ ENetMode.NM_Client) && bG) = false := by
        simpa using hp'
      simp [hw, hp, hp'']
      exact fun a b c d => absurd ⟨a, b, c, d⟩ hp
  · rw [if_neg hw]
    have hw' : w.bWorld = false := by simpa using hw
    simp [hw']


theorem ActivationFrame_CallBeginActivate_flags (w : FWorldView) (av : FActivationView)
    (s : FSystem) :
    (CallBeginActivate w av s).Self.bRegisteredTargetInstance
      = s.Self.bRegisteredTargetInstance ∧
    ((CallBeginActivate w av s).Self.bSoftRegisteredTargetInstance = true →
      s.Self.bSoftRegisteredTargetInstance = true) := by
  unfold CallBeginActivate
  simp only
  split_ifs
  · have h := ActivationFrame_BeginActivate w av
      { s with Self := { s.Self with
          CompensationActivationDelay := DeltaServerTime w av s.Self } }
    exact ⟨h.2.1, h.2.2.2⟩
  · exact ⟨rfl, fun h => h⟩
  · have h := ActivationFrame_Deactivate w 0 s
    exact ⟨h.2.1, h.2.2.2⟩

/-- Each operation of the life cycle keeps "soft registered implies hard registered". -/
theorem soft_implies_hard_Run (Operation : FEntityOperation) (s : FSystem)
    (hadm : Operation.Admissible s.Self = true)
    (h : s.Self.bSoftRegisteredTargetInstance = true → s.Self.bRegisteredTargetInstance = true) :
    (Operation.Run s).Self.bSoftRegisteredTargetInstance = true →
      (Operation.Run s).Self.bRegisteredTargetInstance = true := by
  cases Operation with
  | SetIndividualData iv In =>
    have hs : s.Self.bSoftRegisteredTargetInstance = false := by
      simpa [FEntityOperation.Admissible] using hadm
    simp only [FEntityOperation.Run]
    unfold SetIndividualData RegisterSharedTargetInstance SetSourceAbilitySystemComponent
    simp only
    split_ifs <;> simp_all
  | CallBeginActivate w av =>
    have hf := ActivationFrame_CallBeginActivate_flags w av s
    intro hs
    simp only [FEntityOperation.Run] at hs ⊢
    rw [hf.1]
    exact h (hf.2 hs)
  | BeginActivate w av =>
    have hf := ActivationFrame_BeginActivate w av s
    intro hs
    simp only [FEntityOperation.Run] at hs ⊢
    rw [hf.2.1]
    exact h (hf.2.2.2 hs)
  | FinishActivate w av =>
    have hf := ActivationFrame_FinishActivate w av s
    intro hs
    simp only [FEntityOperation.Run] at hs ⊢
    rw [hf.2.1]
    exact h (hf.2.2.2 hs)
  | Deactivate w d =>
    have hf := ActivationFrame_Deactivate w d s
    intro hs
    simp only [FEntityOperation.Run] at hs ⊢
    rw [hf.2.1]
    exact h (hf.2.2.2 hs)
  | PoolCollisionActor w bG DI DS =>
    have hadm' : s.Self.bSoftRegisteredTargetInstance = false
        ∨ s.Self.InstigatorBaseASC = false := by
      simpa [FEntityOperation.Admissible] using hadm
    simp only [FEntityOperation.Run]
    rw [Self_PoolCollisionActor]
    simp only
    intro hs
    rcases hadm' with h1 | h1
    · rw [h1] at hs
      exact absurd hs (by decide)
    · rw [h1, h hs]
      rfl

theorem soft_implies_hard_RunOperations :
    ∀ (Operations : List (Nat × FEntityOperation)) (W : FEntities),
      (∀ e ∈ W.Actors, e.bSoftRegisteredTargetInstance = true →
        e.bRegisteredTargetInstance = true) →
      AdmissibleOperations Operations W = true →
      ∀ e ∈ (RunOperations Operations W).Actors, e.bSoftRegisteredTargetInstance = true →
        e.bRegisteredTargetInstance = true
  | [], W, h, _ => h
  | (i, Operation) :: rest, W, h, hadm => by
    unfold AdmissibleOperations at hadm
    rw [Bool.and_eq_true] at hadm
    apply soft_implies_hard_RunOperations rest (W.Apply i Operation) _ hadm.2
    intro e he
    unfold FEntities.Apply at he
    cases hi : W.Actors[i]? with
    | none =>
      rw [hi] at he
      exact h e he
    | some x =>
      rw [hi] at he
      simp only at he
      have hx : Operation.Admissible x = true := by
        have := hadm.1
        rw [hi] at this
        exact this
      rcases List.mem_or_eq_of_mem_set he with he | he
      · exact h e he
      · rw [he]
        exact soft_implies_hard_Run Operation ⟨x, W.ASC, W.Log⟩ hx
          (h x (List.getElem?_mem hi))

/-- C11 (code defect). Without a world, `CallBeginActivate` with a positive activation delta
and `BeginActivate` with `ActivationDelay > 0` call `Deactivate`, whose body is guarded by
`bActive`, which only `FinishActivate` sets: on a preactivated, registered entity the step
leaves `bPreactivated` and the soft registration set, destroys nothing and schedules no
return to the pool. `FinishActivate` on the same entity does end with the entity
deactivated. -/
theorem activation_without_world_is_not_deactivated :
    (PreactivatedEntity 1 0).Self.bPreactivated = true ∧
    (PreactivatedEntity 1 0).Self.bSoftRegisteredTargetInstance = true ∧
    DeltaServerTime NoWorld StillView (PreactivatedEntity 1 0).Self = 1 ∧
    (CallBeginActivate NoWorld StillView (PreactivatedEntity 1 0)).Self.bPreactivated = true ∧
    (CallBeginActivate NoWorld StillView
      (PreactivatedEntity 1 0)).Self.bSoftRegisteredTargetInstance = true ∧
    (CallBeginActivate NoWorld StillView (PreactivatedEntity 1 0)).Self.bDestroyed = false ∧
    (CallBeginActivate NoWorld StillView (PreactivatedEntity 1 0)).Self.Timers = [] ∧
    (PreactivatedEntity 0 (1 / 2)).Self.Duration.ActivationDelay = 1 / 2 ∧
    (BeginActivate NoWorld StillView (PreactivatedEntity 0 (1 / 2))).Self.bPreactivated = true ∧
    (BeginActivate NoWorld StillView
      (PreactivatedEntity 0 (1 / 2))).Self.bSoftRegisteredTargetInstance = true ∧
    (BeginActivate NoWorld StillView (PreactivatedEntity 0 (1 / 2))).Self.bDestroyed = false ∧
    (BeginActivate NoWorld StillView (PreactivatedEntity 0 (1 / 2))).Self.Timers = [] ∧
    (FinishActivate NoWorld StillView (PreactivatedEntity 0 0)).Self.bActive = false ∧
    (FinishActivate NoWorld StillView (PreactivatedEntity 0 0)).Self.bPreactivated = false ∧
    (FinishActivate NoWorld StillView
      (PreactivatedEntity 0 0)).Self.bSoftRegisteredTargetInstance = false ∧
    (FinishActivate NoWorld StillView (PreactivatedEntity 0 0)).Self.bDestroyed = true := by
  decide!

/-- C13 (amended). `Deactivate` keeps the hard registration flag and clears the soft one of
an active entity that has a component; `PoolCollisionActor` keeps the soft flag and clears
the hard one. Along every sequence of operations that respects the order of the life cycle,
from entities on which the soft flag implies the hard flag, every activation key has at
most as many soft registrations as hard registrations. -/
theorem soft_registrations_le_hard_registrations (W : FEntities)
    (Operations : List (Nat × FEntityOperation))
    (hW : ∀ e ∈ W.Actors, e.bSoftRegisteredTargetInstance = true →
      e.bRegisteredTargetInstance = true)
    (hadm : AdmissibleOperations Operations W = true) :
    (∀ Key : Int, SoftRegistrations (RunOperations Operations W) Key
      ≤ HardRegistrations (RunOperations Operations W) Key) ∧
    (∀ (w : FWorldView) (d : ℚ) (s : FSystem),
      (Deactivate w d s).Self.bRegisteredTargetInstance = s.Self.bRegisteredTargetInstance ∧
      (s.Self.bActive = true → s.Self.InstigatorBaseASC = true →
        (Deactivate w d s).Self.bSoftRegisteredTargetInstance = false)) ∧
    (∀ (w : FWorldView) (b : Bool) (DI : FCollisionActorIndividualData)
        (DS : FCollisionActorSharedData) (s : FSystem),
      (PoolCollisionActor w b DI DS s).Self.bSoftRegisteredTargetInstance
        = s.Self.bSoftRegisteredTargetInstance ∧
      (s.Self.InstigatorBaseASC = true →
        (PoolCollisionActor w b DI DS s).Self.bRegisteredTargetInstance = false)) := by
  refine ⟨?_, ?_, ?_⟩
  · intro Key
    unfold SoftRegistrations HardRegistrations
    apply List.countP_mono_left
    intro e he hs
    rw [Bool.and_eq_true] at hs ⊢
    exact ⟨soft_implies_hard_RunOperations Operations W hW hadm e he hs.1, hs.2⟩
  · intro w d s
    refine ⟨(ActivationFrame_Deactivate w d s).2.1, fun ha hc => ?_⟩
    rw [Self_Deactivate, if_pos ha, Self_DeactivateBody]
    simp [hc]
  · intro w b DI DS s
    rw [Self_PoolCollisionActor]
    exact ⟨rfl, fun hc => by simp [hc]⟩

/-- Witness of C13 (amended): one entity is given its data, activated with an instant effect
and pooled. -/
theorem soft_registrations_le_hard_registrations_witness :
    AdmissibleOperations
      (InstantLife ++
        [(0, .PoolCollisionActor OpenWorld true ⟨0, 0, 0, none, 0⟩ ⟨0, 0, 1, 1, 1⟩)])
      OneEntity = true ∧
    SoftRegistrations (RunOperations
      (InstantLife ++
        [(0, .PoolCollisionActor OpenWorld true ⟨0, 0, 0, none, 0⟩ ⟨0, 0, 1, 1, 1⟩)])
      OneEntity) 7 ≤
    HardRegistrations (RunOperations
      (InstantLife ++
        [(0, .PoolCollisionActor OpenWorld true ⟨0, 0, 0, none, 0⟩ ⟨0, 0, 1, 1, 1⟩)])
      OneEntity) 7 :=
  ⟨by decide!,
    (soft_registrations_le_hard_registrations OneEntity
      (InstantLife ++
        [(0, .PoolCollisionActor OpenWorld true ⟨0, 0, 0, none, 0⟩ ⟨0, 0, 1, 1, 1⟩)])
      (by decide) (by decide!)).1 7⟩

/-- Counterexample to C13 as stated: after `SetIndividualData` and the activation of an
instant effect, which ends with `Deactivate(0.5f)`, the entity of activation key 7 is still
hard registered and not soft registered any more, until `PoolCollisionActor` runs. -/
theorem hard_registration_outlives_soft_registration :
    AdmissibleOperations InstantLife OneEntity = true ∧
    HardRegistrations (RunOperations InstantLife OneEntity) 7 = 1 ∧
    SoftRegistrations (RunOperations InstantLife OneEntity) 7 = 0 := by
  decide!

/-! ## The effect on a list of actors -/

theorem MultiHitMagnitudes_Send (s : FSystem) (n : FNotification) :
    MultiHitMagnitudes (s.Send n) = MultiHitMagnitudes s ++ n.MultiHitMagnitude.toList := by
  unfold MultiHitMagnitudes FSystem.Send
  simp only [List.filterMap_append, List.filterMap_cons, List.filterMap_nil]
  cases n.MultiHitMagnitude <;> rfl

theorem MultiHitMagnitudes_SendGameplayEvent_Hit (b : Bool) (R A : Option AActor)
    (tags : List FGameplayTag) (s : FSystem) :
    MultiHitMagnitudes (SendGameplayEvent b (.GameplayEvent R .Event_Hit 1 A tags) s)
      = MultiHitMagnitudes s := by
  unfold SendGameplayEvent
  split_ifs
  · rw [MultiHitMagnitudes_Send]
    cases R <;> simp [FNotification.MultiHitMagnitude]
  · rfl

theorem MultiHitMagnitudes_ApplyEffectToActorSend (w : FWorldView) (A : Option AActor)
    (tags : List FGameplayTag) (s : FSystem) :
    MultiHitMagnitudes (ApplyEffectToActorSend w A tags s) = MultiHitMagnitudes s := by
  unfold ApplyEffectToActorSend
  have h1 : MultiHitMagnitudes (if (s.Self.bHasAuthority && !s.Self.EffectContainerSpec.isEmpty
      && s.Self.InstigatorASC) = true then s.Send (.EffectContainerApplied A) else s)
        = MultiHitMagnitudes s := by
    split_ifs
    · rw [MultiHitMagnitudes_Send]
      simp [FNotification.MultiHitMagnitude]
    · rfl
  generalize (if (s.Self.bHasAuthority && !s.Self.EffectContainerSpec.isEmpty
      && s.Self.InstigatorASC) = true then s.Send (.EffectContainerApplied A) else s) = s1 at h1 ⊢
  simp only
  have h2 : ∀ b : Bool, MultiHitMagnitudes (if s1.Self.bReplicates = true then
      SendGameplayEvent b (.GameplayEvent A .Event_Hit 1 A (s1.Self.OwningAbilityTags ++ tags))
        (SendGameplayEvent s1.Self.InstigatorASC
          (.GameplayEvent none .Event_Hit 1 A (s1.Self.OwningAbilityTags ++ tags)) s1) else s1)
      = MultiHitMagnitudes s1 := by
    intro b
    split_ifs
    · rw [MultiHitMagnitudes_SendGameplayEvent_Hit, MultiHitMagnitudes_SendGameplayEvent_Hit]
    · rfl
  generalize hs2 : (if s1.Self.bReplicates = true then
      SendGameplayEvent _ (.GameplayEvent A .Event_Hit 1 A (s1.Self.OwningAbilityTags ++ tags))
        (SendGameplayEvent s1.Self.InstigatorASC
          (.GameplayEvent none .Event_Hit 1 A (s1.Self.OwningAbilityTags ++ tags)) s1) else s1)
      = s2
  have h2' : MultiHitMagnitudes s2 = MultiHitMagnitudes s1 := hs2 ▸ h2 _
  have h3 : MultiHitMagnitudes (if (CanExecuteGameplayCue s2.Self
      && s2.Self.bHitTargetGameplayCues) = true then s2.Send (.HitTargetGameplayCues A) else s2)
      = MultiHitMagnitudes s2 := by
    split_ifs
    · rw [MultiHitMagnitudes_Send]
      simp [FNotification.MultiHitMagnitude]
    · rfl
  rw [h3, h2', h1]

theorem MultiHitMagnitudes_ApplyEffectToActor (w : FWorldView) (A : Option AActor)
    (tags : List FGameplayTag) (s : FSystem) :
    MultiHitMagnitudes (ApplyEffectToActor w A tags s).2 = MultiHitMagnitudes s := by
  unfold ApplyEffectToActor
  split_ifs
  · rfl
  · simp only
    unfold MultiHitMagnitudes
    rw [AddPreviousTarget_Log]
    exact MultiHitMagnitudes_ApplyEffectToActorSend w A tags s

theorem MultiHitMagnitudes_ApplyEffectLoop (w : FWorldView) (tags : List FGameplayTag) :
    ∀ (A : List AActor) (acc : Int × FSystem),
      MultiHitMagnitudes (ApplyEffectLoop w tags A acc).2 = MultiHitMagnitudes acc.2
  | [], acc => rfl
  | a :: rest, acc => by
    unfold ApplyEffectLoop
    simp only [IsValidTargetActor_state]
    split_ifs
    · rw [MultiHitMagnitudes_ApplyEffectLoop w tags rest, MultiHitMagnitudes_ApplyEffectToActor]
    · exact MultiHitMagnitudes_ApplyEffectLoop w tags rest _

theorem MultiHitMagnitudes_ApplyInteractionLoop (w : FWorldView) :
    ∀ (A : List AActor) (s : FSystem),
      MultiHitMagnitudes (ApplyInteractionLoop w A s) = MultiHitMagnitudes s
  | [], s => rfl
  | a :: rest, s => by
    unfold ApplyInteractionLoop
    split_ifs
    · rw [MultiHitMagnitudes_ApplyInteractionLoop w rest]
      unfold ApplyActorInteraction
      simp only
      split_ifs
      · exact (MultiHitMagnitudes_Send s _).trans (by simp [FNotification.MultiHitMagnitude])
      · rfl
    · exact MultiHitMagnitudes_ApplyInteractionLoop w rest s

theorem AppliesEffectContainer_of_SameButTargets {s s' : FSystem} (h : SameButTargets s s') :
    AppliesEffectContainer s'.Self = AppliesEffectContainer s.Self ∧
    s'.Self.bReplicates = s.Self.bReplicates ∧ s'.Self.InstigatorASC = s.Self.InstigatorASC ∧
    s'.Self.OwningAbilityTags = s.Self.OwningAbilityTags ∧
    s'.Self.NetMode = s.Self.NetMode := by
  unfold SameButTargets at h
  rw [h]
  exact ⟨rfl, rfl, rfl, rfl, rfl⟩

theorem AppliedCount_ApplyEffectToActor_exact (T : AActor) (w : FWorldView) (a : AActor)
    (tags : List FGameplayTag) (s : FSystem) (hw : w.bWorld = true) :
    AppliedCount T (ApplyEffectToActor w (some a) tags s).2 =
      AppliedCount T s + (if AppliesEffectContainer s.Self = true ∧ a = T then 1 else 0) := by
  by_cases haT : a = T
  · subst haT
    unfold ApplyEffectToActor
    rw [if_neg (by simp [hw])]
    simp only
    have hlog :
        AppliedCount a (AddPreviousTarget (some a) (ApplyEffectToActorSend w (some a) tags s))
        = AppliedCount a (ApplyEffectToActorSend w (some a) tags s) := by
      unfold AppliedCount
      rw [AddPreviousTarget_Log]
    rw [hlog]
    unfold ApplyEffectToActorSend
    have h1 : AppliedCount a (if (s.Self.bHasAuthority && !s.Self.EffectContainerSpec.isEmpty
        && s.Self.InstigatorASC) = true then s.Send (.EffectContainerApplied (some a)) else s)
          = AppliedCount a s
            + (if AppliesEffectContainer s.Self = true ∧ a = a then 1 else 0) := by
      unfold AppliesEffectContainer
      split_ifs with h1 h2 h2
      · unfold AppliedCount FSystem.Send
        simp [List.count_append]
      · exact absurd ⟨h1, rfl⟩ h2
      · exact absurd h2.1 h1
      · rfl
    generalize (if (s.Self.bHasAuthority && !s.Self.EffectContainerSpec.isEmpty
        && s.Self.InstigatorASC) = true then s.Send (.EffectContainerApplied (some a)) else s)
        = s1 at h1 ⊢
    simp only
    have h2 : ∀ b : Bool, AppliedCount a (if s1.Self.bReplicates = true then
        SendGameplayEvent b
          (.GameplayEvent (some a) .Event_Hit 1 (some a) (s1.Self.OwningAbilityTags ++ tags))
          (SendGameplayEvent s1.Self.InstigatorASC
            (.GameplayEvent none .Event_Hit 1 (some a) (s1.Self.OwningAbilityTags ++ tags)) s1)
        else s1) = AppliedCount a s1 := by
      intro b
      split_ifs
      · rw [AppliedCount_SendGameplayEvent, AppliedCount_SendGameplayEvent]
      · rfl
    generalize hs2 : (if s1.Self.bReplicates = true then
        SendGameplayEvent _
          (.GameplayEvent (some a) .Event_Hit 1 (some a) (s1.Self.OwningAbilityTags ++ tags))
          (SendGameplayEvent s1.Self.InstigatorASC
            (.GameplayEvent none .Event_Hit 1 (some a) (s1.Self.OwningAbilityTags ++ tags)) s1)
        else s1) = s2
    have h2' : AppliedCount a s2 = AppliedCount a s1 := hs2 ▸ h2 _
    have h3 : AppliedCount a (if (CanExecuteGameplayCue s2.Self
        && s2.Self.bHitTargetGameplayCues) = true
        then s2.Send (.HitTargetGameplayCues (some a)) else s2) = AppliedCount a s2 := by
      split_ifs
      · exact (AppliedCount_Send a s2 _).2 (by simp)
      · rfl
    rw [h3, h2', h1]
    simp
  · rw [(AppliedCount_ApplyEffectToActor T w (some a) tags s).2 (by simpa using haT),
      if_neg (fun h => haT h.2)]
    rfl

theorem PreviousTargetedActors_ApplyEffectToActor (w : FWorldView) (A : Option AActor)
    (tags : List FGameplayTag) (s : FSystem) :
    ∀ x ∈ s.Self.PreviousTargetedActors,
      x ∈ (ApplyEffectToActor w A tags s).2.Self.PreviousTargetedActors := by
  intro x hx
  unfold ApplyEffectToActor
  split_ifs
  · exact hx
  · have hS : (ApplyEffectToActorSend w A tags s).Self = s.Self :=
      (OnlyLog_ApplyEffectToActorSend w A tags s).1
    unfold AddPreviousTarget
    cases A with
    | none => simpa [hS] using hx
    | some T =>
      simp only
      split_ifs <;> exact (mem_AddUnique _ _ _).mpr (Or.inl (by simpa [hS] using hx))

theorem PreviousTargetedActors_ApplyEffectLoop (w : FWorldView) (tags : List FGameplayTag) :
    ∀ (A : List AActor) (acc : Int × FSystem), ∀ x ∈ acc.2.Self.PreviousTargetedActors,
      x ∈ (ApplyEffectLoop w tags A acc).2.Self.PreviousTargetedActors
  | [], _ => fun _ hx => hx
  | a :: rest, acc => by
    intro x hx
    unfold ApplyEffectLoop
    simp only [IsValidTargetActor_state]
    split_ifs
    · exact PreviousTargetedActors_ApplyEffectLoop w tags rest _ x
        (PreviousTargetedActors_ApplyEffectToActor w (some a) tags acc.2 x hx)
    · exact PreviousTargetedActors_ApplyEffectLoop w tags rest _ x hx

theorem ApplyEffectLoop_spec (T : AActor) (w : FWorldView) (tags : List FGameplayTag)
    (hw : w.bWorld = true) :
    ∀ (A : List AActor) (acc : Int × FSystem),
      (ApplyEffectLoop w tags A acc).1 = acc.1 + (ValidAtTheirTurn w tags A acc.2).length ∧
      AppliedCount T (ApplyEffectLoop w tags A acc).2 = AppliedCount T acc.2 +
        (if AppliesEffectContainer acc.2.Self = true
          then (ValidAtTheirTurn w tags A acc.2).count T else 0) ∧
      (∀ a ∈ ValidAtTheirTurn w tags A acc.2,
        a ∈ (ApplyEffectLoop w tags A acc).2.Self.PreviousTargetedActors)
  | [], acc => by simp [ApplyEffectLoop, ValidAtTheirTurn]
  | a :: rest, acc => by
    unfold ApplyEffectLoop ValidAtTheirTurn
    simp only [IsValidTargetActor_state]
    by_cases hv : (IsValidTargetActor w (some a) acc.2).1.bValid = true
    · rw [if_pos hv, if_pos hv]
      obtain ⟨ih1, ih2, ih3⟩ := ApplyEffectLoop_spec T w tags hw rest
        (acc.1 + 1, (ApplyEffectToActor w (some a) tags acc.2).2)
      have hc := AppliedCount_ApplyEffectToActor_exact T w a tags acc.2 hw
      have hcfg := (AppliesEffectContainer_of_SameButTargets
        (SameButTargets_ApplyEffectToActor w (some a) tags acc.2)).1
      refine ⟨?_, ?_, ?_⟩
      · rw [ih1]
        simp only [List.length_cons]
        push_cast
        ring
      · rw [ih2, hc, hcfg]
        simp only
        by_cases hcf : AppliesEffectContainer acc.2.Self = true
        · simp only [hcf, true_and, if_true, List.count_cons]
          by_cases haT : a = T
          · simp [haT]
            omega
          · have : (a == T) = false := by simpa using haT
            simp [haT, this]
        · simp [hcf]
      · intro x hx
        rcases List.mem_cons.mp hx with rfl | hx
        · have hmem :
              x ∈ (ApplyEffectToActor w (some x) tags acc.2).2.Self.PreviousTargetedActors := by
            unfold ApplyEffectToActor
            rw [if_neg (by simp [hw])]
            unfold AddPreviousTarget
            simp only
            split_ifs <;> exact (mem_AddUnique _ _ _).mpr (Or.inr rfl)
          exact PreviousTargetedActors_ApplyEffectLoop w tags rest
            (acc.1 + 1, (ApplyEffectToActor w (some x) tags acc.2).2) x hmem
        · exact ih3 x hx
    · rw [if_neg hv, if_neg hv]
      exact ApplyEffectLoop_spec T w tags hw rest (acc.1, acc.2)

theorem ValidAtTheirTurn_sublist (w : FWorldView) (tags : List FGameplayTag) :
    ∀ (A : List AActor) (s : FSystem), (ValidAtTheirTurn w tags A s).Sublist A
  | [], _ => List.Sublist.slnil
  | a :: rest, s => by
    unfold ValidAtTheirTurn
    split_ifs
    · exact (ValidAtTheirTurn_sublist w tags rest _).cons₂ a
    · exact (ValidAtTheirTurn_sublist w tags rest _).cons a

theorem PreviousTargetedActors_ApplyInteractionLoop (w : FWorldView) :
    ∀ (A : List AActor) (s : FSystem),
      (ApplyInteractionLoop w A s).Self.PreviousTargetedActors = s.Self.PreviousTargetedActors
  | [], _ => rfl
  | a :: rest, s => by
    unfold ApplyInteractionLoop
    split_ifs
    · rw [PreviousTargetedActors_ApplyInteractionLoop w rest]
      unfold ApplyActorInteraction
      simp only
      split_ifs <;> rfl
    · exact PreviousTargetedActors_ApplyInteractionLoop w rest s

theorem ApplyEffectToActorArrayOnAuthority_spec (T : AActor) (w : FWorldView) (A : List AActor)
    (tags : List FGameplayTag) (b : Bool) (s : FSystem) (hw : w.bWorld = true) :
    (ApplyEffectToActorArrayOnAuthority w A tags b s).1
      = ((ValidAtTheirTurn w tags A s).length : Int) ∧
    AppliedCount T (ApplyEffectToActorArrayOnAuthority w A tags b s).2 = AppliedCount T s +
      (if AppliesEffectContainer s.Self = true
        then (ValidAtTheirTurn w tags A s).count T else 0) ∧
    (∀ a ∈ ValidAtTheirTurn w tags A s,
      a ∈ (ApplyEffectToActorArrayOnAuthority w A tags b s).2.Self.PreviousTargetedActors) ∧
    MultiHitMagnitudes (ApplyEffectToActorArrayOnAuthority w A tags b s).2 =
      MultiHitMagnitudes s ++
        (if b = true ∧ s.Self.bReplicates = true ∧ 0 < (ValidAtTheirTurn w tags A s).length
            ∧ s.Self.InstigatorASC = true
          then [((ValidAtTheirTurn w tags A s).length : Int)] else []) := by
  obtain ⟨h1, h2, h3⟩ := ApplyEffectLoop_spec T w tags hw A (0, s)
  have h4 := MultiHitMagnitudes_ApplyEffectLoop w tags A (0, s)
  obtain ⟨-, h5, h6, -, -⟩ := AppliesEffectContainer_of_SameButTargets
    (SameButTargets_ApplyEffectLoop w tags A (0, s))
  simp only [zero_add] at h1 h2 h3 h4 h5 h6
  unfold ApplyEffectToActorArrayOnAuthority
  simp only
  generalize ApplyEffectLoop w tags A (0, s) = r0 at h1 h2 h3 h4 h5 h6 ⊢
  by_cases hc : (b && r0.2.Self.bReplicates && decide (r0.1 > 0)) = true
  · rw [if_pos hc]
    simp only [Bool.and_eq_true, decide_eq_true_eq] at hc
    obtain ⟨⟨hb, hr⟩, hpos⟩ := hc
    rw [h5] at hr
    rw [h1] at hpos
    have hpos' : 0 < (ValidAtTheirTurn w tags A s).length := by exact_mod_cast hpos
    refine ⟨h1, ?_, ?_, ?_⟩
    · rw [AppliedCount_SendGameplayEvent, h2]
    · intro a ha
      rw [TimerCore_SendGameplayEvent]
      exact h3 a ha
    · unfold SendGameplayEvent
      rw [h6, h1]
      by_cases hi : s.Self.InstigatorASC = true
      · rw [if_pos hi, MultiHitMagnitudes_Send, h4, if_pos ⟨hb, hr, hpos', hi⟩]
        rfl
      · rw [if_neg hi, h4, if_neg (fun h => hi h.2.2.2)]
        simp
  · rw [if_neg hc]
    refine ⟨h1, h2, h3, ?_⟩
    rw [h4, if_neg, List.append_nil]
    rintro ⟨hb, hr, hpos, -⟩
    apply hc
    rw [h5, h1]
    simp [hb, hr, hpos]

/-- C15 (amended). On the authority with a world present, `ApplyEffectToActorArray` returns the
number of actors of the list that pass `IsValidTargetActor` at their turn, a number between 0
and the length of the list; each of them gets `ApplyEffectToActor` once (it is recorded in the
local previous targets, and the effect container, when the entity applies one, is applied to
every actor as often as it occurs among them); one multi hit event with the result as magnitude
is sent exactly when the caller requests it, the entity is replicated and the result is positive
and the instigator has an ability system component (`SendGameplayEvent` does nothing without
one), none otherwise. For an empty list, without a world or off the authority it returns 0,
applies no effect container and sends no multi hit event. -/
theorem ApplyEffectToActorArray_spec (w : FWorldView) (A : List AActor)
    (tags : List FGameplayTag) (b : Bool) (s : FSystem) :
    (s.Self.bHasAuthority = true → w.bWorld = true →
      (ApplyEffectToActorArray w A tags b s).1 = ((ValidAtTheirTurn w tags A s).length : Int) ∧
      (ValidAtTheirTurn w tags A s).Sublist A ∧
      0 ≤ (ApplyEffectToActorArray w A tags b s).1 ∧
      (ApplyEffectToActorArray w A tags b s).1 ≤ (A.length : Int) ∧
      (∀ T : AActor, AppliedCount T (ApplyEffectToActorArray w A tags b s).2 = AppliedCount T s +
        (if AppliesEffectContainer s.Self = true
          then (ValidAtTheirTurn w tags A s).count T else 0)) ∧
      (∀ a ∈ ValidAtTheirTurn w tags A s,
        a ∈ (ApplyEffectToActorArray w A tags b s).2.Self.PreviousTargetedActors) ∧
      MultiHitMagnitudes (ApplyEffectToActorArray w A tags b s).2 =
        MultiHitMagnitudes s ++
          (if b = true ∧ s.Self.bReplicates = true
              ∧ 0 < (ApplyEffectToActorArray w A tags b s).1
              ∧ s.Self.InstigatorASC = true
            then [(ApplyEffectToActorArray w A tags b s).1] else [])) ∧
    (A = [] ∨ w.bWorld = false ∨ s.Self.bHasAuthority = false →
      (ApplyEffectToActorArray w A tags b s).1 = 0 ∧
      (∀ T : AActor,
        AppliedCount T (ApplyEffectToActorArray w A tags b s).2 = AppliedCount T s) ∧
      MultiHitMagnitudes (ApplyEffectToActorArray w A tags b s).2 = MultiHitMagnitudes s) := by
  constructor
  · intro hauth hw
    have hsub := ValidAtTheirTurn_sublist w tags A s
    by_cases hA : A.length > 0
    · have hO := fun T => ApplyEffectToActorArrayOnAuthority_spec T w A tags b s hw
      have hres : (ApplyEffectToActorArray w A tags b s).1
          = ((ValidAtTheirTurn w tags A s).length : Int) := by
        unfold ApplyEffectToActorArray
        rw [if_pos ⟨hA, hw⟩, if_pos hauth]
        simp only
        split_ifs <;> exact (hO 0).1
      have hst : (ApplyEffectToActorArray w A tags b s).2
            = ApplyInteractionLoop w A (ApplyEffectToActorArrayOnAuthority w A tags b s).2 ∨
          (ApplyEffectToActorArray w A tags b s).2
            = (ApplyEffectToActorArrayOnAuthority w A tags b s).2 := by
        unfold ApplyEffectToActorArray
        rw [if_pos ⟨hA, hw⟩, if_pos hauth]
        simp only
        split_ifs
        · exact Or.inl rfl
        · exact Or.inr rfl
      refine ⟨hres, hsub, ?_, ?_, ?_, ?_, ?_⟩
      · rw [hres]
        exact Int.natCast_nonneg _
      · rw [hres]
        exact_mod_cast hsub.length_le
      · intro T
        rcases hst with h | h
        · rw [h, AppliedCount_ApplyInteractionLoop, (hO T).2.1]
        · rw [h, (hO T).2.1]
      · intro a ha
        rcases hst with h | h
        · rw [h, PreviousTargetedActors_ApplyInteractionLoop]
          exact (hO 0).2.2.1 a ha
        · rw [h]
          exact (hO 0).2.2.1 a ha
      · rw [hres]
        have h4 := (hO 0).2.2.2
        have hcast : (0 < ((ValidAtTheirTurn w tags A s).length : Int))
            ↔ 0 < (ValidAtTheirTurn w tags A s).length := by
          exact_mod_cast Iff.rfl
        simp only [hcast]
        rcases hst with h | h
        · rw [h, MultiHitMagnitudes_ApplyInteractionLoop, h4]
        · rw [h, h4]
    · have hnil : A = [] := by
        cases A with
        | nil => rfl
        | cons a r => simp at hA
      subst hnil
      simp [ApplyEffectToActorArray, ValidAtTheirTurn]
  · intro hc
    unfold ApplyEffectToActorArray
    by_cases h0 : A.length > 0 ∧ w.bWorld = true
    · rw [if_pos h0]
      have hna : s.Self.bHasAuthority = false := by
        rcases hc with h | h | h
        · rw [h] at h0
          simp at h0
        · rw [h] at h0
          simp at h0
        · exact h
      simp only [hna, Bool.false_eq_true, if_false]
      split_ifs
      · refine ⟨rfl, fun T => AppliedCount_ApplyInteractionLoop T w A s,
          MultiHitMagnitudes_ApplyInteractionLoop w A s⟩
      · exact ⟨rfl, fun _ => rfl, rfl⟩
    · rw [if_neg h0]
      exact ⟨rfl, fun _ => rfl, rfl⟩

/-- Witness of C15: three actors, one of them twice, on an entity that allows retargeting:
the result is 4 and one multi hit event of magnitude 4 is sent. -/
theorem ApplyEffectToActorArray_spec_witness :
    RetargetingEntity.Self.bHasAuthority = true ∧ OpenWorld.bWorld = true ∧
    (ApplyEffectToActorArray OpenWorld [5, 6, 5, 7] [] true RetargetingEntity).1 = 4 ∧
    MultiHitMagnitudes (ApplyEffectToActorArray OpenWorld [5, 6, 5, 7] [] true
      RetargetingEntity).2 = [4] :=
  ⟨by decide, by decide, by decide!,
    ((ApplyEffectToActorArray_spec OpenWorld [5, 6, 5, 7] [] true RetargetingEntity).1
      (by decide) (by decide)).2.2.2.2.2.2.trans (by decide!)⟩

/-- Counterexample to C15 as stated: a replicated entity on the authority whose instigator has
no ability system component. With the request to send the multi hit event and two valid
actors the result is 2, and no multi hit event is sent: `SendGameplayEvent` does nothing
without a component. -/
theorem no_multi_hit_event_without_component :
    UnownedEntity.Self.bHasAuthority = true ∧ OpenWorld.bWorld = true ∧
    UnownedEntity.Self.bReplicates = true ∧ UnownedEntity.Self.InstigatorASC = false ∧
    (ApplyEffectToActorArray OpenWorld [5, 6] [] true UnownedEntity).1 = 2 ∧
    MultiHitMagnitudes UnownedEntity = [] ∧
    MultiHitMagnitudes (ApplyEffectToActorArray OpenWorld [5, 6] [] true UnownedEntity).2
      = [] := by
  decide!

/-! ## Retargeting of periodic entities -/

theorem bAllowRetargetting_Deactivate (w : FWorldView) (d : ℚ) (s : FSystem) :
    (Deactivate w d s).Self.bAllowRetargetting = s.Self.bAllowRetargetting := by
  rw [Self_Deactivate]
  split_ifs
  · rw [Self_DeactivateBody]
  · rfl

theorem bDiscreteCollisionChecks_InitializeForcedPeriod (e : FCollisionActor) :
    (InitializeForcedPeriod e).bDiscreteCollisionChecks
      = (e.bInterpolatingScale && decide (e.Duration.Period ≤ 0)) := by
  unfold InitializeForcedPeriod InitializeAttachToActor
  simp only
  split_ifs <;> simp_all

theorem bAllowRetargetting_InitializePersistentElements (w : FWorldView) (s : FSystem)
    (hP : 0 < (InitializeForcedPeriod s.Self).Duration.Period) :
    (InitializePersistentElements w s).Self.bAllowRetargetting
      = !(s.Self.bInterpolatingScale && decide (s.Self.Duration.Period ≤ 0)) := by
  rw [← bDiscreteCollisionChecks_InitializeForcedPeriod]
  unfold InitializePersistentElements
  simp only
  rw [if_pos (by simpa using hP)]
  split_ifs
  · rfl
  · rw [bAllowRetargetting_Deactivate]
    rfl

/-- C16 (amended). For every persistent entity with `Period > 0` after the forced period,
`InitializePersistentElements` sets `bAllowRetargetting = !bDiscreteCollisionChecks`: true
for an entity with a period of its own, for which `IsValidTargetActor` then never rejects an
actor as already targeted; false for an entity that was switched to discrete collision checks
because it interpolates its scale without a period of its own. -/
theorem InitializePersistentElements_retargeting (w : FWorldView) (s : FSystem)
    (hP : 0 < (InitializeForcedPeriod s.Self).Duration.Period) :
    (InitializePersistentElements w s).Self.bAllowRetargetting
      = !(s.Self.bInterpolatingScale && decide (s.Self.Duration.Period ≤ 0)) ∧
    (InitializeForcedPeriod s.Self).bDiscreteCollisionChecks
      = (s.Self.bInterpolatingScale && decide (s.Self.Duration.Period ≤ 0)) ∧
    (0 < s.Self.Duration.Period →
      (InitializePersistentElements w s).Self.bAllowRetargetting = true ∧
      ∀ (w' : FWorldView) (A : Option AActor),
        (IsValidTargetActor w' A (InitializePersistentElements w s)).1.Rejected
          ≠ some ETargetRejection.AlreadyTargeted) ∧
    (s.Self.bInterpolatingScale = true → s.Self.Duration.Period ≤ 0 →
      (InitializePersistentElements w s).Self.bAllowRetargetting = false) := by
  have h := bAllowRetargetting_InitializePersistentElements w s hP
  refine ⟨h, bDiscreteCollisionChecks_InitializeForcedPeriod s.Self, ?_, ?_⟩
  · intro hper
    have ha : (InitializePersistentElements w s).Self.bAllowRetargetting = true := by
      rw [h]
      simp [hper]
    refine ⟨ha, fun w' A => ?_⟩
    generalize InitializePersistentElements w s = x at ha ⊢
    unfold IsValidTargetActor
    cases A with
    | none => simp
    | some T =>
      simp only [ha]
      split_ifs <;> simp_all
  · intro hi hper
    rw [h]
    simp [hi, hper]

/-- Witness of C16 (amended): life span 1 s and a period of 0.2 s. -/
theorem InitializePersistentElements_retargeting_witness :
    0 < (InitializeForcedPeriod FivePerSecond.Self).Duration.Period ∧
    (InitializePersistentElements OpenWorld FivePerSecond).Self.bAllowRetargetting = true :=
  ⟨by decide!,
    ((InitializePersistentElements_retargeting OpenWorld FivePerSecond (by decide!)).2.2.1
      (by decide!)).1⟩

/-- Counterexample to C16 as stated: an entity that interpolates its scale, with a life span
of 1 s and no period of its own, gets the period 0.15 s and discrete collision checks, and
`bAllowRetargetting = false`: once the effect has been applied to actor 5,
`IsValidTargetActor` rejects actor 5 as already targeted. -/
theorem discrete_checks_do_not_allow_retargeting :
    (InitializePersistentElements OpenWorld ScaleInterpolated).Self.Duration.Period = 15 / 100 ∧
    (InitializePersistentElements OpenWorld ScaleInterpolated).Self.bDiscreteCollisionChecks
      = true ∧
    (InitializePersistentElements OpenWorld ScaleInterpolated).Self.bAllowRetargetting = false ∧
    (IsValidTargetActor OpenWorld (some 5)
      (InitializePersistentElements OpenWorld ScaleInterpolated)).1.bValid = true ∧
    (IsValidTargetActor OpenWorld (some 5)
      (ApplyEffectToActor OpenWorld (some 5) []
        (InitializePersistentElements OpenWorld ScaleInterpolated)).2).1
      = ⟨false, some ETargetRejection.AlreadyTargeted⟩ := by
  decide!

/-! ## The activation delta -/

/-- C20. `CallBeginActivate` computes `d = ServerActivationTime - GetServerWorldTime()`. If
`d <= 0` it records `CompensationActivationDelay = d` and runs `BeginActivate`, which keeps
the recorded value. If `d > 0` with a world it records 0 and adds a one-shot timer of
duration `d` bound to `BeginActivate`, changing nothing else. In both cases
`CompensationActivationDelay = min(d, 0) <= 0`. -/
theorem CallBeginActivate_compensation (w : FWorldView) (av : FActivationView) (s : FSystem) :
    DeltaServerTime w av s.Self
      = s.Self.IndividualData.ServerActivationTime - GetServerWorldTime w av ∧
    (DeltaServerTime w av s.Self ≤ 0 →
      CallBeginActivate w av s = BeginActivate w av { s with Self := { s.Self with
        CompensationActivationDelay := DeltaServerTime w av s.Self } } ∧
      (CallBeginActivate w av s).Self.CompensationActivationDelay
        = DeltaServerTime w av s.Self) ∧
    (0 < DeltaServerTime w av s.Self → w.bWorld = true →
      CallBeginActivate w av s = { s with Self := { s.Self with
        CompensationActivationDelay := 0
        Timers := s.Self.Timers ++ [⟨.LocalHandle, .BeginActivate,
          DeltaServerTime w av s.Self, false, DeltaServerTime w av s.Self⟩] } }) ∧
    (DeltaServerTime w av s.Self ≤ 0 ∨ w.bWorld = true →
      (CallBeginActivate w av s).Self.CompensationActivationDelay
        = min (DeltaServerTime w av s.Self) 0 ∧
      (CallBeginActivate w av s).Self.CompensationActivationDelay ≤ 0) := by
  have h1 : DeltaServerTime w av s.Self ≤ 0 →
      CallBeginActivate w av s = BeginActivate w av { s with Self := { s.Self with
        CompensationActivationDelay := DeltaServerTime w av s.Self } } ∧
      (CallBeginActivate w av s).Self.CompensationActivationDelay
        = DeltaServerTime w av s.Self := by
    intro hd
    have he : CallBeginActivate w av s = BeginActivate w av { s with Self := { s.Self with
        CompensationActivationDelay := DeltaServerTime w av s.Self } } := by
      unfold CallBeginActivate
      simp only
      rw [if_pos hd]
    refine ⟨he, ?_⟩
    rw [he]
    exact (ActivationFrame_BeginActivate w av _).1
  have h2 : 0 < DeltaServerTime w av s.Self → w.bWorld = true →
      CallBeginActivate w av s = { s with Self := { s.Self with
        CompensationActivationDelay := 0
        Timers := s.Self.Timers ++ [⟨.LocalHandle, .BeginActivate,
          DeltaServerTime w av s.Self, false, DeltaServerTime w av s.Self⟩] } } := by
    intro hd hw
    unfold CallBeginActivate
    simp only
    rw [if_neg (not_le.mpr hd), if_pos hw]
  refine ⟨rfl, h1, h2, ?_⟩
  intro hc
  by_cases hd : DeltaServerTime w av s.Self ≤ 0
  · rw [(h1 hd).2, min_eq_left hd]
    exact ⟨rfl, hd⟩
  · have hd' : 0 < DeltaServerTime w av s.Self := not_le.mp hd
    have hw : w.bWorld = true := hc.resolve_left hd
    rw [h2 hd' hw, min_eq_right (le_of_lt hd')]
    exact ⟨rfl, le_refl _⟩

/-- Witness of C20: the activation time is one second ahead of the server time. -/
theorem CallBeginActivate_compensation_witness :
    (DeltaServerTime OpenWorld StillView (PreactivatedEntity 1 0).Self ≤ 0
      ∨ OpenWorld.bWorld = true) ∧
    (CallBeginActivate OpenWorld StillView
        (PreactivatedEntity 1 0)).Self.CompensationActivationDelay
      = min (DeltaServerTime OpenWorld StillView (PreactivatedEntity 1 0).Self) 0 :=
  ⟨Or.inr (by decide),
    ((CallBeginActivate_compensation OpenWorld StillView (PreactivatedEntity 1 0)).2.2.2
      (Or.inr (by decide))).1⟩

/-! ## The end of an overlap -/

theorem not_mem_RemoveSharedTarget (asc : UBaseAbilitySystemComponent) (Key : Int)
    (T : AActor) (r : Bool) :
    ∀ l, (asc.RemoveSharedTarget Key T r).GetSharedTargets Key r = some l → T ∉ l := by
  intro l hl
  unfold UBaseAbilitySystemComponent.RemoveSharedTarget at hl
  cases h : asc.SharedTargets Key r with
  | none =>
    rw [h] at hl
    simp [UBaseAbilitySystemComponent.GetSharedTargets, h] at hl
  | some e =>
    rw [h] at hl
    simp only [UBaseAbilitySystemComponent.GetSharedTargets,
      UBaseAbilitySystemComponent.SetEntry, and_self, if_true, Option.map_some',
      Option.some.injEq] at hl
    rw [← hl]
    simp

theorem RemoveAppliedPersistentEffects_facts (w : FWorldView) (T : AActor) (S : FScene) :
    (RemoveAppliedPersistentEffects w T S).2.Sys = S.Sys ∧
    (RemoveAppliedPersistentEffects w T S).2.Siblings = S.Siblings ∧
    (S.Sys.Self.bAppliesPersistentEffects = true → w.bHasAbilitySystemComponent T = true →
      (RemoveAppliedPersistentEffects w T S).2.ActiveEffects = S.ActiveEffects.filter (fun it =>
        !(decide (it.Target = T)
          && decide (it.DurationPolicy = EGameplayEffectDurationType.Infinite)
          && decide (it.EffectCauser = S.Sys.Self.This)))) := by
  unfold RemoveAppliedPersistentEffects
  refine ⟨?_, ?_, ?_⟩
  · split_ifs <;> rfl
  · split_ifs <;> rfl
  · intro h1 h2
    rw [if_pos h1, if_pos h2]


theorem ApplyEffectToActorOfSibling_facts (w : FWorldView) (Actor T : AActor) (X : FScene) :
    (ApplyEffectToActorOfSibling w Actor T X).Sys.Self = X.Sys.Self ∧
    (∀ g ∈ (ApplyEffectToActorOfSibling w Actor T X).ActiveEffects,
      g ∈ X.ActiveEffects ∨ g.EffectCauser = Actor) ∧
    (∀ sib, X.Siblings.find? (fun c => c.This = Actor) = some sib → w.bWorld = true →
      (ApplyEffectToActorOfSibling w Actor T X).ActiveEffects
        = ApplyGameplayEffectSpecsToTarget w sib T X.ActiveEffects) := by
  unfold ApplyEffectToActorOfSibling
  cases h : X.Siblings.find? (fun c => c.This = Actor) with
  | none =>
    simp only
    exact ⟨trivial, fun g hg => Or.inl hg, fun sib hs => by simp at hs⟩
  | some CA =>
    simp only
    have hThis : CA.This = Actor := by
      have := List.find?_some h
      simpa using this
    refine ⟨trivial, ?_, ?_⟩
    · intro g hg
      split_ifs at hg
      · unfold ApplyGameplayEffectSpecsToTarget at hg
        split_ifs at hg
        · rcases List.mem_append.mp hg with hg | hg
          · exact Or.inl hg
          · right
            obtain ⟨p, -, rfl⟩ := List.mem_map.mp hg
            exact hThis
        · exact Or.inl hg
      · exact Or.inl hg
    · intro sib hs hw
      have hs' : CA = sib := by simpa using hs
      subst hs'
      have h1 : (ApplyEffectToActor w (some T) [] ⟨CA, X.Sys.ASC, X.Sys.Log⟩).1 = true := by
        unfold ApplyEffectToActor
        simp [hw]
      rw [if_pos h1]

theorem TransferPersistentEffects_cases (w : FWorldView) (T : AActor) (X : FScene) :
    (TransferPersistentEffects w T X = (false, X) ∧
      (X.Sys.Self.bAppliesPersistentEffects = false
        ∨ HasTag X.Sys.Self.OwningAbilityTags .Ability_Targeting_IndividualTargeting = true
        ∨ ∀ CA, (w.GetOverlappingCollisionActors T).find? (IsTransferSibling X.Sys.Self)
            ≠ some (some CA))) ∨
    (∃ CA, (w.GetOverlappingCollisionActors T).find? (IsTransferSibling X.Sys.Self)
        = some (some CA) ∧
      X.Sys.Self.bAppliesPersistentEffects = true ∧
      HasTag X.Sys.Self.OwningAbilityTags .Ability_Targeting_IndividualTargeting = false ∧
      IsTransferSibling X.Sys.Self (some CA) = true ∧
      TransferPersistentEffects w T X = (true, ApplyEffectToActorOfSibling w CA.Actor T X)) := by
  unfold TransferPersistentEffects
  by_cases hc : (X.Sys.Self.bAppliesPersistentEffects
      && !HasTag X.Sys.Self.OwningAbilityTags .Ability_Targeting_IndividualTargeting) = true
  · rw [if_pos hc]
    simp only [Bool.and_eq_true, Bool.not_eq_true'] at hc
    cases hf : (w.GetOverlappingCollisionActors T).find? (IsTransferSibling X.Sys.Self) with
    | none =>
      left
      exact ⟨rfl, Or.inr (Or.inr (fun CA h => by simp at h))⟩
    | some it =>
      cases it with
      | none =>
        left
        exact ⟨rfl, Or.inr (Or.inr (fun CA h => by simp at h))⟩
      | some CA =>
        right
        exact ⟨CA, rfl, hc.1, hc.2, List.find?_some hf, rfl⟩
  · rw [if_neg hc]
    left
    refine ⟨rfl, ?_⟩
    cases h1 : X.Sys.Self.bAppliesPersistentEffects
    · exact Or.inl rfl
    · right
      left
      simpa [h1] using hc

/-- The end of an overlap for an entity whose component is valid. When a target T that a
persistent-effect entity has affected leaves its volume (`OnEndOverlap`; T has an ability
system component), the call returns, the infinite effects that this entity caused on T are
removed and T leaves the local list of previous targets. If another collision actor with the
same activation key overlaps T (shared targeting) and can apply its effect container,
`TransferPersistentEffects` returns true and T carries the infinite effect afterwards, caused
by that sibling. If no such sibling overlaps T, or the ability targets individually,
`TransferPersistentEffects` returns false, the active effects are the former ones without the
infinite effects of this entity on T, and T is no longer among the previous targets. -/
theorem OnEndOverlap_with_component (w : FWorldView) (T : AActor) (S : FScene)
    (hpers : S.Sys.Self.bAppliesPersistentEffects = true)
    (hbase : S.Sys.Self.InstigatorBaseASC = true)
    (hprev : Targeted T S.Sys) (hasc : w.bHasAbilitySystemComponent T = true) :
    ∃ R, OnEndOverlap w T S = some R ∧
    (∀ g ∈ R.ActiveEffects,
      ¬ (g.Target = T ∧ g.DurationPolicy = EGameplayEffectDurationType.Infinite
        ∧ g.EffectCauser = S.Sys.Self.This)) ∧
    T ∉ R.Sys.Self.PreviousTargetedActors ∧
    (∀ (CA : FOverlappingCollisionActor) (sib : FCollisionActor),
      HasTag S.Sys.Self.OwningAbilityTags .Ability_Targeting_IndividualTargeting = false →
      (w.GetOverlappingCollisionActors T).find? (IsTransferSibling S.Sys.Self)
        = some (some CA) →
      S.Siblings.find? (fun c => c.This = CA.Actor) = some sib →
      w.bWorld = true → AppliesEffectContainer sib = true →
      EGameplayEffectDurationType.Infinite ∈ sib.EffectContainerSpec →
        (TransferPersistentEffects w T S).1 = true ∧
        CA.Actor ≠ S.Sys.Self.This ∧
        CA.ActivationKey = S.Sys.Self.IndividualData.ActivationKey ∧
        ⟨T, CA.Actor, EGameplayEffectDurationType.Infinite⟩ ∈ R.ActiveEffects) ∧
    (HasTag S.Sys.Self.OwningAbilityTags .Ability_Targeting_IndividualTargeting = true
        ∨ (∀ it ∈ w.GetOverlappingCollisionActors T,
            IsTransferSibling S.Sys.Self it = false) →
      (TransferPersistentEffects w T S).1 = false ∧
      R.ActiveEffects = S.ActiveEffects.filter (fun it =>
        !(decide (it.Target = T)
          && decide (it.DurationPolicy = EGameplayEffectDurationType.Infinite)
          && decide (it.EffectCauser = S.Sys.Self.This))) ∧
      ¬ Targeted T R.Sys) := by
  obtain ⟨l, hl, hTl⟩ := hprev
  obtain ⟨hR1, hR2, hR3⟩ := RemoveAppliedPersistentEffects_facts w T S
  have hR3' := hR3 hpers hasc
  have hO : OnEndOverlap w T S
      = some (RemovePreviousTargetOnComponent w T (RemoveAppliedPersistentEffects w T S).2) := by
    unfold OnEndOverlap
    rw [if_pos hpers, hl]
    simp only
    rw [if_pos (by simpa using hTl)]
    unfold RemovePreviousTarget
    rw [hR1, if_pos hbase]
  generalize (RemoveAppliedPersistentEffects w T S).2 = S0 at hR1 hR2 hR3' hO
  have hSelf : S0.Sys.Self = S.Sys.Self := by rw [hR1]
  refine ⟨_, hO, ?_⟩
  -- the scene on which `TransferPersistentEffects` is called
  have hX : ∀ X : FScene, X = ({ S0 with Sys := { S0.Sys with
      ASC := (S0.Sys.ASC.RemoveSharedTarget S0.Sys.Self.IndividualData.ActivationKey T
        S0.Sys.Self.bReplicates) } } : FScene) →
      X.Sys.Self = S.Sys.Self ∧ X.ActiveEffects = S0.ActiveEffects ∧ X.Siblings = S.Siblings ∧
      X.Sys.ASC = S.Sys.ASC.RemoveSharedTarget S.Sys.Self.IndividualData.ActivationKey T
        S.Sys.Self.bReplicates := by
    intro X hX
    subst hX
    exact ⟨hSelf, rfl, hR2, by rw [hR1]⟩
  unfold RemovePreviousTargetOnComponent
  simp only
  generalize hXe : ({ S0 with Sys := { S0.Sys with
      ASC := (S0.Sys.ASC.RemoveSharedTarget S0.Sys.Self.IndividualData.ActivationKey T
        S0.Sys.Self.bReplicates) } } : FScene) = X
  obtain ⟨hX1, hX2, hX3, hX4⟩ := hX X hXe.symm
  have hcases := TransferPersistentEffects_cases w T X
  rw [hX1] at hcases
  have hT1 : ∀ Y : FScene, (TransferPersistentEffects w T Y).1
      = (TransferPersistentEffects w T { Y with Sys := Y.Sys }).1 := fun _ => rfl
  have hTS : (TransferPersistentEffects w T S).1 = (TransferPersistentEffects w T X).1 := by
    unfold TransferPersistentEffects
    rw [hX1]
    split_ifs
    · cases (w.GetOverlappingCollisionActors T).find? (IsTransferSibling S.Sys.Self) with
      | none => rfl
      | some it => cases it <;> rfl
    · rfl
  refine ⟨?_, ?_, ?_, ?_⟩
  · intro g hg
    have hg' : g ∈ S0.ActiveEffects ∨ g.EffectCauser ≠ S.Sys.Self.This := by
      rcases hcases with ⟨h, -⟩ | ⟨CA, -, -, -, hsibl, h⟩
      · rw [h] at hg
        exact Or.inl (hX2 ▸ hg)
      · rw [h] at hg
        rcases (ApplyEffectToActorOfSibling_facts w CA.Actor T X).2.1 g hg with h' | h'
        · exact Or.inl (hX2 ▸ h')
        · right
          rw [h']
          simp only [IsTransferSibling, Bool.and_eq_true, decide_eq_true_eq] at hsibl
          exact hsibl.1
    rcases hg' with hg' | hg'
    · rw [hR3'] at hg'
      have := (List.mem_filter.mp hg').2
      simp only [Bool.not_eq_true', Bool.and_eq_false_iff, decide_eq_false_iff_not] at this
      tauto
    · exact fun h => hg' h.2.2
  · simp
  · intro CA sib hshared hfind hsib hw hcan hinf
    rcases hcases with ⟨-, h⟩ | ⟨CA', hfind', -, -, hsibl, h⟩
    · rcases h with h | h | h
      · rw [hpers] at h
        exact absurd h (by decide)
      · rw [hshared] at h
        exact absurd h (by decide)
      · exact absurd hfind (h CA)
    · have hCA : CA' = CA := by
        rw [hfind] at hfind'
        simpa using hfind'.symm
      subst hCA
      simp only [IsTransferSibling, Bool.and_eq_true, decide_eq_true_eq] at hsibl
      refine ⟨by rw [hTS, h], hsibl.1, hsibl.2, ?_⟩
      rw [h]
      rw [(ApplyEffectToActorOfSibling_facts w CA'.Actor T X).2.2 sib (hX3 ▸ hsib) hw]
      unfold ApplyGameplayEffectSpecsToTarget
      rw [if_pos (by simp [hcan, hasc])]
      apply List.mem_append_right
      have hthis : sib.This = CA'.Actor := by
        have := List.find?_some hsib
        simpa using this
      rw [hthis]
      exact List.mem_map.mpr ⟨.Infinite, List.mem_filter.mpr ⟨hinf, by decide⟩, rfl⟩
  · intro hnone
    have hfalse : TransferPersistentEffects w T X = (false, X) := by
      rcases hcases with ⟨h, -⟩ | ⟨CA, hfind, -, hsh, hsibl, -⟩
      · exact h
      · rcases hnone with h | h
        · rw [hsh] at h
          exact absurd h (by decide)
        · have hmem := List.mem_of_find?_eq_some hfind
          rw [h _ hmem] at hsibl
          exact absurd hsibl (by decide)
    refine ⟨by rw [hTS, hfalse], ?_, ?_⟩
    · rw [hfalse]
      simp only
      rw [hX2, hR3']
    · rintro ⟨l', hl', hTl'⟩
      rw [hfalse] at hl'
      rw [GetPreviousTargets_fst] at hl'
      simp only [hX1, hX4] at hl'
      split_ifs at hl' with hc
      · exact not_mem_RemoveSharedTarget _ _ _ _ l' hl' hTl'
      · simp only [Option.some.injEq] at hl'
        rw [← hl'] at hTl'
        simp at hTl'

/-- C14 (code defect). `RemovePreviousTarget` dereferences the component of the instigator
without a test, where `AddPreviousTarget` and `GetPreviousTargets` test it. The collision
actor 1 of an instigator whose component is not a `UBaseAbilitySystemComponent` applies its
infinite effect to the target 10: `AddPreviousTarget` puts 10 into the local list, which is
what `GetPreviousTargets` returns. When 10 leaves the volume, `OnEndOverlap` removes the
infinite effect and calls `RemovePreviousTarget`, which dereferences the null component: the
call does not return, the target is neither handed to a sibling nor taken from the list of
previous targets. With a valid component (the scene of the collision actors 1 and 2 of
activation 7) the same call returns: the infinite effect on 10 is afterwards the one of the
sibling 2, or none when no sibling overlaps 10, and 10 is no longer a previous target. -/
theorem OnEndOverlap_dereferences_null_component :
    PlainComponentScene.Sys.Self.bAppliesPersistentEffects = true ∧
    PlainComponentScene.Sys.Self.InstigatorASC = true ∧
    PlainComponentScene.Sys.Self.InstigatorBaseASC = false ∧
    PlainComponentScene.Sys.Self.PreviousTargetedActors = [10] ∧
    (GetPreviousTargets PlainComponentScene.Sys).1 = some [10] ∧
    (RemoveAppliedPersistentEffects OpenWorld 10 PlainComponentScene).1 = 1 ∧
    (OnEndOverlap OpenWorld 10 PlainComponentScene).isNone = true ∧
    (OnEndOverlap (AuraScene true).1 10 (AuraScene true).2).map
      (fun R => (R.ActiveEffects, R.Sys.Self.PreviousTargetedActors))
        = some ([⟨10, 2, .Infinite⟩], []) ∧
    (OnEndOverlap (AuraScene false).1 10 (AuraScene false).2).map
      (fun R => (R.ActiveEffects, R.Sys.Self.PreviousTargetedActors)) = some ([], []) := by
  decide!

end ABaseCollisionActor

namespace UBaseOverlapAbility

/-! ## The handlers of the queues -/

theorem TMapAdd_map_filter {K V : Type} [DecidableEq K] (p : K × V → Bool) (Key : K) (Value : V)
    (hp : ∀ v, p (Key, v) = false) (Map : List (K × V)) :
    (Map.map (fun it => if it.1 = Key then (Key, Value) else it)).filter p = Map.filter p := by
  induction Map with
  | nil => rfl
  | cons x rest ih =>
    by_cases hx : x.1 = Key
    · have hpx : p x = false := by
        have : x = (Key, x.2) := by rw [← hx]
        rw [this]; exact hp _
      simp [List.filter_cons, hx, hp, hpx, ih]
    · simp [List.filter_cons, hx, ih]

theorem TMapAdd_filter {K V : Type} [DecidableEq K] (p : K × V → Bool) (Key : K) (Value : V)
    (hp : ∀ v, p (Key, v) = false) (Map : List (K × V)) :
    (TMapAdd Map Key Value).filter p = Map.filter p := by
  unfold TMapAdd
  split_ifs
  · exact TMapAdd_map_filter p Key Value hp Map
  · simp [List.filter_append, hp]

theorem AddTarget_filter (EventID OverlapID : Int) (T : AActor)
    (M : List (FOverlapEventID × List AActor)) :
    (AddTarget EventID OverlapID T M).filter (fun it => !decide (it.1.EventID = EventID))
      = M.filter (fun it => !decide (it.1.EventID = EventID)) := by
  unfold AddTarget
  cases h : TMapFind M ⟨EventID, OverlapID⟩ <;> simp only [h] <;>
    exact TMapAdd_filter _ _ _ (fun v => by simp) M

theorem AddTargets_filter (EventID OverlapID : Int) (Ts : List AActor) :
    ∀ (M : List (FOverlapEventID × List AActor)),
      (AddTargets EventID OverlapID Ts M).filter (fun it => !decide (it.1.EventID = EventID))
        = M.filter (fun it => !decide (it.1.EventID = EventID)) := by
  induction Ts with
  | nil => intro M; rfl
  | cons T rest ih =>
    intro M
    have := ih (AddTarget EventID OverlapID T M)
    simp only [AddTargets, List.foldl_cons] at this ⊢
    rw [this, AddTarget_filter]

theorem RemoveTargets_foldl (ids : List FOverlapEventID) :
    ∀ (c : Int) (M : List (FOverlapEventID × List AActor)),
      (ids.foldl
        (fun (acc : Int × List (FOverlapEventID × List AActor)) (it : FOverlapEventID) =>
          (acc.1 + (((TMapFind acc.2 it).getD []).length : Int), TMapRemove acc.2 it))
        (c, M)).2 = M.filter (fun it => !decide (it.1 ∈ ids)) := by
  induction ids with
  | nil => intro c M; simp
  | cons x rest ih =>
    intro c M
    rw [List.foldl_cons, ih]
    simp only [TMapRemove, List.filter_filter]
    apply List.filter_congr
    intro it _
    by_cases h1 : it.1 = x <;> by_cases h2 : it.1 ∈ rest <;> simp [h1, h2]

theorem RemoveTargets_snd (EventID OverlapID : Int) (M : List (FOverlapEventID × List AActor)) :
    (RemoveTargets EventID OverlapID M).2
      = M.filter (fun it => !MustRemove EventID OverlapID it.1) := by
  unfold RemoveTargets
  rw [RemoveTargets_foldl]
  apply List.filter_congr
  intro it hit
  by_cases h : MustRemove EventID OverlapID it.1 = true
  · have : it.1 ∈
        (M.filter (fun it => MustRemove EventID OverlapID it.1)).map (fun it => it.1) :=
      List.mem_map.mpr ⟨it, List.mem_filter.mpr ⟨hit, h⟩, rfl⟩
    simp [this, h]
  · have : it.1 ∉
        (M.filter (fun it => MustRemove EventID OverlapID it.1)).map (fun it => it.1) := by
      intro hmem
      obtain ⟨y, hy, hyx⟩ := List.mem_map.mp hmem
      have := (List.mem_filter.mp hy).2
      rw [hyx] at this
      exact h this
    simp [this, h]

theorem RemoveTargets_filter_other (EventID OverlapID : Int)
    (M : List (FOverlapEventID × List AActor)) :
    (RemoveTargets EventID OverlapID M).2.filter (fun it => !decide (it.1.EventID = EventID))
      = M.filter (fun it => !decide (it.1.EventID = EventID)) := by
  rw [RemoveTargets_snd, List.filter_filter]
  apply List.filter_congr
  intro it _
  by_cases h : it.1.EventID = EventID <;> simp [MustRemove, h]

theorem RemoveTargets_wildcard (EventID : Int) (M : List (FOverlapEventID × List AActor)) :
    ∀ it ∈ (RemoveTargets EventID (-1) M).2, it.1.EventID ≠ EventID := by
  intro it hit
  rw [RemoveTargets_snd] at hit
  have := (List.mem_filter.mp hit).2
  simpa [MustRemove] using this

theorem EventFrame.eventRefl (e : Int) (a : FOverlapAbility) : EventFrame e a a :=
  ⟨rfl, rfl, rfl, rfl, rfl, rfl, rfl, rfl⟩

theorem EventFrame.eventTrans {e : Int} {a b c : FOverlapAbility} (h1 : EventFrame e a b)
    (h2 : EventFrame e b c) : EventFrame e a c :=
  ⟨h2.hScheduler.trans h1.hScheduler, h2.hEventDataMap.trans h1.hEventDataMap,
    h2.hEventEffectsMap.trans h1.hEventEffectsMap, h2.hTargetsMap.trans h1.hTargetsMap,
    h2.hExecutedGameplayCues.trans h1.hExecutedGameplayCues, h2.hProcessed.trans h1.hProcessed,
    h2.hOnQueueEmptied.trans h1.hOnQueueEmptied, h2.hEndAbility.trans h1.hEndAbility⟩

theorem EventFrame_Log (e : Int) (a : FOverlapAbility) (n : FAbilityNotification)
    (h1 : ∀ s, n ≠ FAbilityNotification.OnOverlapEvent s)
    (h2 : n ≠ FAbilityNotification.OnQueueEmptied) (h3 : n ≠ FAbilityNotification.EndAbility) :
    EventFrame e a { a with Log := a.Log ++ [n] } := by
  refine ⟨rfl, rfl, rfl, rfl, rfl, ?_, ?_, ?_⟩
  · simp only [ProcessedSnapshots, List.filterMap_append]
    cases n <;> simp at h1 ⊢
  · simp [List.count_append, List.count_singleton, h2]
  · simp [List.count_append, List.count_singleton, h3]

theorem EventFrame_SendGameplayEvent (e : Int) (Tag : FGameplayTag) (T : Option AActor)
    (m : Int) (a : FOverlapAbility) : EventFrame e a (SendGameplayEvent Tag T m a) :=
  EventFrame_Log e a _ (by simp) (by simp) (by simp)

theorem EventFrame_SendMultihitEvent (e EventID Amount : Int) (a : FOverlapAbility) :
    EventFrame e a (SendMultihitEvent EventID Amount a) := by
  unfold SendMultihitEvent
  split_ifs
  · exact EventFrame_SendGameplayEvent e _ _ _ a
  · exact EventFrame.eventRefl e a

theorem EventFrame_OnOverlapEventClearTargets (S : FOverlapEventSnapshot)
    (a : FOverlapAbility) : EventFrame S.EventID a (OnOverlapEventClearTargets S a) := by
  unfold OnOverlapEventClearTargets
  by_cases hP : a.Duration.Period > 0
  · simp only [hP, if_true]
    by_cases hE : a.bExecuteGameplayCueOnEveryPeriod = true
    · simp only [hE, if_true]
      refine ⟨rfl, rfl, rfl, RemoveTargets_filter_other _ _ _, ?_, rfl, rfl, rfl⟩
      simp only [List.filter_filter]
      apply List.filter_congr
      intro ID _
      by_cases h : ID.EventID = S.EventID
      · simp [h]
      · have : ID ≠ ⟨S.EventID, S.OverlapID⟩ := fun hc => h (by rw [hc])
        simp [h, this]
    · simp only [hE, Bool.false_eq_true, if_false]
      exact ⟨rfl, rfl, rfl, RemoveTargets_filter_other _ _ _, rfl, rfl, rfl, rfl⟩
  · simp only [hP, if_false]
    exact EventFrame.eventRefl _ a

theorem EventFrame_OnOverlapEventHit (e : Int) (w : FAbilityView) (Ts : List AActor) :
    ∀ a : FOverlapAbility, EventFrame e a (OnOverlapEventHit w Ts a) := by
  induction Ts with
  | nil => intro a; exact EventFrame.eventRefl e a
  | cons T rest ih =>
    intro a
    have hstep : EventFrame e a
        (SendGameplayEvent .Event_Hit (some T) 1
          (if w.bHasAbilitySystemComponent T then
            { a with Log := a.Log ++ [FAbilityNotification.HandleGameplayEvent T .Event_Hit] }
          else a)) := by
      refine EventFrame.eventTrans ?_ (EventFrame_SendGameplayEvent e _ _ _ _)
      split_ifs
      · exact EventFrame_Log e a _ (by simp) (by simp) (by simp)
      · exact EventFrame.eventRefl e a
    have := ih (SendGameplayEvent .Event_Hit (some T) 1
          (if w.bHasAbilitySystemComponent T then
            { a with Log := a.Log ++ [FAbilityNotification.HandleGameplayEvent T .Event_Hit] }
          else a))
    exact EventFrame.eventTrans hstep this

theorem EventFrame_OnOverlapEventApply (w : FAbilityView) (S : FOverlapEventSnapshot)
    (Ts : List AActor) (a b : FOverlapAbility) (h : OnOverlapEventApply w S Ts a = some b) :
    EventFrame S.EventID a b := by
  unfold OnOverlapEventApply at h
  by_cases hT : Ts.isEmpty = true
  · simp only [hT, if_true, Option.some.injEq] at h
    subst h
    exact EventFrame.eventRefl _ a
  · simp only [hT, Bool.false_eq_true, if_false] at h
    cases hf : TMapFind a.EventEffectsMap S.EventID with
    | none => simp [hf] at h
    | some Spec =>
      simp only [hf, Option.some.injEq] at h
      subst h
      refine EventFrame.eventTrans ?_ (EventFrame_OnOverlapEventHit _ w Ts _)
      refine EventFrame.eventTrans
        (EventFrame_Log _ a (FAbilityNotification.ApplyEffectContainerSpecTarget Spec Ts)
          (by simp) (by simp) (by simp)) ?_
      exact ⟨rfl, rfl, rfl, AddTargets_filter _ _ _ _, rfl, rfl, rfl, rfl⟩

theorem EventFrame_OnOverlapEventGameplayCue (w : FAbilityView) (S : FOverlapEventSnapshot)
    (a b : FOverlapAbility) (h : OnOverlapEventGameplayCue w S a = some b) :
    EventFrame S.EventID a b := by
  unfold OnOverlapEventGameplayCue at h
  simp only at h
  split_ifs at h with hc
  · cases hf : TMapFind a.EventDataMap S.EventID with
    | none => simp [hf] at h
    | some d =>
      cases hw : w.World with
      | none => simp [hf, hw] at h
      | some now =>
        simp only [hf, hw, Option.some.injEq] at h
        subst h
        refine ⟨rfl, rfl, rfl, rfl, ?_, ?_, ?_, ?_⟩
        · simp [List.filter_append]
        · simp [ProcessedSnapshots, List.filterMap_append]
        · simp [List.count_append, List.count_singleton]
        · simp [List.count_append, List.count_singleton]
  · simp only [Option.some.injEq] at h
    subst h
    exact EventFrame.eventRefl _ a

theorem EventFrame_OnOverlapEvent_Implementation (w : FAbilityView) (S : FOverlapEventSnapshot)
    (a b : FOverlapAbility) (h : OnOverlapEvent_Implementation w S a = some b) :
    EventFrame S.EventID a b := by
  unfold OnOverlapEvent_Implementation at h
  simp only at h
  have h0 := EventFrame_OnOverlapEventClearTargets S a
  generalize OnOverlapEventClearTargets S a = a1 at h h0
  cases hi : GetIgnoredActors_Implementation S.EventID
      (if HasTag a.AbilityTags .Ability_Targeting_IndividualTargeting = true
        then S.OverlapID else -1) a1 with
  | none => simp [hi] at h
  | some Ignore =>
    simp only [hi] at h
    cases ha : OnOverlapEventApply w S (w.FilteredActors S Ignore) a1 with
    | none => simp [ha] at h
    | some a2 =>
      simp only [ha] at h
      have h1 := EventFrame_OnOverlapEventApply w S _ a1 a2 ha
      have h2 : EventFrame S.EventID a2
          (if a.Duration.Period > 0 then
            SendMultihitEvent S.EventID ((w.FilteredActors S Ignore).length : Int) a2
          else a2) := by
        split_ifs
        · exact EventFrame_SendMultihitEvent _ _ _ _
        · exact EventFrame.eventRefl _ _
      have h3 := EventFrame_OnOverlapEventGameplayCue w S _ b h
      exact (h0.eventTrans h1).eventTrans (h2.eventTrans h3)

theorem EventID_CompensateOverlapLocation (w : FAbilityView) (a : FOverlapAbility)
    (s : FOverlapEventSnapshot) : (CompensateOverlapLocation w a s).EventID = s.EventID := by
  unfold CompensateOverlapLocation
  split_ifs <;> rfl

theorem EventIsProcessable_congr (w : FAbilityView) (e : Int) (a b : FOverlapAbility)
    (h1 : b.EventDataMap = a.EventDataMap) (h2 : b.EventEffectsMap = a.EventEffectsMap)
    (h3 : b.bIgnorePayloadActors = a.bIgnorePayloadActors) :
    EventIsProcessable w e b = EventIsProcessable w e a := by
  unfold EventIsProcessable
  rw [h1, h2, h3]

theorem bIgnorePayloadActors_OnOverlapEventClearTargets (S : FOverlapEventSnapshot)
    (a : FOverlapAbility) :
    (OnOverlapEventClearTargets S a).bIgnorePayloadActors = a.bIgnorePayloadActors := by
  unfold OnOverlapEventClearTargets
  simp only
  split_ifs <;> rfl

theorem EventIsProcessable_facts (w : FAbilityView) (e : Int) (a : FOverlapAbility)
    (hp : EventIsProcessable w e a = true) :
    ∃ d now Spec, TMapFind a.EventDataMap e = some d ∧ w.World = some now ∧
      TMapFind a.EventEffectsMap e = some Spec ∧
      (a.bIgnorePayloadActors = true → ∃ Actors, d.TargetData = some Actors) := by
  unfold EventIsProcessable at hp
  cases hd : TMapFind a.EventDataMap e with
  | none => simp [hd] at hp
  | some d =>
    simp only [hd, Bool.and_eq_true, Bool.or_eq_true, Bool.not_eq_true',
      Option.isSome_iff_exists] at hp
    obtain ⟨⟨⟨Spec, hS⟩, ⟨now, hn⟩⟩, hpay⟩ := hp
    refine ⟨d, now, Spec, rfl, hn, hS, ?_⟩
    intro hb
    rcases hpay with h | h
    · rw [hb] at h; exact absurd h (by simp)
    · exact h

theorem OnOverlapEvent_Implementation_isSome (w : FAbilityView) (S : FOverlapEventSnapshot)
    (a : FOverlapAbility) (hp : EventIsProcessable w S.EventID a = true) :
    ∃ b, OnOverlapEvent_Implementation w S a = some b := by
  unfold OnOverlapEvent_Implementation
  simp only
  have h0 := EventFrame_OnOverlapEventClearTargets S a
  have hb := bIgnorePayloadActors_OnOverlapEventClearTargets S a
  generalize OnOverlapEventClearTargets S a = a1 at h0 hb
  have hp1 : EventIsProcessable w S.EventID a1 = true := by
    rw [EventIsProcessable_congr w _ a a1 h0.hEventDataMap h0.hEventEffectsMap hb]; exact hp
  obtain ⟨d, now, Spec, hd, hn, hS, hpay⟩ := EventIsProcessable_facts w _ a1 hp1
  have hi : ∃ Ignore, GetIgnoredActors_Implementation S.EventID
      (if HasTag a.AbilityTags .Ability_Targeting_IndividualTargeting = true
        then S.OverlapID else -1) a1 = some Ignore := by
    unfold GetIgnoredActors_Implementation
    simp only [hd]
    by_cases hb2 : a1.bIgnorePayloadActors = true
    · obtain ⟨Actors, hA⟩ := hpay hb2
      simp only [hb2, if_true, hA]
      exact ⟨_, rfl⟩
    · simp only [hb2, Bool.false_eq_true, if_false]
      exact ⟨_, rfl⟩
  obtain ⟨Ignore, hi⟩ := hi
  simp only [hi]
  have ha : ∃ a2, OnOverlapEventApply w S (w.FilteredActors S Ignore) a1 = some a2 := by
    unfold OnOverlapEventApply
    simp only [hS]
    split_ifs <;> exact ⟨_, rfl⟩
  obtain ⟨a2, ha⟩ := ha
  simp only [ha]
  have h1 := EventFrame_OnOverlapEventApply w S _ a1 a2 ha
  have h2 : EventFrame S.EventID a2
      (if a.Duration.Period > 0 then
        SendMultihitEvent S.EventID ((w.FilteredActors S Ignore).length : Int) a2
      else a2) := by
    split_ifs
    · exact EventFrame_SendMultihitEvent _ _ _ _
    · exact EventFrame.eventRefl _ _
  generalize (if a.Duration.Period > 0 then
        SendMultihitEvent S.EventID ((w.FilteredActors S Ignore).length : Int) a2
      else a2) = a3 at h2
  have hd3 : TMapFind a3.EventDataMap S.EventID = some d := by
    rw [h2.hEventDataMap, h1.hEventDataMap]; exact hd
  unfold OnOverlapEventGameplayCue
  simp only [hd3, hn]
  split_ifs <;> exact ⟨_, rfl⟩

theorem ShouldCleanUpEvent_iff (e : Int) (a : FOverlapAbility) :
    ShouldCleanUpEvent e a = true ↔
      ∀ s ∈ a.Scheduler.Queue ++ a.Scheduler.InstantQueue, s.EventID ≠ e := by
  unfold ShouldCleanUpEvent
  by_cases h1 : a.Scheduler.InstantQueue.any (fun it => decide (it.EventID = e)) = true
  · simp only [h1, if_true, Bool.false_eq_true, false_iff]
    intro hall
    obtain ⟨s, hs, he⟩ := List.any_eq_true.mp h1
    exact hall s (List.mem_append_right _ hs) (by simpa using he)
  · simp only [h1, Bool.false_eq_true, if_false]
    by_cases h2 : a.Scheduler.Queue.any (fun it => decide (it.EventID = e)) = true
    · simp only [h2, if_true, Bool.false_eq_true, false_iff]
      intro hall
      obtain ⟨s, hs, he⟩ := List.any_eq_true.mp h2
      exact hall s (List.mem_append_left _ hs) (by simpa using he)
    · simp only [h2, Bool.false_eq_true, if_false, true_iff]
      intro s hs he
      rcases List.mem_append.mp hs with hs | hs
      · exact h2 (List.any_eq_true.mpr ⟨s, hs, by simpa using he⟩)
      · exact h1 (List.any_eq_true.mpr ⟨s, hs, by simpa using he⟩)

theorem TMapFind_TMapRemove {V : Type} (M : List (Int × V)) (e : Int) :
    TMapFind (TMapRemove M e) e = none := by
  unfold TMapFind TMapRemove
  have : (M.filter (fun it => !decide (it.1 = e))).find? (fun it => decide (it.1 = e)) = none := by
    rw [List.find?_eq_none]
    intro x hx
    have := (List.mem_filter.mp hx).2
    simpa using this
  rw [this]; rfl

theorem TMapRemove_filter {V : Type} (M : List (Int × V)) (e : Int) :
    (TMapRemove M e).filter (fun it => !decide (it.1 = e))
      = M.filter (fun it => !decide (it.1 = e)) := by
  unfold TMapRemove
  rw [List.filter_filter]
  apply List.filter_congr
  intro x _
  simp

theorem CleanUpEventQueueEmptied_facts (w : FAbilityView) (a : FOverlapAbility) :
    (CleanUpEventQueueEmptied w a).Scheduler = a.Scheduler ∧
    (CleanUpEventQueueEmptied w a).TargetsMap = a.TargetsMap ∧
    (CleanUpEventQueueEmptied w a).EventDataMap = a.EventDataMap ∧
    (CleanUpEventQueueEmptied w a).EventEffectsMap = a.EventEffectsMap ∧
    (CleanUpEventQueueEmptied w a).ExecutedGameplayCues = a.ExecutedGameplayCues ∧
    ProcessedSnapshots (CleanUpEventQueueEmptied w a).Log = ProcessedSnapshots a.Log ∧
    (CleanUpEventQueueEmptied w a).Log.count FAbilityNotification.OnQueueEmptied
      = a.Log.count FAbilityNotification.OnQueueEmptied
        + (if a.Scheduler.Queue = [] ∧ a.Scheduler.InstantQueue = [] then 1 else 0) ∧
    (CleanUpEventQueueEmptied w a).Log.count FAbilityNotification.EndAbility
      = a.Log.count FAbilityNotification.EndAbility
        + (if a.Scheduler.Queue = [] ∧ a.Scheduler.InstantQueue = []
            ∧ w.bHasActiveTask = false then 1 else 0) := by
  unfold CleanUpEventQueueEmptied ShouldEndAbilityWhenQueueIsEmpty_Implementation
  by_cases hq : a.Scheduler.Queue = [] <;> by_cases hi : a.Scheduler.InstantQueue = [] <;>
    by_cases ht : w.bHasActiveTask = true <;>
    simp [hq, hi, ht, ProcessedSnapshots, List.filterMap_append, List.count_append,
      List.count_singleton]

theorem CleanUpEvent_facts (w : FAbilityView) (D e : Int) (a : FOverlapAbility) :
    (CleanUpEvent w D e a).Scheduler = a.Scheduler ∧
    (CleanUpEvent w D e a).TargetsMap = (RemoveTargets e D a.TargetsMap).2 ∧
    (CleanUpEvent w D e a).EventDataMap = TMapRemove a.EventDataMap e ∧
    (CleanUpEvent w D e a).EventEffectsMap = TMapRemove a.EventEffectsMap e ∧
    (CleanUpEvent w D e a).ExecutedGameplayCues
      = a.ExecutedGameplayCues.filter (fun ID => !decide (ID.EventID = e)) ∧
    ProcessedSnapshots (CleanUpEvent w D e a).Log = ProcessedSnapshots a.Log ∧
    (CleanUpEvent w D e a).Log.count FAbilityNotification.OnQueueEmptied
      = a.Log.count FAbilityNotification.OnQueueEmptied
        + (if a.Scheduler.Queue = [] ∧ a.Scheduler.InstantQueue = [] then 1 else 0) ∧
    (CleanUpEvent w D e a).Log.count FAbilityNotification.EndAbility
      = a.Log.count FAbilityNotification.EndAbility
        + (if a.Scheduler.Queue = [] ∧ a.Scheduler.InstantQueue = []
            ∧ w.bHasActiveTask = false then 1 else 0) := by
  unfold CleanUpEvent
  simp only
  have h1 : EventFrame e a
      { a with Log := a.Log ++ [FAbilityNotification.RemoveConsumableEffect] } :=
    EventFrame_Log e a _ (by simp) (by simp) (by simp)
  generalize hR : RemoveTargets e D a.TargetsMap = R
  have h2 : ∀ x : FOverlapAbility, EventFrame e x
      (if ShouldSendMultihitEventOnCleanUp x = true then SendMultihitEvent e R.1 x else x) := by
    intro x
    split_ifs
    · exact EventFrame_SendMultihitEvent _ _ _ _
    · exact EventFrame.eventRefl _ _
  have h3 : ∀ x : FOverlapAbility,
      (if ShouldSendMultihitEventOnCleanUp x = true then SendMultihitEvent e R.1 x
        else x).TargetsMap = x.TargetsMap := by
    intro x
    unfold SendMultihitEvent SendGameplayEvent
    split_ifs <;> rfl
  have h4 : ∀ x : FOverlapAbility,
      (if ShouldSendMultihitEventOnCleanUp x = true then SendMultihitEvent e R.1 x
        else x).ExecutedGameplayCues = x.ExecutedGameplayCues := by
    intro x
    unfold SendMultihitEvent SendGameplayEvent
    split_ifs <;> rfl
  obtain ⟨g1, g2, g3, g4, g5, g6, g7, g8⟩ := CleanUpEventQueueEmptied_facts w
    { (if ShouldSendMultihitEventOnCleanUp
          { a with Log := a.Log ++ [FAbilityNotification.RemoveConsumableEffect],
                   TargetsMap := R.2 } = true then
        SendMultihitEvent e R.1
          { a with Log := a.Log ++ [FAbilityNotification.RemoveConsumableEffect],
                   TargetsMap := R.2 }
      else { a with Log := a.Log ++ [FAbilityNotification.RemoveConsumableEffect],
                    TargetsMap := R.2 }) with
      EventDataMap := TMapRemove (if ShouldSendMultihitEventOnCleanUp
          { a with Log := a.Log ++ [FAbilityNotification.RemoveConsumableEffect],
                   TargetsMap := R.2 } = true then
        SendMultihitEvent e R.1
          { a with Log := a.Log ++ [FAbilityNotification.RemoveConsumableEffect],
                   TargetsMap := R.2 }
      else { a with Log := a.Log ++ [FAbilityNotification.RemoveConsumableEffect],
                    TargetsMap := R.2 }).EventDataMap e
      EventEffectsMap := TMapRemove (if ShouldSendMultihitEventOnCleanUp
          { a with Log := a.Log ++ [FAbilityNotification.RemoveConsumableEffect],
                   TargetsMap := R.2 } = true then
        SendMultihitEvent e R.1
          { a with Log := a.Log ++ [FAbilityNotification.RemoveConsumableEffect],
                   TargetsMap := R.2 }
      else { a with Log := a.Log ++ [FAbilityNotification.RemoveConsumableEffect],
                    TargetsMap := R.2 }).EventEffectsMap e
      ExecutedGameplayCues := (if ShouldSendMultihitEventOnCleanUp
          { a with Log := a.Log ++ [FAbilityNotification.RemoveConsumableEffect],
                   TargetsMap := R.2 } = true then
        SendMultihitEvent e R.1
          { a with Log := a.Log ++ [FAbilityNotification.RemoveConsumableEffect],
                   TargetsMap := R.2 }
      else { a with Log := a.Log ++ [FAbilityNotification.RemoveConsumableEffect],
                    TargetsMap := R.2 }).ExecutedGameplayCues.filter
            (fun ID => !decide (ID.EventID = e)) }
  have f := h2 { a with Log := a.Log ++ [FAbilityNotification.RemoveConsumableEffect],
                        TargetsMap := R.2 }
  have f1 : EventFrame e { a with Log := a.Log ++ [FAbilityNotification.RemoveConsumableEffect] }
      { a with Log := a.Log ++ [FAbilityNotification.RemoveConsumableEffect],
               TargetsMap := R.2 } := by
    refine ⟨rfl, rfl, rfl, ?_, rfl, rfl, rfl, rfl⟩
    show R.2.filter _ = a.TargetsMap.filter _
    rw [← hR]; exact RemoveTargets_filter_other _ _ _
  have ft := (h1.eventTrans f1).eventTrans f
  refine ⟨?_, ?_, ?_, ?_, ?_, ?_, ?_, ?_⟩
  · rw [g1]; exact ft.hScheduler
  · rw [g2]; exact h3 _
  · rw [g3]; show TMapRemove _ e = _; rw [ft.hEventDataMap]
  · rw [g4]; show TMapRemove _ e = _; rw [ft.hEventEffectsMap]
  · rw [g5]; show List.filter _ _ = _; rw [h4]
  · rw [g6]; exact ft.hProcessed
  · rw [g7]
    show List.count _ _ + (if _ = [] ∧ _ = [] then 1 else 0) = _
    rw [ft.hOnQueueEmptied, ft.hScheduler]
  · rw [g8]
    show List.count _ _ + (if _ = [] ∧ _ = [] ∧ _ then 1 else 0) = _
    rw [ft.hEndAbility, ft.hScheduler]

theorem CleanUpEvent_or_keep (w : FAbilityView) (D e : Int) (a r : FOverlapAbility)
    (hr : r = if ShouldCleanUpEvent e a = true then CleanUpEvent w D e a else a) :
    r.Scheduler = a.Scheduler ∧
    ProcessedSnapshots r.Log = ProcessedSnapshots a.Log ∧
    SameOtherBookkeeping e r a ∧
    ((TMapFind a.EventDataMap e).isSome = true → D = -1 →
      (BookkeepingRemoved e r ↔
        ∀ s ∈ r.Scheduler.Queue ++ r.Scheduler.InstantQueue, s.EventID ≠ e)) ∧
    (r.Log.count FAbilityNotification.OnQueueEmptied
        ≠ a.Log.count FAbilityNotification.OnQueueEmptied →
      r.Scheduler.Queue = [] ∧ r.Scheduler.InstantQueue = []) ∧
    (r.Log.count FAbilityNotification.EndAbility
        ≠ a.Log.count FAbilityNotification.EndAbility →
      r.Scheduler.Queue = [] ∧ r.Scheduler.InstantQueue = [] ∧ w.bHasActiveTask = false) ∧
    ((∃ s ∈ r.Scheduler.Queue ++ r.Scheduler.InstantQueue, s.EventID = e) → r = a) := by
  obtain ⟨c1, c2, c3, c4, c5, c6, c7, c8⟩ := CleanUpEvent_facts w D e a
  by_cases hs : ShouldCleanUpEvent e a = true
  · rw [if_pos hs] at hr
    subst hr
    refine ⟨c1, c6, ⟨?_, ?_, ?_, ?_⟩, ?_, ?_, ?_, ?_⟩
    · rw [c2]; exact RemoveTargets_filter_other _ _ _
    · rw [c3]; exact TMapRemove_filter _ _
    · rw [c4]; exact TMapRemove_filter _ _
    · rw [c5, List.filter_filter]
      apply List.filter_congr
      intro x _
      simp
    · intro _ hD
      subst hD
      have hall := (ShouldCleanUpEvent_iff e a).mp hs
      rw [c1]
      refine ⟨fun _ => hall, fun _ => ⟨?_, ?_, ?_, ?_⟩⟩
      · rw [c2]; exact RemoveTargets_wildcard e _
      · rw [c3]; exact TMapFind_TMapRemove _ _
      · rw [c4]; exact TMapFind_TMapRemove _ _
      · rw [c5]
        intro ID hID
        have := (List.mem_filter.mp hID).2
        simpa using this
    · intro hne
      rw [c7] at hne
      rw [c1]
      by_contra hcon
      rw [if_neg hcon] at hne
      exact hne rfl
    · intro hne
      rw [c8] at hne
      rw [c1]
      by_contra hcon
      rw [if_neg hcon] at hne
      exact hne rfl
    · rintro ⟨x, hx, hxe⟩
      rw [c1] at hx
      exact absurd hxe ((ShouldCleanUpEvent_iff e a).mp hs x hx)
  · rw [if_neg hs] at hr
    subst hr
    refine ⟨rfl, rfl, ⟨rfl, rfl, rfl, rfl⟩, ?_, fun h => absurd rfl h, fun h => absurd rfl h,
      fun _ => rfl⟩
    intro hd _
    have hnot : ¬ ∀ s ∈ r.Scheduler.Queue ++ r.Scheduler.InstantQueue, s.EventID ≠ e :=
      fun hall => hs ((ShouldCleanUpEvent_iff e r).mpr hall)
    refine ⟨fun hb => ?_, fun hall => absurd hall hnot⟩
    rw [hb.2.1] at hd
    exact absurd hd (by simp)

theorem InitAbilityModifiedTags_facts (e : Int) (a b : FOverlapAbility)
    (h : InitAbilityModifiedTags e a = some b) :
    (TMapFind a.EventDataMap e).isSome = true ∧
    b = { a with Log := a.Log ++ [FAbilityNotification.InitAbilityModifiedTags e] } := by
  unfold InitAbilityModifiedTags at h
  cases hd : TMapFind a.EventDataMap e with
  | none => simp [hd] at h
  | some d =>
    simp only [hd, Option.some.injEq] at h
    exact ⟨rfl, h.symm⟩

theorem OnOverlapEvent_facts (w : FAbilityView) (S : FOverlapEventSnapshot)
    (a b : FOverlapAbility) (h : OnOverlapEvent w S a = some b) :
    b.Scheduler = a.Scheduler ∧ b.EventDataMap = a.EventDataMap ∧
    b.EventEffectsMap = a.EventEffectsMap ∧
    b.TargetsMap.filter (fun it => !decide (it.1.EventID = S.EventID))
      = a.TargetsMap.filter (fun it => !decide (it.1.EventID = S.EventID)) ∧
    b.ExecutedGameplayCues.filter (fun ID => !decide (ID.EventID = S.EventID))
      = a.ExecutedGameplayCues.filter (fun ID => !decide (ID.EventID = S.EventID)) ∧
    ProcessedSnapshots b.Log = ProcessedSnapshots a.Log ++ [S] ∧
    b.Log.count FAbilityNotification.OnQueueEmptied
      = a.Log.count FAbilityNotification.OnQueueEmptied ∧
    b.Log.count FAbilityNotification.EndAbility = a.Log.count FAbilityNotification.EndAbility := by
  unfold OnOverlapEvent at h
  have f := EventFrame_OnOverlapEvent_Implementation w S _ b h
  refine ⟨f.hScheduler, f.hEventDataMap, f.hEventEffectsMap, f.hTargetsMap,
    f.hExecutedGameplayCues, ?_, ?_, ?_⟩
  · rw [f.hProcessed]
    simp [ProcessedSnapshots, List.filterMap_append]
  · rw [f.hOnQueueEmptied]
    simp [List.count_append, List.count_singleton]
  · rw [f.hEndAbility]
    simp [List.count_append, List.count_singleton]

/-- What a handler has done when it returns, for the snapshot `s` that it popped from a state
`a1` and the scheduler `Sched` that its timer update leaves. -/
theorem handler_facts (w : FAbilityView) (D : Int) (s : FOverlapEventSnapshot)
    (a1 a2 a3 r : FOverlapAbility) (Sched : FScheduler)
    (h2 : InitAbilityModifiedTags s.EventID a1 = some a2)
    (h3 : OnOverlapEvent w (CompensateOverlapLocation w a2 s) a2 = some a3)
    (hr : r = if ShouldCleanUpEvent (CompensateOverlapLocation w a2 s).EventID
          { a3 with Scheduler := Sched } = true
        then CleanUpEvent w D (CompensateOverlapLocation w a2 s).EventID
          { a3 with Scheduler := Sched }
        else { a3 with Scheduler := Sched }) :
    r.Scheduler = Sched ∧
    ProcessedSnapshots r.Log = ProcessedSnapshots a1.Log ++ [CompensateOverlapLocation w a1 s] ∧
    SameOtherBookkeeping s.EventID r a1 ∧
    (D = -1 → (BookkeepingRemoved s.EventID r ↔
        ∀ x ∈ r.Scheduler.Queue ++ r.Scheduler.InstantQueue, x.EventID ≠ s.EventID)) ∧
    (r.Log.count FAbilityNotification.OnQueueEmptied
        ≠ a1.Log.count FAbilityNotification.OnQueueEmptied →
      r.Scheduler.Queue = [] ∧ r.Scheduler.InstantQueue = []) ∧
    (r.Log.count FAbilityNotification.EndAbility
        ≠ a1.Log.count FAbilityNotification.EndAbility →
      r.Scheduler.Queue = [] ∧ r.Scheduler.InstantQueue = [] ∧ w.bHasActiveTask = false) ∧
    ((∃ x ∈ r.Scheduler.Queue ++ r.Scheduler.InstantQueue, x.EventID = s.EventID) →
      r.EventDataMap = a1.EventDataMap ∧ r.EventEffectsMap = a1.EventEffectsMap) ∧
    (TMapFind a1.EventDataMap s.EventID).isSome = true := by
  obtain ⟨hd, ha2⟩ := InitAbilityModifiedTags_facts _ _ _ h2
  have hS : CompensateOverlapLocation w a2 s = CompensateOverlapLocation w a1 s := by
    rw [ha2]; rfl
  rw [hS] at h3 hr
  have hE := EventID_CompensateOverlapLocation w a1 s
  rw [hE] at hr
  obtain ⟨o1, o2, o3, o4, o5, o6, o7, o8⟩ := OnOverlapEvent_facts w _ a2 a3 h3
  rw [hE] at o4 o5
  obtain ⟨k1, k2, ⟨k3a, k3b, k3c, k3d⟩, k4, k5, k6, k7⟩ :=
    CleanUpEvent_or_keep w D s.EventID { a3 with Scheduler := Sched } r hr
  have e2 : a2.EventDataMap = a1.EventDataMap := by rw [ha2]
  have e3 : a2.EventEffectsMap = a1.EventEffectsMap := by rw [ha2]
  have e4 : a2.TargetsMap = a1.TargetsMap := by rw [ha2]
  have e5 : a2.ExecutedGameplayCues = a1.ExecutedGameplayCues := by rw [ha2]
  have e6 : ProcessedSnapshots a2.Log = ProcessedSnapshots a1.Log := by
    rw [ha2]; simp [ProcessedSnapshots, List.filterMap_append]
  have e7 : a2.Log.count FAbilityNotification.OnQueueEmptied
      = a1.Log.count FAbilityNotification.OnQueueEmptied := by
    rw [ha2]; simp [List.count_append, List.count_singleton]
  have e8 : a2.Log.count FAbilityNotification.EndAbility
      = a1.Log.count FAbilityNotification.EndAbility := by
    rw [ha2]; simp [List.count_append, List.count_singleton]
  refine ⟨k1, ?_, ⟨?_, ?_, ?_, ?_⟩, ?_, ?_, ?_, ?_, hd⟩
  · rw [k2]; show ProcessedSnapshots a3.Log = _; rw [o6, e6]
  · rw [k3a]; show a3.TargetsMap.filter _ = _; rw [o4, e4]
  · rw [k3b]; show a3.EventDataMap.filter _ = _; rw [o2, e2]
  · rw [k3c]; show a3.EventEffectsMap.filter _ = _; rw [o3, e3]
  · rw [k3d]; show a3.ExecutedGameplayCues.filter _ = _; rw [o5, e5]
  · refine k4 ?_
    show (TMapFind a3.EventDataMap s.EventID).isSome = true
    rw [o2, e2]; exact hd
  · intro hne
    refine k5 ?_
    show r.Log.count _ ≠ a3.Log.count _
    rw [o7, e7]; exact hne
  · intro hne
    refine k6 ?_
    show r.Log.count _ ≠ a3.Log.count _
    rw [o8, e8]; exact hne
  · intro hx
    have := k7 hx
    rw [this]
    exact ⟨o2.trans e2, o3.trans e3⟩

theorem handler_isSome (w : FAbilityView) (s : FOverlapEventSnapshot) (a1 : FOverlapAbility)
    (hp : EventIsProcessable w s.EventID a1 = true) :
    ∃ a2 a3, InitAbilityModifiedTags s.EventID a1 = some a2 ∧
      OnOverlapEvent w (CompensateOverlapLocation w a2 s) a2 = some a3 := by
  obtain ⟨d, now, Spec, hd, hn, hS, hpay⟩ := EventIsProcessable_facts w _ a1 hp
  refine ⟨{ a1 with Log := a1.Log ++ [FAbilityNotification.InitAbilityModifiedTags s.EventID] },
    ?_⟩
  have h2 : InitAbilityModifiedTags s.EventID a1
      = some { a1 with
          Log := a1.Log ++ [FAbilityNotification.InitAbilityModifiedTags s.EventID] } := by
    unfold InitAbilityModifiedTags
    simp only [hd]
  have := OnOverlapEvent_Implementation_isSome w
    (CompensateOverlapLocation w
      { a1 with Log := a1.Log ++ [FAbilityNotification.InitAbilityModifiedTags s.EventID] } s)
    { a1 with Log := a1.Log ++ [FAbilityNotification.InitAbilityModifiedTags s.EventID]
        ++ [FAbilityNotification.OnOverlapEvent (CompensateOverlapLocation w
      { a1 with Log := a1.Log ++ [FAbilityNotification.InitAbilityModifiedTags s.EventID] } s)] }
    (by
      rw [EventID_CompensateOverlapLocation]
      exact (EventIsProcessable_congr w _ a1 _ rfl rfl rfl).trans hp)
  obtain ⟨a3, h3⟩ := this
  exact ⟨a3, h2, h3⟩

theorem getLast_dropLast_of_concat {α : Type} (q l : List α) (s : α) (hne : q ≠ [])
    (hq : q = l ++ [s]) : q.getLast hne = s ∧ q.dropLast = l := by
  subst hq
  simp

theorem UpdateQueueTimer_appends (World : Option ℚ) (s : FScheduler) :
    ∃ moved, (UpdateQueueTimer World s).InstantQueue = s.InstantQueue ++ moved ∧
      ∀ x ∈ moved, x ∈ s.Queue := by
  cases World with
  | none =>
    refine ⟨[], ?_, by simp⟩
    rw [UpdateQueueTimer]; simp
  | some now =>
    obtain ⟨q, iq, th, n⟩ := s
    induction q using List.reverseRecOn generalizing iq n with
    | nil =>
      refine ⟨[], ?_, by simp⟩
      rw [UpdateQueueTimer_nil]; simp
    | append_singleton l a ih =>
      by_cases ha : a.ActivationTime ≤ now
      · rw [UpdateQueueTimer_concat_due now l iq a th n ha]
        obtain ⟨moved, h1, h2⟩ := ih (iq ++ [a]) (if iq = [] then n + 1 else n)
        refine ⟨a :: moved, ?_, ?_⟩
        · rw [h1]; simp
        · intro x hx
          rcases List.mem_cons.mp hx with rfl | hx
          · simp
          · have := h2 x hx
            simp only at this ⊢
            exact List.mem_append_left _ this
      · rw [UpdateQueueTimer_concat_future now l iq a th n (lt_of_not_ge ha)]
        exact ⟨[], by simp, by simp⟩

theorem OnIsntantQueueTimerFinished_cases (w : FAbilityView) (D : Int) (a : FOverlapAbility)
    (l : List FOverlapEventSnapshot) (s : FOverlapEventSnapshot)
    (hq : a.Scheduler.InstantQueue = l ++ [s]) (r : FOverlapAbility)
    (hr : OnIsntantQueueTimerFinished w D a = some r) :
    ∃ a2 a3,
      InitAbilityModifiedTags s.EventID
        { a with Scheduler := { a.Scheduler with InstantQueue := l } } = some a2 ∧
      OnOverlapEvent w (CompensateOverlapLocation w a2 s) a2 = some a3 ∧
      r = if ShouldCleanUpEvent (CompensateOverlapLocation w a2 s).EventID
          { a3 with Scheduler := UpdateInstantQueueTimer w.World a3.Scheduler } = true
        then CleanUpEvent w D (CompensateOverlapLocation w a2 s).EventID
          { a3 with Scheduler := UpdateInstantQueueTimer w.World a3.Scheduler }
        else { a3 with Scheduler := UpdateInstantQueueTimer w.World a3.Scheduler } := by
  have hne : a.Scheduler.InstantQueue ≠ [] := by rw [hq]; simp
  obtain ⟨g1, g2⟩ := getLast_dropLast_of_concat _ l s hne hq
  unfold OnIsntantQueueTimerFinished at hr
  rw [dif_neg hne] at hr
  simp only [g1, g2] at hr
  cases h2 : InitAbilityModifiedTags s.EventID
      { a with Scheduler := { a.Scheduler with InstantQueue := l } } with
  | none => simp [h2] at hr
  | some a2 =>
    simp only [h2] at hr
    cases h3 : OnOverlapEvent w (CompensateOverlapLocation w a2 s) a2 with
    | none => simp [h3] at hr
    | some a3 =>
      simp only [h3] at hr
      refine ⟨a2, a3, rfl, h3, ?_⟩
      split_ifs at hr ⊢ <;> exact (Option.some.inj hr).symm

theorem OnQueueTimerFinished_cases (w : FAbilityView) (D : Int) (a : FOverlapAbility)
    (l : List FOverlapEventSnapshot) (s : FOverlapEventSnapshot)
    (hq : a.Scheduler.Queue = l ++ [s]) (r : FOverlapAbility)
    (hr : OnQueueTimerFinished w D a = some r) :
    ∃ a2 a3,
      InitAbilityModifiedTags s.EventID
        { a with Scheduler := { a.Scheduler with Queue := l } } = some a2 ∧
      OnOverlapEvent w (CompensateOverlapLocation w a2 s) a2 = some a3 ∧
      r = if ShouldCleanUpEvent (CompensateOverlapLocation w a2 s).EventID
          { a3 with Scheduler := UpdateQueueTimer w.World a3.Scheduler } = true
        then CleanUpEvent w D (CompensateOverlapLocation w a2 s).EventID
          { a3 with Scheduler := UpdateQueueTimer w.World a3.Scheduler }
        else { a3 with Scheduler := UpdateQueueTimer w.World a3.Scheduler } := by
  have hne : a.Scheduler.Queue ≠ [] := by rw [hq]; simp
  obtain ⟨g1, g2⟩ := getLast_dropLast_of_concat _ l s hne hq
  unfold OnQueueTimerFinished at hr
  rw [dif_neg hne] at hr
  simp only [g1, g2] at hr
  cases h2 : InitAbilityModifiedTags s.EventID
      { a with Scheduler := { a.Scheduler with Queue := l } } with
  | none => simp [h2] at hr
  | some a2 =>
    simp only [h2] at hr
    cases h3 : OnOverlapEvent w (CompensateOverlapLocation w a2 s) a2 with
    | none => simp [h3] at hr
    | some a3 =>
      simp only [h3] at hr
      refine ⟨a2, a3, rfl, h3, ?_⟩
      split_ifs at hr ⊢ <;> exact (Option.some.inj hr).symm

theorem OnIsntantQueueTimerFinished_isSome (w : FAbilityView) (D : Int) (a : FOverlapAbility)
    (l : List FOverlapEventSnapshot) (s : FOverlapEventSnapshot)
    (hq : a.Scheduler.InstantQueue = l ++ [s])
    (hp : EventIsProcessable w s.EventID a = true) :
    ∃ r, OnIsntantQueueTimerFinished w D a = some r := by
  have hne : a.Scheduler.InstantQueue ≠ [] := by rw [hq]; simp
  obtain ⟨g1, g2⟩ := getLast_dropLast_of_concat _ l s hne hq
  obtain ⟨a2, a3, h2, h3⟩ := handler_isSome w s
    { a with Scheduler := { a.Scheduler with InstantQueue := l } }
    ((EventIsProcessable_congr w _ a _ rfl rfl rfl).trans hp)
  unfold OnIsntantQueueTimerFinished
  rw [dif_neg hne]
  simp only [g1, g2, h2, h3]
  split_ifs <;> exact ⟨_, rfl⟩

theorem OnQueueTimerFinished_isSome (w : FAbilityView) (D : Int) (a : FOverlapAbility)
    (l : List FOverlapEventSnapshot) (s : FOverlapEventSnapshot)
    (hq : a.Scheduler.Queue = l ++ [s])
    (hp : EventIsProcessable w s.EventID a = true) :
    ∃ r, OnQueueTimerFinished w D a = some r := by
  have hne : a.Scheduler.Queue ≠ [] := by rw [hq]; simp
  obtain ⟨g1, g2⟩ := getLast_dropLast_of_concat _ l s hne hq
  obtain ⟨a2, a3, h2, h3⟩ := handler_isSome w s
    { a with Scheduler := { a.Scheduler with Queue := l } }
    ((EventIsProcessable_congr w _ a _ rfl rfl rfl).trans hp)
  unfold OnQueueTimerFinished
  rw [dif_neg hne]
  simp only [g1, g2, h2, h3]
  split_ifs <;> exact ⟨_, rfl⟩

theorem Scheduler_after_OnOverlapEvent (w : FAbilityView) (e : Int) (a1 a2 a3 : FOverlapAbility)
    (S : FOverlapEventSnapshot) (h2 : InitAbilityModifiedTags e a1 = some a2)
    (h3 : OnOverlapEvent w S a2 = some a3) : a3.Scheduler = a1.Scheduler := by
  obtain ⟨_, ha2⟩ := InitAbilityModifiedTags_facts _ _ _ h2
  rw [(OnOverlapEvent_facts w S a2 a3 h3).1, ha2]

/-- C17 (as the code has it). The instant queue is drained last in, first out, one entry per
call. `AddOverlapEventToInstantQueue` and `AppendOverlapEventsToInstantQueue` add at the end of
`InstantQueue`, and so does `UpdateQueueTimer` with the events that it moves. When the instant
queue is `l ++ [s]` and the pointers that the handler dereferences for the event of `s` are
valid, `OnIsntantQueueTimerFinished` returns, the instant queue is `l` afterwards, the delayed
queue is the same, and `OnOverlapEvent` has been called exactly once more, with the snapshot
`s` (after `CompensateOverlapLocation`): the entry that was added last is the one processed. -/
theorem OnIsntantQueueTimerFinished_takes_last (w : FAbilityView) (D : Int)
    (a : FOverlapAbility) (l : List FOverlapEventSnapshot) (s : FOverlapEventSnapshot)
    (hq : a.Scheduler.InstantQueue = l ++ [s])
    (hp : EventIsProcessable w s.EventID a = true) :
    (∀ (W : Option ℚ) (e : FOverlapEventSnapshot) (sch : FScheduler),
      (AddOverlapEventToInstantQueue W e sch).InstantQueue = sch.InstantQueue ++ [e]) ∧
    (∀ (W : Option ℚ) (es : List FOverlapEventSnapshot) (sch : FScheduler),
      (AppendOverlapEventsToInstantQueue W es sch).InstantQueue = sch.InstantQueue ++ es) ∧
    (∀ (W : Option ℚ) (sch : FScheduler), ∃ moved,
      (UpdateQueueTimer W sch).InstantQueue = sch.InstantQueue ++ moved ∧
        ∀ x ∈ moved, x ∈ sch.Queue) ∧
    ∃ r, OnIsntantQueueTimerFinished w D a = some r ∧
      r.Scheduler.InstantQueue = l ∧
      r.Scheduler.Queue = a.Scheduler.Queue ∧
      ProcessedSnapshots r.Log = ProcessedSnapshots a.Log ++ [CompensateOverlapLocation w a s] ∧
      (CompensateOverlapLocation w a s).EventID = s.EventID ∧
      (CompensateOverlapLocation w a s).OverlapID = s.OverlapID := by
  refine ⟨?_, ?_, UpdateQueueTimer_appends, ?_⟩
  · intro W e sch
    unfold AddOverlapEventToInstantQueue UpdateInstantQueueTimer
    simp only
    split_ifs <;> rfl
  · intro W es sch
    unfold AppendOverlapEventsToInstantQueue UpdateInstantQueueTimer
    by_cases hes : es.isEmpty = true
    · have : es = [] := List.isEmpty_iff.mp hes
      simp [this]
    · simp only [hes, Bool.false_eq_true, if_false]
      split_ifs <;> rfl
  · obtain ⟨r, hr⟩ := OnIsntantQueueTimerFinished_isSome w D a l s hq hp
    obtain ⟨a2, a3, h2, h3, hr2⟩ := OnIsntantQueueTimerFinished_cases w D a l s hq r hr
    obtain ⟨f1, f2, -⟩ := handler_facts w D s _ a2 a3 r _ h2 h3 hr2
    have hS := Scheduler_after_OnOverlapEvent w _ _ a2 a3 _ h2 h3
    refine ⟨r, hr, ?_, ?_, ?_, EventID_CompensateOverlapLocation w a s, ?_⟩
    · rw [f1, hS]
      unfold UpdateInstantQueueTimer
      split_ifs <;> rfl
    · rw [f1, hS]
      unfold UpdateInstantQueueTimer
      split_ifs <;> rfl
    · rw [f2]; rfl
    · unfold CompensateOverlapLocation
      split_ifs <;> rfl

/-- Witness of C17: with the snapshots of the events 1 and 2 in the instant queue, in this
order, the handler processes the snapshot of the event 2 and leaves that of the event 1. -/
theorem OnIsntantQueueTimerFinished_takes_last_witness :
    (InstantAbility [SnapshotOf 1 0, SnapshotOf 2 0]).Scheduler.InstantQueue
      = [SnapshotOf 1 0] ++ [SnapshotOf 2 0] ∧
    EventIsProcessable QuietView (SnapshotOf 2 0).EventID
      (InstantAbility [SnapshotOf 1 0, SnapshotOf 2 0]) = true ∧
    ∃ r, OnIsntantQueueTimerFinished QuietView (-1)
        (InstantAbility [SnapshotOf 1 0, SnapshotOf 2 0]) = some r ∧
      r.Scheduler.InstantQueue = [SnapshotOf 1 0] ∧
      r.Scheduler.Queue = (InstantAbility [SnapshotOf 1 0, SnapshotOf 2 0]).Scheduler.Queue ∧
      ProcessedSnapshots r.Log
        = ProcessedSnapshots (InstantAbility [SnapshotOf 1 0, SnapshotOf 2 0]).Log
          ++ [CompensateOverlapLocation QuietView
            (InstantAbility [SnapshotOf 1 0, SnapshotOf 2 0]) (SnapshotOf 2 0)] ∧
      (CompensateOverlapLocation QuietView (InstantAbility [SnapshotOf 1 0, SnapshotOf 2 0])
        (SnapshotOf 2 0)).EventID = (SnapshotOf 2 0).EventID ∧
      (CompensateOverlapLocation QuietView (InstantAbility [SnapshotOf 1 0, SnapshotOf 2 0])
        (SnapshotOf 2 0)).OverlapID = (SnapshotOf 2 0).OverlapID :=
  ⟨rfl, by decide!,
    (OnIsntantQueueTimerFinished_takes_last QuietView (-1)
      (InstantAbility [SnapshotOf 1 0, SnapshotOf 2 0]) [SnapshotOf 1 0] (SnapshotOf 2 0) rfl
      (by decide!)).2.2.2⟩

/-- Counterexample to C17 as stated: the snapshot of the event 1 is added to the instant queue
before the snapshot of the event 2; the first call of `OnIsntantQueueTimerFinished` processes
the snapshot of the event 2, the second call that of the event 1. -/
theorem instant_queue_is_drained_last_in_first_out :
    TwoEnqueued.Scheduler.InstantQueue = [SnapshotOf 1 0, SnapshotOf 2 0] ∧
    (OnIsntantQueueTimerFinished QuietView (-1) TwoEnqueued).map
      (fun r => ProcessedSnapshots r.Log) = some [SnapshotOf 2 0] ∧
    ((OnIsntantQueueTimerFinished QuietView (-1) TwoEnqueued).bind
      (OnIsntantQueueTimerFinished QuietView (-1))).map
      (fun r => ProcessedSnapshots r.Log) = some [SnapshotOf 2 0, SnapshotOf 1 0] := by
  decide!

/-- C18. When `OnQueueTimerFinished` or `OnIsntantQueueTimerFinished` is called with the
snapshot `s` of an event as the last entry of its queue (the pointers that the handler
dereferences for the event are valid, and the default `OverlapID` of `RemoveTargets` is -1),
the handler returns and has processed `s`: `s` has left its queue (the delayed handler leaves
the scheduler that `UpdateQueueTimer` makes of the queue without `s`, the instant handler
leaves the instant queue without `s` and the delayed queue as it was) and `OnOverlapEvent`
has been called once more, with `s`. Afterwards no bookkeeping of the event is left (no
`TargetsMap` entry, no `EventDataMap` entry, no `EventEffectsMap` entry, no executed gameplay
cue with its `EventID`) if and only if no snapshot with this `EventID` is in the delayed
queue or the instant queue; while such a snapshot remains the `EventDataMap` and
`EventEffectsMap` are as before; and the bookkeeping of every other event id is unchanged. -/
theorem queue_handlers_bookkeeping (w : FAbilityView) (a : FOverlapAbility)
    (l : List FOverlapEventSnapshot) (s : FOverlapEventSnapshot)
    (hp : EventIsProcessable w s.EventID a = true) :
    (a.Scheduler.Queue = l ++ [s] →
      ∃ r, OnQueueTimerFinished w (-1) a = some r ∧
        r.Scheduler = UpdateQueueTimer w.World { a.Scheduler with Queue := l } ∧
        ProcessedSnapshots r.Log
          = ProcessedSnapshots a.Log ++ [CompensateOverlapLocation w a s] ∧
        (CompensateOverlapLocation w a s).EventID = s.EventID ∧
        (BookkeepingRemoved s.EventID r ↔
          ∀ x ∈ r.Scheduler.Queue ++ r.Scheduler.InstantQueue, x.EventID ≠ s.EventID) ∧
        ((∃ x ∈ r.Scheduler.Queue ++ r.Scheduler.InstantQueue, x.EventID = s.EventID) →
          r.EventDataMap = a.EventDataMap ∧ r.EventEffectsMap = a.EventEffectsMap) ∧
        SameOtherBookkeeping s.EventID r a) ∧
    (a.Scheduler.InstantQueue = l ++ [s] →
      ∃ r, OnIsntantQueueTimerFinished w (-1) a = some r ∧
        r.Scheduler.InstantQueue = l ∧
        r.Scheduler.Queue = a.Scheduler.Queue ∧
        ProcessedSnapshots r.Log
          = ProcessedSnapshots a.Log ++ [CompensateOverlapLocation w a s] ∧
        (CompensateOverlapLocation w a s).EventID = s.EventID ∧
        (BookkeepingRemoved s.EventID r ↔
          ∀ x ∈ r.Scheduler.Queue ++ r.Scheduler.InstantQueue, x.EventID ≠ s.EventID) ∧
        ((∃ x ∈ r.Scheduler.Queue ++ r.Scheduler.InstantQueue, x.EventID = s.EventID) →
          r.EventDataMap = a.EventDataMap ∧ r.EventEffectsMap = a.EventEffectsMap) ∧
        SameOtherBookkeeping s.EventID r a) := by
  constructor
  · intro hq
    obtain ⟨r, hr⟩ := OnQueueTimerFinished_isSome w (-1) a l s hq hp
    obtain ⟨a2, a3, h2, h3, hr2⟩ := OnQueueTimerFinished_cases w (-1) a l s hq r hr
    obtain ⟨f1, f2, f3, f4, -, -, f7, -⟩ := handler_facts w (-1) s _ a2 a3 r _ h2 h3 hr2
    have hS := Scheduler_after_OnOverlapEvent w _ _ a2 a3 _ h2 h3
    refine ⟨r, hr, ?_, ?_, EventID_CompensateOverlapLocation w a s, f4 rfl, f7, f3⟩
    · rw [f1, hS]
    · rw [f2]
      rfl
  · intro hq
    obtain ⟨r, hr⟩ := OnIsntantQueueTimerFinished_isSome w (-1) a l s hq hp
    obtain ⟨a2, a3, h2, h3, hr2⟩ := OnIsntantQueueTimerFinished_cases w (-1) a l s hq r hr
    obtain ⟨f1, f2, f3, f4, -, -, f7, -⟩ := handler_facts w (-1) s _ a2 a3 r _ h2 h3 hr2
    have hS := Scheduler_after_OnOverlapEvent w _ _ a2 a3 _ h2 h3
    refine ⟨r, hr, ?_, ?_, ?_, EventID_CompensateOverlapLocation w a s, f4 rfl, f7, f3⟩
    · rw [f1, hS]
      unfold UpdateInstantQueueTimer
      split_ifs <;> rfl
    · rw [f1, hS]
      unfold UpdateInstantQueueTimer
      split_ifs <;> rfl
    · rw [f2]
      rfl

/-- Witness of C18: the instant queue holds a snapshot of the event 2 and, last, a snapshot of
the event 1. -/
theorem queue_handlers_bookkeeping_witness :
    EventIsProcessable QuietView (SnapshotOf 1 0).EventID
      (InstantAbility [SnapshotOf 2 0, SnapshotOf 1 0]) = true ∧
    (InstantAbility [SnapshotOf 2 0, SnapshotOf 1 0]).Scheduler.InstantQueue
      = [SnapshotOf 2 0] ++ [SnapshotOf 1 0] ∧
    ∃ r, OnIsntantQueueTimerFinished QuietView (-1)
        (InstantAbility [SnapshotOf 2 0, SnapshotOf 1 0]) = some r ∧
      r.Scheduler.InstantQueue = [SnapshotOf 2 0] ∧
      r.Scheduler.Queue = (InstantAbility [SnapshotOf 2 0, SnapshotOf 1 0]).Scheduler.Queue ∧
      ProcessedSnapshots r.Log
        = ProcessedSnapshots (InstantAbility [SnapshotOf 2 0, SnapshotOf 1 0]).Log
          ++ [CompensateOverlapLocation QuietView
            (InstantAbility [SnapshotOf 2 0, SnapshotOf 1 0]) (SnapshotOf 1 0)] ∧
      (CompensateOverlapLocation QuietView (InstantAbility [SnapshotOf 2 0, SnapshotOf 1 0])
        (SnapshotOf 1 0)).EventID = (SnapshotOf 1 0).EventID ∧
      (BookkeepingRemoved (SnapshotOf 1 0).EventID r ↔
        ∀ x ∈ r.Scheduler.Queue ++ r.Scheduler.InstantQueue,
          x.EventID ≠ (SnapshotOf 1 0).EventID) ∧
      ((∃ x ∈ r.Scheduler.Queue ++ r.Scheduler.InstantQueue,
          x.EventID = (SnapshotOf 1 0).EventID) →
        r.EventDataMap = (InstantAbility [SnapshotOf 2 0, SnapshotOf 1 0]).EventDataMap ∧
        r.EventEffectsMap
          = (InstantAbility [SnapshotOf 2 0, SnapshotOf 1 0]).EventEffectsMap) ∧
      SameOtherBookkeeping (SnapshotOf 1 0).EventID r
        (InstantAbility [SnapshotOf 2 0, SnapshotOf 1 0]) :=
  ⟨by decide!, rfl,
    (queue_handlers_bookkeeping QuietView (InstantAbility [SnapshotOf 2 0, SnapshotOf 1 0])
      [SnapshotOf 2 0] (SnapshotOf 1 0) (by decide!)).2 rfl⟩

/-- C19. `CleanUpEvent` leaves the queues as they are, calls `OnQueueEmptied` (once) exactly
when the delayed queue and the instant queue are both empty at that moment, and calls
`EndAbility` (once) exactly when in addition `ShouldEndAbilityWhenQueueIsEmpty` holds.
Whenever a call of `OnQueueTimerFinished` or `OnIsntantQueueTimerFinished` that returns has
called `OnQueueEmptied` or `EndAbility`, both queues are empty afterwards. -/
theorem CleanUpEvent_ends_only_on_empty_queues (w : FAbilityView) (D e : Int)
    (a : FOverlapAbility) :
    (CleanUpEvent w D e a).Scheduler = a.Scheduler ∧
    (CleanUpEvent w D e a).Log.count FAbilityNotification.OnQueueEmptied
      = a.Log.count FAbilityNotification.OnQueueEmptied
        + (if IsOverlapQueueEmpty a = true then 1 else 0) ∧
    (CleanUpEvent w D e a).Log.count FAbilityNotification.EndAbility
      = a.Log.count FAbilityNotification.EndAbility
        + (if IsOverlapQueueEmpty a = true
            ∧ ShouldEndAbilityWhenQueueIsEmpty_Implementation w = true then 1 else 0) ∧
    (∀ r, OnQueueTimerFinished w D a = some r →
      r.Log.count FAbilityNotification.OnQueueEmptied
          ≠ a.Log.count FAbilityNotification.OnQueueEmptied
        ∨ r.Log.count FAbilityNotification.EndAbility
          ≠ a.Log.count FAbilityNotification.EndAbility →
      IsOverlapQueueEmpty r = true) ∧
    (∀ r, OnIsntantQueueTimerFinished w D a = some r →
      r.Log.count FAbilityNotification.OnQueueEmptied
          ≠ a.Log.count FAbilityNotification.OnQueueEmptied
        ∨ r.Log.count FAbilityNotification.EndAbility
          ≠ a.Log.count FAbilityNotification.EndAbility →
      IsOverlapQueueEmpty r = true) := by
  obtain ⟨c1, -, -, -, -, -, c7, c8⟩ := CleanUpEvent_facts w D e a
  have hIs : ∀ x : FOverlapAbility, (IsOverlapQueueEmpty x = true) ↔
      (x.Scheduler.Queue = [] ∧ x.Scheduler.InstantQueue = []) := by
    intro x
    unfold IsOverlapQueueEmpty
    simp only [Bool.and_eq_true, List.isEmpty_iff]
    exact and_comm
  refine ⟨c1, ?_, ?_, ?_, ?_⟩
  · rw [c7]
    by_cases h : IsOverlapQueueEmpty a = true
    · rw [if_pos h, if_pos ((hIs a).mp h)]
    · rw [if_neg h, if_neg (fun hc => h ((hIs a).mpr hc))]
  · rw [c8]
    unfold ShouldEndAbilityWhenQueueIsEmpty_Implementation
    by_cases h : IsOverlapQueueEmpty a = true
    · obtain ⟨h1, h2⟩ := (hIs a).mp h
      by_cases ht : w.bHasActiveTask = true <;> simp [h, h1, h2, ht]
    · have : ¬ (a.Scheduler.Queue = [] ∧ a.Scheduler.InstantQueue = []) :=
        fun hc => h ((hIs a).mpr hc)
      have h' : ¬ (a.Scheduler.Queue = [] ∧ a.Scheduler.InstantQueue = []
          ∧ w.bHasActiveTask = false) := fun hc => this ⟨hc.1, hc.2.1⟩
      rw [if_neg h']
      simp [h]
  · intro r hr hne
    by_cases hq : a.Scheduler.Queue = []
    · unfold OnQueueTimerFinished at hr
      rw [dif_pos hq] at hr
      have : r = a := (Option.some.inj hr).symm
      subst this
      rcases hne with h | h <;> exact absurd rfl h
    · have hq2 : a.Scheduler.Queue
          = a.Scheduler.Queue.dropLast ++ [a.Scheduler.Queue.getLast hq] :=
        (List.dropLast_append_getLast hq).symm
      obtain ⟨a2, a3, h2, h3, hr2⟩ := OnQueueTimerFinished_cases w D a _ _ hq2 r hr
      obtain ⟨-, -, -, -, f5, f6, -⟩ := handler_facts w D _ _ a2 a3 r _ h2 h3 hr2
      rw [hIs]
      rcases hne with h | h
      · exact f5 h
      · exact ⟨(f6 h).1, (f6 h).2.1⟩
  · intro r hr hne
    by_cases hq : a.Scheduler.InstantQueue = []
    · unfold OnIsntantQueueTimerFinished at hr
      rw [dif_pos hq] at hr
      have : r = a := (Option.some.inj hr).symm
      subst this
      rcases hne with h | h <;> exact absurd rfl h
    · have hq2 : a.Scheduler.InstantQueue
          = a.Scheduler.InstantQueue.dropLast ++ [a.Scheduler.InstantQueue.getLast hq] :=
        (List.dropLast_append_getLast hq).symm
      obtain ⟨a2, a3, h2, h3, hr2⟩ := OnIsntantQueueTimerFinished_cases w D a _ _ hq2 r hr
      obtain ⟨-, -, -, -, f5, f6, -⟩ := handler_facts w D _ _ a2 a3 r _ h2 h3 hr2
      rw [hIs]
      rcases hne with h | h
      · exact f5 h
      · exact ⟨(f6 h).1, (f6 h).2.1⟩

/-- Witness of C19: with a snapshot of the event 2 still in the instant queue, the clean-up of
the event 1 calls neither `OnQueueEmptied` nor `EndAbility`; with both queues empty it calls
both. -/
theorem CleanUpEvent_ends_only_on_empty_queues_witness :
    (CleanUpEvent QuietView (-1) 1 (InstantAbility [SnapshotOf 2 0])).Log.count
        FAbilityNotification.EndAbility
      = (InstantAbility [SnapshotOf 2 0]).Log.count FAbilityNotification.EndAbility
        + (if IsOverlapQueueEmpty (InstantAbility [SnapshotOf 2 0]) = true
            ∧ ShouldEndAbilityWhenQueueIsEmpty_Implementation QuietView = true then 1 else 0) ∧
    (CleanUpEvent QuietView (-1) 1 (InstantAbility [SnapshotOf 2 0])).Log.count
        FAbilityNotification.EndAbility = 0 ∧
    (CleanUpEvent QuietView (-1) 1 (InstantAbility [])).Log.count
        FAbilityNotification.EndAbility = 1 :=
  ⟨(CleanUpEvent_ends_only_on_empty_queues QuietView (-1) 1
      (InstantAbility [SnapshotOf 2 0])).2.2.1, by decide!, by decide!⟩

end UBaseOverlapAbility

namespace ABaseCollisionActor

/-! ## Attribute scaling -/

/-- C21. `ScaleValueWithAttribute` returns `Value` unchanged when `Value == -1`, for every
component, tags and attribute, and also when the component is null or the evaluation of the
attribute reports failure; otherwise it returns the evaluated value. -/
theorem ScaleValueWithAttribute_spec (InASC : Option FAttributeEvaluation)
    (InAbilityTags : List FGameplayTag) (Value : ℚ) (Attribute : FGameplayAttribute) :
    (Value = -1 → ScaleValueWithAttribute InASC InAbilityTags Value Attribute = Value) ∧
    (InASC = none → ScaleValueWithAttribute InASC InAbilityTags Value Attribute = Value) ∧
    (∀ ASC, InASC = some ASC →
      (ASC.EvaluateAttributeValueWithTagsAndBase Attribute InAbilityTags InAbilityTags
        Value).2 = false →
      ScaleValueWithAttribute InASC InAbilityTags Value Attribute = Value) ∧
    (∀ ASC, InASC = some ASC → Value ≠ -1 →
      (ASC.EvaluateAttributeValueWithTagsAndBase Attribute InAbilityTags InAbilityTags
        Value).2 = true →
      ScaleValueWithAttribute InASC InAbilityTags Value Attribute
        = (ASC.EvaluateAttributeValueWithTagsAndBase Attribute InAbilityTags InAbilityTags
          Value).1) := by
  unfold ScaleValueWithAttribute
  refine ⟨?_, ?_, ?_, ?_⟩
  · intro h
    simp [h]
  · intro h
    subst h
    split_ifs <;> rfl
  · intro ASC h hf
    subst h
    simp only [hf, Bool.false_eq_true, if_false]
    split_ifs <;> rfl
  · intro ASC h hv ht
    subst h
    simp only [ht, if_true]
    rw [if_pos hv]

/-- Witness of C21: on the doubling component the value -1 stays -1 and the value 3 becomes
6; the attribute that cannot be evaluated leaves 3. -/
theorem ScaleValueWithAttribute_spec_witness :
    ScaleValueWithAttribute (some DoublingComponent) [] (-1) 1 = -1 ∧
    ScaleValueWithAttribute (some DoublingComponent) [] 3 0 = 3 ∧
    ScaleValueWithAttribute (some DoublingComponent) [] 3 1 = 6 :=
  ⟨(ScaleValueWithAttribute_spec (some DoublingComponent) [] (-1) 1).1 rfl,
    (ScaleValueWithAttribute_spec (some DoublingComponent) [] 3 0).2.2.1 DoublingComponent rfl
      (by decide),
    ((ScaleValueWithAttribute_spec (some DoublingComponent) [] 3 1).2.2.2 DoublingComponent rfl
      (by decide!) (by decide)).trans (by decide!)⟩

/-! ## The checks on a location and the forced period -/

theorem IsLocationInMinimalDistance_eq (w : FWorldView) (e : FCollisionActor)
    (Location : FVector) :
    IsLocationInMinimalDistance w e Location = true ↔
      (GetMinimumDistanceRequired w e ≤ 0
        ∨ w.Dist2D Location < GetMinimumDistanceRequired w e) := by
  unfold IsLocationInMinimalDistance
  simp only
  by_cases h : GetMinimumDistanceRequired w e > 0
  · simp only [h, if_true, decide_eq_true_eq]
    constructor
    · exact fun hd => Or.inr hd
    · rintro (hle | hd)
      · exact absurd h (not_lt.mpr hle)
      · exact hd
  · simp only [h, if_false, true_iff]
    exact Or.inl (not_lt.mp h)

theorem IsTargetInMinimalDistance_eq (w : FWorldView) (e : FCollisionActor) (Target : AActor)
    (hchar : w.CapsuleRadius Target = none) :
    IsTargetInMinimalDistance w e Target = true ↔
      (GetMinimumDistanceRequired w e ≤ 0
        ∨ GetMinimumDistanceRequired w e ≤ w.Dist2D (w.ActorLocation Target)) := by
  unfold IsTargetInMinimalDistance
  simp only [hchar]
  by_cases h : GetMinimumDistanceRequired w e > 0
  · simp only [h, if_true]
    by_cases hd : w.Dist2D (w.ActorLocation Target) < GetMinimumDistanceRequired w e
    · simp only [hd, if_true, Bool.false_eq_true, false_iff, not_or, not_le]
      exact ⟨h, trivial⟩
    · simp only [hd, if_false, true_iff]
      exact Or.inr (not_lt.mp hd)
  · simp only [h, if_false, true_iff]
    exact Or.inl (not_lt.mp h)

/-- C23 (code defect). With an inner radius of 100, `IsLocationInMinimalDistance` is true for
the location at the distance 50 and false for the location at the distance 150, the opposite
of `IsTargetInMinimalDistance` for an actor without capsule standing at these locations and
of the comment in the header ("at more or equal distance to the minimum distance
allowed"). Without an inner radius both are true. -/
theorem IsLocationInMinimalDistance_inverted :
    GetMinimumDistanceRequired AxisWorld RingEntity = 100 ∧
    AxisWorld.Dist2D (50, 0, 0) = 50 ∧
    IsLocationInMinimalDistance AxisWorld RingEntity (50, 0, 0) = true ∧
    AxisWorld.Dist2D (150, 0, 0) = 150 ∧
    IsLocationInMinimalDistance AxisWorld RingEntity (150, 0, 0) = false ∧
    AxisWorld.ActorLocation 50 = (50, 0, 0) ∧ AxisWorld.CapsuleRadius 50 = none ∧
    IsTargetInMinimalDistance AxisWorld RingEntity 50 = false ∧
    AxisWorld.ActorLocation 150 = (150, 0, 0) ∧ AxisWorld.CapsuleRadius 150 = none ∧
    IsTargetInMinimalDistance AxisWorld RingEntity 150 = true ∧
    IsLocationInMinimalDistance AxisWorld (Constructed 1) (50, 0, 0) = true ∧
    IsTargetInMinimalDistance AxisWorld (Constructed 1) 50 = true := by
  decide!

theorem IsLocationBetweenAngleDeviation_eq (w : FWorldView) (e : FCollisionActor)
    (Location : FVector) :
    IsLocationBetweenAngleDeviation w e Location = true ↔
      (180 ≤ GetMaximumDirectionDeviation w e
        ∨ |w.LookAtYaw Location - w.ActorYaw| ≤ GetMaximumDirectionDeviation w e) := by
  unfold IsLocationBetweenAngleDeviation
  simp only
  by_cases h : GetMaximumDirectionDeviation w e < 180
  · simp only [h, if_true]
    by_cases hd : |w.LookAtYaw Location - w.ActorYaw| > GetMaximumDirectionDeviation w e
    · simp only [hd, if_true, Bool.false_eq_true, false_iff, not_or, not_le]
      exact ⟨h, trivial⟩
    · simp only [hd, if_false, true_iff]
      exact Or.inr (not_lt.mp hd)
  · simp only [h, if_false, true_iff]
    exact Or.inl (not_lt.mp h)

theorem SmallestAngularDifference_of_le (Yaw OtherYaw : ℚ) (h : |Yaw - OtherYaw| ≤ 180) :
    SmallestAngularDifference Yaw OtherYaw = |Yaw - OtherYaw| := by
  unfold SmallestAngularDifference
  rw [if_neg (not_lt.mpr h)]

/-- C24 (code defect). The entity faces the yaw 170 and the direction to the target has the
yaw -170: the smallest angular difference is 20 degrees, inside the cone of 30 degrees, but
`IsTargetBetweenAngleDeviation` and `IsLocationBetweenAngleDeviation` compare
`abs(-170 - 170) = 340` with 30 and return false. With a maximum deviation of 180 both
return true. -/
theorem angle_deviation_ignores_the_wrap :
    GetMaximumDirectionDeviation WrapWorld ConeEntity = 30 ∧
    WrapWorld.ActorYaw = 170 ∧ WrapWorld.LookAtYaw (WrapWorld.ActorLocation 5) = -170 ∧
    SmallestAngularDifference (-170) 170 = 20 ∧
    IsTargetBetweenAngleDeviation WrapWorld ConeEntity 5 = false ∧
    IsLocationBetweenAngleDeviation WrapWorld ConeEntity (0, 0, 0) = false ∧
    GetMaximumDirectionDeviation WrapWorld (Constructed 1) = 180 ∧
    IsTargetBetweenAngleDeviation WrapWorld (Constructed 1) 5 = true ∧
    IsLocationBetweenAngleDeviation WrapWorld (Constructed 1) (0, 0, 0) = true := by
  decide!

theorem InitializeForcedPeriod_of_interpolating (e : FCollisionActor)
    (hi : e.bInterpolatingScale = true) (hP : e.Duration.Period ≤ 0) :
    (InitializeForcedPeriod e).Duration
      = { e.Duration with Period := min (e.Duration.LifeSpan / 5) (15 / 100) } ∧
    (InitializeForcedPeriod e).bDiscreteCollisionChecks = true := by
  have hD : (InitializeAttachToActor e).Duration = e.Duration := by
    unfold InitializeAttachToActor
    simp only
    split_ifs <;> rfl
  have hI : (InitializeAttachToActor e).bInterpolatingScale = e.bInterpolatingScale := by
    unfold InitializeAttachToActor
    simp only
    split_ifs <;> rfl
  unfold InitializeForcedPeriod
  simp only [hD, hI, hi, hP, decide_True, Bool.and_self, if_true, and_self]

/-- C26 (code defect). An entity that interpolates its scale, with a life span of 1 s and no
period of its own, is switched to discrete collision checks with the forced period 0.15 s
(comment in the code: "Make sure to at least do 5 periods"). Without a delay of the first
period `MaximumPeriodsToExecute` is 7, but with `FirstPeriodDelay = 0.9` it is
`trunc((1 - 0.9) / 0.15) + 1 = 1`: the forced period leaves the delay of the first period
out of account. -/
theorem forced_period_ignores_first_period_delay :
    (ScaleInterpolatedAfter 0).Self.bInterpolatingScale = true ∧
    (InitializePersistentElements OpenWorld (ScaleInterpolatedAfter 0)).Self.Duration.Period
      = 15 / 100 ∧
    (InitializePersistentElements OpenWorld
      (ScaleInterpolatedAfter 0)).Self.bDiscreteCollisionChecks = true ∧
    (InitializePersistentElements OpenWorld
      (ScaleInterpolatedAfter 0)).Self.MaximumPeriodsToExecute = 7 ∧
    (ScaleInterpolatedAfter (9 / 10)).Self.Duration = ⟨1, 0, 9 / 10, 0⟩ ∧
    (InitializePersistentElements OpenWorld
      (ScaleInterpolatedAfter (9 / 10))).Self.Duration.Period = 15 / 100 ∧
    (InitializePersistentElements OpenWorld
      (ScaleInterpolatedAfter (9 / 10))).Self.bDiscreteCollisionChecks = true ∧
    (InitializePersistentElements OpenWorld
      (ScaleInterpolatedAfter (9 / 10))).Self.MaximumPeriodsToExecute = 1 := by
  decide!

end ABaseCollisionActor

namespace UBaseOverlapAbility

/-! ## The ignored actors of an overlap instance -/

/-- C27 (code defect). `GetIgnoredActors` takes every `OverlapID <= 0` as the wildcard, and
the overlap instances are numbered from 0: with the actor 5 recorded under (1, 0) and the
actor 6 under (1, 1), the ignore list of the overlap instance (1, 0) holds 5 and 6, the same
as for the wildcard -1, while the ignore list of the overlap instance (1, 1) holds 6 only.
`RemoveTargets` has -1 as its only wildcard. -/
theorem GetIgnoredActors_overlap_zero_is_wildcard :
    HasTag IndividualAbility.AbilityTags .Ability_Targeting_IndividualTargeting = true ∧
    IndividualAbility.TargetsMap = [(⟨1, 0⟩, [5]), (⟨1, 1⟩, [6])] ∧
    IndividualAbility.bIgnoreInitialTarget = false ∧
    IndividualAbility.bIgnorePayloadActors = false ∧
    GetIgnoredActors_Implementation 1 0 IndividualAbility = some [some 5, some 6] ∧
    GetIgnoredActors_Implementation 1 1 IndividualAbility = some [some 6] ∧
    GetIgnoredActors_Implementation 1 (-1) IndividualAbility = some [some 5, some 6] ∧
    (RemoveTargets 1 0 IndividualAbility.TargetsMap).2 = [(⟨1, 1⟩, [6])] ∧
    (RemoveTargets 1 (-1) IndividualAbility.TargetsMap).2 = [] := by
  decide!

/-! ## The periodic repetitions -/

theorem PeriodicLoop_none (A : FEventSnapshottedPeriodicAttributes) (hP : A.Period ≤ 0) :
    ∀ (fuel : Nat) (Init Gen : List FOverlapEventSnapshot) (AddedTime : ℚ),
      AddedTime < A.LifeSpan - A.FirstPeriodDelay →
      PeriodicLoop A fuel Init Gen AddedTime = none
  | 0, _, _, _, _ => rfl
  | fuel + 1, Init, Gen, AddedTime, h => by
    unfold PeriodicLoop
    rw [if_pos h]
    exact PeriodicLoop_none A hP fuel _ _ _ (by linarith)

theorem PeriodicLoop_spec (A : FEventSnapshottedPeriodicAttributes)
    (Events : List FOverlapEventSnapshot) :
    ∀ (fuel j : Nat) (out : List FOverlapEventSnapshot),
      PeriodicLoop A fuel
        (Events.map (fun it =>
          { it with ActivationTime := it.ActivationTime + A.FirstPeriodDelay
              + (j : ℚ) * A.Period }))
        (RepeatedEvents A.FirstPeriodDelay A.Period Events (j + 1))
        (A.FirstPeriodDelay + (j : ℚ) * A.Period) = some out →
      ∃ n : Nat, j < n ∧ out = RepeatedEvents A.FirstPeriodDelay A.Period Events n ∧
        (j + 1 < n → 0 < A.Period)
  | 0, j, out, h => by simp [PeriodicLoop] at h
  | fuel + 1, j, out, h => by
    unfold PeriodicLoop at h
    by_cases hc : A.FirstPeriodDelay + (j : ℚ) * A.Period < A.LifeSpan - A.FirstPeriodDelay
    · rw [if_pos hc] at h
      simp only [List.map_map] at h
      have hshift : (Events.map ((fun (it : FOverlapEventSnapshot) =>
            { it with ActivationTime := it.ActivationTime + A.Period }) ∘
          (fun (it : FOverlapEventSnapshot) =>
            { it with ActivationTime := it.ActivationTime + A.FirstPeriodDelay
                + (j : ℚ) * A.Period })))
          = Events.map (fun it =>
            { it with ActivationTime := it.ActivationTime + A.FirstPeriodDelay
                + ((j + 1 : Nat) : ℚ) * A.Period }) := by
        apply List.map_congr_left
        intro it _
        simp only [Function.comp]
        congr 1
        push_cast
        ring
      rw [hshift] at h
      have hadd : A.FirstPeriodDelay + (j : ℚ) * A.Period + A.Period
          = A.FirstPeriodDelay + ((j + 1 : Nat) : ℚ) * A.Period := by
        push_cast
        ring
      rw [hadd] at h
      have hgen : RepeatedEvents A.FirstPeriodDelay A.Period Events (j + 1) ++
          Events.map (fun it =>
            { it with ActivationTime := it.ActivationTime + A.FirstPeriodDelay
                + ((j + 1 : Nat) : ℚ) * A.Period })
          = RepeatedEvents A.FirstPeriodDelay A.Period Events (j + 1 + 1) := by
        conv_rhs => rw [RepeatedEvents]
      rw [hgen] at h
      obtain ⟨n, hn, hout, hpos⟩ := PeriodicLoop_spec A Events fuel (j + 1) out h
      refine ⟨n, by omega, hout, ?_⟩
      intro _
      by_contra hP
      have hP' : A.Period ≤ 0 := not_lt.mp hP
      have hlt : A.FirstPeriodDelay + ((j + 1 : Nat) : ℚ) * A.Period
          < A.LifeSpan - A.FirstPeriodDelay := by
        push_cast
        nlinarith
      rw [PeriodicLoop_none A hP' fuel _ _ _ hlt] at h
      exact absurd h (by simp)
    · rw [if_neg hc] at h
      exact ⟨j + 1, by omega, (Option.some.inj h).symm, fun hlt => absurd hlt (by omega)⟩

theorem PeriodicLoop_terminates (A : FEventSnapshottedPeriodicAttributes) (hP : 0 < A.Period) :
    ∀ (N : Nat) (Init Gen : List FOverlapEventSnapshot) (AddedTime : ℚ),
      A.LifeSpan - A.FirstPeriodDelay ≤ AddedTime + (N : ℚ) * A.Period →
      ∃ out, PeriodicLoop A (N + 1) Init Gen AddedTime = some out
  | 0, Init, Gen, AddedTime, h => by
    unfold PeriodicLoop
    have : ¬ AddedTime < A.LifeSpan - A.FirstPeriodDelay := by
      simp only [Nat.cast_zero, zero_mul, add_zero] at h
      exact not_lt.mpr h
    rw [if_neg this]
    exact ⟨_, rfl⟩
  | N + 1, Init, Gen, AddedTime, h => by
    unfold PeriodicLoop
    by_cases hc : AddedTime < A.LifeSpan - A.FirstPeriodDelay
    · rw [if_pos hc]
      exact PeriodicLoop_terminates A hP N _ _ _ (by push_cast at h; linarith)
    · rw [if_neg hc]
      exact ⟨_, rfl⟩

theorem GeneratePeriodicOverlapEvents_of_guard (fuel : Nat)
    (Scale : ℚ → FGameplayAttribute → ℚ)
    (D : FAbilityDuration) (Events : List FOverlapEventSnapshot)
    (hguard : ¬ (D.LifeSpan ≤ 0 ∨ D.Period ≤ 0 ∨ D.FirstPeriodDelay > D.LifeSpan)) :
    GeneratePeriodicOverlapEvents fuel Scale D Events
      = PeriodicLoop (ProcessEventPeriodicAttributes Scale D) fuel
        (Events.map (fun it =>
          { it with ActivationTime := it.ActivationTime
              + (ProcessEventPeriodicAttributes Scale D).FirstPeriodDelay
              + ((0 : Nat) : ℚ) * (ProcessEventPeriodicAttributes Scale D).Period }))
        (RepeatedEvents (ProcessEventPeriodicAttributes Scale D).FirstPeriodDelay
          (ProcessEventPeriodicAttributes Scale D).Period Events (0 + 1))
        ((ProcessEventPeriodicAttributes Scale D).FirstPeriodDelay
          + ((0 : Nat) : ℚ) * (ProcessEventPeriodicAttributes Scale D).Period) := by
  unfold GeneratePeriodicOverlapEvents
  rw [if_neg hguard]
  simp [RepeatedEvents]

/-- C25. For every configuration that passes the guard of `GeneratePeriodicOverlapEvents`:
when the function returns, the list it leaves consists of `n >= 1` repetitions of the
initial snapshots, the `k`-th repetition (`k = 0, 1, ...`) of a snapshot with activation time
`t` having the activation time `t + FirstPeriodDelay + k * Period` (the values that the
attribute scaling returns) and every other field unchanged; when there is more than one
repetition the period is positive, so the activation times are strictly increasing in `k`.
With a positive scaled period the function returns. -/
theorem GeneratePeriodicOverlapEvents_activation_times
    (Scale : ℚ → FGameplayAttribute → ℚ) (D : FAbilityDuration)
    (Events : List FOverlapEventSnapshot)
    (hguard : ¬ (D.LifeSpan ≤ 0 ∨ D.Period ≤ 0 ∨ D.FirstPeriodDelay > D.LifeSpan)) :
    (∀ (fuel : Nat) (out : List FOverlapEventSnapshot),
      GeneratePeriodicOverlapEvents fuel Scale D Events = some out →
      ∃ n : Nat, 1 ≤ n ∧
        out = RepeatedEvents (ProcessEventPeriodicAttributes Scale D).FirstPeriodDelay
          (ProcessEventPeriodicAttributes Scale D).Period Events n ∧
        (∀ (k k' : Nat) (t : ℚ), k < k' → k' < n →
          t + (ProcessEventPeriodicAttributes Scale D).FirstPeriodDelay
              + (k : ℚ) * (ProcessEventPeriodicAttributes Scale D).Period
            < t + (ProcessEventPeriodicAttributes Scale D).FirstPeriodDelay
              + (k' : ℚ) * (ProcessEventPeriodicAttributes Scale D).Period)) ∧
    (0 < (ProcessEventPeriodicAttributes Scale D).Period →
      ∃ (fuel : Nat) (out : List FOverlapEventSnapshot),
        GeneratePeriodicOverlapEvents fuel Scale D Events = some out) := by
  constructor
  · intro fuel out h
    rw [GeneratePeriodicOverlapEvents_of_guard fuel Scale D Events hguard] at h
    obtain ⟨n, hn, hout, hpos⟩ := PeriodicLoop_spec _ Events fuel 0 out h
    refine ⟨n, by omega, hout, ?_⟩
    intro k k' t hk hk'
    have hP := hpos (by omega)
    have : (k : ℚ) < (k' : ℚ) := by exact_mod_cast hk
    nlinarith
  · intro hP
    obtain ⟨N, hN⟩ := exists_nat_ge
      (((ProcessEventPeriodicAttributes Scale D).LifeSpan
        - (ProcessEventPeriodicAttributes Scale D).FirstPeriodDelay
        - (ProcessEventPeriodicAttributes Scale D).FirstPeriodDelay)
          / (ProcessEventPeriodicAttributes Scale D).Period)
    rw [div_le_iff₀ hP] at hN
    obtain ⟨out, hout⟩ := PeriodicLoop_terminates _ hP N
      (Events.map (fun it =>
          { it with ActivationTime := it.ActivationTime
              + (ProcessEventPeriodicAttributes Scale D).FirstPeriodDelay
              + ((0 : Nat) : ℚ) * (ProcessEventPeriodicAttributes Scale D).Period }))
      (RepeatedEvents (ProcessEventPeriodicAttributes Scale D).FirstPeriodDelay
          (ProcessEventPeriodicAttributes Scale D).Period Events (0 + 1))
      ((ProcessEventPeriodicAttributes Scale D).FirstPeriodDelay
          + ((0 : Nat) : ℚ) * (ProcessEventPeriodicAttributes Scale D).Period)
      (by push_cast; linarith)
    exact ⟨N + 1, out, by
      rw [GeneratePeriodicOverlapEvents_of_guard (N + 1) Scale D Events hguard]; exact hout⟩

/-- Witness of C25: a life span of 1 s with a period of 0.5 s and no delay of the first
period leaves the repetitions at 0, 0.5 and 1. -/
theorem GeneratePeriodicOverlapEvents_activation_times_witness :
    ¬ ((⟨1, 1 / 2, 0, 0⟩ : FAbilityDuration).LifeSpan ≤ 0
      ∨ (⟨1, 1 / 2, 0, 0⟩ : FAbilityDuration).Period ≤ 0
      ∨ (⟨1, 1 / 2, 0, 0⟩ : FAbilityDuration).FirstPeriodDelay
        > (⟨1, 1 / 2, 0, 0⟩ : FAbilityDuration).LifeSpan) ∧
    GeneratePeriodicOverlapEvents 10 UnscaledValue ⟨1, 1 / 2, 0, 0⟩ [SnapshotAt 0]
      = some [SnapshotAt 0, { SnapshotAt 0 with ActivationTime := 1 / 2 },
        { SnapshotAt 0 with ActivationTime := 1 }] ∧
    ∃ n : Nat, 1 ≤ n ∧
      [SnapshotAt 0, { SnapshotAt 0 with ActivationTime := 1 / 2 },
          { SnapshotAt 0 with ActivationTime := 1 }]
        = RepeatedEvents (ProcessEventPeriodicAttributes UnscaledValue
            ⟨1, 1 / 2, 0, 0⟩).FirstPeriodDelay
          (ProcessEventPeriodicAttributes UnscaledValue ⟨1, 1 / 2, 0, 0⟩).Period
          [SnapshotAt 0] n ∧
      (∀ (k k' : Nat) (t : ℚ), k < k' → k' < n →
        t + (ProcessEventPeriodicAttributes UnscaledValue ⟨1, 1 / 2, 0, 0⟩).FirstPeriodDelay
            + (k : ℚ) * (ProcessEventPeriodicAttributes UnscaledValue
              ⟨1, 1 / 2, 0, 0⟩).Period
          < t + (ProcessEventPeriodicAttributes UnscaledValue
              ⟨1, 1 / 2, 0, 0⟩).FirstPeriodDelay
            + (k' : ℚ) * (ProcessEventPeriodicAttributes UnscaledValue
              ⟨1, 1 / 2, 0, 0⟩).Period) :=
  ⟨by decide!, by decide!,
    (GeneratePeriodicOverlapEvents_activation_times UnscaledValue ⟨1, 1 / 2, 0, 0⟩
      [SnapshotAt 0] (by decide!)).1 10 _ (by decide!)⟩

/-- C30 (code defect). The guard of `GeneratePeriodicOverlapEvents` tests the authored
`Duration.Period`, the loop adds the scaled `Attributes.Period`. With `LifeSpan = 1`,
`Period = 1`, `FirstPeriodDelay = 0` (the guard passes) and an attribute scaling that
returns 0 for the tick duration, the loop condition `AddedTime < LifeSpan - FirstPeriodDelay`
stays `0 < 1`: no number of iterations reaches the exit. -/
theorem GeneratePeriodicOverlapEvents_does_not_terminate :
    ¬ ((⟨1, 1, 0, 0⟩ : FAbilityDuration).LifeSpan ≤ 0
      ∨ (⟨1, 1, 0, 0⟩ : FAbilityDuration).Period ≤ 0
      ∨ (⟨1, 1, 0, 0⟩ : FAbilityDuration).FirstPeriodDelay
        > (⟨1, 1, 0, 0⟩ : FAbilityDuration).LifeSpan) ∧
    ProcessEventPeriodicAttributes StoppedTickScale ⟨1, 1, 0, 0⟩ = ⟨0, 0, 1⟩ ∧
    ∀ fuel : Nat,
      GeneratePeriodicOverlapEvents fuel StoppedTickScale ⟨1, 1, 0, 0⟩ [SnapshotAt 0]
        = none := by
  refine ⟨by decide!, by decide!, ?_⟩
  intro fuel
  rw [GeneratePeriodicOverlapEvents_of_guard fuel StoppedTickScale ⟨1, 1, 0, 0⟩ [SnapshotAt 0]
    (by decide!)]
  exact PeriodicLoop_none _ (by decide!) fuel _ _ _ (by decide!)

/-! ## The invariant of the scheduler -/

theorem TMapFind_isSome_iff {K V : Type} [DecidableEq K] (M : List (K × V)) (k : K) :
    (TMapFind M k).isSome = true ↔ ∃ p ∈ M, p.1 = k := by
  unfold TMapFind
  rw [Option.isSome_map']
  rw [List.find?_isSome]
  simp

theorem TMapFind_TMapAdd_self {K V : Type} [DecidableEq K] (M : List (K × V)) (k : K)
    (v : V) :
    (TMapFind (TMapAdd M k v) k).isSome = true := by
  rw [TMapFind_isSome_iff]
  unfold TMapAdd
  by_cases h : (TMapFind M k).isSome = true
  · rw [if_pos h]
    obtain ⟨p, hp, hk⟩ := (TMapFind_isSome_iff M k).mp h
    exact ⟨(k, v), List.mem_map.mpr ⟨p, hp, by simp [hk]⟩, rfl⟩
  · rw [if_neg h]
    exact ⟨(k, v), by simp, rfl⟩

theorem TMapFind_TMapAdd_of_isSome {K V : Type} [DecidableEq K] (M : List (K × V)) (k k' : K)
    (v : V) (h' : (TMapFind M k').isSome = true) :
    (TMapFind (TMapAdd M k v) k').isSome = true := by
  rw [TMapFind_isSome_iff] at h' ⊢
  obtain ⟨p, hp, hk⟩ := h'
  unfold TMapAdd
  split_ifs
  · by_cases hpk : p.1 = k
    · exact ⟨(k, v), List.mem_map.mpr ⟨p, hp, by simp [hpk]⟩, by rw [← hk, hpk]⟩
    · exact ⟨p, List.mem_map.mpr ⟨p, hp, by simp [hpk]⟩, hk⟩
  · exact ⟨p, List.mem_append_left _ hp, hk⟩

theorem TMapFind_of_filter_eq {V : Type} (M M' : List (Int × V)) (e k : Int) (hk : k ≠ e)
    (h : M.filter (fun it => !decide (it.1 = e)) = M'.filter (fun it => !decide (it.1 = e))) :
    (TMapFind M k).isSome = (TMapFind M' k).isSome := by
  have key : ∀ L : List (Int × V), (TMapFind L k).isSome = true ↔
      ∃ p ∈ L.filter (fun it => !decide (it.1 = e)), p.1 = k := by
    intro L
    rw [TMapFind_isSome_iff]
    constructor
    · rintro ⟨p, hp, hpk⟩
      exact ⟨p, List.mem_filter.mpr ⟨hp, by simp [hpk, hk]⟩, hpk⟩
    · rintro ⟨p, hp, hpk⟩
      exact ⟨p, (List.mem_filter.mp hp).1, hpk⟩
  rw [Bool.eq_iff_iff, key M, key M', h]

theorem mem_InsertAtFirstNotLater (e x : FOverlapEventSnapshot) :
    ∀ q : List FOverlapEventSnapshot, x ∈ InsertAtFirstNotLater e q → x ∈ q ∨ x = e
  | [], h => by simp [InsertAtFirstNotLater] at h
  | y :: rest, h => by
    unfold InsertAtFirstNotLater at h
    split_ifs at h
    · rcases List.mem_cons.mp h with rfl | h
      · exact Or.inr rfl
      · exact Or.inl h
    · rcases List.mem_cons.mp h with rfl | h
      · exact Or.inl (List.mem_cons_self _ _)
      · rcases mem_InsertAtFirstNotLater e x rest h with h | h
        · exact Or.inl (List.mem_cons_of_mem _ h)
        · exact Or.inr h

theorem mem_AddOverlapEventToQueue (q : List FOverlapEventSnapshot)
    (e x : FOverlapEventSnapshot) (h : x ∈ (AddOverlapEventToQueue q e).1) :
    x ∈ q ∨ x = e := by
  unfold AddOverlapEventToQueue at h
  cases hl : q.getLast? with
  | none =>
    simp only [hl] at h
    rcases List.mem_append.mp h with h | h
    · exact Or.inl h
    · exact Or.inr (by simpa using h)
  | some last =>
    simp only [hl] at h
    split_ifs at h
    · rcases List.mem_append.mp h with h | h
      · exact Or.inl h
      · exact Or.inr (by simpa using h)
    · exact mem_InsertAtFirstNotLater e x q h

theorem UpdateQueueTimer_mem (World : Option ℚ) (s : FScheduler) :
    ∀ x ∈ (UpdateQueueTimer World s).Queue ++ (UpdateQueueTimer World s).InstantQueue,
      x ∈ s.Queue ++ s.InstantQueue := by
  cases World with
  | none =>
    intro x hx
    rw [UpdateQueueTimer] at hx
    simpa using hx
  | some now =>
    obtain ⟨q, iq, th, n⟩ := s
    induction q using List.reverseRecOn generalizing iq n with
    | nil =>
      intro x hx
      rw [UpdateQueueTimer_nil] at hx
      exact hx
    | append_singleton l a ih =>
      intro x hx
      by_cases ha : a.ActivationTime ≤ now
      · rw [UpdateQueueTimer_concat_due now l iq a th n ha] at hx
        have := ih (iq ++ [a]) (if iq = [] then n + 1 else n) x hx
        simp only [List.mem_append, List.mem_singleton] at this ⊢
        tauto
      · rw [UpdateQueueTimer_concat_future now l iq a th n (lt_of_not_ge ha)] at hx
        exact hx

theorem mem_QueueEventSnapshots (World : Option ℚ) (evs : List FOverlapEventSnapshot)
    (s : FScheduler) :
    ∀ x ∈ (QueueEventSnapshots World evs s).Queue
        ++ (QueueEventSnapshots World evs s).InstantQueue,
      x ∈ s.Queue ++ s.InstantQueue ∨ x ∈ evs := by
  have hfold : ∀ (evs : List FOverlapEventSnapshot) (acc : List FOverlapEventSnapshot × Bool),
      ∀ x ∈ (evs.foldl
        (fun (acc : List FOverlapEventSnapshot × Bool) (Event : FOverlapEventSnapshot) =>
          ((AddOverlapEventToQueue acc.1 Event).1,
            (AddOverlapEventToQueue acc.1 Event).2 || acc.2)) acc).1,
        x ∈ acc.1 ∨ x ∈ evs := by
    intro evs
    induction evs with
    | nil => intro acc x hx; exact Or.inl hx
    | cons e rest ih =>
      intro acc x hx
      rw [List.foldl_cons] at hx
      rcases ih _ x hx with h | h
      · rcases mem_AddOverlapEventToQueue acc.1 e x h with h | h
        · exact Or.inl h
        · exact Or.inr (by rw [h]; exact List.mem_cons_self _ _)
      · exact Or.inr (List.mem_cons_of_mem _ h)
  intro x hx
  unfold QueueEventSnapshots at hx
  simp only at hx
  split_ifs at hx
  · have := UpdateQueueTimer_mem World _ x hx
    simp only [List.mem_append] at this
    rcases this with h | h
    · rcases hfold evs (s.Queue, false) x h with h | h
      · exact Or.inl (List.mem_append_left _ h)
      · exact Or.inr h
    · exact Or.inl (List.mem_append_right _ h)
  · simp only [List.mem_append] at hx
    rcases hx with h | h
    · rcases hfold evs (s.Queue, false) x h with h | h
      · exact Or.inl (List.mem_append_left _ h)
      · exact Or.inr h
    · exact Or.inl (List.mem_append_right _ h)

theorem mem_AppendOverlapEventsToInstantQueue (World : Option ℚ)
    (evs : List FOverlapEventSnapshot) (s : FScheduler) :
    ∀ x ∈ (AppendOverlapEventsToInstantQueue World evs s).Queue
        ++ (AppendOverlapEventsToInstantQueue World evs s).InstantQueue,
      x ∈ s.Queue ++ s.InstantQueue ∨ x ∈ evs := by
  have hQ : (AppendOverlapEventsToInstantQueue World evs s).Queue = s.Queue := by
    unfold AppendOverlapEventsToInstantQueue UpdateInstantQueueTimer
    simp only
    split_ifs <;> rfl
  have hI : (AppendOverlapEventsToInstantQueue World evs s).InstantQueue
      = s.InstantQueue ++ evs := by
    unfold AppendOverlapEventsToInstantQueue UpdateInstantQueueTimer
    by_cases hes : evs.isEmpty = true
    · have : evs = [] := List.isEmpty_iff.mp hes
      simp [this]
    · simp only [hes, Bool.false_eq_true, if_false]
      split_ifs <;> rfl
  intro x hx
  rw [hQ, hI] at hx
  simp only [List.mem_append] at hx ⊢
  tauto

theorem EventID_AddSnapshotEvent (pv : FProcessView) (a : FOverlapAbility)
    (SA : FEventSnapshottedAttributes) (S : FOverlapEventSnapshot)
    (acc : List FOverlapEventSnapshot) :
    ∀ x ∈ AddSnapshotEvent pv a SA S acc, x ∈ acc ∨ x.EventID = S.EventID := by
  intro x hx
  have hexp : ∀ y ∈ (ExpandOverlapEvent a.Duration S []).2, y.EventID = S.EventID := by
    intro y hy
    rw [ExpandOverlapEvent_eq] at hy
    simp only [List.nil_append, List.mem_map] at hy
    obtain ⟨i, _, rfl⟩ := hy
    rfl
  unfold AddSnapshotEvent at hx
  simp only at hx
  split_ifs at hx
  · simp only [List.mem_append, List.mem_map] at hx
    rcases hx with (h | h) | ⟨y, hy, rfl⟩
    · exact Or.inl h
    · exact Or.inr (hexp x h)
    · exact Or.inr (hexp y hy)
  · simp only [List.mem_append] at hx
    rcases hx with h | h
    · exact Or.inl h
    · exact Or.inr (hexp x h)
  · simp only [List.mem_append, List.mem_singleton] at hx
    rcases hx with (h | h) | h
    · exact Or.inl h
    · exact Or.inr (by rw [h])
    · exact Or.inr (by rw [h]; rfl)
  · simp only [List.mem_append, List.mem_singleton] at hx
    rcases hx with h | h
    · exact Or.inl h
    · exact Or.inr (by rw [h])

theorem EventID_SnapshotLoop (pv : FProcessView) (a : FOverlapAbility)
    (SA : FEventSnapshottedAttributes) (t d : ℚ) (EventID : Int) :
    ∀ (tds : List (Option ((ℚ × ℚ × ℚ) × ℚ))) (i : Nat)
      (acc : List FOverlapEventSnapshot),
      ∀ x ∈ SnapshotLoop pv a SA t d EventID i tds acc, x ∈ acc ∨ x.EventID = EventID
  | [], i, acc, x, hx => by
    unfold SnapshotLoop at hx
    exact Or.inl hx
  | td :: rest, i, acc, x, hx => by
    unfold SnapshotLoop at hx
    rcases EventID_SnapshotLoop pv a SA t d EventID rest (i + 1) _ x hx with h | h
    · rcases EventID_AddSnapshotEvent pv a SA _ acc x h with h | h
      · exact Or.inl h
      · exact Or.inr h
    · exact Or.inr h

theorem EventID_PeriodicLoop (A : FEventSnapshottedPeriodicAttributes) (e : Int) :
    ∀ (fuel : Nat) (Init Gen out : List FOverlapEventSnapshot) (t : ℚ),
      (∀ x ∈ Init, x.EventID = e) → (∀ x ∈ Gen, x.EventID = e) →
      PeriodicLoop A fuel Init Gen t = some out → ∀ x ∈ out, x.EventID = e
  | 0, _, _, _, _, _, _, h => by simp [PeriodicLoop] at h
  | fuel + 1, Init, Gen, out, t, hI, hG, h => by
    unfold PeriodicLoop at h
    split_ifs at h
    · refine EventID_PeriodicLoop A e fuel _ _ out _ ?_ ?_ h
      · intro x hx
        obtain ⟨y, hy, rfl⟩ := List.mem_map.mp hx
        exact hI y hy
      · intro x hx
        rcases List.mem_append.mp hx with hx | hx
        · exact hG x hx
        · obtain ⟨y, hy, rfl⟩ := List.mem_map.mp hx
          exact hI y hy
    · rw [← Option.some.inj h]
      exact hG

theorem EventID_GeneratePeriodicOverlapEvents (fuel : Nat)
    (Scale : ℚ → FGameplayAttribute → ℚ) (D : FAbilityDuration) (e : Int)
    (evs out : List FOverlapEventSnapshot) (hevs : ∀ x ∈ evs, x.EventID = e)
    (h : GeneratePeriodicOverlapEvents fuel Scale D evs = some out) :
    ∀ x ∈ out, x.EventID = e := by
  unfold GeneratePeriodicOverlapEvents at h
  split_ifs at h
  · rw [← Option.some.inj h]
    exact hevs
  · have hI : ∀ x ∈ evs.map (fun it => { it with ActivationTime := it.ActivationTime
        + (ProcessEventPeriodicAttributes Scale D).FirstPeriodDelay }), x.EventID = e := by
      intro x hx
      obtain ⟨y, hy, rfl⟩ := List.mem_map.mp hx
      exact hevs y hy
    exact EventID_PeriodicLoop _ e fuel _ _ out _ hI hI h

theorem ApplyActivationDelay_facts (pv : FProcessView) (a : FOverlapAbility)
    (evs : List FOverlapEventSnapshot) :
    (ApplyActivationDelay pv a evs).2.Scheduler = a.Scheduler ∧
    (ApplyActivationDelay pv a evs).2.EventDataMap = a.EventDataMap ∧
    (ApplyActivationDelay pv a evs).2.EventEffectsMap = a.EventEffectsMap ∧
    ∀ e : Int, (∀ x ∈ evs, x.EventID = e) →
      ∀ x ∈ (ApplyActivationDelay pv a evs).1, x.EventID = e := by
  unfold ApplyActivationDelay
  split_ifs
  · refine ⟨rfl, rfl, rfl, ?_⟩
    intro e he x hx
    obtain ⟨y, hy, rfl⟩ := List.mem_map.mp hx
    exact he y hy
  · exact ⟨rfl, rfl, rfl, fun e he => he⟩

theorem QueuedEventsHaveData_iff (a : FOverlapAbility) :
    QueuedEventsHaveData a = true ↔
      ∀ x ∈ a.Scheduler.Queue ++ a.Scheduler.InstantQueue,
        (TMapFind a.EventDataMap x.EventID).isSome = true ∧
        (TMapFind a.EventEffectsMap x.EventID).isSome = true := by
  unfold QueuedEventsHaveData
  simp only [List.all_eq_true, Bool.and_eq_true]

theorem QueuedEventsHaveData_ProcessOverlapEvent (pv : FProcessView) (fuel : Nat)
    (Payload : FGameplayEventData) (EventID : Int) (a r : FOverlapAbility)
    (hInv : QueuedEventsHaveData a = true)
    (h : ProcessOverlapEvent pv fuel Payload EventID a = some r) :
    QueuedEventsHaveData r = true := by
  rw [QueuedEventsHaveData_iff] at hInv ⊢
  unfold ProcessOverlapEvent at h
  simp only at h
  cases hw : pv.World with
  | none => simp [hw] at h
  | some now =>
    simp only [hw] at h
    obtain ⟨d1, d2, d3, d4⟩ := ApplyActivationDelay_facts pv
      { a with
        EventEffectsMap := TMapAdd a.EventEffectsMap EventID pv.Spec
        EventDataMap := TMapAdd a.EventDataMap EventID Payload }
      (SnapshotLoop pv a (ProcessEventAttributes pv) now
        (if HasTag a.AbilityTags .Ability_SpawnBatch = true then 0
          else (ProcessEventAttributes pv).SpawnDelay) EventID 0 pv.OutHandle [])
    have hsnap := d4 EventID (by
      intro x hx
      rcases EventID_SnapshotLoop pv a _ _ _ EventID pv.OutHandle 0 [] x hx with h | h
      · simp at h
      · exact h)
    generalize ApplyActivationDelay pv
      { a with
        EventEffectsMap := TMapAdd a.EventEffectsMap EventID pv.Spec
        EventDataMap := TMapAdd a.EventDataMap EventID Payload }
      (SnapshotLoop pv a (ProcessEventAttributes pv) now
        (if HasTag a.AbilityTags .Ability_SpawnBatch = true then 0
          else (ProcessEventAttributes pv).SpawnDelay) EventID 0 pv.OutHandle []) = Delayed
      at h d1 d2 d3 hsnap
    cases hg : GeneratePeriodicOverlapEvents fuel pv.Scale a.Duration Delayed.1 with
    | none => simp [hg] at h
    | some Generated =>
      simp only [hg] at h
      have hgen := EventID_GeneratePeriodicOverlapEvents fuel pv.Scale a.Duration EventID
        Delayed.1 Generated hsnap hg
      have hold : ∀ x ∈ a.Scheduler.Queue ++ a.Scheduler.InstantQueue,
          (TMapFind Delayed.2.EventDataMap x.EventID).isSome = true ∧
          (TMapFind Delayed.2.EventEffectsMap x.EventID).isSome = true := by
        intro x hx
        rw [d2, d3]
        exact ⟨TMapFind_TMapAdd_of_isSome _ _ _ _ (hInv x hx).1,
          TMapFind_TMapAdd_of_isSome _ _ _ _ (hInv x hx).2⟩
      have hnew : ∀ x ∈ Generated,
          (TMapFind Delayed.2.EventDataMap x.EventID).isSome = true ∧
          (TMapFind Delayed.2.EventEffectsMap x.EventID).isSome = true := by
        intro x hx
        rw [d2, d3, hgen x hx]
        exact ⟨TMapFind_TMapAdd_self _ _ _, TMapFind_TMapAdd_self _ _ _⟩
      split_ifs at h
      · rw [← Option.some.inj h]
        intro x hx
        rcases mem_QueueEventSnapshots (some now) Generated Delayed.2.Scheduler x hx with hx | hx
        · rw [d1] at hx
          exact hold x hx
        · exact hnew x hx
      · rw [← Option.some.inj h]
        intro x hx
        rcases mem_AppendOverlapEventsToInstantQueue (some now) Generated Delayed.2.Scheduler x hx
          with hx | hx
        · rw [d1] at hx
          exact hold x hx
        · exact hnew x hx

/-- The invariant after a handler has returned `r`, from what the handler has done with the
snapshot `s` popped from the state `a1`. -/
theorem QueuedEventsHaveData_of_handler (s : FOverlapEventSnapshot) (a a1 r : FOverlapAbility)
    (hInv : QueuedEventsHaveData a = true)
    (hD : a1.EventDataMap = a.EventDataMap) (hE : a1.EventEffectsMap = a.EventEffectsMap)
    (hq : ∀ x ∈ r.Scheduler.Queue ++ r.Scheduler.InstantQueue,
      x ∈ a.Scheduler.Queue ++ a.Scheduler.InstantQueue)
    (hsame : SameOtherBookkeeping s.EventID r a1)
    (hkept : (∃ x ∈ r.Scheduler.Queue ++ r.Scheduler.InstantQueue, x.EventID = s.EventID) →
      r.EventDataMap = a1.EventDataMap ∧ r.EventEffectsMap = a1.EventEffectsMap) :
    QueuedEventsHaveData r = true := by
  rw [QueuedEventsHaveData_iff] at hInv ⊢
  intro x hx
  have hxa := hInv x (hq x hx)
  by_cases he : x.EventID = s.EventID
  · obtain ⟨k1, k2⟩ := hkept ⟨x, hx, he⟩
    rw [k1, k2, hD, hE]
    exact hxa
  · obtain ⟨-, s2, s3, -⟩ := hsame
    rw [TMapFind_of_filter_eq r.EventDataMap a1.EventDataMap s.EventID x.EventID he s2,
      TMapFind_of_filter_eq r.EventEffectsMap a1.EventEffectsMap s.EventID x.EventID he s3,
      hD, hE]
    exact hxa

theorem QueuedEventsHaveData_OnQueueTimerFinished (w : FAbilityView) (D : Int)
    (a r : FOverlapAbility) (hInv : QueuedEventsHaveData a = true)
    (hr : OnQueueTimerFinished w D a = some r) : QueuedEventsHaveData r = true := by
  by_cases hq : a.Scheduler.Queue = []
  · unfold OnQueueTimerFinished at hr
    rw [dif_pos hq] at hr
    rw [← Option.some.inj hr]
    exact hInv
  · have hq2 : a.Scheduler.Queue
        = a.Scheduler.Queue.dropLast ++ [a.Scheduler.Queue.getLast hq] :=
      (List.dropLast_append_getLast hq).symm
    obtain ⟨a2, a3, h2, h3, hr2⟩ := OnQueueTimerFinished_cases w D a _ _ hq2 r hr
    obtain ⟨f1, -, f3, -, -, -, f7, -⟩ := handler_facts w D _ _ a2 a3 r _ h2 h3 hr2
    have hS := Scheduler_after_OnOverlapEvent w _ _ a2 a3 _ h2 h3
    refine QueuedEventsHaveData_of_handler _ a _ r hInv rfl rfl ?_ f3 f7
    intro x hx
    rw [f1, hS] at hx
    have := UpdateQueueTimer_mem w.World _ x hx
    simp only [List.mem_append] at this ⊢
    rcases this with h | h
    · exact Or.inl (List.mem_of_mem_dropLast h)
    · exact Or.inr h

theorem QueuedEventsHaveData_OnIsntantQueueTimerFinished (w : FAbilityView) (D : Int)
    (a r : FOverlapAbility) (hInv : QueuedEventsHaveData a = true)
    (hr : OnIsntantQueueTimerFinished w D a = some r) : QueuedEventsHaveData r = true := by
  by_cases hq : a.Scheduler.InstantQueue = []
  · unfold OnIsntantQueueTimerFinished at hr
    rw [dif_pos hq] at hr
    rw [← Option.some.inj hr]
    exact hInv
  · have hq2 : a.Scheduler.InstantQueue
        = a.Scheduler.InstantQueue.dropLast ++ [a.Scheduler.InstantQueue.getLast hq] :=
      (List.dropLast_append_getLast hq).symm
    obtain ⟨a2, a3, h2, h3, hr2⟩ := OnIsntantQueueTimerFinished_cases w D a _ _ hq2 r hr
    obtain ⟨f1, -, f3, -, -, -, f7, -⟩ := handler_facts w D _ _ a2 a3 r _ h2 h3 hr2
    have hS := Scheduler_after_OnOverlapEvent w _ _ a2 a3 _ h2 h3
    refine QueuedEventsHaveData_of_handler _ a _ r hInv rfl rfl ?_ f3 f7
    intro x hx
    rw [f1, hS] at hx
    have hU : ∀ sch : FScheduler,
        (UpdateInstantQueueTimer w.World sch).Queue = sch.Queue ∧
        (UpdateInstantQueueTimer w.World sch).InstantQueue = sch.InstantQueue := by
      intro sch
      unfold UpdateInstantQueueTimer
      split_ifs <;> exact ⟨rfl, rfl⟩
    rw [(hU _).1, (hU _).2] at hx
    simp only [List.mem_append] at hx ⊢
    rcases hx with h | h
    · exact Or.inl h
    · exact Or.inr (List.mem_of_mem_dropLast h)

/-- C29. The invariant of the scheduler, every snapshot in the delayed queue or in the
instant queue has its `EventID` in `EventDataMap` and in `EventEffectsMap`, holds while both
queues are empty and is kept by `ProcessOverlapEvent`, by `OnQueueTimerFinished`, by
`OnIsntantQueueTimerFinished` and by the `CleanUpEvent` call that they make when
`ShouldCleanUpEvent` holds. So for every queued snapshot, in particular the one that a
handler drains next, `EventDataMap.Find` and `EventEffectsMap.Find` return an entry. -/
theorem scheduler_queued_events_have_data (a : FOverlapAbility)
    (hInv : QueuedEventsHaveData a = true) :
    (∀ b : FOverlapAbility, IsOverlapQueueEmpty b = true → QueuedEventsHaveData b = true) ∧
    (∀ (pv : FProcessView) (fuel : Nat) (Payload : FGameplayEventData) (EventID : Int)
        (r : FOverlapAbility),
      ProcessOverlapEvent pv fuel Payload EventID a = some r →
        QueuedEventsHaveData r = true) ∧
    (∀ (w : FAbilityView) (D : Int) (r : FOverlapAbility),
      OnQueueTimerFinished w D a = some r → QueuedEventsHaveData r = true) ∧
    (∀ (w : FAbilityView) (D : Int) (r : FOverlapAbility),
      OnIsntantQueueTimerFinished w D a = some r → QueuedEventsHaveData r = true) ∧
    (∀ (w : FAbilityView) (D e : Int), ShouldCleanUpEvent e a = true →
      QueuedEventsHaveData (CleanUpEvent w D e a) = true) ∧
    (∀ x ∈ a.Scheduler.Queue ++ a.Scheduler.InstantQueue,
      (TMapFind a.EventDataMap x.EventID).isSome = true ∧
      (TMapFind a.EventEffectsMap x.EventID).isSome = true) := by
  refine ⟨?_, ?_, ?_, ?_, ?_, (QueuedEventsHaveData_iff a).mp hInv⟩
  · intro b hb
    unfold IsOverlapQueueEmpty at hb
    simp only [Bool.and_eq_true, List.isEmpty_iff] at hb
    rw [QueuedEventsHaveData_iff, hb.1, hb.2]
    intro x hx
    simp at hx
  · intro pv fuel Payload EventID r h
    exact QueuedEventsHaveData_ProcessOverlapEvent pv fuel Payload EventID a r hInv h
  · intro w D r h
    exact QueuedEventsHaveData_OnQueueTimerFinished w D a r hInv h
  · intro w D r h
    exact QueuedEventsHaveData_OnIsntantQueueTimerFinished w D a r hInv h
  · intro w D e hs
    obtain ⟨k1, -, k3, -, -, -, -⟩ :=
      CleanUpEvent_or_keep w D e a (CleanUpEvent w D e a) (by rw [if_pos hs])
    have hall := (ShouldCleanUpEvent_iff e a).mp hs
    rw [QueuedEventsHaveData_iff] at hInv ⊢
    intro x hx
    rw [k1] at hx
    obtain ⟨-, s2, s3, -⟩ := k3
    rw [TMapFind_of_filter_eq _ a.EventDataMap e x.EventID (hall x hx) s2,
      TMapFind_of_filter_eq _ a.EventEffectsMap e x.EventID (hall x hx) s3]
    exact hInv x hx

/-- Witness of C29: an ability that has not processed any event processes the event 1 with
two target data; both snapshots are put into the instant queue and the invariant holds. -/
theorem scheduler_queued_events_have_data_witness :
    QueuedEventsHaveData FreshAbility = true ∧
    (ProcessOverlapEvent PlainProcessView 0 ⟨none, some []⟩ 1 FreshAbility).map
      (fun r => (r.Scheduler.InstantQueue.map (fun it => (it.EventID, it.OverlapID)),
        r.EventDataMap.map (fun it => it.1), r.EventEffectsMap))
      = some ([(1, 0), (1, 1)], [1], [(1, 21)]) ∧
    ∀ r : FOverlapAbility,
      ProcessOverlapEvent PlainProcessView 0 ⟨none, some []⟩ 1 FreshAbility = some r →
        QueuedEventsHaveData r = true :=
  ⟨by decide!, by decide!,
    fun r => (scheduler_queued_events_have_data FreshAbility (by decide!)).2.1
      PlainProcessView 0 ⟨none, some []⟩ 1 r⟩

end UBaseOverlapAbility

namespace USpawnManager

/-! ## The spawn manager: the elements of a wave -/

theorem RandomIntegerInRange_bounds (Raw n : Nat) (hn : 0 < n) :
    0 ≤ RandomIntegerInRange Raw 0 ((n : Int) - 1) ∧
      (RandomIntegerInRange Raw 0 ((n : Int) - 1)).toNat < n := by
  unfold RandomIntegerInRange
  have h1 : ((n : Int) - 1 - 0 + 1) = n := by ring
  have h2 : (0 : Int) < n := by exact_mod_cast hn
  rw [h1, if_pos h2, zero_add]
  have h3 : 0 ≤ (Raw : Int) % n := Int.emod_nonneg _ (ne_of_gt h2)
  have h4 : (Raw : Int) % n < n := Int.emod_lt_of_pos _ h2
  refine ⟨h3, ?_⟩
  omega

theorem ArrayAt_RandomIntegerInRange {α : Type} (Raw : Nat) (Array : List α)
    (hne : Array ≠ []) :
    ∃ x, ArrayAt Array (RandomIntegerInRange Raw 0 ((Array.length : Int) - 1)) = some x ∧
      Array[(RandomIntegerInRange Raw 0 ((Array.length : Int) - 1)).toNat]? = some x := by
  have hn : 0 < Array.length := List.length_pos.mpr hne
  obtain ⟨h0, h1⟩ := RandomIntegerInRange_bounds Raw Array.length hn
  refine ⟨Array[(RandomIntegerInRange Raw 0 ((Array.length : Int) - 1)).toNat], ?_, ?_⟩
  · unfold ArrayAt
    rw [if_pos h0]
    exact List.getElem?_eq_getElem h1
  · exact List.getElem?_eq_getElem h1

theorem RemoveAtSwap_perm {α : Type} (Array : List α) (Index : Nat) (x : α)
    (h : Array[Index]? = some x) : (x :: RemoveAtSwap Array Index).Perm Array := by
  have hlt : Index < Array.length := by
    rcases Nat.lt_or_ge Index Array.length with h1 | h1
    · exact h1
    · rw [List.getElem?_eq_none h1] at h
      cases h
  have hne : Array ≠ [] := by
    intro h0
    rw [h0] at hlt
    simp at hlt
  obtain ⟨Init, Last, rfl⟩ : ∃ Init Last, Array = Init ++ [Last] :=
    ⟨Array.dropLast, Array.getLast hne, (List.dropLast_append_getLast hne).symm⟩
  unfold RemoveAtSwap
  have hL : (Init ++ [Last]).getLast? = some Last := by simp
  rw [hL]
  show (x :: ((Init ++ [Last]).set Index Last).dropLast).Perm (Init ++ [Last])
  rcases Nat.lt_or_ge Index Init.length with h1 | h1
  · rw [List.getElem?_append_left h1] at h
    have hs : (Init ++ [Last]).set Index Last = Init.set Index Last ++ [Last] := by
      rw [List.set_append, if_pos h1]
    rw [hs, List.dropLast_concat]
    obtain ⟨h2, h3⟩ := List.getElem?_eq_some.mp h
    have hd : Init = Init.take Index ++ x :: Init.drop (Index + 1) := by
      rw [← h3, ← List.drop_eq_getElem_cons h2, List.take_append_drop]
    have hset : Init.set Index Last = Init.take Index ++ Last :: Init.drop (Index + 1) := by
      rw [List.set_eq_take_append_cons_drop, if_pos h2]
    rw [hset]
    nth_rewrite 3 [hd]
    have p1 : (x :: (Init.take Index ++ Last :: Init.drop (Index + 1))).Perm
        (x :: Last :: (Init.take Index ++ Init.drop (Index + 1))) :=
      List.Perm.cons x List.perm_middle
    have p2 : (Init.take Index ++ x :: Init.drop (Index + 1) ++ [Last]).Perm
        (x :: Last :: (Init.take Index ++ Init.drop (Index + 1))) := by
      refine (List.perm_append_singleton Last _).trans ?_
      refine (List.Perm.cons Last List.perm_middle).trans ?_
      exact List.Perm.swap x Last _
    exact p1.trans p2.symm
  · have h2 : Index = Init.length := by
      simp at hlt
      omega
    subst h2
    rw [List.getElem?_append_right (le_refl _)] at h
    simp at h
    subst h
    have hs : (Init ++ [Last]).set Init.length Last = Init ++ [Last] := by
      rw [List.set_append, if_neg (lt_irrefl _)]
      simp
    rw [hs, List.dropLast_concat]
    exact (List.perm_append_singleton Last Init).symm

theorem UsedScore_append (l l' : List FSpawnQueueElement) :
    UsedScore (l ++ l') = UsedScore l + UsedScore l' := by
  unfold UsedScore
  rw [List.map_append, List.sum_append]

theorem UsedScore_singleton (el : FSpawnQueueElement) :
    UsedScore [el] = (el.Amount : ℚ) * el.Character.Score := by
  simp [UsedScore]

/-- One step of the leftover-carry rule in exact arithmetic, for an enemy that the budget `B`
affords and a state whose remaining score covers the budget of every remaining enemy. -/
theorem AddElementExact_facts (Wave : Int) (Location : ℚ × ℚ × ℚ) (st : FAmountLoop)
    (Enemy : UGameplayDataAICharacter) (B : ℚ)
    (hV : 1 ≤ st.Variety) (hB : B * st.Variety ≤ st.RemainingScore)
    (hs : 0 < Enemy.Score) (hsB : Enemy.Score ≤ B) :
    B ≤ st.RemainingScore / st.Variety ∧
    (AddElementExact Wave Location st Enemy).Variety = st.Variety - 1 ∧
    B * (AddElementExact Wave Location st Enemy).Variety ≤
      (AddElementExact Wave Location st Enemy).RemainingScore ∧
    (AddElementExact Wave Location st Enemy).EnsureFailures = st.EnsureFailures ∧
    ∃ el : FSpawnQueueElement,
      (AddElementExact Wave Location st Enemy).EnemiesToSpawn = st.EnemiesToSpawn ++ [el] ∧
      el.Character = Enemy ∧ el.Level = Wave ∧ 1 ≤ el.Amount ∧
      el.Amount = ⌊st.RemainingScore / st.Variety / Enemy.Score⌋ ∧
      (AddElementExact Wave Location st Enemy).RemainingScore =
        st.RemainingScore - (el.Amount : ℚ) * Enemy.Score := by
  have hVpos : 0 < st.Variety := lt_of_lt_of_le one_pos hV
  have hb : B ≤ st.RemainingScore / st.Variety := (le_div_iff₀ hVpos).mpr hB
  have hq : 1 ≤ st.RemainingScore / st.Variety / Enemy.Score :=
    (le_div_iff₀ hs).mpr (by linarith)
  have hT : TruncToInt (st.RemainingScore / st.Variety / Enemy.Score) =
      ⌊st.RemainingScore / st.Variety / Enemy.Score⌋ :=
    TruncToInt_of_nonneg _ (by linarith)
  have hA : 1 ≤ ⌊st.RemainingScore / st.Variety / Enemy.Score⌋ :=
    Int.le_floor.mpr (by exact_mod_cast hq)
  have hU : (⌊st.RemainingScore / st.Variety / Enemy.Score⌋ : ℚ) * Enemy.Score ≤
      st.RemainingScore / st.Variety := by
    have h1 := Int.floor_le (st.RemainingScore / st.Variety / Enemy.Score)
    have h2 := mul_le_mul_of_nonneg_right h1 (le_of_lt hs)
    rwa [div_mul_cancel₀ _ (ne_of_gt hs)] at h2
  have hR : st.RemainingScore / st.Variety * st.Variety = st.RemainingScore :=
    div_mul_cancel₀ _ (ne_of_gt hVpos)
  refine ⟨hb, rfl, ?_, ?_, ⟨_, rfl, rfl, rfl, ?_, ?_, ?_⟩⟩
  · show B * (st.Variety - 1) ≤ st.RemainingScore -
      (TruncToInt (st.RemainingScore / st.Variety / Enemy.Score) : ℚ) * Enemy.Score
    rw [hT]
    have h3 : B * (st.Variety - 1) ≤ st.RemainingScore / st.Variety * (st.Variety - 1) :=
      mul_le_mul_of_nonneg_right hb (by linarith)
    have h4 : st.RemainingScore / st.Variety * (st.Variety - 1) =
        st.RemainingScore - st.RemainingScore / st.Variety := by
      rw [mul_sub, hR, mul_one]
    linarith
  · show (if TruncToInt (st.RemainingScore / st.Variety / Enemy.Score) ≥ 1
      then st.EnsureFailures else st.EnsureFailures + 1) = st.EnsureFailures
    rw [hT, if_pos hA]
  · show 1 ≤ TruncToInt (st.RemainingScore / st.Variety / Enemy.Score)
    rw [hT]
    exact hA
  · exact hT
  · rfl

/-- The leftover-carry rule in exact arithmetic over enemies that the budget `B = Score /
Variety` affords, not more of them than the variety. -/
theorem AmountLoop_spec (Wave : Int) (Location : ℚ × ℚ × ℚ) (Score V B : ℚ) (F : Nat)
    (hBV : B * V ≤ Score) (Enemies : List UGameplayDataAICharacter) :
    (Enemies.length : ℚ) ≤ V → (∀ E ∈ Enemies, 0 < E.Score ∧ E.Score ≤ B) →
    (Enemies.foldl (AddElementExact Wave Location) ⟨Score, V, [], F⟩).Variety =
      V - Enemies.length ∧
    B * (Enemies.foldl (AddElementExact Wave Location) ⟨Score, V, [], F⟩).Variety ≤
      (Enemies.foldl (AddElementExact Wave Location) ⟨Score, V, [], F⟩).RemainingScore ∧
    (Enemies.foldl (AddElementExact Wave Location) ⟨Score, V, [], F⟩).EnsureFailures = F ∧
    (Enemies.foldl (AddElementExact Wave Location) ⟨Score, V, [], F⟩).EnemiesToSpawn.map
      (fun el => el.Character) = Enemies ∧
    (∀ el ∈ (Enemies.foldl (AddElementExact Wave Location) ⟨Score, V, [], F⟩).EnemiesToSpawn,
      el.Level = Wave ∧ 1 ≤ el.Amount) ∧
    (Enemies.foldl (AddElementExact Wave Location) ⟨Score, V, [], F⟩).RemainingScore =
      Score - UsedScore
        (Enemies.foldl (AddElementExact Wave Location) ⟨Score, V, [], F⟩).EnemiesToSpawn ∧
    (∀ (k : Nat) (el : FSpawnQueueElement),
      (Enemies.foldl (AddElementExact Wave Location) ⟨Score, V, [], F⟩).EnemiesToSpawn[k]? =
        some el →
      el.Amount = ⌊(Score - UsedScore
        ((Enemies.foldl (AddElementExact Wave Location) ⟨Score, V, [], F⟩).EnemiesToSpawn.take k))
          / (V - k) / el.Character.Score⌋) := by
  induction Enemies using List.reverseRecOn with
  | nil =>
    intro _ _
    refine ⟨by simp, by simpa using hBV, rfl, rfl, ?_, by simp [UsedScore], ?_⟩
    · intro el hel
      simp at hel
    · intro k el hel
      simp at hel
  | append_singleton es E ih =>
    intro hlen hall
    have hlen2 : (es.length : ℚ) + 1 ≤ V := by
      simpa using hlen
    obtain ⟨i1, i2, i3, i4, i5, i6, i7⟩ := ih (by linarith)
      (fun E' hE' => hall E' (List.mem_append_left _ hE'))
    obtain ⟨hs, hsB⟩ := hall E (by simp)
    rw [List.foldl_append, List.foldl_cons, List.foldl_nil]
    generalize es.foldl (AddElementExact Wave Location) ⟨Score, V, [], F⟩ = st at *
    obtain ⟨-, a2, a3, a4, el, a5, a6, a7, a8, a9, a10⟩ :=
      AddElementExact_facts Wave Location st E B (by rw [i1]; linarith) i2 hs hsB
    have hlenG : st.EnemiesToSpawn.length = es.length := by
      rw [← i4, List.length_map]
    refine ⟨?_, a3, a4.trans i3, ?_, ?_, ?_, ?_⟩
    · rw [a2, i1]
      simp
      ring
    · rw [a5, List.map_append, i4, List.map_singleton, a6]
    · intro x hx
      rw [a5, List.mem_append, List.mem_singleton] at hx
      rcases hx with hx | hx
      · exact i5 x hx
      · rw [hx]
        exact ⟨a7, a8⟩
    · rw [a10, a5, UsedScore_append, UsedScore_singleton, a6, i6]
      ring
    · intro k x hx
      rw [a5] at hx ⊢
      rcases Nat.lt_or_ge k st.EnemiesToSpawn.length with hk | hk
      · rw [List.getElem?_append_left hk] at hx
        rw [List.take_append_of_le_length (le_of_lt hk)]
        exact i7 k x hx
      · rw [List.getElem?_append_right hk] at hx
        have hk2 : k = st.EnemiesToSpawn.length := by
          rcases Nat.eq_or_lt_of_le hk with h | h
          · exact h.symm
          · rw [List.getElem?_eq_none (by simp; omega)] at hx
            cases hx
        subst hk2
        simp at hx
        subst hx
        rw [List.take_left, a9, a6, i6, i1, hlenG]

/-- One step of the amount loop on whole numbers: the arithmetic on `float` gives what the
exact arithmetic gives, and the remaining score stays a whole number. -/
theorem AddElement_eq_exact (Wave : Int) (Location : ℚ × ℚ × ℚ) (st : FAmountLoop)
    (Enemy : UGameplayDataAICharacter) (r v k : Nat)
    (hR : st.RemainingScore = r) (hV : st.Variety = v) (hk : Enemy.Score = k)
    (hv1 : 1 ≤ v) (hk1 : 1 ≤ k) (hkv : k * v ≤ r) (hr : r ≤ 2 ^ 22) :
    AddElement Wave Location st Enemy = AddElementExact Wave Location st Enemy ∧
    ∃ r' : Nat, (AddElementExact Wave Location st Enemy).RemainingScore = r' ∧ r' ≤ r := by
  obtain ⟨c1, c2⟩ := TruncToInt_RoundToFloat_quotient r v k hv1 hk1 hr
  have hn : r / (v * k) * (v * k) ≤ r := Nat.div_mul_le_self r (v * k)
  have hnk : r / (v * k) * k ≤ r := by
    calc r / (v * k) * k = 1 * (r / (v * k) * k) := by ring
      _ ≤ v * (r / (v * k) * k) := Nat.mul_le_mul_right _ hv1
      _ = r / (v * k) * (v * k) := by ring
      _ ≤ r := hn
  have hr24 : r < 2 ^ 24 := lt_of_le_of_lt hr (by norm_num)
  have hn24 : r / (v * k) < 2 ^ 24 := by
    have : r / (v * k) ≤ r / (v * k) * k := Nat.le_mul_of_pos_right _ hk1
    omega
  have e2 : RoundToFloat (((r / (v * k) : Nat) : ℚ) * (k : ℚ))
      = ((r / (v * k) : Nat) : ℚ) * (k : ℚ) := by
    have := RoundToFloat_natCast (r / (v * k) * k) (by omega)
    push_cast at this
    exact this
  have e3 : (r : ℚ) - ((r / (v * k) : Nat) : ℚ) * (k : ℚ)
      = ((r - r / (v * k) * k : Nat) : ℚ) := by
    rw [Nat.cast_sub hnk]
    push_cast
    ring
  have e4 : RoundToFloat ((r : ℚ) - ((r / (v * k) : Nat) : ℚ) * (k : ℚ))
      = (r : ℚ) - ((r / (v * k) : Nat) : ℚ) * (k : ℚ) := by
    rw [e3]
    exact RoundToFloat_natCast _ (by omega)
  have e5 : RoundToFloat ((v : ℚ) - 1) = (v : ℚ) - 1 := by
    have h1 : (v : ℚ) - 1 = ((v - 1 : Nat) : ℚ) := by
      rw [Nat.cast_sub hv1]
      simp
    rw [h1]
    have hvr : v ≤ r := by
      calc v = 1 * v := by ring
        _ ≤ k * v := Nat.mul_le_mul_right _ hk1
        _ ≤ r := hkv
    exact RoundToFloat_natCast _ (by omega)
  constructor
  · unfold AddElement AddElementExact
    simp only [hR, hV, hk, c1, c2, Int.cast_natCast, RoundToFloat_natCast _ hn24, e2, e4, e5]
  · refine ⟨r - r / (v * k) * k, ?_, Nat.sub_le _ _⟩
    unfold AddElementExact
    simp only [hR, hV, hk, c2, Int.cast_natCast]
    exact e3

/-- A positive whole number as a natural number. -/
theorem exists_nat_of_whole (x : ℚ) (hpos : 0 < x) (hden : x.den = 1) :
    ∃ k : Nat, 1 ≤ k ∧ x = k := by
  have hx : ((x.num : ℤ) : ℚ) = x := (Rat.den_eq_one_iff x).mp hden
  have hnum : 0 < x.num := Rat.num_pos.mpr hpos
  obtain ⟨n, hn⟩ := Int.eq_ofNat_of_zero_le (le_of_lt hnum)
  refine ⟨n, by omega, ?_⟩
  rw [← hx, hn]
  simp

/-- The amount loop of `SpawnWave` on whole numbers: for a whole `Score` of at most `2 ^ 22`
and enemies with whole scores that `Score / Variety` affords, not more of them than the
variety, the arithmetic on `float` gives exactly what the leftover-carry rule gives in exact
arithmetic. -/
theorem AmountLoop_eq_exact (Wave : Int) (Location : ℚ × ℚ × ℚ) (N V : Nat) (F : Nat)
    (hV : 1 ≤ V) (hN : N ≤ 2 ^ 22) (Enemies : List UGameplayDataAICharacter) :
    Enemies.length ≤ V →
    (∀ E ∈ Enemies, 0 < E.Score ∧ E.Score.den = 1 ∧ E.Score ≤ (N : ℚ) / V) →
    Enemies.foldl (AddElement Wave Location) ⟨N, V, [], F⟩
      = Enemies.foldl (AddElementExact Wave Location) ⟨N, V, [], F⟩ ∧
    ∃ r : Nat, (Enemies.foldl (AddElementExact Wave Location) ⟨N, V, [], F⟩).RemainingScore
      = r ∧ r ≤ N := by
  have hVq : (0 : ℚ) < V := by exact_mod_cast hV
  have hBV : (N : ℚ) / V * V ≤ N := by
    rw [div_mul_cancel₀ _ (ne_of_gt hVq)]
  induction Enemies using List.reverseRecOn with
  | nil =>
    intro _ _
    exact ⟨rfl, N, rfl, le_refl _⟩
  | append_singleton es E ih =>
    intro hlen hall
    have hlen2 : es.length + 1 ≤ V := by simpa using hlen
    have hall2 : ∀ E' ∈ es, 0 < E'.Score ∧ E'.Score.den = 1 ∧ E'.Score ≤ (N : ℚ) / V :=
      fun E' hE' => hall E' (List.mem_append_left _ hE')
    obtain ⟨ih1, r, ihr, hrN⟩ := ih (by omega) hall2
    obtain ⟨i1, i2, -⟩ := AmountLoop_spec Wave Location N V ((N : ℚ) / V) F hBV es
      (by exact_mod_cast (by omega : es.length ≤ V))
      (fun E' hE' => ⟨(hall2 E' hE').1, (hall2 E' hE').2.2⟩)
    obtain ⟨hpos, hden, hle⟩ := hall E (by simp)
    obtain ⟨k, hk1, hk⟩ := exists_nat_of_whole E.Score hpos hden
    rw [List.foldl_append, List.foldl_append, List.foldl_cons, List.foldl_nil,
      List.foldl_cons, List.foldl_nil, ih1]
    generalize es.foldl (AddElementExact Wave Location) ⟨N, V, [], F⟩ = st at *
    have hVar : st.Variety = ((V - es.length : Nat) : ℚ) := by
      rw [i1, Nat.cast_sub (by omega)]
    have hkv : k * (V - es.length) ≤ r := by
      have h1 : (k : ℚ) * ((V - es.length : Nat) : ℚ) ≤ (r : ℚ) := by
        rw [← hVar, ← ihr, ← hk]
        have h0 : 0 ≤ st.Variety := by
          rw [hVar]
          exact Nat.cast_nonneg _
        exact (mul_le_mul_of_nonneg_right hle h0).trans i2
      exact_mod_cast h1
    obtain ⟨s1, r', s2, s3⟩ := AddElement_eq_exact Wave Location st E r (V - es.length) k
      ihr hVar hk (by omega) hk1 hkv (le_trans hrN hN)
    exact ⟨s1, r', s2, le_trans s3 hrN⟩

theorem PickEnemies_spec (Random : Nat → Nat) (n : Nat) :
    ∀ (i : Nat) (Pool Acc : List UGameplayDataAICharacter), Pool ≠ [] →
      ∃ Picked Rest, PickEnemies Random n i Pool Acc = some (Acc ++ Picked) ∧
        (Picked ++ Rest).Perm Pool ∧ Picked.length = min n Pool.length := by
  induction n with
  | zero =>
    intro i Pool Acc _
    exact ⟨[], Pool, by simp [PickEnemies], by simp, by simp⟩
  | succ n ih =>
    intro i Pool Acc hne
    obtain ⟨x, hx, hx2⟩ := ArrayAt_RandomIntegerInRange (Random i) Pool hne
    have hp := RemoveAtSwap_perm Pool _ x hx2
    unfold PickEnemies
    simp only [hx]
    by_cases he : (RemoveAtSwap Pool
        (RandomIntegerInRange (Random i) 0 ((Pool.length : Int) - 1)).toNat).isEmpty = true
    · rw [if_pos he]
      rw [List.isEmpty_iff] at he
      rw [he] at hp
      refine ⟨[x], [], rfl, by simpa using hp, ?_⟩
      have := hp.length_eq
      simp at this
      simp [← this]
    · rw [if_neg he]
      have hne2 : RemoveAtSwap Pool
          (RandomIntegerInRange (Random i) 0 ((Pool.length : Int) - 1)).toNat ≠ [] := by
        intro h0
        exact he (by rw [h0]; rfl)
      obtain ⟨Picked, Rest, h1, h2, h3⟩ := ih (i + 1) _ (Acc ++ [x]) hne2
      refine ⟨x :: Picked, Rest, ?_, ?_, ?_⟩
      · rw [h1]
        simp
      · exact (List.Perm.cons x h2).trans hp
      · have := hp.length_eq
        simp only [List.length_cons] at this ⊢
        omega

theorem PickEnemies_congr (Random Random' : Nat → Nat) (n : Nat) :
    ∀ (i : Nat) (Pool Acc : List UGameplayDataAICharacter),
      (∀ k, i ≤ k → k < i + n → Random' k = Random k) →
        PickEnemies Random' n i Pool Acc = PickEnemies Random n i Pool Acc := by
  induction n with
  | zero =>
    intro i Pool Acc _
    rfl
  | succ n ih =>
    intro i Pool Acc h
    unfold PickEnemies
    rw [h i (le_refl _) (by omega)]
    have ih2 := fun P A => ih (i + 1) P A (fun k h1 h2 => h k (by omega) (by omega))
    simp only [ih2]

theorem IterationsBelow_natCast (V : Nat) : IterationsBelow (V : ℚ) = V := by
  unfold IterationsBelow
  by_cases h : (V : ℚ) ≤ 0
  · rw [if_pos h]
    have : V = 0 := by
      have h2 : (V : ℚ) = 0 := le_antisymm h (Nat.cast_nonneg V)
      exact_mod_cast h2
    exact this.symm
  · rw [if_neg h]
    simp

/-- On whole numbers the filter of `SpawnWave`, which compares with the quotient of the
arithmetic on `float`, keeps the enemies that the exact quotient affords. -/
theorem filter_affordable (m : FSpawnManager) (N V : Nat) (hV : 1 ≤ V) (hN : N < 2 ^ 24)
    (hpos : ∀ E ∈ m.EnemyPool, 0 < E.Score) (hwhole : ∀ E ∈ m.EnemyPool, E.Score.den = 1) :
    m.EnemyPool.filter
        (fun PooledEnemy => !decide (PooledEnemy.Score > RoundToFloat ((N : ℚ) / V))) =
      Affordable m N V := by
  unfold Affordable
  apply List.filter_congr
  intro E hE
  obtain ⟨k, -, hk⟩ := exists_nat_of_whole E.Score (hpos E hE) (hwhole E hE)
  have h := whole_gt_RoundToFloat_div N V k hV hN
  rw [hk]
  by_cases hgt : (k : ℚ) > (N : ℚ) / V
  · have h1 := h.mpr hgt
    simp [h1, not_le.mpr hgt]
  · have h1 : ¬ (k : ℚ) > RoundToFloat ((N : ℚ) / V) := fun hc => hgt (h.mp hc)
    simp [h1, not_lt.mp hgt]

/-- What `SpawnWave` draws and sorts, on whole numbers, is a selection of the affordable
enemies, as many as the variety asks for or as there are. -/
theorem SortedEnemies_spec (v : FSpawnView) (m : FSpawnManager) (N V : Nat)
    (hV : 1 ≤ V) (hN : N < 2 ^ 24)
    (hpos : ∀ E ∈ m.EnemyPool, 0 < E.Score) (hwhole : ∀ E ∈ m.EnemyPool, E.Score.den = 1)
    (hSort : ∀ l, (v.AlgoSort l).Perm l) (haff : Affordable m N V ≠ []) :
    ∃ Enemies Rest, SortedEnemies v m N V = some Enemies ∧
      (Enemies ++ Rest).Perm (Affordable m N V) ∧
      Enemies.length = min V (Affordable m N V).length := by
  unfold SortedEnemies
  simp only [filter_affordable m N V hV hN hpos hwhole, IterationsBelow_natCast]
  obtain ⟨Picked, Rest, h1, h2, h3⟩ :=
    PickEnemies_spec v.Random V 0 (Affordable m N V) [] haff
  rw [h1]
  simp only [List.nil_append]
  by_cases hl : Picked.length > 1
  · rw [if_pos hl]
    refine ⟨_, Rest, rfl, ((hSort Picked).append_right Rest).trans h2, ?_⟩
    rw [(hSort Picked).length_eq, h3]
  · rw [if_neg hl]
    exact ⟨_, Rest, rfl, h2, h3⟩

theorem SortedEnemies_congr (v v' : FSpawnView) (m : FSpawnManager) (Score : ℚ) (V : Nat)
    (hS : v'.AlgoSort = v.AlgoSort) (hR : ∀ k, k < V → v'.Random k = v.Random k) :
    SortedEnemies v' m Score V = SortedEnemies v m Score V := by
  unfold SortedEnemies
  simp only [IterationsBelow_natCast]
  rw [PickEnemies_congr v.Random v'.Random V 0 _ _ (fun k _ h => hR k (by omega)), hS]

theorem mem_Affordable (m : FSpawnManager) (Score Variety : ℚ) (E : UGameplayDataAICharacter) :
    E ∈ Affordable m Score Variety ↔ E ∈ m.EnemyPool ∧ E.Score ≤ Score / Variety := by
  unfold Affordable
  simp [List.mem_filter]

/-- The part of `SpawnWave` up to the amount loop, on whole numbers: it returns, and its
elements are those of the leftover-carry rule in exact arithmetic over a selection of the
affordable enemies. -/
theorem CalculateAmounts_spec (v : FSpawnView) (m : FSpawnManager) (N V : Nat)
    (Location : ℚ × ℚ × ℚ) (hV : 1 ≤ V) (hN : N ≤ 2 ^ 22)
    (hpos : ∀ E ∈ m.EnemyPool, 0 < E.Score) (hwhole : ∀ E ∈ m.EnemyPool, E.Score.den = 1)
    (hSort : ∀ l, (v.AlgoSort l).Perm l) (haff : Affordable m N V ≠ []) :
    ∃ Enemies Rest, SortedEnemies v m N V = some Enemies ∧
      CalculateAmounts v m N V Location =
        some (Enemies.foldl (AddElementExact m.Wave Location)
          ⟨N, V, [], m.EnsureFailures⟩) ∧
      (Enemies ++ Rest).Perm (Affordable m N V) ∧
      Enemies.length = min V (Affordable m N V).length ∧
      Enemies ≠ [] ∧
      (N : ℚ) / V * V ≤ N ∧ ((Enemies.length : ℚ) ≤ V) ∧
      (∀ E ∈ Enemies, 0 < E.Score ∧ E.Score ≤ (N : ℚ) / V) := by
  have hN24 : N < 2 ^ 24 := lt_of_le_of_lt hN (by norm_num)
  obtain ⟨Enemies, Rest, h1, h2, h3⟩ :=
    SortedEnemies_spec v m N V hV hN24 hpos hwhole hSort haff
  have hVq : (V : ℚ) ≠ 0 := by
    have : 0 < V := hV
    exact_mod_cast (ne_of_gt this)
  have hlen : Enemies.length ≤ V := by
    rw [h3]
    exact Nat.min_le_left _ _
  have hmem : ∀ E ∈ Enemies, E ∈ m.EnemyPool ∧ E.Score ≤ (N : ℚ) / V := fun E hE =>
    (mem_Affordable m N V E).mp (h2.subset (List.mem_append_left _ hE))
  obtain ⟨heq, -⟩ := AmountLoop_eq_exact m.Wave Location N V m.EnsureFailures hV hN Enemies hlen
    (fun E hE => ⟨hpos E (hmem E hE).1, hwhole E (hmem E hE).1, (hmem E hE).2⟩)
  refine ⟨Enemies, Rest, h1, ?_, h2, h3, ?_, ?_, ?_, ?_⟩
  · unfold CalculateAmounts
    rw [h1]
    simp only
    rw [heq]
  · intro h0
    rw [h0] at h3
    have : 0 < (Affordable m N V).length := List.length_pos.mpr haff
    simp at h3
    omega
  · rw [div_mul_cancel₀ _ hVq]
  · exact_mod_cast hlen
  · intro E hE
    exact ⟨hpos E (hmem E hE).1, (hmem E hE).2⟩

theorem CalculateAmounts_congr (v v' : FSpawnView) (m : FSpawnManager) (Score : ℚ) (V : Nat)
    (Location : ℚ × ℚ × ℚ) (hS : v'.AlgoSort = v.AlgoSort)
    (hR : ∀ k, k < V → v'.Random k = v.Random k) :
    CalculateAmounts v' m Score V Location = CalculateAmounts v m Score V Location := by
  unfold CalculateAmounts
  rw [SortedEnemies_congr v v' m Score V hS hR]

theorem UsedScore_cons (x : FSpawnQueueElement) (l : List FSpawnQueueElement) :
    UsedScore (x :: l) = (x.Amount : ℚ) * x.Character.Score + UsedScore l := by
  simp [UsedScore]

theorem UsedScore_eraseIdx (l : List FSpawnQueueElement) :
    ∀ (i : Nat) (x : FSpawnQueueElement), l[i]? = some x →
      UsedScore (l.eraseIdx i) = UsedScore l - (x.Amount : ℚ) * x.Character.Score := by
  induction l with
  | nil =>
    intro i x h
    simp at h
  | cons y l ih =>
    intro i x h
    cases i with
    | zero =>
      simp at h
      subst h
      rw [List.eraseIdx_cons_zero, UsedScore_cons]
      ring
    | succ i =>
      simp at h
      rw [List.eraseIdx_cons_succ, UsedScore_cons, UsedScore_cons, ih i x h]
      ring

theorem UsedScore_set (l : List FSpawnQueueElement) :
    ∀ (i : Nat) (x y : FSpawnQueueElement), l[i]? = some x →
      UsedScore (l.set i y) = UsedScore l - (x.Amount : ℚ) * x.Character.Score +
        (y.Amount : ℚ) * y.Character.Score := by
  induction l with
  | nil =>
    intro i x y h
    simp at h
  | cons z l ih =>
    intro i x y h
    cases i with
    | zero =>
      simp at h
      subst h
      rw [List.set_cons_zero, UsedScore_cons, UsedScore_cons]
      ring
    | succ i =>
      simp at h
      rw [List.set_cons_succ, UsedScore_cons, UsedScore_cons, ih i x y h]
      ring

/-- The loop of `CreateRares` on a non-empty array returns, keeps the sum of amount times
score over both arrays, and keeps every property of the elements that only depends on the
character and the level, and the amounts at least 1. -/
theorem CreateRaresLoop_spec (v : FSpawnView) (Q : FSpawnQueueElement → Prop)
    (hQ : ∀ el el' : FSpawnQueueElement, el'.Character = el.Character →
      el'.Level = el.Level → Q el → Q el') (n : Nat) :
    ∀ (Draw : Nat) (st : FRareLoop), st.Enemies ≠ [] →
      (∀ el ∈ st.Enemies ++ st.RareElements, Q el ∧ 1 ≤ el.Amount) →
      ∃ st', CreateRaresLoop v n Draw st = some st' ∧
        UsedScore st'.Enemies + UsedScore st'.RareElements =
          UsedScore st.Enemies + UsedScore st.RareElements ∧
        (∀ el ∈ st'.Enemies ++ st'.RareElements, Q el ∧ 1 ≤ el.Amount) := by
  induction n with
  | zero =>
    intro Draw st _ h
    exact ⟨st, rfl, rfl, h⟩
  | succ n ih =>
    intro Draw st hne hall
    obtain ⟨x, hx, hx2⟩ := ArrayAt_RandomIntegerInRange (v.Random Draw) st.Enemies hne
    have hxmem : x ∈ st.Enemies := by
      obtain ⟨h1, h2⟩ := List.getElem?_eq_some.mp hx2
      rw [← h2]
      exact List.getElem_mem h1
    obtain ⟨hQx, hAx⟩ := hall x (List.mem_append_left _ hxmem)
    unfold CreateRaresLoop
    simp only [hx]
    generalize (RandomIntegerInRange (v.Random Draw) 0 ((st.Enemies.length : Int) - 1)).toNat
      = Index at hx2 ⊢
    -- the step
    have hstep : ∀ Enemies', Enemies' = (if x.Amount = 1 then st.Enemies.eraseIdx Index
        else st.Enemies.set Index { x with Amount := x.Amount - 1 }) →
        UsedScore Enemies' + UsedScore (st.RareElements ++
          [{ x with Amount := 1, Rarity := some ERarity.Unit_Rarity_Rare,
                    RandomEffectsAmount := TruncToInt v.RareEffectsAmount }]) =
          UsedScore st.Enemies + UsedScore st.RareElements ∧
        (∀ el ∈ Enemies' ++ (st.RareElements ++
          [{ x with Amount := 1, Rarity := some ERarity.Unit_Rarity_Rare,
                    RandomEffectsAmount := TruncToInt v.RareEffectsAmount }]),
            Q el ∧ 1 ≤ el.Amount) := by
      intro Enemies' hE
      constructor
      · rw [UsedScore_append, UsedScore_singleton, hE]
        by_cases h1 : x.Amount = 1
        · rw [if_pos h1, UsedScore_eraseIdx _ Index x hx2, h1]
          simp
        · rw [if_neg h1, UsedScore_set _ Index x _ hx2]
          push_cast
          ring
      · intro el hel
        rw [List.mem_append, List.mem_append, List.mem_singleton] at hel
        rcases hel with hel | hel | hel
        · rw [hE] at hel
          by_cases h1 : x.Amount = 1
          · rw [if_pos h1] at hel
            exact hall el (List.mem_append_left _ (List.mem_of_mem_eraseIdx hel))
          · rw [if_neg h1] at hel
            rcases List.mem_or_eq_of_mem_set hel with h2 | h2
            · exact hall el (List.mem_append_left _ h2)
            · rw [h2]
              refine ⟨hQ x _ rfl rfl hQx, ?_⟩
              show 1 ≤ x.Amount - 1
              omega
        · exact hall el (List.mem_append_right _ hel)
        · rw [hel]
          exact ⟨hQ x _ rfl rfl hQx, le_refl _⟩
    obtain ⟨s1, s2⟩ := hstep _ rfl
    by_cases he : (if x.Amount = 1 then st.Enemies.eraseIdx Index
        else st.Enemies.set Index { x with Amount := x.Amount - 1 }).isEmpty = true
    · rw [if_pos he]
      exact ⟨_, rfl, s1, s2⟩
    · rw [if_neg he]
      have hne2 : (if x.Amount = 1 then st.Enemies.eraseIdx Index
          else st.Enemies.set Index { x with Amount := x.Amount - 1 }) ≠ [] := by
        intro h0
        exact he (by rw [h0]; rfl)
      obtain ⟨st', h1, h2, h3⟩ := ih (Draw + 1) ⟨_, _⟩ hne2 s2
      exact ⟨st', h1, h2.trans s1, h3⟩

theorem UsedScore_map_magic (Effect : Nat) (l : List FSpawnQueueElement) :
    UsedScore (l.map (fun It =>
      { It with
        Rarity := some ERarity.Unit_Rarity_Magic
        SpecificEffects := It.SpecificEffects ++ [Effect] })) = UsedScore l := by
  unfold UsedScore
  rw [List.map_map]
  rfl

/-- The function `CreateRares` on a non-empty array returns, keeps the sum of amount times
score, and keeps every property of the elements that only depends on the character and the
level, and the amounts at least 1. -/
theorem CreateRares_spec (v : FSpawnView) (Q : FSpawnQueueElement → Prop)
    (hQ : ∀ el el' : FSpawnQueueElement, el'.Character = el.Character →
      el'.Level = el.Level → Q el → Q el')
    (Draw : Nat) (Enemies : List FSpawnQueueElement) (hne : Enemies ≠ [])
    (hall : ∀ el ∈ Enemies, Q el ∧ 1 ≤ el.Amount) :
    ∃ Out, CreateRares v Draw Enemies = some Out ∧ UsedScore Out = UsedScore Enemies ∧
      (∀ el ∈ Out, Q el ∧ 1 ≤ el.Amount) := by
  obtain ⟨st', h1, h2, h3⟩ := CreateRaresLoop_spec v Q hQ (IterationsBelow v.RareAmount) Draw
    ⟨Enemies, []⟩ hne (by simpa using hall)
  unfold CreateRares
  rw [h1]
  simp only [UsedScore, List.map_nil, List.sum_nil, add_zero] at h2
  cases hR : v.RandomEffect with
  | none =>
    refine ⟨_, rfl, ?_, h3⟩
    rw [UsedScore_append]
    exact h2
  | some Effect =>
    refine ⟨_, rfl, ?_, ?_⟩
    · rw [UsedScore_append, UsedScore_map_magic]
      exact h2
    · intro el hel
      rw [List.mem_append, List.mem_map] at hel
      rcases hel with ⟨It, hIt, rfl⟩ | hel
      · obtain ⟨q1, q2⟩ := h3 It (List.mem_append_left _ hIt)
        exact ⟨hQ It _ rfl rfl q1, q2⟩
      · exact h3 el (List.mem_append_right _ hel)

theorem AddEnemiesToQueue_facts (Enemies : List FSpawnQueueElement) (m : FSpawnManager) :
    (AddEnemiesToQueue Enemies m).SpawnQueue = m.SpawnQueue ++ Enemies ∧
    (AddEnemiesToQueue Enemies m).EnsureFailures = m.EnsureFailures ∧
    (AddEnemiesToQueue Enemies m).Wave = m.Wave ∧
    (AddEnemiesToQueue Enemies m).EnemyPool = m.EnemyPool ∧
    (AddEnemiesToQueue Enemies m).LastRareWave = m.LastRareWave := by
  unfold AddEnemiesToQueue
  by_cases h : Enemies.isEmpty = true
  · rw [if_pos h]
    rw [List.isEmpty_iff] at h
    simp [h]
  · rw [if_neg h]
    exact ⟨rfl, rfl, rfl, rfl, rfl⟩

/-- From the amount loop to the queue: `SpawnWave` returns, and what it appends to the spawn
queue are the elements of the amount loop, or on a rare wave what `CreateRares` makes of
them. -/
theorem SpawnWave_of_CalculateAmounts (v : FSpawnView) (m : FSpawnManager) (Score Variety : ℚ)
    (Location : ℚ × ℚ × ℚ) (st : FAmountLoop)
    (h : CalculateAmounts v m Score Variety Location = some st)
    (hne : st.EnemiesToSpawn ≠ []) (hF : st.EnsureFailures = m.EnsureFailures)
    (Q : FSpawnQueueElement → Prop)
    (hQ : ∀ el el' : FSpawnQueueElement, el'.Character = el.Character →
      el'.Level = el.Level → Q el → Q el')
    (hall : ∀ el ∈ st.EnemiesToSpawn, Q el ∧ 1 ≤ el.Amount) :
    ∃ r G, SpawnWave v m Score Variety Location = some r ∧
      r.SpawnQueue = m.SpawnQueue ++ G ∧ r.EnsureFailures = m.EnsureFailures ∧
      r.Wave = m.Wave ∧ r.EnemyPool = m.EnemyPool ∧
      UsedScore G = UsedScore st.EnemiesToSpawn ∧
      (ShouldCreateRares v m = false → G = st.EnemiesToSpawn) ∧
      (∀ el ∈ G, Q el ∧ 1 ≤ el.Amount) := by
  have hS : ShouldCreateRares v { m with EnsureFailures := st.EnsureFailures } =
      ShouldCreateRares v m := rfl
  unfold SpawnWave SpawnWaveElements
  rw [h]
  simp only [hS]
  by_cases hR : ShouldCreateRares v m = true
  · rw [if_pos hR]
    obtain ⟨Out, o1, o2, o3⟩ :=
      CreateRares_spec v Q hQ st.EnemiesToSpawn.length st.EnemiesToSpawn hne hall
    rw [o1]
    obtain ⟨a1, a2, a3, a4, -⟩ := AddEnemiesToQueue_facts Out
      { m with EnsureFailures := st.EnsureFailures, LastRareWave := m.Wave }
    refine ⟨_, Out, rfl, a1, a2.trans hF, a3, a4, o2, ?_, o3⟩
    intro hf
    rw [hf] at hR
    cases hR
  · rw [if_neg hR]
    obtain ⟨a1, a2, a3, a4, -⟩ := AddEnemiesToQueue_facts st.EnemiesToSpawn
      { m with EnsureFailures := st.EnsureFailures }
    exact ⟨_, st.EnemiesToSpawn, rfl, a1, a2.trans hF, a3, a4, rfl, fun _ => rfl, hall⟩

theorem Affordable_ne_nil (m : FSpawnManager) (Score Variety : ℚ)
    (haff : ∃ E ∈ m.EnemyPool, E.Score ≤ Score / Variety) : Affordable m Score Variety ≠ [] := by
  obtain ⟨E, h1, h2⟩ := haff
  exact List.ne_nil_of_mem ((mem_Affordable m Score Variety E).mpr ⟨h1, h2⟩)

/-- C28 (code defect). `SpawnWave` with `Score` the `float` nearest to 2.1, `Variety = 3` and a
pool of three enemies whose score is the `float` nearest to 0.7. The quotient
`ScorePerEnemy = Score / Variety` of the arithmetic on `float` is that score, so the filter
keeps the three enemies. The first element gets `Amount = 1`; then the remaining score is a
`float` below 1.4, the budget of the second enemy, remaining score / remaining variety, is a
`float` below `ScorePerEnemy` and below the score, the quotient is below 1 and the element
gets `Amount = 0`: the check `ensure(Element.Amount >= 1)` fails (once), and an element with
`Amount = 0` is appended to the spawn queue. The same happens when the pool also lists an
enemy of score 0.5, which is at most `Score / Variety` in exact arithmetic as well, and the
draws pick the three other enemies. -/
theorem SpawnWave_ensure_fails_by_rounding :
    RoundToFloat (21 / 10) = 4404019 / 2097152 ∧
    TenthsPool.EnemyPool
      = [⟨1, 11744051 / 16777216⟩, ⟨2, 11744051 / 16777216⟩, ⟨3, 11744051 / 16777216⟩] ∧
    RoundToFloat (RoundToFloat (21 / 10) / 3) = 11744051 / 16777216 ∧
    (SortedEnemies PlainSpawnView TenthsPool (RoundToFloat (21 / 10)) 3).map
      (fun Enemies => Enemies.map (fun E => E.Asset)) = some [1, 3, 2] ∧
    (AddElement 3 (0, 0, 0) ⟨RoundToFloat (21 / 10), 3, [], 0⟩
      ⟨1, RoundToFloat (7 / 10)⟩).RemainingScore = 5872025 / 4194304 ∧
    RoundToFloat (5872025 / 4194304 / 2) = 5872025 / 8388608 ∧
    (5872025 / 8388608 : ℚ) < 11744051 / 16777216 ∧
    RoundToFloat ((5872025 / 8388608 : ℚ) / RoundToFloat (7 / 10)) = 16777215 / 16777216 ∧
    TruncToInt (16777215 / 16777216) = 0 ∧
    (CalculateAmounts PlainSpawnView TenthsPool (RoundToFloat (21 / 10)) 3 (0, 0, 0)).map
      (fun st => (st.EnemiesToSpawn.map (fun el => (el.Character.Asset, el.Amount)),
        st.EnsureFailures)) = some ([(1, 1), (3, 0), (2, 1)], 1) ∧
    TenthsPool.EnsureFailures = 0 ∧
    (SpawnWave PlainSpawnView TenthsPool (RoundToFloat (21 / 10)) 3 (0, 0, 0)).map
      (fun r => (r.SpawnQueue.map (fun el => (el.Character.Asset, el.Amount)),
        r.EnsureFailures)) = some ([(1, 1), (3, 0), (2, 1)], 1) ∧
    HalfAndTenthsPool.EnemyPool = ⟨4, 1 / 2⟩ :: TenthsPool.EnemyPool ∧
    (1 / 2 : ℚ) ≤ RoundToFloat (21 / 10) / 3 ∧
    (SpawnWave SecondDrawView HalfAndTenthsPool (RoundToFloat (21 / 10)) 3 (0, 0, 0)).map
      (fun r => (r.SpawnQueue.map (fun el => (el.Character.Asset, el.Amount)),
        r.EnsureFailures)) = some ([(1, 1), (3, 0), (2, 1)], 1) := by
  refine ⟨?_, ?_, ?_, ?_, ?_, ?_, ?_, ?_, ?_, ?_, ?_, ?_, ?_, ?_, ?_⟩
  all_goals decide!

/-- Counterexample to C22 as stated. When a wave creates rares, `CreateRares` takes single
units out of the elements of the amount loop and appends them as elements of their own: with
one affordable enemy and `Variety = 1` the wave queues two elements that name the same
character, 4 units and 1 rare unit, not `min(Variety, affordable) = 1` element. A pool that
lists an enemy twice yields two elements that name it, also without rares. And the amounts
are those of the arithmetic on `float`: with `Score` the `float` nearest to 2.1, `Variety = 1`
and an enemy whose score is the `float` nearest to 0.7 the element gets `Amount = 3`, while
the floor of (score / variety) / character score is 2, and 3 times the character score is
more than `Score`. -/
theorem SpawnWave_rares_repeat_a_character :
    (SpawnWave RareSpawnView FourEnemies 50 1 (0, 0, 0)).map
        (fun r => r.SpawnQueue.map (fun el => (el.Character, el.Amount, el.Level, el.Rarity))) =
      some [(⟨1, 10⟩, 4, 3, none), (⟨1, 10⟩, 1, 3, some ERarity.Unit_Rarity_Rare)] ∧
    min 1 (Affordable FourEnemies 50 1).length = 1 ∧
    (SpawnWave PlainSpawnView TwinPool 100 2 (0, 0, 0)).map
        (fun r => r.SpawnQueue.map (fun el => (el.Character, el.Amount, el.Level, el.Rarity))) =
      some [(⟨1, 10⟩, 5, 3, none), (⟨1, 10⟩, 5, 3, none)] ∧
    (SpawnWave PlainSpawnView TenthsPool (RoundToFloat (21 / 10)) 1 (0, 0, 0)).map
        (fun r => r.SpawnQueue.map (fun el => (el.Character.Asset, el.Amount))) =
      some [(1, 3)] ∧
    ⌊RoundToFloat (21 / 10) / 1 / RoundToFloat (7 / 10)⌋ = 2 ∧
    RoundToFloat (21 / 10) < 3 * RoundToFloat (7 / 10) := by
  refine ⟨?_, ?_, ?_, ?_, ?_, ?_⟩
  all_goals decide!

/-- C22 (amended). For `SpawnWave(Score, Variety, Location)` with a whole `Variety >= 1`, a
whole `Score` of at most `2 ^ 22`, positive whole enemy scores, a pool that lists every enemy
once and at least one pooled enemy with `Score <= Score / Variety`, for every outcome of the
random draws the call returns and the elements of its amount loop name pairwise distinct
pooled characters, each with `Score <= Score / Variety` and `Level = Wave`; their number is
`min(Variety, affordable)`; the element `k` gets the floor of (remaining score / remaining
variety) / character score, where the remaining score is `Score` minus what the elements
before it use; and the sum of amount times score is at most `Score`. These elements are what
the call appends to the spawn queue when the wave creates no rares; on a rare wave the
appended elements still use the same sum of amount times score and have pooled affordable
characters, `Level = Wave` and `Amount >= 1`. The elements of the amount loop only depend on
the first `Variety` draws. -/
theorem SpawnWave_elements (v : FSpawnView) (m : FSpawnManager) (N V : Nat)
    (Location : ℚ × ℚ × ℚ) (hV : 1 ≤ V) (hN : N ≤ 2 ^ 22)
    (hpos : ∀ E ∈ m.EnemyPool, 0 < E.Score)
    (hwhole : ∀ E ∈ m.EnemyPool, E.Score.den = 1)
    (hnd : m.EnemyPool.Nodup)
    (haff : ∃ E ∈ m.EnemyPool, E.Score ≤ (N : ℚ) / V)
    (hSort : ∀ l, (v.AlgoSort l).Perm l) :
    ∃ st r G, CalculateAmounts v m N V Location = some st ∧
      SpawnWave v m N V Location = some r ∧
      (st.EnemiesToSpawn.map (fun el => el.Character)).Nodup ∧
      (∀ el ∈ st.EnemiesToSpawn, el.Character ∈ m.EnemyPool ∧
        el.Character.Score ≤ (N : ℚ) / V ∧ el.Level = m.Wave ∧ 1 ≤ el.Amount) ∧
      st.EnemiesToSpawn.length = min V (Affordable m N V).length ∧
      (∀ (k : Nat) (el : FSpawnQueueElement), st.EnemiesToSpawn[k]? = some el →
        el.Amount = ⌊((N : ℚ) - UsedScore (st.EnemiesToSpawn.take k)) / (V - k) /
          el.Character.Score⌋) ∧
      UsedScore st.EnemiesToSpawn ≤ N ∧
      st.EnsureFailures = m.EnsureFailures ∧
      r.SpawnQueue = m.SpawnQueue ++ G ∧
      (ShouldCreateRares v m = false → G = st.EnemiesToSpawn) ∧
      UsedScore G = UsedScore st.EnemiesToSpawn ∧
      (∀ el ∈ G, el.Character ∈ m.EnemyPool ∧ el.Character.Score ≤ (N : ℚ) / V ∧
        el.Level = m.Wave ∧ 1 ≤ el.Amount) ∧
      (∀ v' : FSpawnView, v'.AlgoSort = v.AlgoSort →
        (∀ k, k < V → v'.Random k = v.Random k) →
          CalculateAmounts v' m N V Location = some st) := by
  obtain ⟨Enemies, Rest, -, c2, c3, c4, c5, c6, c7, c8⟩ :=
    CalculateAmounts_spec v m N V Location hV hN hpos hwhole hSort
      (Affordable_ne_nil m N V haff)
  obtain ⟨i1, i2, i3, i4, i5, i6, i7⟩ :=
    AmountLoop_spec m.Wave Location N V ((N : ℚ) / V) m.EnsureFailures c6 Enemies c7 c8
  have hne : (Enemies.foldl (AddElementExact m.Wave Location)
      ⟨N, V, [], m.EnsureFailures⟩).EnemiesToSpawn ≠ [] := by
    intro h0
    rw [h0] at i4
    exact c5 i4.symm
  have hchar : ∀ el ∈ (Enemies.foldl (AddElementExact m.Wave Location)
      ⟨N, V, [], m.EnsureFailures⟩).EnemiesToSpawn,
      el.Character ∈ m.EnemyPool ∧ el.Character.Score ≤ (N : ℚ) / V := by
    intro el hel
    have h1 : el.Character ∈ Enemies := by
      rw [← i4]
      exact List.mem_map_of_mem _ hel
    exact (mem_Affordable m N V el.Character).mp
      (c3.subset (List.mem_append_left _ h1))
  obtain ⟨r, G, s1, s2, -, -, -, s6, s7, s8⟩ :=
    SpawnWave_of_CalculateAmounts v m N V Location _ c2 hne i3
      (fun el => el.Character ∈ m.EnemyPool ∧ el.Character.Score ≤ (N : ℚ) / V ∧
        el.Level = m.Wave)
      (fun el el' h1 h2 h => by beta_reduce; rw [h1, h2]; exact h)
      (fun el hel => ⟨⟨(hchar el hel).1, (hchar el hel).2, (i5 el hel).1⟩, (i5 el hel).2⟩)
  obtain ⟨E0, hE0, hE0s⟩ := haff
  have hB : 0 < (N : ℚ) / V := lt_of_lt_of_le (hpos E0 hE0) hE0s
  refine ⟨_, r, G, c2, s1, ?_, fun el hel => ⟨(hchar el hel).1, (hchar el hel).2,
    (i5 el hel).1, (i5 el hel).2⟩, ?_, i7, ?_, i3, s2, s7, s6, ?_, ?_⟩
  · rw [i4]
    have h1 : (Affordable m N V).Nodup := by
      unfold Affordable
      exact hnd.filter _
    exact (c3.nodup_iff.mpr h1).of_append_left
  · rw [← c4]
    exact (List.length_map _ _).symm.trans (congrArg List.length i4)
  · have h1 : 0 ≤ (Enemies.foldl (AddElementExact m.Wave Location)
        ⟨N, V, [], m.EnsureFailures⟩).Variety := by
      rw [i1]
      linarith
    have h2 := mul_nonneg (le_of_lt hB) h1
    linarith
  · intro el hel
    obtain ⟨⟨q1, q2, q3⟩, q4⟩ := s8 el hel
    exact ⟨q1, q2, q3, q4⟩
  · intro v' hS hR
    rw [CalculateAmounts_congr v v' m N V Location hS hR]
    exact c2

/-- Witness of C22 (amended): the pool of the scores 10, 25, 30 and 7 with `Score = 100` and
`Variety = 4`: one unit of the score 25, two of the score 10 and three of the score 7, which
use 66 of the score. -/
theorem SpawnWave_elements_witness :
    CalculateAmounts PlainSpawnView FourEnemies ((100 : Nat) : ℚ) ((4 : Nat) : ℚ) (1, 2, 3) =
      some ⟨34, 1,
        [⟨⟨2, 25⟩, (1, 2, 3), 3, 1, none, 0, []⟩, ⟨⟨1, 10⟩, (1, 2, 3), 3, 2, none, 0, []⟩,
          ⟨⟨4, 7⟩, (1, 2, 3), 3, 3, none, 0, []⟩], 0⟩ ∧
    ∃ st r G, CalculateAmounts PlainSpawnView FourEnemies ((100 : Nat) : ℚ) ((4 : Nat) : ℚ)
        (1, 2, 3) = some st ∧
      SpawnWave PlainSpawnView FourEnemies ((100 : Nat) : ℚ) ((4 : Nat) : ℚ) (1, 2, 3)
        = some r ∧
      (st.EnemiesToSpawn.map (fun el => el.Character)).Nodup ∧
      (∀ el ∈ st.EnemiesToSpawn, el.Character ∈ FourEnemies.EnemyPool ∧
        el.Character.Score ≤ ((100 : Nat) : ℚ) / ((4 : Nat) : ℚ) ∧
        el.Level = FourEnemies.Wave ∧ 1 ≤ el.Amount) ∧
      st.EnemiesToSpawn.length
        = min 4 (Affordable FourEnemies ((100 : Nat) : ℚ) ((4 : Nat) : ℚ)).length ∧
      (∀ (k : Nat) (el : FSpawnQueueElement), st.EnemiesToSpawn[k]? = some el →
        el.Amount = ⌊(((100 : Nat) : ℚ) - UsedScore (st.EnemiesToSpawn.take k))
          / (((4 : Nat) : ℚ) - k) / el.Character.Score⌋) ∧
      UsedScore st.EnemiesToSpawn ≤ ((100 : Nat) : ℚ) ∧
      st.EnsureFailures = FourEnemies.EnsureFailures ∧
      r.SpawnQueue = FourEnemies.SpawnQueue ++ G ∧
      (ShouldCreateRares PlainSpawnView FourEnemies = false → G = st.EnemiesToSpawn) ∧
      UsedScore G = UsedScore st.EnemiesToSpawn ∧
      (∀ el ∈ G, el.Character ∈ FourEnemies.EnemyPool ∧
        el.Character.Score ≤ ((100 : Nat) : ℚ) / ((4 : Nat) : ℚ) ∧
        el.Level = FourEnemies.Wave ∧ 1 ≤ el.Amount) ∧
      (∀ v' : FSpawnView, v'.AlgoSort = PlainSpawnView.AlgoSort →
        (∀ k, k < 4 → v'.Random k = PlainSpawnView.Random k) →
          CalculateAmounts v' FourEnemies ((100 : Nat) : ℚ) ((4 : Nat) : ℚ) (1, 2, 3)
            = some st) :=
  ⟨by decide!,
    SpawnWave_elements PlainSpawnView FourEnemies 100 4 (1, 2, 3) (by decide) (by norm_num)
      (by decide!) (by decide!) (by decide!) (by decide!)
      (fun l => List.perm_insertionSort _ l)⟩

end USpawnManager
